import Mathlib

/-!
# MagicBricks call-QA analyzer: transcript analysis core

Shallow embedding of `src/server/services/analyzer.js` (class `CallQAAnalyzer`).

Conventions of the embedding
* JavaScript numbers are rationals.  The confidences of the intent classifier and the
  relevance scores of the hallucination detector are computed as the code computes them, in
  binary floating point: there every decimal literal and every operation is rounded to the
  nearest double (`toDouble`, `jsAdd`, `jsMul`, ...), because the code compares these sums of
  decimal fractions with each other and with thresholds that they reach (0.4 + 0.2 is
  0.6000000000000001 and exceeds 0.6).  Elsewhere a decimal stands for the double nearest to
  it and the operations are exact.  The results of the few divisions whose divisor can be
  zero are values of `JsNum`, which adds `NaN` and the two infinities; signed zeros are not
  modelled.
* JavaScript strings are lists of characters (`List Char`); their `length` is counted in
  UTF-16 code units by `utf16Length`.  Labels that the code only compares with literals
  (`'agent'`, `'too_long'`, ...) are Lean strings.
* Methods that are declared twice in the class are embedded from their last declaration,
  the one JavaScript keeps.
* What the analyzer keeps between calls is explicit state: the parse cache (`ParseCache`)
  and the `lastIndex` fields of the stored patterns with the `g` flag (`PatternState`).
* What a method gets from `Math.random()`, from `Math.log` and `Math.pow`, or from a method
  that is not embedded, is an argument of its embedding: the draws as `random`,
  `latencyRandom`, `turnGapRandom`, `qualityRandom` and `flowRandom`, the two functions as
  `JsMath`, the per-turn scores and analyses of the hallucination detectors as
  `RelevanceComponents` and `TurnAnalyses`.
-/

namespace CallQA

/-! ## JavaScript numbers -/

/-- A JavaScript number that may be non-finite: a rational, `Infinity`, `-Infinity` or `NaN`. -/
inductive JsNum where
  | fin (q : ℚ)
  | posInf
  | negInf
  | nan
  deriving DecidableEq

namespace JsNum

/-- The quotient `a / b` of two finite numbers: `0/0` is `NaN`, `x/0` an infinity of the sign of `x`. -/
def div (a b : ℚ) : JsNum :=
  if b = 0 then (if a = 0 then nan else if 0 < a then posInf else negInf) else fin (a / b)

/-- The product `x * c` with a finite factor `c`. -/
def scale (x : JsNum) (c : ℚ) : JsNum :=
  match x with
  | fin q => fin (q * c)
  | posInf => if 0 < c then posInf else if c < 0 then negInf else nan
  | negInf => if 0 < c then negInf else if c < 0 then posInf else nan
  | nan => nan

/-- The quotient `x / c` by a finite non-zero constant `c`. -/
def divConst (x : JsNum) (c : ℚ) : JsNum :=
  match x with
  | fin q => fin (q / c)
  | posInf => if 0 < c then posInf else negInf
  | negInf => if 0 < c then negInf else posInf
  | nan => nan

/-- The sum `x + y`. -/
def add (x y : JsNum) : JsNum :=
  match x, y with
  | nan, _ => nan
  | _, nan => nan
  | fin a, fin b => fin (a + b)
  | fin _, posInf => posInf
  | fin _, negInf => negInf
  | posInf, fin _ => posInf
  | negInf, fin _ => negInf
  | posInf, posInf => posInf
  | negInf, negInf => negInf
  | posInf, negInf => nan
  | negInf, posInf => nan

/-- The value of `Math.min(a, x)` for a finite `a`: `NaN` when `x` is `NaN`. -/
def minWith (a : ℚ) (x : JsNum) : JsNum :=
  match x with
  | fin q => fin (min a q)
  | posInf => fin a
  | negInf => negInf
  | nan => nan

/-- The value of `Math.max(a, x)` for a finite `a`: `NaN` when `x` is `NaN`. -/
def maxWith (a : ℚ) (x : JsNum) : JsNum :=
  match x with
  | fin q => fin (max a q)
  | posInf => posInf
  | negInf => fin a
  | nan => nan

/-- A finite number within the closed range from `lo` to `hi`. -/
def Within (x : JsNum) (lo hi : ℚ) : Prop :=
  match x with
  | fin q => lo ≤ q ∧ q ≤ hi
  | _ => False

end JsNum

/-! ## Binary floating point -/

/-- The integer nearest to `x`, the even one of the two when `x` lies halfway between two
integers. -/
def roundHalfEven (x : ℚ) : ℤ :=
  let f := ⌊x⌋
  if x - f < 1 / 2 then f
  else if 1 / 2 < x - f then f + 1
  else if f % 2 = 0 then f else f + 1

/-- The exponent of the spacing of the doubles around `x`: 52 below the binary exponent of
`x`, which counts as -1022 when it is smaller (the subnormal numbers are equally spaced). -/
def ulpExponent (x : ℚ) : ℤ := max (Int.log 2 |x|) (-1022) - 52

/-- The double nearest to `x`, the one with the even significand when two are equally near
(IEEE 754 binary64, round to nearest, ties to even), for `x` of magnitude below `2 ^ 1024`:
the value of the decimal literal `x` of the source, and of an operation whose exact result
is `x`. -/
def toDouble (x : ℚ) : ℚ := roundHalfEven (x / 2 ^ ulpExponent x) * 2 ^ ulpExponent x

/-- The sum `a + b` of two doubles. -/
def jsAdd (a b : ℚ) : ℚ := toDouble (a + b)

/-- The difference `a - b` of two doubles. -/
def jsSub (a b : ℚ) : ℚ := toDouble (a - b)

/-- The product `a * b` of two doubles. -/
def jsMul (a b : ℚ) : ℚ := toDouble (a * b)

/-- The quotient `a / b` of two doubles, `b` not zero. -/
def jsDiv (a b : ℚ) : ℚ := toDouble (a / b)

/-- The value of `x || d` for numbers: `d` replaces the falsy number `0`. -/
def orNum (x d : ℚ) : ℚ := if x = 0 then d else x

/-- The value of `x || d` for a number that may be `undefined`. -/
def orUndef (x : Option ℚ) (d : Option ℚ) : Option ℚ :=
  match x with
  | some v => if v = 0 then d else some v
  | none => d

/-! ## Data model -/

/-- A silence violation as returned by `detectSilenceSegments`. -/
structure SilenceSegment where
  startTime : ℚ
  endTime : ℚ
  duration : ℚ
  severity : ℚ
  impactScore : ℚ
  priority : String

/-- A repetition record; `repetitionType` is absent from the records the detector builds. -/
structure Repetition where
  type : String
  text1 : List Char
  text2 : List Char
  similarityScore : ℚ
  severity : ℚ
  isProblematicRepetition : Bool
  repetitionType : Option String
  deriving DecidableEq

/-- The result of `analyzeCallDuration`. -/
structure CallDurationAnalysis where
  totalDurationMinutes : ℚ
  idealRangeMin : ℚ
  idealRangeMax : ℚ
  withinIdealRange : Bool
  deviationFromIdeal : ℚ
  status : String

/-- A violation record of the critical-step analysis, as far as the aggregator reads it. -/
structure CriticalStepViolation where
  severity : ℚ

/-- The part of the critical-step analysis the aggregator reads. -/
structure CriticalStepAnalysis where
  criticalStepViolations : List CriticalStepViolation

/-- The part of the merged hallucination analysis the aggregator reads. -/
structure HallucinationAnalysis where
  enhancedScore : Option ℚ
  hallucinationScore : Option ℚ
  criticalStepAnalysis : Option CriticalStepAnalysis

/-- The part of the interruption analysis the aggregator reads. -/
structure InterruptionAnalysis where
  interruptionScore : ℚ

/-- The part of `intentFlow` the aggregator reads; an absent field is `none`. -/
structure IntentFlow where
  intentMappingsLength : Option ℕ
  completedSteps : ℚ
  totalRequiredSteps : ℚ
  flowScore : Option ℚ
  objectiveAchieved : Bool
  completionRate : Option ℚ

/-- The five weighted component scores. -/
structure ComponentScores where
  silenceCompliance : ℚ
  repetitionAvoidance : ℚ
  callDurationOptimization : JsNum
  responseLatencyOptimization : ℚ
  intentFlowAccuracy : ℚ

/-! ## Weighted score aggregation -/

/-- The type multiplier of `getRepetitionTypeMultiplier`: 1.0 for an unknown or absent type. -/
def getRepetitionTypeMultiplier (repetitionType : Option String) : ℚ :=
  match repetitionType with
  | some "exact_repetition" => 2
  | some "semantic_repetition" => 18 / 10
  | some "structural_repetition" => 14 / 10
  | some "conceptual_repetition" => 12 / 10
  | some "partial_repetition" => 1
  | _ => 1

/-- The efficiency of `calculateConversationEfficiency`. -/
def calculateConversationEfficiency (intentFlow : IntentFlow) (totalDurationMinutes : ℚ) : JsNum :=
  match intentFlow.intentMappingsLength with
  | none => JsNum.fin (1 / 2)
  | some totalTurns =>
    let completedSteps := orNum intentFlow.completedSteps 0
    let totalRequiredSteps := orNum intentFlow.totalRequiredSteps 10
    let stepsPerMinute := JsNum.div completedSteps totalDurationMinutes
    let turnsPerMinute := JsNum.div totalTurns totalDurationMinutes
    let stepEfficiency := JsNum.minWith 1 (stepsPerMinute.divConst (5 / 2))
    let turnEfficiency := JsNum.minWith 1 (turnsPerMinute.divConst 8)
    let completionEfficiency := completedSteps / totalRequiredSteps
    ((stepEfficiency.scale (4 / 10)).add (turnEfficiency.scale (3 / 10))).add
      (JsNum.fin (completionEfficiency * (3 / 10)))

/-- The silence component: lines 2710-2729. -/
def silenceScore (silenceSegments : List SilenceSegment) : ℚ :=
  if silenceSegments.length > 0 then
    let problematicSilences :=
      silenceSegments.filter (fun s => s.priority = "high" || s.priority = "medium")
    let problematicCount := problematicSilences.length
    if problematicCount > 0 then
      let totalSeverity := problematicSilences.foldl (fun sum segment => sum + orNum segment.severity 1) 0
      let avgSeverity := totalSeverity / problematicCount
      let severityMultiplier := min (3 / 2) (1 + avgSeverity * (1 / 2))
      max 60 (100 - (problematicCount / 3) * 40 * severityMultiplier)
    else 100
  else 100

/-- The repetition component: lines 2731-2752. -/
def repetitionScore (repetitions : List Repetition) : ℚ :=
  if repetitions.length > 0 then
    let problematicRepetitions :=
      repetitions.filter (fun rep => rep.isProblematicRepetition && decide (rep.severity > 5))
    let problematicCount := problematicRepetitions.length
    if problematicCount > 0 then
      let severityWeightedCount := problematicRepetitions.foldl (fun sum rep =>
        let severityMultiplier := if rep.severity = 0 then 1 else rep.severity / 10
        let typeMultiplier := getRepetitionTypeMultiplier rep.repetitionType
        sum + severityMultiplier * typeMultiplier) 0
      max 70 (100 - (severityWeightedCount / 2) * 30)
    else 100
  else 100

/-- The call-duration component: lines 2754-2775. -/
def durationScore (callDurationAnalysis : CallDurationAnalysis) (intentFlow : IntentFlow) : JsNum :=
  let raw : JsNum :=
    if callDurationAnalysis.withinIdealRange then JsNum.fin 100
    else
      let deviation := callDurationAnalysis.deviationFromIdeal
      let totalDuration := callDurationAnalysis.totalDurationMinutes
      let conversationEfficiency := calculateConversationEfficiency intentFlow totalDuration
      let efficiencyBonus := JsNum.minWith 10 (conversationEfficiency.scale 10)
      if callDurationAnalysis.status = "too_short" then
        let objectiveBonus : ℚ := if intentFlow.objectiveAchieved then 20 else 0
        JsNum.fin (max 0 (100 - deviation * 15 + objectiveBonus))
      else if callDurationAnalysis.status = "too_long" then
        JsNum.maxWith 15 ((JsNum.fin (100 - deviation * 11)).add efficiencyBonus)
      else JsNum.fin 100
  JsNum.minWith 100 raw

/-- The latency component with the interruption penalty: lines 2777-2786. -/
def latencyComponent (latencyScore : ℚ) (interruptionAnalysis : Option InterruptionAnalysis) : ℚ :=
  let latencyScore := orNum latencyScore 0
  match interruptionAnalysis with
  | some ia =>
    if ia.interruptionScore = 0 then latencyScore
    else
      let interruptionPenalty := max 0 ((100 - ia.interruptionScore) * (3 / 10))
      max 0 (latencyScore - interruptionPenalty)
  | none => latencyScore

/-- The bonus for the completion rate of the critical steps: lines 2800-2810. -/
def completionBonus (intentScore : ℚ) (completionRate : Option ℚ) : ℚ :=
  match completionRate with
  | some rate =>
    if rate = 0 then intentScore
    else if rate ≥ 1 then min 100 (intentScore + 15)
    else if rate ≥ 3 / 4 then min 100 (intentScore + 10)
    else if rate ≥ 1 / 2 then min 100 (intentScore + 5)
    else intentScore
  | none => intentScore

/-- The two hallucination penalties: lines 2812-2833. -/
def hallucinationPenalties (intentScore : ℚ) (hallucinationAnalysis : Option HallucinationAnalysis) : ℚ :=
  match hallucinationAnalysis with
  | none => intentScore
  | some ha =>
    let afterScore : ℚ :=
      match orUndef ha.enhancedScore ha.hallucinationScore with
      | some hallucinationScore =>
        if hallucinationScore < 60 then
          let hallucinationPenalty := max 0 ((60 - hallucinationScore) * (2 / 10))
          max 50 (intentScore - hallucinationPenalty)
        else intentScore
      | none => intentScore
    match ha.criticalStepAnalysis with
    | none => afterScore
    | some csa =>
      let severeCriticalViolations := csa.criticalStepViolations.filter (fun v => decide (v.severity ≥ 8))
      if severeCriticalViolations.length > 0 then
        let criticalPenalty : ℚ := severeCriticalViolations.length * 5
        max 40 (afterScore - criticalPenalty)
      else afterScore

/-- The intent-flow component: lines 2788-2841. -/
def intentScore (intentFlow : IntentFlow) (hallucinationAnalysis : Option HallucinationAnalysis) : ℚ :=
  match intentFlow.flowScore with
  | none => 50
  | some flowScore =>
    let s1 := if intentFlow.objectiveAchieved then min 100 (max flowScore 75 + 20) else flowScore
    let s2 := completionBonus s1 intentFlow.completionRate
    let s3 := hallucinationPenalties s2 hallucinationAnalysis
    if intentFlow.objectiveAchieved && decide (s3 < 80) then 80 else s3

/-- The component scores and the `overallScore` of `calculateAdvancedWeightedScore`; the
audio-quality argument only feeds the unweighted `additionalScores` and is left out. -/
def calculateAdvancedWeightedScore (silenceSegments : List SilenceSegment)
    (repetitions : List Repetition) (callDurationAnalysis : CallDurationAnalysis)
    (latencyScore : ℚ) (hallucinationAnalysis : Option HallucinationAnalysis)
    (interruptionAnalysis : Option InterruptionAnalysis) (intentFlow : IntentFlow) :
    JsNum × ComponentScores :=
  let scores : ComponentScores :=
    { silenceCompliance := silenceScore silenceSegments
      repetitionAvoidance := repetitionScore repetitions
      callDurationOptimization := durationScore callDurationAnalysis intentFlow
      responseLatencyOptimization := latencyComponent latencyScore interruptionAnalysis
      intentFlowAccuracy := intentScore intentFlow hallucinationAnalysis }
  let overallScore :=
    ((((JsNum.fin (0 + scores.silenceCompliance * (25 / 100) +
        scores.repetitionAvoidance * (25 / 100))).add
      (scores.callDurationOptimization.scale (10 / 100))).add
      (JsNum.fin (scores.responseLatencyOptimization * (15 / 100)))).add
      (JsNum.fin (scores.intentFlowAccuracy * (25 / 100))))
  (overallScore, scores)

/-! ## JavaScript strings -/

/-- The `length` of a JavaScript string: its number of UTF-16 code units. -/
def utf16Length : List Char → ℕ
  | [] => 0
  | c :: s => (if c.toNat < 65536 then 1 else 2) + utf16Length s

/-- White space and line terminators: what `trim()` strips and `\s` matches. -/
def isWhiteSpace (c : Char) : Bool :=
  c.toNat = 9 || c.toNat = 10 || c.toNat = 11 || c.toNat = 12 || c.toNat = 13 ||
  c.toNat = 32 || c.toNat = 160 || c.toNat = 5760 ||
  (8192 ≤ c.toNat && c.toNat ≤ 8202) || c.toNat = 8232 || c.toNat = 8233 ||
  c.toNat = 8239 || c.toNat = 8287 || c.toNat = 12288 || c.toNat = 65279

/-- The word characters of `\w` (no `u` flag): ASCII letters, digits and the underscore. -/
def isWordChar (c : Char) : Bool :=
  (65 ≤ c.toNat && c.toNat ≤ 90) || (97 ≤ c.toNat && c.toNat ≤ 122) ||
  (48 ≤ c.toNat && c.toNat ≤ 57) || c.toNat = 95

/-- The line terminators, which `.` does not match. -/
def isLineTerminator (c : Char) : Bool :=
  c.toNat = 10 || c.toNat = 13 || c.toNat = 8232 || c.toNat = 8233

/-- The method `String.prototype.trim`. -/
def trim (s : List Char) : List Char :=
  List.rdropWhile isWhiteSpace (List.dropWhile isWhiteSpace s)

/-- The lower-case form of one character, as far as the embedded callers can observe it:
ASCII capitals, U+212A (Kelvin sign, to `k`) and U+0130 (to `i` followed by U+0307).  Every
other cased letter lies outside ASCII and outside the caseless Devanagari block before and
after the mapping; the callers compare with literals of ASCII and Devanagari characters or
blank out all non-ASCII characters, so it is left unchanged. -/
def lowerChar (c : Char) : List Char :=
  if 65 ≤ c.toNat ∧ c.toNat ≤ 90 then [Char.ofNat (c.toNat + 32)]
  else if c.toNat = 8490 then ['k']
  else if c.toNat = 304 then ['i', Char.ofNat 775]
  else [c]

/-- The method `String.prototype.toLowerCase` (see `lowerChar`). -/
def toLowerCase : List Char → List Char
  | [] => []
  | c :: s => lowerChar c ++ toLowerCase s

/-- The test `s.startsWith(w)`. -/
def startsWith (w : List Char) (s : List Char) : Bool :=
  match w, s with
  | [], _ => true
  | _ :: _, [] => false
  | a :: w', b :: s' => a = b && startsWith w' s'

/-- The test `s.includes(w)`. -/
def includes (w : List Char) : List Char → Bool
  | [] => startsWith w []
  | c :: s => startsWith w (c :: s) || includes w s

/-- The pieces of `s.split(sep)` for a one-character separator. -/
def splitOnChar (sep : Char) : List Char → List (List Char)
  | [] => [[]]
  | c :: s =>
    if c = sep then [] :: splitOnChar sep s
    else
      match splitOnChar sep s with
      | [] => [[c]]
      | piece :: pieces => (c :: piece) :: pieces

/-- The part of `line` before its first colon (`line.substring(0, line.indexOf(':'))`),
the whole line when it has no colon. -/
def beforeColon : List Char → List Char
  | [] => []
  | c :: s => if c = ':' then [] else c :: beforeColon s

/-- The part of `line` after its first colon (`line.substring(line.indexOf(':') + 1)`),
`none` when `indexOf` returns -1. -/
def afterColon : List Char → Option (List Char)
  | [] => none
  | c :: s => if c = ':' then some s else afterColon s

/-- The number of maximal runs of white space in `s`; `inRun` tells that the character
before `s` is white space. -/
def whiteSpaceRuns (inRun : Bool) : List Char → ℕ
  | [] => 0
  | c :: s =>
    if isWhiteSpace c then (if inRun then 0 else 1) + whiteSpaceRuns true s
    else whiteSpaceRuns false s

/-- The value of `text.split(/\s+/).length`: one piece more than there are runs of white space. -/
def splitWhiteSpaceCount (text : List Char) : ℕ := whiteSpaceRuns false text + 1

/-- The value of `(text.match(/[.!?]/g) || []).length`. -/
def countSentenceMarks (text : List Char) : ℕ :=
  (text.filter (fun c => c = '.' || c = '!' || c = '?')).length

/-! ## Regular expressions

The fragment of JavaScript regular expressions (without the `u` flag) that the embedded
patterns use.  `Rx.run` decides `RegExp.prototype.test` for a pattern without the `g` flag or
with `lastIndex = 0`: only the existence of a match matters, so greedy and lazy quantifiers
coincide there.  `Rx.exec` follows the order of the backtracking matcher and yields the end
of the match it finds, which a pattern with the `g` flag stores in `lastIndex`. -/

/-- Regular expressions. -/
inductive Rx where
  | eps
  | chr (c : Char)
  | cls (p : Char → Bool)
  | seq (a b : Rx)
  | alt (a b : Rx)
  | star (r : Rx)
  | lazyStar (r : Rx)
  | wordBoundary
  | bol
  | eol

/-- Canonical form of a character under the `i` flag.  Without the `u` flag a non-ASCII
character never canonicalises to an ASCII one, and the non-ASCII characters of the
embedded patterns are caseless Devanagari, so only ASCII letters need folding. -/
def canon (c : Char) : Char :=
  if 97 ≤ c.toNat ∧ c.toNat ≤ 122 then Char.ofNat (c.toNat - 32) else c

/-- Whether the character at a position (none beyond the ends) is a word character. -/
def isWordAt (c : Option Char) : Bool :=
  match c with
  | some d => isWordChar d
  | none => false

/-- Iteration of a quantified sub-pattern: each round must consume input. -/
def starLoop (step : Option Char → List Char → (Option Char → List Char → Bool) → Bool) :
    ℕ → Option Char → List Char → (Option Char → List Char → Bool) → Bool
  | 0, prev, s, k => k prev s
  | n + 1, prev, s, k =>
    k prev s || step prev s (fun prev' s' =>
      decide (s'.length < s.length) && starLoop step n prev' s' k)

/-- Backtracking matcher: `r.run ic prev s k` holds when `r` matches a start of `s` (with
`prev` the character before it, none at the start of the input) and the continuation `k`
accepts the last character consumed and the rest; `ic` is the `i` flag. -/
def Rx.run (ic : Bool) : Rx → Option Char → List Char → (Option Char → List Char → Bool) → Bool
  | .eps, prev, s, k => k prev s
  | .chr c, _, s, k =>
    match s with
    | [] => false
    | d :: t => (if ic then canon d = canon c else d = c) && k (some d) t
  | .cls p, _, s, k =>
    match s with
    | [] => false
    | d :: t => p d && k (some d) t
  | .seq a b, prev, s, k => a.run ic prev s (fun prev' s' => b.run ic prev' s' k)
  | .alt a b, prev, s, k => a.run ic prev s k || b.run ic prev s k
  | .star r, prev, s, k =>
    starLoop (fun prev' s' k' => r.run ic prev' s' k') (s.length + 1) prev s k
  | .lazyStar r, prev, s, k =>
    starLoop (fun prev' s' k' => r.run ic prev' s' k') (s.length + 1) prev s k
  | .wordBoundary, prev, s, k => (isWordAt prev != isWordAt s.head?) && k prev s
  | .bol, prev, s, k => prev.isNone && k prev s
  | .eol, prev, s, k => s.isEmpty && k prev s

/-- Search for a match starting at the current position or later. -/
def Rx.searchFrom (ic : Bool) (r : Rx) : Option Char → List Char → Bool
  | prev, [] => r.run ic prev [] (fun _ _ => true)
  | prev, c :: s => r.run ic prev (c :: s) (fun _ _ => true) || Rx.searchFrom ic r (some c) s

/-- The result of `pattern.test(s)` for a pattern whose `lastIndex` is 0. -/
def Rx.test (ic : Bool) (r : Rx) (s : List Char) : Bool := Rx.searchFrom ic r none s

/-- A literal word. -/
def Rx.lit : List Char → Rx
  | [] => .eps
  | [c] => .chr c
  | c :: w => .seq (.chr c) (Rx.lit w)

/-- An alternation `(r1|r2|...)`. -/
def Rx.alts : List Rx → Rx
  | [] => .cls (fun _ => false)
  | [r] => r
  | r :: rs => .alt r (Rx.alts rs)

/-- A concatenation. -/
def Rx.seqs : List Rx → Rx
  | [] => .eps
  | [r] => r
  | r :: rs => .seq r (Rx.seqs rs)

/-- The sub-pattern `\s+`. -/
def Rx.spaces : Rx := .seq (.cls isWhiteSpace) (.star (.cls isWhiteSpace))

/-- The sub-pattern `.*?`: as few characters as possible, none of them a line terminator. -/
def Rx.anyLazy : Rx := .lazyStar (.cls (fun c => !isLineTerminator c))

/-- Iteration of a quantified sub-pattern in the order of the backtracking matcher: a greedy
quantifier first tries one more round, a lazy one first tries what follows it; a round that
consumes no input is rejected.  The result is the value of the first successful path. -/
def starLoopExec (greedy : Bool)
    (step : Option Char → List Char → (Option Char → List Char → Option ℕ) → Option ℕ) :
    ℕ → Option Char → List Char → (Option Char → List Char → Option ℕ) → Option ℕ
  | 0, prev, s, k => k prev s
  | n + 1, prev, s, k =>
    let again := step prev s (fun prev' s' =>
      if s'.length < s.length then starLoopExec greedy step n prev' s' k else none)
    if greedy then
      (match again with
       | some e => some e
       | none => k prev s)
    else
      (match k prev s with
       | some e => some e
       | none => again)

/-- Backtracking matcher with the priorities of the JavaScript matcher: `r.exec ic prev s k`
is the value of the continuation `k` on the first path, in the order in which alternatives
and quantifiers are tried, on which `r` matches a start of `s` and `k` succeeds. -/
def Rx.exec (ic : Bool) :
    Rx → Option Char → List Char → (Option Char → List Char → Option ℕ) → Option ℕ
  | .eps, prev, s, k => k prev s
  | .chr c, _, s, k =>
    match s with
    | [] => none
    | d :: t => if (if ic then canon d = canon c else d = c) then k (some d) t else none
  | .cls p, _, s, k =>
    match s with
    | [] => none
    | d :: t => if p d then k (some d) t else none
  | .seq a b, prev, s, k => a.exec ic prev s (fun prev' s' => b.exec ic prev' s' k)
  | .alt a b, prev, s, k =>
    match a.exec ic prev s k with
    | some e => some e
    | none => b.exec ic prev s k
  | .star r, prev, s, k =>
    starLoopExec true (fun prev' s' k' => r.exec ic prev' s' k') (s.length + 1) prev s k
  | .lazyStar r, prev, s, k =>
    starLoopExec false (fun prev' s' k' => r.exec ic prev' s' k') (s.length + 1) prev s k
  | .wordBoundary, prev, s, k => if isWordAt prev != isWordAt s.head? then k prev s else none
  | .bol, prev, s, k => if prev.isNone then k prev s else none
  | .eol, prev, s, k => if s.isEmpty then k prev s else none

/-- The first match that starts at the current position or later: the number of code units
that follow the end of the match, none when there is no match. -/
def Rx.execFrom (ic : Bool) (r : Rx) : Option Char → List Char → Option ℕ
  | prev, [] => r.exec ic prev [] (fun _ rest => some rest.length)
  | prev, c :: s =>
    match r.exec ic prev (c :: s) (fun _ rest => some rest.length) with
    | some e => some e
    | none => Rx.execFrom ic r (some c) s

/-- The UTF-16 code units of a string, as far as the patterns of the intent catalog can tell
them apart.  A character outside the Basic Multilingual Plane is two surrogate code units;
no pattern of the catalog names a surrogate, and a surrogate is neither a word character
nor white space nor a line terminator.  U+FFFD has the same properties and stands for each
of the two. -/
def codeUnits : List Char → List Char
  | [] => []
  | c :: s =>
    if c.toNat < 65536 then c :: codeUnits s
    else Char.ofNat 65533 :: Char.ofNat 65533 :: codeUnits s

/-- The call `pattern.test(s)` for a pattern with the `g` flag whose `lastIndex` field holds
`lastIndex`: the result, and the value of `lastIndex` afterwards.  The search starts at
`lastIndex`; a match sets `lastIndex` to its end, a failure resets it to 0. -/
def Rx.testGlobal (ic : Bool) (r : Rx) (lastIndex : ℕ) (s : List Char) : Bool × ℕ :=
  let units := codeUnits s
  if lastIndex > units.length then (false, 0)
  else
    match Rx.execFrom ic r (units.take lastIndex).getLast? (units.drop lastIndex) with
    | some left => (true, units.length - left)
    | none => (false, 0)

/-! ## Turn parser -/

/-- A parsed turn; `speaker` is `'agent'` or `'customer'`. -/
structure Turn where
  speaker : String
  text : List Char
  deriving DecidableEq

/-- The pattern `/^(Chat Bot|Bot|Agent|Support|Assistant):/i`. -/
def agentPattern : Rx :=
  Rx.seqs [.bol, Rx.alts [Rx.lit "Chat Bot".toList, Rx.lit "Bot".toList, Rx.lit "Agent".toList,
    Rx.lit "Support".toList, Rx.lit "Assistant".toList], .chr ':']

/-- The pattern `/^(Human|User|Customer|Client|Caller):/i`. -/
def customerPattern : Rx :=
  Rx.seqs [.bol, Rx.alts [Rx.lit "Human".toList, Rx.lit "User".toList, Rx.lit "Customer".toList,
    Rx.lit "Client".toList, Rx.lit "Caller".toList], .chr ':']

/-- The pattern `/bot|agent/i`. -/
def botKeywords : Rx := .alt (Rx.lit "bot".toList) (Rx.lit "agent".toList)

/-- The text of a line that matched a speaker pattern: lines 2120-2121 and 2124-2125. -/
def textAfterSpeaker (line : List Char) : List Char :=
  match afterColon line with
  | some rest => trim rest
  | none => line

/-- The turn that one round of the loop of `parseTranscriptTurns` (lines 2111-2141) pushes
for the raw line, none when the round ends with `continue` or without a push. -/
def lineTurn (rawLine : List Char) : Option Turn :=
  let line := trim rawLine
  if line = [] then none
  else
    let classified : Option (String × List Char) :=
      if agentPattern.test true line then some ("agent", textAfterSpeaker line)
      else if customerPattern.test true line then some ("customer", textAfterSpeaker line)
      else
        match afterColon line with
        | some rest =>
          let speakerPart := trim (beforeColon line)
          some (if botKeywords.test true speakerPart then "agent" else "customer", trim rest)
        | none => none
    match classified with
    | some (speaker, text) =>
      if text ≠ [] then some { speaker := speaker, text := text } else none
    | none => none

/-- One round of the loop over the lines: the turns collected so far and the next raw line
give the turns collected after it (`turns.push`). -/
def parseLineStep (turns : List Turn) (rawLine : List Char) : List Turn :=
  match lineTurn rawLine with
  | some turn => turns ++ [turn]
  | none => turns

/-- The turns of a valid transcript: lines 2095 and 2103-2141. -/
def parseLines (transcript : List Char) : List Turn :=
  (splitOnChar '\n' transcript).foldl parseLineStep []

/-- A value passed as the `transcript` argument: a string, `null`, `undefined`, or some
other non-string value. -/
inductive TranscriptArg where
  | str (s : List Char)
  | null
  | undefined
  | other

/-- The test `!transcript || typeof transcript !== 'string'`: only a non-empty string passes. -/
def TranscriptArg.invalid : TranscriptArg → Bool
  | .str s => s.isEmpty
  | _ => true

/-- The two cache fields of the analyzer, `_cachedTranscript` and `_cachedTurns`
(`none` is `null`). -/
structure ParseCache where
  cachedTranscript : Option (List Char)
  cachedTurns : Option (List Turn)

/-- The cache after the constructor or `clearAnalysisCache`. -/
def ParseCache.empty : ParseCache := { cachedTranscript := none, cachedTurns := none }

/-- The test `this._cachedTranscript === transcript`. -/
def ParseCache.sameTranscript (cache : ParseCache) : TranscriptArg → Bool
  | .str s => cache.cachedTranscript = some s
  | .null => cache.cachedTranscript = none
  | _ => false

/-- The method `parseTranscriptTurns`: the turns returned and the cache afterwards. -/
def parseTranscriptTurns (cache : ParseCache) (transcript : TranscriptArg) :
    List Turn × ParseCache :=
  match cache.sameTranscript transcript, cache.cachedTurns with
  | true, some turns => (turns, cache)
  | _, _ =>
    match transcript with
    | .str s =>
      if s.isEmpty then ([], cache)
      else (parseLines s, { cachedTranscript := some s, cachedTurns := some (parseLines s) })
    | _ => ([], cache)

/-- The method `clearAnalysisCache`, on the parse cache. -/
def clearAnalysisCache (_cache : ParseCache) : ParseCache := ParseCache.empty

/-- A cache as the analyzer can hold it: nothing, or a transcript with its own turns. -/
def ParseCache.Consistent (cache : ParseCache) : Prop :=
  (cache.cachedTranscript = none ∧ cache.cachedTurns = none) ∨
  ∃ s, s ≠ [] ∧ cache.cachedTranscript = some s ∧ cache.cachedTurns = some (parseLines s)

/-- The transcript that `analyzeCall` analyses: lines 370-374. -/
def defaultTranscript : List Char :=
  "Chat Bot: Hello, this is a default transcript for analysis.\nHuman: Thank you.".toList

/-- The input validation of `analyzeCall` (lines 370-374): the transcript handed to the
sub-analyses. -/
def analyzeCallTranscript (transcript : TranscriptArg) : List Char :=
  match transcript with
  | .str s => if s.isEmpty then defaultTranscript else s
  | _ => defaultTranscript

/-! ## Repetition detector -/

/-- The pattern of `isBotLine`, `/^(Chat Bot|Bot|Agent|Support|Assistant):/i`, on the trimmed line. -/
def isBotLine (line : List Char) : Bool := agentPattern.test true (trim line)

/-- The pattern of `isHumanLine`, `/^(Human|User|Customer|Client|Caller):/i`, on the trimmed line. -/
def isHumanLine (line : List Char) : Bool := customerPattern.test true (trim line)

/-- The method `extractTextFromLine`. -/
def extractTextFromLine (line : List Char) : List Char :=
  match afterColon line with
  | some rest => trim rest
  | none => trim line

/-- The texts of the bot turns found by `extractBotTurns`: the trimmed lines that start,
in this exact spelling, with `Chat Bot:` or `Bot:`. -/
def extractBotTurns (transcript : List Char) : List (List Char) :=
  (splitOnChar '\n' transcript).filterMap (fun rawLine =>
    let line := trim rawLine
    if startsWith "Chat Bot:".toList line || startsWith "Bot:".toList line then
      some (match afterColon line with
        | some rest => trim (beforeColon rest)
        | none => line)
    else none)

/-- The replacement `.replace(/[^\w\s]/g, ' ')`. -/
def blankPunctuation (s : List Char) : List Char :=
  s.map (fun c => if isWordChar c || isWhiteSpace c then c else ' ')

/-- The replacement `.replace(/\s+/g, ' ')`; `inRun` tells that the character before `s`
is white space. -/
def collapseSpaces (inRun : Bool) : List Char → List Char
  | [] => []
  | c :: s =>
    if isWhiteSpace c then (if inRun then collapseSpaces true s else ' ' :: collapseSpaces true s)
    else c :: collapseSpaces false s

/-- The local function `normalize` of `areIdenticalBotResponses`. -/
def normalize (text : List Char) : List Char :=
  trim (collapseSpaces false (blankPunctuation (toLowerCase text)))

/-- The method `areIdenticalBotResponses`. -/
def areIdenticalBotResponses (text1 text2 : List Char) : Bool :=
  if text1.isEmpty || text2.isEmpty then false
  else decide (normalize text1 = normalize text2) && decide (utf16Length (normalize text1) > 0)

/-- A bot response collected by `detectConsecutiveIdenticalRepetitions`. -/
structure BotResponse where
  lineIndex : ℕ
  text : List Char
  originalLine : List Char
  index : ℕ

/-- Whether no human line lies strictly between the lines `startLine` and `endLine`:
the loops of `areConsecutiveBotResponses` and `areBlocksConsecutive`. -/
def noHumanLineBetween (startLine endLine : ℕ) (lines : List (List Char)) : Bool :=
  ((lines.take endLine).drop (startLine + 1)).all (fun rawLine =>
    !(!(trim rawLine).isEmpty && isHumanLine (trim rawLine)))

/-- The method `areConsecutiveBotResponses`. -/
def areConsecutiveBotResponses (response1 response2 : BotResponse) (lines : List (List Char)) :
    Bool :=
  noHumanLineBetween response1.lineIndex response2.lineIndex lines

/-- The method `doBlocksMatch`. -/
def doBlocksMatch : List BotResponse → List BotResponse → Bool
  | [], [] => true
  | a :: block1, b :: block2 => areIdenticalBotResponses a.text b.text && doBlocksMatch block1 block2
  | _, _ => false

/-- The method `areBlocksConsecutive`, for non-empty blocks. -/
def areBlocksConsecutive (firstBlock secondBlock : List BotResponse) (lines : List (List Char)) :
    Bool :=
  match firstBlock.getLast?, secondBlock.head? with
  | some last, some first => noHumanLineBetween last.lineIndex first.lineIndex lines
  | _, _ => true

/-- The array method `join(' | ')`. -/
def joinBar : List (List Char) → List Char
  | [] => []
  | [t] => t
  | t :: ts => t ++ " | ".toList ++ joinBar ts

/-- The record pushed for a single-line repetition: lines 4115-4123. -/
def singleLineRepetition (current next : BotResponse) : Repetition :=
  { type := "single_line_repetition", text1 := current.text, text2 := next.text,
    similarityScore := 1, severity := 10, isProblematicRepetition := true,
    repetitionType := none }

/-- The record pushed for a block repetition: lines 5261-5272. -/
def blockRepetition (firstBlock secondBlock : List BotResponse) : Repetition :=
  { type := "block_pattern_repetition", text1 := joinBar (firstBlock.map (fun r => r.text)),
    text2 := joinBar (secondBlock.map (fun r => r.text)),
    similarityScore := 1, severity := 10, isProblematicRepetition := true,
    repetitionType := none }

/-- The inner loop of `detectBlockPatternRepetitions` for one block size, from position `i`
with `rounds` positions left: it stops with the first reported repetition (the `break`). -/
def scanBlocks (botResponses : List BotResponse) (lines : List (List Char)) (blockSize : ℕ) :
    ℕ → ℕ → Option Repetition
  | 0, _ => none
  | rounds + 1, i =>
    let firstBlock := (botResponses.drop i).take blockSize
    let secondBlock := (botResponses.drop (i + blockSize)).take blockSize
    if secondBlock.length < blockSize then scanBlocks botResponses lines blockSize rounds (i + 1)
    else if doBlocksMatch firstBlock secondBlock &&
        areBlocksConsecutive firstBlock secondBlock lines then
      some (blockRepetition firstBlock secondBlock)
    else scanBlocks botResponses lines blockSize rounds (i + 1)

/-- The method `detectBlockPatternRepetitions`: for the block sizes 2, 3 and 4 the positions
`0 ≤ i ≤ length - 2 * blockSize` are scanned. -/
def detectBlockPatternRepetitions (botResponses : List BotResponse) (lines : List (List Char)) :
    List Repetition :=
  [2, 3, 4].filterMap (fun blockSize =>
    scanBlocks botResponses lines blockSize (botResponses.length + 1 - 2 * blockSize) 0)

/-- The bot responses collected by lines 4089-4103, from line number `i` on, `found` being
the number collected before. -/
def collectBotResponses : ℕ → ℕ → List (List Char) → List BotResponse
  | _, _, [] => []
  | i, found, rawLine :: rest =>
    let line := trim rawLine
    if isBotLine line && decide (utf16Length (extractTextFromLine line) ≥ 5) then
      { lineIndex := i, text := extractTextFromLine line, originalLine := line, index := found } ::
        collectBotResponses (i + 1) (found + 1) rest
    else collectBotResponses (i + 1) found rest

/-- The loop of method 1 (lines 4108-4126) over the neighbouring bot responses. -/
def singleLineRepetitions (lines : List (List Char)) : List BotResponse → List Repetition
  | current :: next :: rest =>
    (if areIdenticalBotResponses current.text next.text &&
        areConsecutiveBotResponses current next lines then
      [singleLineRepetition current next] else []) ++
      singleLineRepetitions lines (next :: rest)
  | _ => []

/-- The method `detectConsecutiveIdenticalRepetitions`. -/
def detectConsecutiveIdenticalRepetitions (transcript : List Char) : List Repetition :=
  let lines := (splitOnChar '\n' transcript).filter (fun line => !(trim line).isEmpty)
  let botResponses := collectBotResponses 0 0 lines
  singleLineRepetitions lines botResponses ++ detectBlockPatternRepetitions botResponses lines

/-- The method `detectRepetitions`; its `config` argument is not read. -/
def detectRepetitions (transcript : List Char) : List Repetition :=
  if (extractBotTurns transcript).length = 0 then []
  else detectConsecutiveIdenticalRepetitions transcript

/-! ## Call duration and transcript latency -/

/-- The analysis configuration. -/
structure AnalysisConfig where
  silenceThreshold : ℚ
  idealCallDurationMin : ℚ
  idealCallDurationMax : ℚ
  repetitionSimilarityThreshold : ℚ

/-- The method `analyzeCallDuration`; `audioDuration` is `audioData.duration`, none when
`audioData` is null. -/
def analyzeCallDuration (audioDuration : Option ℚ) (config : AnalysisConfig) :
    CallDurationAnalysis :=
  let totalDurationMinutes : ℚ :=
    match audioDuration with
    | some duration => duration / 60
    | none => 3
  let idealMin := config.idealCallDurationMin
  let idealMax := config.idealCallDurationMax
  let within : Bool := decide (totalDurationMinutes ≥ idealMin) && decide (totalDurationMinutes ≤ idealMax)
  if totalDurationMinutes < idealMin then
    { totalDurationMinutes := totalDurationMinutes, idealRangeMin := idealMin,
      idealRangeMax := idealMax, withinIdealRange := within,
      deviationFromIdeal := idealMin - totalDurationMinutes, status := "too_short" }
  else if totalDurationMinutes > idealMax then
    { totalDurationMinutes := totalDurationMinutes, idealRangeMin := idealMin,
      idealRangeMax := idealMax, withinIdealRange := within,
      deviationFromIdeal := totalDurationMinutes - idealMax, status := "too_long" }
  else
    { totalDurationMinutes := totalDurationMinutes, idealRangeMin := idealMin,
      idealRangeMax := idealMax, withinIdealRange := within,
      deviationFromIdeal := 0, status := "optimal" }

/-- The value of `Math.round(x)`: the integer nearest to `x`, halves rounded up. -/
def jsRound (x : ℚ) : ℚ := ((⌊x + 1 / 2⌋ : ℤ) : ℚ)

/-- The part of `estimateAdvancedTurnDuration` before the random variation is added. -/
def baseTurnDuration (text : List Char) (speaker : String) : ℚ :=
  let baseWordsPerSecond : ℚ := if speaker = "agent" then 3 else 5 / 2
  let wordCount : ℚ := splitWhiteSpaceCount text
  let complexityFactor : ℚ := if utf16Length text > 100 then 12 / 10 else 1
  let punctuationPauses : ℚ := countSentenceMarks text * (1 / 2)
  (wordCount / baseWordsPerSecond) * complexityFactor + punctuationPauses

/-- The method `estimateAdvancedTurnDuration`; `random` is the value that its call of
`Math.random()` returns. -/
def estimateAdvancedTurnDuration (text : List Char) (speaker : String) (random : ℚ) : ℚ :=
  baseTurnDuration text speaker + random * 1

/-- An entry of `responseTimes`. -/
structure ResponseTime where
  turnIndex : ℕ
  responseTimeSeconds : ℚ

/-- An entry of `latencyViolations`. -/
structure LatencyViolation where
  turnIndex : ℕ
  responseTimeSeconds : ℚ
  violationSeverity : String

/-- The variables of the loop of `analyzeResponseLatencyFromTranscript`. -/
structure LatencyLoop where
  currentTime : ℚ
  lastHumanTurnTime : ℚ
  responseTimes : List ResponseTime
  latencyViolations : List LatencyViolation

/-- The loop of lines 998-1031 from turn number `i` on; `previous` is `turns[i - 1]` (none
for `i = 0`) and `random i` the value `Math.random()` returns while turn `i` is handled. -/
def latencyLoop (random : ℕ → ℚ) : ℕ → Option Turn → List Turn → LatencyLoop → LatencyLoop
  | _, _, [], state => state
  | i, previous, turn :: rest, state =>
    let estimatedTurnDuration := estimateAdvancedTurnDuration turn.text turn.speaker (random i)
    let followsCustomer : Bool :=
      match previous with
      | some p => p.speaker = "customer"
      | none => false
    let state1 : LatencyLoop :=
      if turn.speaker = "customer" then { state with lastHumanTurnTime := state.currentTime }
      else if turn.speaker = "agent" && followsCustomer then
        let responseTime := state.currentTime - state.lastHumanTurnTime
        { state with
          responseTimes := state.responseTimes ++
            [{ turnIndex := i, responseTimeSeconds := responseTime }]
          latencyViolations :=
            if responseTime > 5 then
              state.latencyViolations ++
                [{ turnIndex := i, responseTimeSeconds := responseTime,
                   violationSeverity := if responseTime > 10 then "severe" else "moderate" }]
            else state.latencyViolations }
      else state
    latencyLoop random (i + 1) (some turn) rest
      { state1 with currentTime := state1.currentTime + estimatedTurnDuration }

/-- The score of `calculateSimpleLatencyScore`. -/
def calculateSimpleLatencyScore (violations : List LatencyViolation) (maxAllowed : ℕ) : ℚ :=
  let afterExcess : ℚ :=
    if violations.length > maxAllowed then
      max 0 (100 - ((violations.length - maxAllowed : ℕ) : ℚ) * 25)
    else 100
  let severeViolations := (violations.filter (fun v => v.violationSeverity = "severe")).length
  let latencyScore : ℚ :=
    if severeViolations > 0 then max 0 (afterExcess - (severeViolations : ℚ) * 15) else afterExcess
  jsRound latencyScore

/-- The part of the latency analysis embedded here. -/
structure LatencyAnalysis where
  responseTimes : List ResponseTime
  latencyViolations : List LatencyViolation
  totalViolations : ℕ
  latencyScore : ℚ
  analysisSource : String

/-- The result of `getDefaultLatencyAnalysis`. -/
def getDefaultLatencyAnalysis : LatencyAnalysis :=
  { responseTimes := [], latencyViolations := [], totalViolations := 0, latencyScore := 80,
    analysisSource := "default_fallback" }

/-- The method `analyzeResponseLatencyFromTranscript`; `random i` is the value of the call
of `Math.random()` made for turn `i`. -/
def analyzeResponseLatencyFromTranscript (cache : ParseCache) (transcript : TranscriptArg)
    (random : ℕ → ℚ) : LatencyAnalysis :=
  let turns := (parseTranscriptTurns cache transcript).1
  if turns.length = 0 then getDefaultLatencyAnalysis
  else
    let final := latencyLoop random 0 none turns
      { currentTime := 0, lastHumanTurnTime := 0, responseTimes := [], latencyViolations := [] }
    { responseTimes := final.responseTimes, latencyViolations := final.latencyViolations,
      totalViolations := final.latencyViolations.length,
      latencyScore := calculateSimpleLatencyScore final.latencyViolations 3,
      analysisSource := "transcript_fallback" }

/-! ## Conversation contexts and call objective -/

/-- An intent mapping built by `detectIntents` for one turn. -/
structure IntentMapping where
  turnNumber : ℕ
  speaker : String
  text : List Char
  detectedIntent : String
  confidence : ℚ
  conversationStep : String
  stepNumber : ℕ

/-- An entry of the catalog `conversationContexts`. -/
structure ConversationContext where
  name : String
  required_steps : List ℕ
  critical_steps : List ℕ
  conditional_steps : List (String × List ℕ)
  deriving DecidableEq

/-- The catalog entry `successful_property_inquiry`. -/
def successful_property_inquiry : ConversationContext :=
  { name := "Successful Property Inquiry (Call Objective Achieved)",
    required_steps := [1, 6, 7, 9], critical_steps := [1, 6, 7, 9],
    conditional_steps := [("agent_accepted", [9])] }

/-- The catalog entry `alternative_successful_flow`. -/
def alternative_successful_flow : ConversationContext :=
  { name := "Alternative Successful Flow (via Third Party)",
    required_steps := [1, 2, 6, 7, 9], critical_steps := [1, 2, 6, 7, 9],
    conditional_steps := [("third_party_answers", [2]), ("agent_accepted", [9])] }

/-- The catalog entry `callback_scenario`. -/
def callback_scenario : ConversationContext :=
  { name := "Callback Scheduled (Future Objective Completion)",
    required_steps := [1, 3, 5, 13], critical_steps := [1, 5],
    conditional_steps := [("customer_busy", [3]), ("needs_callback", [5])] }

/-- The catalog entry `voicemail_scenario`. -/
def voicemail_scenario : ConversationContext :=
  { name := "Voicemail Left (Future Objective Completion)",
    required_steps := [1, 11, 13], critical_steps := [1, 11],
    conditional_steps := [("voicemail_detected", [11])] }

/-- The catalog entry `wrong_number`. -/
def wrong_number : ConversationContext :=
  { name := "Wrong Number (No Objective Possible)",
    required_steps := [1, 12, 13], critical_steps := [1, 12],
    conditional_steps := [("wrong_number", [12])] }

/-- The catalog entry `failed_inquiry`. -/
def failed_inquiry : ConversationContext :=
  { name := "Failed Property Inquiry (Objective Not Achieved)",
    required_steps := [1, 6, 8, 13], critical_steps := [1, 6],
    conditional_steps := [("agent_declined", [8])] }

/-- The method `determineConversationContext`. -/
def determineConversationContext (intentMappings : List IntentMapping) : ConversationContext :=
  let detectedIntents := intentMappings.map (fun m => m.conversationStep)
  let hasThirdPartyInteraction := detectedIntents.contains "third_party_interaction"
  let hasBusyResponse := detectedIntents.contains "busy_response"
  let hasCallbackScheduling := detectedIntents.contains "callback_scheduling"
  let hasWrongNumber := detectedIntents.contains "wrong_number_handling"
  let hasVoicemail := detectedIntents.contains "voicemail_response"
  let hasInterestCheck := detectedIntents.contains "interest_check"
  let hasAgentConnection := detectedIntents.contains "agent_connection_offer"
  let hasCallTransfer := detectedIntents.contains "call_transfer"
  let hasAgentDecline := detectedIntents.contains "agent_decline_handling"
  if hasWrongNumber then wrong_number
  else if hasVoicemail then voicemail_scenario
  else if (hasBusyResponse || hasCallbackScheduling) && !hasInterestCheck then callback_scenario
  else if hasInterestCheck && hasAgentConnection && hasCallTransfer then
    if hasThirdPartyInteraction then alternative_successful_flow
    else successful_property_inquiry
  else if hasInterestCheck && hasAgentDecline then failed_inquiry
  else if hasInterestCheck then
    if hasAgentConnection then successful_property_inquiry
    else failed_inquiry
  else failed_inquiry

/-- The first pattern of `affirmativePatterns`, `/\b(हाँ|yes|ठीक\s+है|okay|ok|sure|alright)\b/gi`. -/
def affirmativePattern1 : Rx :=
  Rx.seqs [.wordBoundary,
    Rx.alts [Rx.lit "हाँ".toList, Rx.lit "yes".toList,
      Rx.seqs [Rx.lit "ठीक".toList, Rx.spaces, Rx.lit "है".toList],
      Rx.lit "okay".toList, Rx.lit "ok".toList, Rx.lit "sure".toList, Rx.lit "alright".toList],
    .wordBoundary]

/-- The second pattern of `affirmativePatterns`, `/\b(बिल्कुल|जरूर|चलिए|ठीक)\b/gi`. -/
def affirmativePattern2 : Rx :=
  Rx.seqs [.wordBoundary,
    Rx.alts [Rx.lit "बिल्कुल".toList, Rx.lit "जरूर".toList, Rx.lit "चलिए".toList,
      Rx.lit "ठीक".toList],
    .wordBoundary]

/-- The third pattern of `affirmativePatterns`, `/\b(go\s+ahead|proceed|continue)\b/gi`. -/
def affirmativePattern3 : Rx :=
  Rx.seqs [.wordBoundary,
    Rx.alts [Rx.seqs [Rx.lit "go".toList, Rx.spaces, Rx.lit "ahead".toList],
      Rx.lit "proceed".toList, Rx.lit "continue".toList],
    .wordBoundary]

/-- The list `affirmativePatterns`; the patterns are created by each call, so every `test`
below starts with `lastIndex = 0`. -/
def affirmativePatterns : List Rx := [affirmativePattern1, affirmativePattern2, affirmativePattern3]

/-- The index found by the backward loop of lines 5084-5091: the last mapping whose step is
`call_transfer` or `agent_connection_offer`; `i` is the index of the head of the list. -/
def lastTransferIndex : ℕ → List IntentMapping → Option ℕ
  | _, [] => none
  | i, m :: rest =>
    match lastTransferIndex (i + 1) rest with
    | some j => some j
    | none =>
      if m.conversationStep = "call_transfer" || m.conversationStep = "agent_connection_offer"
      then some i else none

/-- The method `checkAffirmativeResponseToTransfer`. -/
def checkAffirmativeResponseToTransfer (intentMappings : List IntentMapping) : Bool :=
  match lastTransferIndex 0 intentMappings with
  | none => false
  | some lastTransfer =>
    (intentMappings.drop (lastTransfer + 1)).any (fun mapping =>
      !mapping.speaker.isEmpty &&
      includes "human".toList (toLowerCase mapping.speaker.toList) &&
      affirmativePatterns.any (fun pattern => pattern.test true mapping.text))

/-- The result of `analyzeCallObjectiveCompletion`. -/
structure ObjectiveAnalysis where
  objectiveAchieved : Bool
  primaryObjectiveComplete : Bool
  alternativeObjectiveComplete : Bool
  hasCallTransferWithAffirmation : Bool
  completedCriticalSteps : List ℕ
  totalCriticalSteps : ℕ
  missingCriticalSteps : List ℕ
  completionRate : ℚ
  objectiveAchievementReason : String

/-- The elements of `[...new Set(l)]`: the distinct members of `l` in the order of their
first occurrence. -/
def distinctInOrder : List ℕ → List ℕ
  | [] => []
  | a :: l => a :: (distinctInOrder l).filter (fun b => decide (b ≠ a))

/-- The list `completedSteps` of `analyzeCallObjectiveCompletion`: lines 3858-3861. -/
def completedSteps (intentMappings : List IntentMapping) : List ℕ :=
  ((intentMappings.filter (fun m => decide (m.confidence > 4 / 10))).map
    (fun m => m.stepNumber)).filter (fun step => decide (step > 0))

/-- The method `analyzeCallObjectiveCompletion`; the resolved context is passed and not read. -/
def analyzeCallObjectiveCompletion (intentMappings : List IntentMapping)
    (_conversationContext : ConversationContext) : ObjectiveAnalysis :=
  let criticalSteps : List ℕ := [1, 6, 7, 9]
  let alternativeCriticalSteps : List ℕ := [1, 2, 6, 7, 9]
  let completed := completedSteps intentMappings
  let primaryObjectiveSteps := criticalSteps.filter (fun step => completed.contains step)
  let primaryObjectiveComplete : Bool := primaryObjectiveSteps.length = criticalSteps.length
  let alternativeObjectiveSteps :=
    alternativeCriticalSteps.filter (fun step => completed.contains step)
  let alternativeObjectiveComplete : Bool :=
    alternativeObjectiveSteps.length = alternativeCriticalSteps.length
  let hasCallTransfer := completed.contains 9
  let hasAffirmativeResponse :=
    if hasCallTransfer then checkAffirmativeResponseToTransfer intentMappings else false
  let objectiveAchieved := primaryObjectiveComplete || alternativeObjectiveComplete ||
    (hasCallTransfer && hasAffirmativeResponse && decide (primaryObjectiveSteps.length ≥ 3))
  let union := distinctInOrder (primaryObjectiveSteps ++ alternativeObjectiveSteps)
  { objectiveAchieved := objectiveAchieved,
    primaryObjectiveComplete := primaryObjectiveComplete,
    alternativeObjectiveComplete := alternativeObjectiveComplete,
    hasCallTransferWithAffirmation := hasCallTransfer && hasAffirmativeResponse,
    completedCriticalSteps :=
      if objectiveAchieved then
        (if primaryObjectiveComplete then primaryObjectiveSteps
         else if alternativeObjectiveComplete then alternativeObjectiveSteps
         else union)
      else union,
    totalCriticalSteps := criticalSteps.length,
    missingCriticalSteps :=
      if objectiveAchieved then [] else criticalSteps.filter (fun step => !completed.contains step),
    completionRate :=
      if objectiveAchieved then 1
      else max ((primaryObjectiveSteps.length : ℚ) / criticalSteps.length)
        ((alternativeObjectiveSteps.length : ℚ) / alternativeCriticalSteps.length),
    objectiveAchievementReason :=
      if objectiveAchieved then
        (if primaryObjectiveComplete then "All 4 critical steps completed"
         else if alternativeObjectiveComplete then "All 5 alternative critical steps completed"
         else "Call transfer with affirmative response")
      else "Critical steps incomplete or no affirmative response to transfer" }

/-! ## The turn parser in the words of the specification

A second description of the parser, written from the specification and not from the
regular expressions of the source, to be compared with `parseTranscriptTurns`. -/

/-- The string `s` starts with `w`, letter case ignored. -/
def startsWithIgnoringCase (w s : List Char) : Bool :=
  (w.map canon).isPrefixOf (s.map canon)

/-- The string `s` contains `w`, letter case ignored. -/
def containsIgnoringCase (w s : List Char) : Bool :=
  decide ((w.map canon) <:+: (s.map canon))

/-- The five agent labels, colon included. -/
def specAgentLabels : List (List Char) :=
  ["Chat Bot:".toList, "Bot:".toList, "Agent:".toList, "Support:".toList, "Assistant:".toList]

/-- The five customer labels, colon included. -/
def specCustomerLabels : List (List Char) :=
  ["Human:".toList, "User:".toList, "Customer:".toList, "Client:".toList, "Caller:".toList]

/-- The speaker of a trimmed non-empty line as the specification decides it, none for a
line that is dropped for want of a colon. -/
def specSpeaker (line : List Char) : Option String :=
  if specAgentLabels.any (fun w => startsWithIgnoringCase w line) then some "agent"
  else if specCustomerLabels.any (fun w => startsWithIgnoringCase w line) then some "customer"
  else if ':' ∈ line then
    (if containsIgnoringCase "bot".toList (beforeColon line) ||
        containsIgnoringCase "agent".toList (beforeColon line) then some "agent"
     else some "customer")
  else none

/-- The turn of one line as the specification describes it: the line is trimmed, an empty
line is skipped, the text is the trimmed remainder after the first colon, and a turn with
an empty text is dropped. -/
def specLineTurn (rawLine : List Char) : Option Turn :=
  let line := trim rawLine
  if line = [] then none
  else
    match specSpeaker line, afterColon line with
    | some speaker, some rest =>
      if trim rest = [] then none else some { speaker := speaker, text := trim rest }
    | _, _ => none

/-- The turns of a transcript as the specification describes them, line by line. -/
def specParseTurns (transcript : List Char) : List Turn :=
  (splitOnChar '\n' transcript).filterMap specLineTurn

/-- A line that starts with one of the ten recognized speaker labels. -/
def hasRecognizedLabel (line : List Char) : Bool :=
  specAgentLabels.any (fun w => startsWithIgnoringCase w (trim line)) ||
  specCustomerLabels.any (fun w => startsWithIgnoringCase w (trim line))

/-! ## The context resolver in the words of the specification -/

/-- The first-match decision tree of the specification over the conversation steps that
occur in the mappings. -/
def specResolveContext (steps : List String) : ConversationContext :=
  if "wrong_number_handling" ∈ steps then wrong_number
  else if "voicemail_response" ∈ steps then voicemail_scenario
  else if ("busy_response" ∈ steps ∨ "callback_scheduling" ∈ steps) ∧ "interest_check" ∉ steps then
    callback_scenario
  else if "interest_check" ∈ steps ∧ "agent_connection_offer" ∈ steps ∧ "call_transfer" ∈ steps then
    (if "third_party_interaction" ∈ steps then alternative_successful_flow
     else successful_property_inquiry)
  else if "interest_check" ∈ steps ∧ "agent_decline_handling" ∈ steps then failed_inquiry
  else if "interest_check" ∈ steps ∧ "agent_connection_offer" ∈ steps then
    successful_property_inquiry
  else failed_inquiry

/-! ## Example inputs -/

/-- Mappings of a call with greeting, agent offer and call transfer (three of the four
critical steps) in which the customer answers the transfer with `yes okay`. -/
def transferAcceptedMappings : List IntentMapping :=
  [{ turnNumber := 1, speaker := "agent", text := "Hello, this is Magicbricks".toList,
     detectedIntent := "Initial greeting and agent introduction", confidence := 95 / 100,
     conversationStep := "initial_greeting", stepNumber := 1 },
   { turnNumber := 2, speaker := "customer", text := "Hello".toList,
     detectedIntent := "Initial greeting and agent introduction", confidence := 57 / 100,
     conversationStep := "initial_greeting", stepNumber := 1 },
   { turnNumber := 3, speaker := "agent", text := "We have 3 top agents shortlist for you".toList,
     detectedIntent := "General conversation", confidence := 95 / 100,
     conversationStep := "agent_connection_offer", stepNumber := 7 },
   { turnNumber := 4, speaker := "customer", text := "fine".toList,
     detectedIntent := "General conversation", confidence := 2 / 10,
     conversationStep := "unknown", stepNumber := 0 },
   { turnNumber := 5, speaker := "agent", text := "connecting to agent".toList,
     detectedIntent := "General conversation", confidence := 95 / 100,
     conversationStep := "call_transfer", stepNumber := 9 },
   { turnNumber := 6, speaker := "customer", text := "yes okay".toList,
     detectedIntent := "General conversation", confidence := 2 / 10,
     conversationStep := "unknown", stepNumber := 0 }]

/-- Mappings of a call whose steps are greeting, wrong-number handling and goodbye. -/
def wrongNumberMappings : List IntentMapping :=
  [{ turnNumber := 1, speaker := "agent", text := "Hello".toList,
     detectedIntent := "Initial greeting and agent introduction", confidence := 95 / 100,
     conversationStep := "initial_greeting", stepNumber := 1 },
   { turnNumber := 2, speaker := "agent", text := "Sorry, wrong number".toList,
     detectedIntent := "General conversation", confidence := 63 / 100,
     conversationStep := "wrong_number_handling", stepNumber := 12 },
   { turnNumber := 3, speaker := "agent", text := "Goodbye".toList,
     detectedIntent := "Final farewell and call termination", confidence := 5 / 10,
     conversationStep := "goodbye", stepNumber := 13 }]

/-- Mappings in which the four critical steps 1, 6, 7 and 9 are completed. -/
def allCriticalMappings : List IntentMapping :=
  [{ turnNumber := 1, speaker := "agent", text := "Hello".toList,
     detectedIntent := "Initial greeting and agent introduction", confidence := 95 / 100,
     conversationStep := "initial_greeting", stepNumber := 1 },
   { turnNumber := 2, speaker := "agent", text := "Flat".toList,
     detectedIntent := "General conversation", confidence := 65 / 100,
     conversationStep := "interest_check", stepNumber := 6 },
   { turnNumber := 3, speaker := "agent", text := "3 top agents shortlist".toList,
     detectedIntent := "General conversation", confidence := 95 / 100,
     conversationStep := "agent_connection_offer", stepNumber := 7 },
   { turnNumber := 4, speaker := "agent", text := "connecting to agent".toList,
     detectedIntent := "General conversation", confidence := 95 / 100,
     conversationStep := "call_transfer", stepNumber := 9 }]

/-- A transcript line made of a speaker label, a colon, white space and a text. -/
def labelledLine (label pad text : List Char) : List Char := label ++ ':' :: (pad ++ text)

/-- The text of a customer turn of 20 words and 110 characters, without sentence mark: its
estimated speaking time is 9.6 s before the random variation is added. -/
def longCustomerText : List Char :=
  "I am looking for a two bedroom apartment in Pune near the railway station with covered parking and garden view".toList

/-- A transcript whose latency score depends on the value of `Math.random()`. -/
def randomSensitiveTranscript : List Char :=
  "Chat Bot: Hello\nHuman: ".toList ++ longCustomerText ++ "\nChat Bot: Sure".toList

/-- No customer turn that an agent turn answers has an estimated speaking time, before the
random variation, within one second below the threshold of 5 s or of 10 s; `previous` is
the turn before the list. -/
def thresholdsClear : List Turn → Option Turn → Prop
  | [], _ => True
  | turn :: rest, previous =>
    (turn.speaker = "agent" → ∀ p, previous = some p → p.speaker = "customer" →
      (baseTurnDuration p.text p.speaker ≤ 4 ∨
        (5 < baseTurnDuration p.text p.speaker ∧ baseTurnDuration p.text p.speaker ≤ 9) ∨
        10 < baseTurnDuration p.text p.speaker)) ∧
    thresholdsClear rest (some turn)

/-- A transcript of three short turns. -/
def shortCallTranscript : List Char := "Chat Bot: Hello\nHuman: Hi\nChat Bot: Sure".toList

/-- The default configuration of the server. -/
def defaultConfig : AnalysisConfig :=
  { silenceThreshold := 5, idealCallDurationMin := 1, idealCallDurationMax := 7 / 2,
    repetitionSimilarityThreshold := 8 / 10 }

/-! ## Intent catalog

The table `intentPatterns` of `initializeIntentPatterns` (lines 16-227).  Every pattern
carries the flags `gi`; the regular expression of the source stands above each pattern. -/

/-- An entry of `intentPatterns`; `key` is its property name in the table. -/
structure IntentEntry where
  key : String
  patterns : List Rx
  score : ℕ
  required : Bool
  step : ℕ
  description : String

/-- The catalog entry `initial_greeting`. -/
def initial_greeting : IntentEntry :=
  { key := "initial_greeting", score := 15, required := true, step := 1,
    description := "Initial greeting and MagicBricks introduction",
    patterns := [
      -- /\b(नमस्ते|hello|hi|good\s+(morning|afternoon|evening))\b/gi
      Rx.seqs [.wordBoundary, Rx.alts [Rx.lit "नमस्ते".toList, Rx.lit "hello".toList,
        Rx.lit "hi".toList, Rx.seqs [Rx.lit "good".toList, Rx.spaces,
        Rx.alts [Rx.lit "morning".toList, Rx.lit "afternoon".toList, Rx.lit "evening".toList]]],
        .wordBoundary],
      -- /\bमैं.*?(बोल\s+रही\s+हूँ|speaking|calling)\b/gi
      Rx.seqs [.wordBoundary, Rx.lit "मैं".toList, Rx.anyLazy,
        Rx.alts [Rx.seqs [Rx.lit "बोल".toList, Rx.spaces, Rx.lit "रही".toList, Rx.spaces,
        Rx.lit "हूँ".toList], Rx.lit "speaking".toList, Rx.lit "calling".toList], .wordBoundary],
      -- /\bMagicbricks\s+से\b/gi
      Rx.seqs [.wordBoundary, Rx.lit "Magicbricks".toList, Rx.spaces, Rx.lit "से".toList,
        .wordBoundary],
      -- /\bproperty\s+search\b/gi
      Rx.seqs [.wordBoundary, Rx.lit "property".toList, Rx.spaces, Rx.lit "search".toList,
        .wordBoundary],
      -- /\bproperties\s+में\s+interest\b/gi
      Rx.seqs [.wordBoundary, Rx.lit "properties".toList, Rx.spaces, Rx.lit "में".toList,
        Rx.spaces, Rx.lit "interest".toList, .wordBoundary],
      -- /\bplatform\s+पर.*?interest\b/gi
      Rx.seqs [.wordBoundary, Rx.lit "platform".toList, Rx.spaces, Rx.lit "पर".toList, Rx.anyLazy,
        Rx.lit "interest".toList, .wordBoundary]
    ] }

/-- The catalog entry `third_party_interaction`. -/
def third_party_interaction : IntentEntry :=
  { key := "third_party_interaction", score := 12, required := false, step := 2,
    description := "Third-party interaction and name collection",
    patterns := [
      -- /\bक्या\s+आप.*?हैं\b/gi
      Rx.seqs [.wordBoundary, Rx.lit "क्या".toList, Rx.spaces, Rx.lit "आप".toList, Rx.anyLazy,
        Rx.lit "हैं".toList, .wordBoundary],
      -- /\bमैं.*?(हूँ|am)\b/gi
      Rx.seqs [.wordBoundary, Rx.lit "मैं".toList, Rx.anyLazy, Rx.alts [Rx.lit "हूँ".toList,
        Rx.lit "am".toList], .wordBoundary],
      -- /\bनाम\s+बता\s+सकते\s+हैं\b/gi
      Rx.seqs [.wordBoundary, Rx.lit "नाम".toList, Rx.spaces, Rx.lit "बता".toList, Rx.spaces,
        Rx.lit "सकते".toList, Rx.spaces, Rx.lit "हैं".toList, .wordBoundary],
      -- /\bवो\s+यहाँ\s+नहीं\s+हैं\b/gi
      Rx.seqs [.wordBoundary, Rx.lit "वो".toList, Rx.spaces, Rx.lit "यहाँ".toList, Rx.spaces,
        Rx.lit "नहीं".toList, Rx.spaces, Rx.lit "हैं".toList, .wordBoundary],
      -- /\bगलत\s+number\b/gi
      Rx.seqs [.wordBoundary, Rx.lit "गलत".toList, Rx.spaces, Rx.lit "number".toList,
        .wordBoundary],
      -- /\bwrong\s+number\b/gi
      Rx.seqs [.wordBoundary, Rx.lit "wrong".toList, Rx.spaces, Rx.lit "number".toList,
        .wordBoundary]
    ] }

/-- The catalog entry `busy_response`. -/
def busy_response : IntentEntry :=
  { key := "busy_response", score := 10, required := false, step := 3,
    description := "Customer busy response handling",
    patterns := [
      -- /\bमैं\s+अभी\s+व्यस्त\s+हूँ\b/gi
      Rx.seqs [.wordBoundary, Rx.lit "मैं".toList, Rx.spaces, Rx.lit "अभी".toList, Rx.spaces,
        Rx.lit "व्यस्त".toList, Rx.spaces, Rx.lit "हूँ".toList, .wordBoundary],
      -- /\bbusy\s+right\s+now\b/gi
      Rx.seqs [.wordBoundary, Rx.lit "busy".toList, Rx.spaces, Rx.lit "right".toList, Rx.spaces,
        Rx.lit "now".toList, .wordBoundary],
      -- /\bcall\s+me\s+later\b/gi
      Rx.seqs [.wordBoundary, Rx.lit "call".toList, Rx.spaces, Rx.lit "me".toList, Rx.spaces,
        Rx.lit "later".toList, .wordBoundary],
      -- /\bबाद\s+में\s+call\s+करो\b/gi
      Rx.seqs [.wordBoundary, Rx.lit "बाद".toList, Rx.spaces, Rx.lit "में".toList, Rx.spaces,
        Rx.lit "call".toList, Rx.spaces, Rx.lit "करो".toList, .wordBoundary],
      -- /\bbrief\s+रहूँगी\b/gi
      Rx.seqs [.wordBoundary, Rx.lit "brief".toList, Rx.spaces, Rx.lit "रहूँगी".toList,
        .wordBoundary],
      -- /\bएक\s+मिनट\s+है\b/gi
      Rx.seqs [.wordBoundary, Rx.lit "एक".toList, Rx.spaces, Rx.lit "मिनट".toList, Rx.spaces,
        Rx.lit "है".toList, .wordBoundary]
    ] }

/-- The catalog entry `connection_failure`. -/
def connection_failure : IntentEntry :=
  { key := "connection_failure", score := 8, required := false, step := 4,
    description := "Connection failure handling",
    patterns := [
      -- /\bक्या\s+आप\s+मेरी\s+बात\s+सुन\s+पा\s+रहे\s+हैं\b/gi
      Rx.seqs [.wordBoundary, Rx.lit "क्या".toList, Rx.spaces, Rx.lit "आप".toList, Rx.spaces,
        Rx.lit "मेरी".toList, Rx.spaces, Rx.lit "बात".toList, Rx.spaces, Rx.lit "सुन".toList,
        Rx.spaces, Rx.lit "पा".toList, Rx.spaces, Rx.lit "रहे".toList, Rx.spaces,
        Rx.lit "हैं".toList, .wordBoundary],
      -- /\bconnection\s+में\s+समस्या\b/gi
      Rx.seqs [.wordBoundary, Rx.lit "connection".toList, Rx.spaces, Rx.lit "में".toList,
        Rx.spaces, Rx.lit "समस्या".toList, .wordBoundary],
      -- /\bदस\s+मिनट\s+में\s+दोबारा\s+कॉल\b/gi
      Rx.seqs [.wordBoundary, Rx.lit "दस".toList, Rx.spaces, Rx.lit "मिनट".toList, Rx.spaces,
        Rx.lit "में".toList, Rx.spaces, Rx.lit "दोबारा".toList, Rx.spaces, Rx.lit "कॉल".toList,
        .wordBoundary],
      -- /\bnetwork\s+issue\b/gi
      Rx.seqs [.wordBoundary, Rx.lit "network".toList, Rx.spaces, Rx.lit "issue".toList,
        .wordBoundary]
    ] }

/-- The catalog entry `callback_scheduling`. -/
def callback_scheduling : IntentEntry :=
  { key := "callback_scheduling", score := 8, required := false, step := 5,
    description := "Callback time scheduling",
    patterns := [
      -- /\bकल\s+सुबह\s+दस\s+बजे\b/gi
      Rx.seqs [.wordBoundary, Rx.lit "कल".toList, Rx.spaces, Rx.lit "सुबह".toList, Rx.spaces,
        Rx.lit "दस".toList, Rx.spaces, Rx.lit "बजे".toList, .wordBoundary],
      -- /\bकौन\s+सा\s+time\s+convenient\b/gi
      Rx.seqs [.wordBoundary, Rx.lit "कौन".toList, Rx.spaces, Rx.lit "सा".toList, Rx.spaces,
        Rx.lit "time".toList, Rx.spaces, Rx.lit "convenient".toList, .wordBoundary],
      -- /\bcall\s+back\s+के\s+लिए\b/gi
      Rx.seqs [.wordBoundary, Rx.lit "call".toList, Rx.spaces, Rx.lit "back".toList, Rx.spaces,
        Rx.lit "के".toList, Rx.spaces, Rx.lit "लिए".toList, .wordBoundary],
      -- /\bथोड़ी\s+देर\s+बाद\b/gi
      Rx.seqs [.wordBoundary, Rx.lit "थोड़ी".toList, Rx.spaces, Rx.lit "देर".toList, Rx.spaces,
        Rx.lit "बाद".toList, .wordBoundary],
      -- /\bदोबारा\s+try\s+करूँगी\b/gi
      Rx.seqs [.wordBoundary, Rx.lit "दोबारा".toList, Rx.spaces, Rx.lit "try".toList, Rx.spaces,
        Rx.lit "करूँगी".toList, .wordBoundary],
      -- /\bspecified\s+time\b/gi
      Rx.seqs [.wordBoundary, Rx.lit "specified".toList, Rx.spaces, Rx.lit "time".toList,
        .wordBoundary],
      -- /\b8\s+AM\s+to\s+10\s+PM\b/gi
      Rx.seqs [.wordBoundary, Rx.lit "8".toList, Rx.spaces, Rx.lit "AM".toList, Rx.spaces,
        Rx.lit "to".toList, Rx.spaces, Rx.lit "10".toList, Rx.spaces, Rx.lit "PM".toList,
        .wordBoundary]
    ] }

/-- The catalog entry `interest_check`. -/
def interest_check : IntentEntry :=
  { key := "interest_check", score := 15, required := true, step := 6,
    description := "Property interest verification and requirement confirmation",
    patterns := [
      -- /\bआपने\s+recently.*?platform\s+पर\b/gi
      Rx.seqs [.wordBoundary, Rx.lit "आपने".toList, Rx.spaces, Rx.lit "recently".toList,
        Rx.anyLazy, Rx.lit "platform".toList, Rx.spaces, Rx.lit "पर".toList, .wordBoundary],
      -- /\bproperties\s+में\s+interest\s+दिखाया\b/gi
      Rx.seqs [.wordBoundary, Rx.lit "properties".toList, Rx.spaces, Rx.lit "में".toList,
        Rx.spaces, Rx.lit "interest".toList, Rx.spaces, Rx.lit "दिखाया".toList, .wordBoundary],
      -- /\bsearch\s+कर\s+रहे\s+हैं\b/gi
      Rx.seqs [.wordBoundary, Rx.lit "search".toList, Rx.spaces, Rx.lit "कर".toList, Rx.spaces,
        Rx.lit "रहे".toList, Rx.spaces, Rx.lit "हैं".toList, .wordBoundary],
      -- /\bक्या\s+यह\s+सही\s+है\b/gi
      Rx.seqs [.wordBoundary, Rx.lit "क्या".toList, Rx.spaces, Rx.lit "यह".toList, Rx.spaces,
        Rx.lit "सही".toList, Rx.spaces, Rx.lit "है".toList, .wordBoundary],
      -- /\bBee-etch-kay\b/gi
      Rx.seqs [.wordBoundary, Rx.lit "Bee-etch-kay".toList, .wordBoundary],
      -- /\bTwo\s+बी\s+एच\s+के\b/gi
      Rx.seqs [.wordBoundary, Rx.lit "Two".toList, Rx.spaces, Rx.lit "बी".toList, Rx.spaces,
        Rx.lit "एच".toList, Rx.spaces, Rx.lit "के".toList, .wordBoundary],
      -- /\bFlat|Villa\b/gi
      Rx.alts [Rx.seqs [.wordBoundary, Rx.lit "Flat".toList], Rx.seqs [Rx.lit "Villa".toList,
        .wordBoundary]],
      -- /\bbudget.*?है\b/gi
      Rx.seqs [.wordBoundary, Rx.lit "budget".toList, Rx.anyLazy, Rx.lit "है".toList,
        .wordBoundary],
      -- /\bबजट.*?है\b/gi
      Rx.seqs [.wordBoundary, Rx.lit "बजट".toList, Rx.anyLazy, Rx.lit "है".toList, .wordBoundary],
      -- /\bआप.*?में.*?search\s+कर\s+रहे\s+हैं\b/gi
      Rx.seqs [.wordBoundary, Rx.lit "आप".toList, Rx.anyLazy, Rx.lit "में".toList, Rx.anyLazy,
        Rx.lit "search".toList, Rx.spaces, Rx.lit "कर".toList, Rx.spaces, Rx.lit "रहे".toList,
        Rx.spaces, Rx.lit "हैं".toList, .wordBoundary]
    ] }

/-- The catalog entry `agent_connection_offer`. -/
def agent_connection_offer : IntentEntry :=
  { key := "agent_connection_offer", score := 12, required := true, step := 7,
    description := "Agent connection offer and consent",
    patterns := [
      -- /\bThree\s+top\s+agents\s+shortlist\b/gi
      Rx.seqs [.wordBoundary, Rx.lit "Three".toList, Rx.spaces, Rx.lit "top".toList, Rx.spaces,
        Rx.lit "agents".toList, Rx.spaces, Rx.lit "shortlist".toList, .wordBoundary],
      -- /\b3\s+top\s+agents\s+shortlist\b/gi
      Rx.seqs [.wordBoundary, Rx.lit "3".toList, Rx.spaces, Rx.lit "top".toList, Rx.spaces,
        Rx.lit "agents".toList, Rx.spaces, Rx.lit "shortlist".toList, .wordBoundary],
      -- /\bproperties\s+दिखाएंगे\b/gi
      Rx.seqs [.wordBoundary, Rx.lit "properties".toList, Rx.spaces, Rx.lit "दिखाएंगे".toList,
        .wordBoundary],
      -- /\bsite\s+visits.*?negotiations\b/gi
      Rx.seqs [.wordBoundary, Rx.lit "site".toList, Rx.spaces, Rx.lit "visits".toList, Rx.anyLazy,
        Rx.lit "negotiations".toList, .wordBoundary],
      -- /\bएक\s+agent\s+से\s+connect\b/gi
      Rx.seqs [.wordBoundary, Rx.lit "एक".toList, Rx.spaces, Rx.lit "agent".toList, Rx.spaces,
        Rx.lit "से".toList, Rx.spaces, Rx.lit "connect".toList, .wordBoundary],
      -- /\bक्या\s+हम\s+आगे\s+बढ़ें\b/gi
      Rx.seqs [.wordBoundary, Rx.lit "क्या".toList, Rx.spaces, Rx.lit "हम".toList, Rx.spaces,
        Rx.lit "आगे".toList, Rx.spaces, Rx.lit "बढ़ें".toList, .wordBoundary],
      -- /\bfollow\s+up\s+करेंगे\b/gi
      Rx.seqs [.wordBoundary, Rx.lit "follow".toList, Rx.spaces, Rx.lit "up".toList, Rx.spaces,
        Rx.lit "करेंगे".toList, .wordBoundary],
      -- /\bहमने\s+आपके\s+preferred\s+area\s+में.*?agents\s+shortlist\b/gi
      Rx.seqs [.wordBoundary, Rx.lit "हमने".toList, Rx.spaces, Rx.lit "आपके".toList, Rx.spaces,
        Rx.lit "preferred".toList, Rx.spaces, Rx.lit "area".toList, Rx.spaces,
        Rx.lit "में".toList, Rx.anyLazy, Rx.lit "agents".toList, Rx.spaces,
        Rx.lit "shortlist".toList, .wordBoundary],
      -- /\bagents\s+आपसे\s+जल्दी\s+follow\s+up\b/gi
      Rx.seqs [.wordBoundary, Rx.lit "agents".toList, Rx.spaces, Rx.lit "आपसे".toList, Rx.spaces,
        Rx.lit "जल्दी".toList, Rx.spaces, Rx.lit "follow".toList, Rx.spaces, Rx.lit "up".toList,
        .wordBoundary]
    ] }

/-- The catalog entry `agent_decline_handling`. -/
def agent_decline_handling : IntentEntry :=
  { key := "agent_decline_handling", score := 8, required := false, step := 8,
    description := "Handling agent connection decline",
    patterns := [
      -- /\bबिल्कुल\s+ठीक\s+है\b/gi
      Rx.seqs [.wordBoundary, Rx.lit "बिल्कुल".toList, Rx.spaces, Rx.lit "ठीक".toList, Rx.spaces,
        Rx.lit "है".toList, .wordBoundary],
      -- /\bMagicbricks\s+dot\s+com\b/gi
      Rx.seqs [.wordBoundary, Rx.lit "Magicbricks".toList, Rx.spaces, Rx.lit "dot".toList,
        Rx.spaces, Rx.lit "com".toList, .wordBoundary],
      -- /\bverified\s+listings\s+देख\s+सकते\s+हैं\b/gi
      Rx.seqs [.wordBoundary, Rx.lit "verified".toList, Rx.spaces, Rx.lit "listings".toList,
        Rx.spaces, Rx.lit "देख".toList, Rx.spaces, Rx.lit "सकते".toList, Rx.spaces,
        Rx.lit "हैं".toList, .wordBoundary],
      -- /\bआपका\s+समय\s+देने\s+के\s+लिए\s+धन्यवाद\b/gi
      Rx.seqs [.wordBoundary, Rx.lit "आपका".toList, Rx.spaces, Rx.lit "समय".toList, Rx.spaces,
        Rx.lit "देने".toList, Rx.spaces, Rx.lit "के".toList, Rx.spaces, Rx.lit "लिए".toList,
        Rx.spaces, Rx.lit "धन्यवाद".toList, .wordBoundary],
      -- /\bHave\s+a\s+great\s+day\b/gi
      Rx.seqs [.wordBoundary, Rx.lit "Have".toList, Rx.spaces, Rx.lit "a".toList, Rx.spaces,
        Rx.lit "great".toList, Rx.spaces, Rx.lit "day".toList, .wordBoundary]
    ] }

/-- The catalog entry `call_transfer`. -/
def call_transfer : IntentEntry :=
  { key := "call_transfer", score := 15, required := true, step := 9,
    description := "Call transfer to agent execution",
    patterns := [
      -- /\btransfer_call\b/gi
      Rx.seqs [.wordBoundary, Rx.lit "transfer_call".toList, .wordBoundary],
      -- /\bproperty_type.*?normalized\b/gi
      Rx.seqs [.wordBoundary, Rx.lit "property_type".toList, Rx.anyLazy,
        Rx.lit "normalized".toList, .wordBoundary],
      -- /\bagent\s+से\s+connect\s+कर\s+रही\s+हूँ\b/gi
      Rx.seqs [.wordBoundary, Rx.lit "agent".toList, Rx.spaces, Rx.lit "से".toList, Rx.spaces,
        Rx.lit "connect".toList, Rx.spaces, Rx.lit "कर".toList, Rx.spaces, Rx.lit "रही".toList,
        Rx.spaces, Rx.lit "हूँ".toList, .wordBoundary],
      -- /\bconnecting\s+to\s+agent\b/gi
      Rx.seqs [.wordBoundary, Rx.lit "connecting".toList, Rx.spaces, Rx.lit "to".toList,
        Rx.spaces, Rx.lit "agent".toList, .wordBoundary],
      -- /\bमैं\s+अभी\s+आपको\s+agent\s+से\s+connect\s+करती\s+हूँ\b/gi
      Rx.seqs [.wordBoundary, Rx.lit "मैं".toList, Rx.spaces, Rx.lit "अभी".toList, Rx.spaces,
        Rx.lit "आपको".toList, Rx.spaces, Rx.lit "agent".toList, Rx.spaces, Rx.lit "से".toList,
        Rx.spaces, Rx.lit "connect".toList, Rx.spaces, Rx.lit "करती".toList, Rx.spaces,
        Rx.lit "हूँ".toList, .wordBoundary],
      -- /\bPlease\s+लाइन\s+पर\s+बने\s+रहिए\b/gi
      Rx.seqs [.wordBoundary, Rx.lit "Please".toList, Rx.spaces, Rx.lit "लाइन".toList, Rx.spaces,
        Rx.lit "पर".toList, Rx.spaces, Rx.lit "बने".toList, Rx.spaces, Rx.lit "रहिए".toList,
        .wordBoundary],
      -- /\bआपको\s+agent\s+से\s+connect\b/gi
      Rx.seqs [.wordBoundary, Rx.lit "आपको".toList, Rx.spaces, Rx.lit "agent".toList, Rx.spaces,
        Rx.lit "से".toList, Rx.spaces, Rx.lit "connect".toList, .wordBoundary]
    ] }

/-- The catalog entry `call_ending`. -/
def call_ending : IntentEntry :=
  { key := "call_ending", score := 8, required := false, step := 10,
    description := "Polite call ending",
    patterns := [
      -- /\bआपका\s+समय\s+के\s+लिए\s+धन्यवाद\b/gi
      Rx.seqs [.wordBoundary, Rx.lit "आपका".toList, Rx.spaces, Rx.lit "समय".toList, Rx.spaces,
        Rx.lit "के".toList, Rx.spaces, Rx.lit "लिए".toList, Rx.spaces, Rx.lit "धन्यवाद".toList,
        .wordBoundary],
      -- /\bआपका\s+दिन\s+अच्छा\s+रहे\b/gi
      Rx.seqs [.wordBoundary, Rx.lit "आपका".toList, Rx.spaces, Rx.lit "दिन".toList, Rx.spaces,
        Rx.lit "अच्छा".toList, Rx.spaces, Rx.lit "रहे".toList, .wordBoundary],
      -- /\bHave\s+a\s+great\s+day\b/gi
      Rx.seqs [.wordBoundary, Rx.lit "Have".toList, Rx.spaces, Rx.lit "a".toList, Rx.spaces,
        Rx.lit "great".toList, Rx.spaces, Rx.lit "day".toList, .wordBoundary],
      -- /\bthank\s+you\s+for\s+your\s+time\b/gi
      Rx.seqs [.wordBoundary, Rx.lit "thank".toList, Rx.spaces, Rx.lit "you".toList, Rx.spaces,
        Rx.lit "for".toList, Rx.spaces, Rx.lit "your".toList, Rx.spaces, Rx.lit "time".toList,
        .wordBoundary]
    ] }

/-- The catalog entry `voicemail_response`. -/
def voicemail_response : IntentEntry :=
  { key := "voicemail_response", score := 8, required := false, step := 11,
    description := "Voicemail message handling",
    patterns := [
      -- /\bमैं.*?बोल\s+रही\s+हूँ\s+Magicbricks\s+से\b/gi
      Rx.seqs [.wordBoundary, Rx.lit "मैं".toList, Rx.anyLazy, Rx.lit "बोल".toList, Rx.spaces,
        Rx.lit "रही".toList, Rx.spaces, Rx.lit "हूँ".toList, Rx.spaces,
        Rx.lit "Magicbricks".toList, Rx.spaces, Rx.lit "से".toList, .wordBoundary],
      -- /\bproperty\s+search\s+के\s+बारे\s+में\b/gi
      Rx.seqs [.wordBoundary, Rx.lit "property".toList, Rx.spaces, Rx.lit "search".toList,
        Rx.spaces, Rx.lit "के".toList, Rx.spaces, Rx.lit "बारे".toList, Rx.spaces,
        Rx.lit "में".toList, .wordBoundary],
      -- /\bजल्द\s+ही\s+दोबारा\s+call\b/gi
      Rx.seqs [.wordBoundary, Rx.lit "जल्द".toList, Rx.spaces, Rx.lit "ही".toList, Rx.spaces,
        Rx.lit "दोबारा".toList, Rx.spaces, Rx.lit "call".toList, .wordBoundary],
      -- /\bvoicemail.*?message\b/gi
      Rx.seqs [.wordBoundary, Rx.lit "voicemail".toList, Rx.anyLazy, Rx.lit "message".toList,
        .wordBoundary],
      -- /\bafter\s+the\s+tone\b/gi
      Rx.seqs [.wordBoundary, Rx.lit "after".toList, Rx.spaces, Rx.lit "the".toList, Rx.spaces,
        Rx.lit "tone".toList, .wordBoundary]
    ] }

/-- The catalog entry `wrong_number_handling`. -/
def wrong_number_handling : IntentEntry :=
  { key := "wrong_number_handling", score := 8, required := false, step := 12,
    description := "Wrong number acknowledgment",
    patterns := [
      -- /\bSorry.*?गलत\s+number\b/gi
      Rx.seqs [.wordBoundary, Rx.lit "Sorry".toList, Rx.anyLazy, Rx.lit "गलत".toList, Rx.spaces,
        Rx.lit "number".toList, .wordBoundary],
      -- /\bwrong\s+number\s+पर\s+call\b/gi
      Rx.seqs [.wordBoundary, Rx.lit "wrong".toList, Rx.spaces, Rx.lit "number".toList, Rx.spaces,
        Rx.lit "पर".toList, Rx.spaces, Rx.lit "call".toList, .wordBoundary],
      -- /\bगलत\s+number\s+लग\s+गया\b/gi
      Rx.seqs [.wordBoundary, Rx.lit "गलत".toList, Rx.spaces, Rx.lit "number".toList, Rx.spaces,
        Rx.lit "लग".toList, Rx.spaces, Rx.lit "गया".toList, .wordBoundary]
    ] }

/-- The catalog entry `goodbye`. -/
def goodbye : IntentEntry :=
  { key := "goodbye", score := 5, required := true, step := 13,
    description := "Final goodbye",
    patterns := [
      -- /\bGoodbye\b/gi
      Rx.seqs [.wordBoundary, Rx.lit "Goodbye".toList, .wordBoundary],
      -- /\bधन्यवाद\b/gi
      Rx.seqs [.wordBoundary, Rx.lit "धन्यवाद".toList, .wordBoundary],
      -- /\bbye\b/gi
      Rx.seqs [.wordBoundary, Rx.lit "bye".toList, .wordBoundary],
      -- /\btake\s+care\b/gi
      Rx.seqs [.wordBoundary, Rx.lit "take".toList, Rx.spaces, Rx.lit "care".toList,
        .wordBoundary],
      -- /\bHave\s+a\s+great\s+day\b/gi
      Rx.seqs [.wordBoundary, Rx.lit "Have".toList, Rx.spaces, Rx.lit "a".toList, Rx.spaces,
        Rx.lit "great".toList, Rx.spaces, Rx.lit "day".toList, .wordBoundary]
    ] }

/-- The catalog entry `objection_handling`. -/
def objection_handling : IntentEntry :=
  { key := "objection_handling", score := 10, required := false, step := 0,
    description := "Customer objection handling responses",
    patterns := [
      -- /\bAgents\s+से\s+बार-बार\s+calls\s+नहीं\s+चाहिए\b/gi
      Rx.seqs [.wordBoundary, Rx.lit "Agents".toList, Rx.spaces, Rx.lit "से".toList, Rx.spaces,
        Rx.lit "बार-बार".toList, Rx.spaces, Rx.lit "calls".toList, Rx.spaces,
        Rx.lit "नहीं".toList, Rx.spaces, Rx.lit "चाहिए".toList, .wordBoundary],
      -- /\bबहुत\s+सारे\s+agents\s+call\s+कर\s+रहे\s+हैं\b/gi
      Rx.seqs [.wordBoundary, Rx.lit "बहुत".toList, Rx.spaces, Rx.lit "सारे".toList, Rx.spaces,
        Rx.lit "agents".toList, Rx.spaces, Rx.lit "call".toList, Rx.spaces, Rx.lit "कर".toList,
        Rx.spaces, Rx.lit "रहे".toList, Rx.spaces, Rx.lit "हैं".toList, .wordBoundary],
      -- /\bबस\s+agent\s+का\s+number\s+दे\s+दो\b/gi
      Rx.seqs [.wordBoundary, Rx.lit "बस".toList, Rx.spaces, Rx.lit "agent".toList, Rx.spaces,
        Rx.lit "का".toList, Rx.spaces, Rx.lit "number".toList, Rx.spaces, Rx.lit "दे".toList,
        Rx.spaces, Rx.lit "दो".toList, .wordBoundary],
      -- /\bमैं\s+अभी\s+बस\s+browse\s+कर\s+रहा\s+हूँ\b/gi
      Rx.seqs [.wordBoundary, Rx.lit "मैं".toList, Rx.spaces, Rx.lit "अभी".toList, Rx.spaces,
        Rx.lit "बस".toList, Rx.spaces, Rx.lit "browse".toList, Rx.spaces, Rx.lit "कर".toList,
        Rx.spaces, Rx.lit "रहा".toList, Rx.spaces, Rx.lit "हूँ".toList, .wordBoundary],
      -- /\bresearch\s+phase\s+में\s+हूँ\b/gi
      Rx.seqs [.wordBoundary, Rx.lit "research".toList, Rx.spaces, Rx.lit "phase".toList,
        Rx.spaces, Rx.lit "में".toList, Rx.spaces, Rx.lit "हूँ".toList, .wordBoundary],
      -- /\bक्या\s+यह\s+service\s+free\s+है\b/gi
      Rx.seqs [.wordBoundary, Rx.lit "क्या".toList, Rx.spaces, Rx.lit "यह".toList, Rx.spaces,
        Rx.lit "service".toList, Rx.spaces, Rx.lit "free".toList, Rx.spaces, Rx.lit "है".toList,
        .wordBoundary],
      -- /\bमैंने\s+search\s+ही\s+नहीं\s+किया\b/gi
      Rx.seqs [.wordBoundary, Rx.lit "मैंने".toList, Rx.spaces, Rx.lit "search".toList, Rx.spaces,
        Rx.lit "ही".toList, Rx.spaces, Rx.lit "नहीं".toList, Rx.spaces, Rx.lit "किया".toList,
        .wordBoundary],
      -- /\bproperty\s+search\s+नहीं\s+कर\s+रही\b/gi
      Rx.seqs [.wordBoundary, Rx.lit "property".toList, Rx.spaces, Rx.lit "search".toList,
        Rx.spaces, Rx.lit "नहीं".toList, Rx.spaces, Rx.lit "कर".toList, Rx.spaces,
        Rx.lit "रही".toList, .wordBoundary]
    ] }

/-- The catalog entry `fetch_data_trigger`. -/
def fetch_data_trigger : IntentEntry :=
  { key := "fetch_data_trigger", score := 5, required := false, step := 0,
    description := "Data fetching action triggers",
    patterns := [
      -- /\bFETCH_DATA\b/gi
      Rx.seqs [.wordBoundary, Rx.lit "FETCH_DATA".toList, .wordBoundary],
      -- /\bFETCH_NUMBERS\b/gi
      Rx.seqs [.wordBoundary, Rx.lit "FETCH_NUMBERS".toList, .wordBoundary],
      -- /\bcity.*?area.*?updated\b/gi
      Rx.seqs [.wordBoundary, Rx.lit "city".toList, Rx.anyLazy, Rx.lit "area".toList, Rx.anyLazy,
        Rx.lit "updated".toList, .wordBoundary],
      -- /\blocality.*?changed\b/gi
      Rx.seqs [.wordBoundary, Rx.lit "locality".toList, Rx.anyLazy, Rx.lit "changed".toList,
        .wordBoundary]
    ] }

/-- The table `intentPatterns`, in the order of `Object.entries`: the order of definition. -/
def intentPatterns : List IntentEntry :=
  [initial_greeting, third_party_interaction, busy_response, connection_failure,
   callback_scheduling, interest_check, agent_connection_offer, agent_decline_handling,
   call_transfer, call_ending, voicemail_response, wrong_number_handling, goodbye,
   objection_handling, fetch_data_trigger]

/-! ## Intent classifier -/

/-- The record `bestMatch` of `enhancedIntentDetection`. -/
structure BestMatch where
  intent : String
  step : String
  confidence : ℚ
  stepNumber : ℕ
  deriving DecidableEq

/-- The `lastIndex` fields of the patterns of the catalog: one list for each entry, in the
order of the catalog, one number for each pattern.  A missing number is 0, the value of
`lastIndex` when the analyzer is constructed. -/
abbrev PatternState := List (List ℕ)

/-- The state of the patterns of a newly constructed analyzer. -/
def PatternState.initial : PatternState := []

/-- The inner loop of lines 1428-1434 over the patterns of one entry: the number
`patternMatches` of patterns that `test` accepts, and the `lastIndex` fields afterwards. -/
def testPatterns (text : List Char) : List Rx → List ℕ → ℕ × List ℕ
  | [], _ => (0, [])
  | pattern :: patterns, lastIndexes =>
    let tested := pattern.testGlobal true (lastIndexes.headD 0) text
    let rest := testPatterns text patterns lastIndexes.tail
    ((if tested.1 then 1 else 0) + rest.1, tested.2 :: rest.2)

/-- The confidence of lines 1437-1449, before the adjustments, in the arithmetic of doubles;
every entry of the catalog has at least three patterns, so the division is by a positive
number. -/
def baseConfidence (intentType : String) (patternMatches totalPatterns : ℕ) : ℚ :=
  let confidence : ℚ := jsDiv patternMatches totalPatterns
  if patternMatches > 0 then
    if intentType ∈ ["initial_greeting", "interest_check", "agent_connection_offer",
        "call_transfer"] then min (toDouble (95 / 100)) (jsAdd confidence (toDouble (3 / 10)))
    else if patternMatches = totalPatterns then
      min (toDouble (95 / 100)) (jsAdd confidence (toDouble (2 / 10)))
    else min (toDouble (85 / 100)) (jsAdd confidence (toDouble (15 / 100)))
  else confidence

/-- The test `speaker.toLowerCase().includes('bot') || speaker.toLowerCase().includes('agent')`. -/
def isAgentSpeaker (speaker : String) : Bool :=
  includes "bot".toList (toLowerCase speaker.toList) ||
  includes "agent".toList (toLowerCase speaker.toList)

/-- The method `getExpectedSequenceBonus`. -/
def getExpectedSequenceBonus (intentType : String) (turnIndex : ℕ) : ℚ :=
  if intentType = "initial_greeting" then (if turnIndex < 3 then toDouble (1 / 10) else 0)
  else if intentType = "interest_check" then
    (if turnIndex > 2 ∧ turnIndex < 8 then toDouble (15 / 100) else 0)
  else if intentType = "agent_connection_offer" then
    (if turnIndex > 5 ∧ turnIndex < 12 then toDouble (15 / 100) else 0)
  else if intentType = "call_transfer" then (if turnIndex > 8 then toDouble (2 / 10) else 0)
  else 0

/-- The method `superEnhancedConfidenceAdjustment`, in the arithmetic of doubles; its
arguments `allTurns` and `textLower` are not read. -/
def superEnhancedConfidenceAdjustment (confidence : ℚ) (intentType speaker : String)
    (turnIndex : ℕ) (_allTurns : List Turn) (originalText : List Char) : ℚ :=
  let c1 :=
    if intentType = "initial_greeting" ∧ includes "Magicbricks".toList originalText = true then
      min (toDouble (95 / 100)) (jsAdd confidence (toDouble (2 / 10)))
    else confidence
  let c2 :=
    if intentType = "interest_check" ∧
        (includes "search कर रहे हैं".toList originalText ||
          includes "क्या यह सही है".toList originalText) = true then
      min (toDouble (95 / 100)) (jsAdd c1 (toDouble (25 / 100)))
    else c1
  let c3 :=
    if intentType = "agent_connection_offer" ∧
        includes "agents shortlist".toList originalText = true then
      min (toDouble (95 / 100)) (jsAdd c2 (toDouble (25 / 100)))
    else c2
  let c4 :=
    if intentType = "call_transfer" ∧
        (includes "connect करती हूँ".toList originalText ||
          includes "लाइन पर बने रहिए".toList originalText) = true then
      min (toDouble (95 / 100)) (jsAdd c3 (toDouble (3 / 10)))
    else c3
  let c5 :=
    if isAgentSpeaker speaker = true ∧
        intentType ∈ ["initial_greeting", "interest_check", "agent_connection_offer",
          "call_transfer"] then
      min (toDouble (95 / 100)) (jsAdd c4 (toDouble (1 / 10)))
    else c4
  if turnIndex > 0 then
    min (toDouble (95 / 100)) (jsAdd c5 (getExpectedSequenceBonus intentType turnIndex))
  else c5

/-- The method `getEnhancedIntentDescription`: of the keys of its table only three are keys
of the intent catalog. -/
def getEnhancedIntentDescription (intentType : String) : String :=
  if intentType = "initial_greeting" then "Initial greeting and agent introduction"
  else if intentType = "identity_verification" then "Student/parent identity verification"
  else if intentType = "parent_response" then "Parent engagement and information setup"
  else if intentType = "class_x_status" then "Class X board exam status inquiry"
  else if intentType = "marks_percentage" then "Class X marks and percentage collection"
  else if intentType = "admission_status" then "Class XI admission status verification"
  else if intentType = "institution_type" then "School/institution type identification"
  else if intentType = "school_board_details" then "School name and board affiliation"
  else if intentType = "stream_selection" then "Academic stream and subject selection"
  else if intentType = "admission_proof" then "Admission document collection"
  else if intentType = "dropout_investigation" then "Dropout reason investigation"
  else if intentType = "summary_confirmation" then "Information summary and confirmation"
  else if intentType = "closing_statement" then "Professional closing and next steps"
  else if intentType = "callback_scheduling" then "Callback appointment scheduling"
  else if intentType = "goodbye" then "Final farewell and call termination"
  else "General conversation"

/-- The initial value of `bestMatch`: lines 1414-1419; its confidence is the double 0.2. -/
def defaultMatch : BestMatch :=
  { intent := "General conversation", step := "unknown", confidence := toDouble (2 / 10),
    stepNumber := 0 }

/-- The confidence of one entry after `superEnhancedConfidenceAdjustment`, for the number
`patternMatches` of its patterns that matched: lines 1437-1452. -/
def adjustedConfidence (intentType : String) (patternMatches totalPatterns : ℕ)
    (speaker : String) (turnIndex : ℕ) (allTurns : List Turn) (text : List Char) : ℚ :=
  superEnhancedConfidenceAdjustment (baseConfidence intentType patternMatches totalPatterns)
    intentType speaker turnIndex allTurns text

/-- The loop of lines 1422-1462 over the entries of the catalog: the value of `bestMatch`
after the loop and the `lastIndex` fields that its pattern tests leave behind. -/
def intentLoop (text : List Char) (speaker : String) (turnIndex : ℕ) (allTurns : List Turn) :
    List IntentEntry → PatternState → BestMatch → BestMatch × PatternState
  | [], _, bestMatch => (bestMatch, [])
  | intentData :: entries, state, bestMatch =>
    let tested := testPatterns text intentData.patterns (state.headD [])
    let confidence := adjustedConfidence intentData.key tested.1 intentData.patterns.length
      speaker turnIndex allTurns text
    let bestMatch' : BestMatch :=
      if confidence > bestMatch.confidence then
        { intent := getEnhancedIntentDescription intentData.key, step := intentData.key,
          confidence := confidence, stepNumber := intentData.step }
      else bestMatch
    let rest := intentLoop text speaker turnIndex allTurns entries state.tail bestMatch'
    (rest.1, tested.2 :: rest.2)

/-- The method `superEnhancedSpeakerAdjustments`, in the arithmetic of doubles; its argument
`text` is not read. -/
def superEnhancedSpeakerAdjustments (bestMatch : BestMatch) (speaker : String) : BestMatch :=
  let c1 :=
    if isAgentSpeaker speaker = true ∧
        bestMatch.step ∈ ["interest_check", "agent_connection_offer", "call_transfer"] then
      min (toDouble (95 / 100)) (jsAdd bestMatch.confidence (toDouble (15 / 100)))
    else bestMatch.confidence
  let c2 :=
    if c1 > toDouble (3 / 10) ∧ bestMatch.step ≠ "unknown" then max (toDouble (5 / 10)) c1
    else c1
  { bestMatch with confidence := c2 }

/-- The method `enhancedIntentDetection` on an analyzer whose patterns are in the state
`state`: the record returned, and the state of the patterns afterwards. -/
def enhancedIntentDetection (state : PatternState) (text : List Char) (speaker : String)
    (turnIndex : ℕ) (allTurns : List Turn) : BestMatch × PatternState :=
  let looped := intentLoop text speaker turnIndex allTurns intentPatterns state defaultMatch
  (superEnhancedSpeakerAdjustments looped.1 speaker, looped.2)

/-- An entry of `stepProgression`. -/
structure StepProgress where
  step : ℕ
  intent : String
  confidence : ℚ
  turnNumber : ℕ

/-- The value of `text.substring(0, n)`: the first `n` UTF-16 code units.  When the cut falls
between the two code units of a character outside the Basic Multilingual Plane, U+FFFD
stands for the surrogate that is left (see `codeUnits`). -/
def substringUnits : ℕ → List Char → List Char
  | 0, _ => []
  | _, [] => []
  | 1, c :: _ => if c.toNat < 65536 then [c] else [Char.ofNat 65533]
  | n + 2, c :: s =>
    if c.toNat < 65536 then c :: substringUnits (n + 1) s else c :: substringUnits n s

/-- The text of a mapping, truncated for display: line 1344. -/
def displayText (text : List Char) : List Char :=
  substringUnits 100 text ++ (if utf16Length text > 100 then "...".toList else [])

/-- The loop of `detectIntents` over the turns (lines 1337-1364), from the turn of index `i`
on: the mappings, the step progression and the state of the patterns afterwards.  The
confidence of a mapping is `Math.round(confidence * 100) / 100`: the product is rounded as a
double, the quotient is kept as the number `n / 100` of two decimals that it stands for, the
methods that read the mappings comparing it with decimals. -/
def detectIntentsLoop (allTurns : List Turn) :
    ℕ → List Turn → PatternState → List IntentMapping × List StepProgress × PatternState
  | _, [], state => ([], [], state)
  | i, turn :: rest, state =>
    let detected := enhancedIntentDetection state turn.text turn.speaker i allTurns
    let mapping : IntentMapping :=
      { turnNumber := i + 1, speaker := turn.speaker, text := displayText turn.text,
        detectedIntent := detected.1.intent,
        confidence := jsRound (jsMul detected.1.confidence 100) / 100,
        conversationStep := detected.1.step, stepNumber := detected.1.stepNumber }
    let progress : List StepProgress :=
      if detected.1.step ≠ "unknown" then
        [{ step := detected.1.stepNumber, intent := detected.1.step,
           confidence := detected.1.confidence, turnNumber := i + 1 }]
      else []
    let later := detectIntentsLoop allTurns (i + 1) rest detected.2
    (mapping :: later.1, progress ++ later.2.1, later.2.2)

/-! ## Contextual flow score -/

/-- An entry of the table `conversationSteps`, as far as the flow score reads it. -/
structure StepInfo where
  name : String
  intent : String
  critical : Bool

/-- The table `conversationSteps` (lines 247-261); none is `undefined`. -/
def conversationSteps (stepNum : ℕ) : Option StepInfo :=
  match stepNum with
  | 1 => some ⟨"Initial Greeting", "initial_greeting", true⟩
  | 2 => some ⟨"Third Party Interaction", "third_party_interaction", false⟩
  | 3 => some ⟨"Busy Response", "busy_response", false⟩
  | 4 => some ⟨"Connection Failure", "connection_failure", false⟩
  | 5 => some ⟨"Callback Scheduling", "callback_scheduling", false⟩
  | 6 => some ⟨"Interest Check & Property Confirmation", "interest_check", true⟩
  | 7 => some ⟨"Agent Connection Offer", "agent_connection_offer", true⟩
  | 8 => some ⟨"Agent Decline Handling", "agent_decline_handling", false⟩
  | 9 => some ⟨"Call Transfer to Agent", "call_transfer", true⟩
  | 10 => some ⟨"Call Ending", "call_ending", true⟩
  | 11 => some ⟨"Voicemail Response", "voicemail_response", false⟩
  | 12 => some ⟨"Wrong Number Handling", "wrong_number_handling", false⟩
  | 13 => some ⟨"Goodbye", "goodbye", true⟩
  | _ => none

/-- The table `conversationContexts` (lines 264-315). -/
def conversationContexts : List ConversationContext :=
  [successful_property_inquiry, alternative_successful_flow, callback_scenario,
   voicemail_scenario, wrong_number, failed_inquiry]

/-- The array method `join(' ')`. -/
def joinSpace : List (List Char) → List Char
  | [] => []
  | [t] => t
  | t :: ts => t ++ ' ' :: joinSpace ts

/-- The method `isConditionMet`. -/
def isConditionMet (condition : String) (conversationContent : List Char)
    (intentMappings : List IntentMapping) : Bool :=
  let hasStep (step : String) : Bool := intentMappings.any (fun m => m.conversationStep = step)
  if condition = "third_party_answers" then hasStep "third_party_interaction"
  else if condition = "customer_busy" then
    includes "busy".toList conversationContent ||
    includes "व्यस्त".toList conversationContent || hasStep "busy_response"
  else if condition = "connection_issues" then
    includes "connection".toList conversationContent ||
    includes "network".toList conversationContent || hasStep "connection_failure"
  else if condition = "needs_callback" then
    includes "callback".toList conversationContent ||
    includes "call back".toList conversationContent ||
    includes "बाद में".toList conversationContent || hasStep "callback_scheduling"
  else if condition = "agent_accepted" then
    includes "yes".toList conversationContent ||
    includes "हाँ".toList conversationContent ||
    includes "okay".toList conversationContent ||
    includes "ठीक है".toList conversationContent || hasStep "call_transfer"
  else if condition = "agent_declined" then
    includes "no".toList conversationContent ||
    includes "नहीं".toList conversationContent ||
    includes "not interested".toList conversationContent || hasStep "agent_decline_handling"
  else if condition = "call_completion" then hasStep "call_ending" || hasStep "goodbye"
  else if condition = "voicemail_detected" then
    includes "voicemail".toList conversationContent ||
    includes "message".toList conversationContent ||
    includes "after the tone".toList conversationContent || hasStep "voicemail_response"
  else if condition = "wrong_number" then
    includes "wrong number".toList conversationContent ||
    includes "गलत number".toList conversationContent || hasStep "wrong_number_handling"
  else false

/-- The result of `calculateContextualFlowScore`. -/
structure ContextualAnalysis where
  flowScore : JsNum
  completedRequiredSteps : ℕ
  totalRequiredSteps : ℕ
  missingCriticalSteps : List String
  contextName : String
  requiredStepsScore : JsNum
  conditionalScore : ℚ
  confidenceBonus : ℚ
  sequentialBonus : ℚ

/-- The counters `applicableConditionalSteps` and `completedConditionalSteps` after the loop
of lines 1833-1839 over the conditional categories of the context. -/
def conditionalCounts (completedSteps : List ℕ) (conversationContent : List Char)
    (intentMappings : List IntentMapping) : List (String × List ℕ) → ℕ × ℕ
  | [] => (0, 0)
  | (condition, steps) :: categories =>
    let rest := conditionalCounts completedSteps conversationContent intentMappings categories
    if isConditionMet condition conversationContent intentMappings then
      (steps.length + rest.1, (steps.filter (fun step => completedSteps.contains step)).length + rest.2)
    else rest

/-- The counter of the loop of lines 1858-1862: the pairs of neighbours of the step
progression whose step numbers do not decrease. -/
def nonDecreasingPairs : List StepProgress → ℕ
  | a :: b :: rest => (if b.step ≥ a.step then 1 else 0) + nonDecreasingPairs (b :: rest)
  | _ => 0

/-- The method `calculateContextualFlowScore`.  Every context of the catalog defines
`conditional_steps`, so the branch for a context without them is not embedded. -/
def calculateContextualFlowScore (conversationContext : ConversationContext)
    (stepProgression : List StepProgress) (intentMappings : List IntentMapping) :
    ContextualAnalysis :=
  let requiredSteps := conversationContext.required_steps
  let completedSteps := stepProgression.map (fun p => p.step)
  let completedRequiredSteps := requiredSteps.filter (fun step => completedSteps.contains step)
  let requiredStepsScore :=
    (JsNum.div completedRequiredSteps.length requiredSteps.length).scale 40
  let conversationContent :=
    joinSpace (intentMappings.map (fun m => toLowerCase m.text))
  let counts := conditionalCounts completedSteps conversationContent intentMappings
    conversationContext.conditional_steps
  let conditionalScore : ℚ :=
    if counts.1 > 0 then ((counts.2 : ℚ) / (counts.1 : ℚ)) * 20 else 20
  let highConfidenceSteps :=
    (stepProgression.filter (fun p => decide (p.confidence > 7 / 10))).length
  let confidenceBonus : ℚ :=
    if stepProgression.length > 0 then
      ((highConfidenceSteps : ℚ) / (stepProgression.length : ℚ)) * 10
    else 0
  let sequentialCount : ℚ := nonDecreasingPairs stepProgression
  let sequentialBonus : ℚ :=
    if stepProgression.length > 1 then
      (sequentialCount / ((stepProgression.length : ℚ) - 1)) * 10
    else sequentialCount
  let flowScore :=
    ((((JsNum.fin (0 + 20)).add requiredStepsScore).add (JsNum.fin conditionalScore)).add
      (JsNum.fin confidenceBonus)).add (JsNum.fin sequentialBonus)
  let criticalRequiredSteps := requiredSteps.filter (fun stepNum =>
    match conversationSteps stepNum with
    | some stepInfo => stepInfo.critical
    | none => false)
  let missingCriticalSteps :=
    (criticalRequiredSteps.filter (fun step => !completedSteps.contains step)).filterMap
      (fun step => (conversationSteps step).map (fun stepInfo => stepInfo.intent))
  { flowScore := JsNum.minWith 100 (JsNum.maxWith 0 flowScore),
    completedRequiredSteps := completedRequiredSteps.length,
    totalRequiredSteps := requiredSteps.length,
    missingCriticalSteps := missingCriticalSteps,
    contextName := conversationContext.name,
    requiredStepsScore := requiredStepsScore,
    conditionalScore := conditionalScore,
    confidenceBonus := confidenceBonus,
    sequentialBonus := sequentialBonus }

/-! ## Intent analysis of a call -/

/-- The part of the result of `detectIntents` that the aggregator and the properties below
read (the averaged confidence and the quality rating are left out). -/
structure IntentAnalysis where
  intentMappings : List IntentMapping
  flowScore : JsNum
  completedSteps : ℕ
  totalRequiredSteps : ℕ
  stepProgression : List StepProgress
  missingCriticalSteps : List ℕ
  objectiveAchieved : Bool
  completionRate : ℚ

/-- The method `getDefaultIntentAnalysis`. -/
def getDefaultIntentAnalysis : IntentAnalysis :=
  { intentMappings := [], flowScore := JsNum.fin 50, completedSteps := 0,
    totalRequiredSteps := 4, stepProgression := [], missingCriticalSteps := [1, 6, 7, 9],
    objectiveAchieved := false, completionRate := 0 }

/-- The method `detectIntents` on an analyzer with the parse cache `cache` and the pattern
state `state`: the analysis, and the cache and the pattern state afterwards. -/
def detectIntents (cache : ParseCache) (state : PatternState) (transcript : TranscriptArg) :
    IntentAnalysis × ParseCache × PatternState :=
  let parsed := parseTranscriptTurns cache transcript
  let turns := parsed.1
  if turns.length = 0 then (getDefaultIntentAnalysis, parsed.2, state)
  else
    let looped := detectIntentsLoop turns 0 turns state
    let intentMappings := looped.1
    let stepProgression := looped.2.1
    let conversationContext := determineConversationContext intentMappings
    let contextualAnalysis :=
      calculateContextualFlowScore conversationContext stepProgression intentMappings
    let objectiveAnalysis := analyzeCallObjectiveCompletion intentMappings conversationContext
    ({ intentMappings := intentMappings,
       flowScore := JsNum.maxWith 0 (JsNum.minWith 100 contextualAnalysis.flowScore),
       completedSteps := objectiveAnalysis.completedCriticalSteps.length,
       totalRequiredSteps := objectiveAnalysis.totalCriticalSteps,
       stepProgression := stepProgression,
       missingCriticalSteps := objectiveAnalysis.missingCriticalSteps,
       objectiveAchieved := objectiveAnalysis.objectiveAchieved,
       completionRate := objectiveAnalysis.completionRate },
     parsed.2, looped.2.2)

/-! ## The classifier seen entry by entry

What the loop of `enhancedIntentDetection` reads of each entry once its patterns are tested,
and the selection of the best entry in the words of the specification. -/

/-- An entry of the catalog with the number of its patterns that matched. -/
structure EntryMatch where
  key : String
  step : ℕ
  patternMatches : ℕ
  totalPatterns : ℕ
  deriving DecidableEq

/-- The entries of the catalog with the match counts that the pattern tests of one call of
`enhancedIntentDetection` find, the patterns being in the state `state` before the call. -/
def matchTable (text : List Char) : List IntentEntry → PatternState → List EntryMatch
  | [], _ => []
  | intentData :: entries, state =>
    { key := intentData.key, step := intentData.step,
      patternMatches := (testPatterns text intentData.patterns (state.headD [])).1,
      totalPatterns := intentData.patterns.length } :: matchTable text entries state.tail

/-- The state of the patterns after one call of `enhancedIntentDetection`. -/
def nextPatternState (text : List Char) : List IntentEntry → PatternState → PatternState
  | [], _ => []
  | intentData :: entries, state =>
    (testPatterns text intentData.patterns (state.headD [])).2 ::
      nextPatternState text entries state.tail

/-- The adjusted confidence of a tested entry. -/
def EntryMatch.confidence (m : EntryMatch) (speaker : String) (turnIndex : ℕ)
    (allTurns : List Turn) (text : List Char) : ℚ :=
  adjustedConfidence m.key m.patternMatches m.totalPatterns speaker turnIndex allTurns text

/-- The record that the loop stores for a tested entry. -/
def EntryMatch.toBestMatch (m : EntryMatch) (confidence : ℚ) : BestMatch :=
  { intent := getEnhancedIntentDescription m.key, step := m.key, confidence := confidence,
    stepNumber := m.step }

/-- One round of the loop on a tested entry: the comparison of lines 1454-1461. -/
def pickBest (speaker : String) (turnIndex : ℕ) (allTurns : List Turn) (text : List Char)
    (bestMatch : BestMatch) (m : EntryMatch) : BestMatch :=
  if m.confidence speaker turnIndex allTurns text > bestMatch.confidence then
    m.toBestMatch (m.confidence speaker turnIndex allTurns text)
  else bestMatch

/-- The selection in the words of the specification: the earliest entry among those whose
adjusted confidence exceeds 0.2 and is the highest of all, the default record when no
adjusted confidence exceeds 0.2. -/
def specSelect (scored : List (EntryMatch × ℚ)) : BestMatch :=
  match scored.find? (fun p =>
      decide (p.2 > toDouble (2 / 10)) && scored.all (fun q => decide (q.2 ≤ p.2))) with
  | some p => p.1.toBestMatch p.2
  | none => defaultMatch

/-- The completed members of a list of step numbers, in the words of the specification:
those that are the step number of some mapping with confidence above 0.4. -/
def specCompletedCount (steps : List ℕ) (intentMappings : List IntentMapping) : ℕ :=
  (steps.filter (fun s =>
    decide (∃ m ∈ intentMappings, m.stepNumber = s ∧ m.confidence > 4 / 10))).length

/-- The text contains one of the phrases for which `superEnhancedConfidenceAdjustment`
raises the confidence of an entry whatever its patterns matched. -/
def hasBoostPhrase (text : List Char) : Bool :=
  includes "Magicbricks".toList text || includes "search कर रहे हैं".toList text ||
  includes "क्या यह सही है".toList text || includes "agents shortlist".toList text ||
  includes "connect करती हूँ".toList text || includes "लाइन पर बने रहिए".toList text

/-- The tested catalog of a call in which no pattern matches. -/
def noMatchTable : List EntryMatch :=
  intentPatterns.map (fun intentData =>
    { key := intentData.key, step := intentData.step, patternMatches := 0,
      totalPatterns := intentData.patterns.length })

/-- The step numbers that the table `conversationSteps` flags as critical. -/
def specCriticalFlagged : List ℕ := [1, 6, 7, 9, 10, 13]

/-- The intent name of a step of the table `conversationSteps`, `unknown` outside it. -/
def stepIntentName (stepNum : ℕ) : String :=
  match conversationSteps stepNum with
  | some stepInfo => stepInfo.intent
  | none => "unknown"

/-- A step progression in which the steps 1 and 6 are completed. -/
def greetingAndInterest : List StepProgress :=
  [{ step := 1, intent := "initial_greeting", confidence := 1 / 2, turnNumber := 1 },
   { step := 6, intent := "interest_check", confidence := 1 / 2, turnNumber := 2 }]

/-- The mappings of a call whose two turns are classified as greeting and interest check:
they resolve to the context `failed_inquiry` and give the progression `greetingAndInterest`. -/
def greetingAndInterestMappings : List IntentMapping :=
  [{ turnNumber := 1, speaker := "agent", text := "Hello".toList,
     detectedIntent := "Initial greeting and agent introduction", confidence := 1 / 2,
     conversationStep := "initial_greeting", stepNumber := 1 },
   { turnNumber := 2, speaker := "customer", text := "Flat".toList,
     detectedIntent := "General conversation", confidence := 1 / 2,
     conversationStep := "interest_check", stepNumber := 6 }]

/-- A transcript in which the bot repeats a block of two lines, a customer line standing
between the two lines of the first block. -/
def interruptedBlockTranscript : List Char :=
  "Bot: Hello there\nHuman: what\nBot: How are you\nBot: Hello there\nBot: How are you".toList

/-- The non-blank lines of a transcript: line 4086. -/
def nonBlankLines (transcript : List Char) : List (List Char) :=
  (splitOnChar '\n' transcript).filter (fun line => !(trim line).isEmpty)

/-- A transcript of two identical bot lines. -/
def helloTwice : List Char := "Chat Bot: Hello\nChat Bot: Hello".toList

/-- The repetition that `detectRepetitions` reports for `helloTwice`. -/
def helloRepetition : Repetition :=
  { type := "single_line_repetition", text1 := "Hello".toList, text2 := "Hello".toList,
    similarityScore := 1, severity := 10, isProblematicRepetition := true,
    repetitionType := none }

/-- The confidence before the adjustments in the words of the specification, for an entry
`intentType` with `n` patterns of which `k` match; the quotient, the sums and the decimals
are those of the arithmetic of doubles. -/
def specBaseConfidence (intentType : String) (k n : ℕ) : ℚ :=
  if k = 0 then jsDiv k n
  else if intentType = "initial_greeting" ∨ intentType = "interest_check" ∨
      intentType = "agent_connection_offer" ∨ intentType = "call_transfer" then
    min (toDouble (95 / 100)) (jsAdd (jsDiv k n) (toDouble (3 / 10)))
  else if k = n then min (toDouble (95 / 100)) (jsAdd (jsDiv k n) (toDouble (2 / 10)))
  else min (toDouble (85 / 100)) (jsAdd (jsDiv k n) (toDouble (15 / 100)))

/-! ## Hallucination detection

`analyzeResponseRelevance` combines six scores that six methods compute from the two texts,
the turn index and the stored patterns of the analyzer. These methods are not embedded: the
values they return in the call made for a turn enter as a `RelevanceComponents` record. -/

/-- The values that `analyzeResponseRelevance` gets from the methods it calls: the six
component scores, which are doubles, and the result of `isObjectionPresent(humanInput)`. -/
structure RelevanceComponents where
  topicRelevance : ℚ
  contextualRelevance : ℚ
  semanticCoherence : ℚ
  factualConsistency : ℚ
  scriptAdherence : ℚ
  objectionHandling : ℚ
  objectionPresent : Bool

/-- The result of `analyzeResponseRelevance`, without the recommendation text. -/
structure RelevanceAnalysis where
  isHallucination : Bool
  type : String
  severity : ℚ
  relevanceScore : ℚ
  contextDeviation : ℚ
  scriptAdherence : ℚ
  objectionHandling : ℚ
  deriving DecidableEq

/-- The method `analyzeResponseRelevance` (lines 3130-3188) on the values of its six
scores, in the arithmetic of doubles: the six products are rounded and added from left to
right, every sum being rounded, and the thresholds are the doubles of the decimals. -/
def analyzeResponseRelevance (c : RelevanceComponents) : RelevanceAnalysis :=
  let relevanceScore : ℚ :=
    jsAdd (jsAdd (jsAdd (jsAdd (jsAdd
      (jsMul c.topicRelevance (toDouble (25 / 100)))
      (jsMul c.contextualRelevance (toDouble (25 / 100))))
      (jsMul c.semanticCoherence (toDouble (2 / 10))))
      (jsMul c.factualConsistency (toDouble (15 / 100))))
      (jsMul c.scriptAdherence (toDouble (1 / 10))))
      (jsMul c.objectionHandling (toDouble (5 / 100)))
  let isHallucination : Bool :=
    decide (relevanceScore < toDouble (65 / 100)) ||
      decide (c.scriptAdherence < toDouble (5 / 10))
  let classified : String × ℚ :=
    if isHallucination then
      if c.scriptAdherence < toDouble (3 / 10) then ("script_deviation", 9)
      else if decide (c.objectionHandling < toDouble (4 / 10)) && c.objectionPresent then
        ("improper_objection_handling", 8)
      else if c.topicRelevance < toDouble (3 / 10) then ("topic_deviation", 8)
      else if c.contextualRelevance < toDouble (4 / 10) then ("context_loss", 7)
      else if c.semanticCoherence < toDouble (5 / 10) then ("semantic_confusion", 6)
      else if c.factualConsistency < toDouble (5 / 10) then ("factual_error", 9)
      else ("general_irrelevance", 5)
    else ("none", 0)
  { isHallucination := isHallucination, type := classified.1, severity := classified.2,
    relevanceScore := relevanceScore, contextDeviation := jsSub 1 c.contextualRelevance,
    scriptAdherence := c.scriptAdherence, objectionHandling := c.objectionHandling }

/-- An entry of `audioData.speechAnalysis`, as far as the analyzer reads it; a field that
is absent is `none`. An entry whose `turnIndex` is not a turn number is never selected and
is left out. -/
structure SpeechSegment where
  turnIndex : ℕ
  confidence : Option ℚ
  hesitationCount : Option ℚ
  wordsPerMinute : Option ℚ
  toneConsistency : Option ℚ

/-- The method `getAudioSegmentForTurn`. -/
def getAudioSegmentForTurn (speechAnalysis : List SpeechSegment) (turnIndex : ℕ) :
    Option SpeechSegment :=
  speechAnalysis.find? (fun segment => segment.turnIndex = turnIndex)

/-- The value of `x || d` for a field that may be absent, `d` being a number. -/
def orDefault (x : Option ℚ) (d : ℚ) : ℚ :=
  match x with
  | some v => if v = 0 then d else v
  | none => d

/-- The method `analyzeResponseRelevanceFromAudio` (lines 3599-3649), on the result
`transcriptAnalysis` of its call of `analyzeResponseRelevance`, in the arithmetic of
doubles. -/
def analyzeResponseRelevanceFromAudio (transcriptAnalysis : RelevanceAnalysis)
    (audioSegment : Option SpeechSegment) : RelevanceAnalysis :=
  match audioSegment with
  | none => transcriptAnalysis
  | some segment =>
    let audioConfidence := orDefault segment.confidence (toDouble (8 / 10))
    let speechHesitation := orDefault segment.hesitationCount 0
    let speechPace := orDefault segment.wordsPerMinute 150
    let toneConsistency := orDefault segment.toneConsistency (toDouble (8 / 10))
    let score0 := transcriptAnalysis.relevanceScore
    let score1 :=
      if audioConfidence < toDouble (6 / 10) then jsMul score0 (toDouble (8 / 10)) else score0
    let score2 := if speechHesitation > 3 then jsMul score1 (toDouble (7 / 10)) else score1
    let score3 := if speechPace > 200 then jsMul score2 (toDouble (9 / 10)) else score2
    let adjustedRelevanceScore :=
      if toneConsistency < toDouble (6 / 10) then jsMul score3 (toDouble (8 / 10)) else score3
    { transcriptAnalysis with
      relevanceScore := adjustedRelevanceScore
      isHallucination := decide (adjustedRelevanceScore < toDouble (6 / 10)) }

/-- An entry of the `hallucinations` list, without its texts. -/
structure HallucinationEvent where
  turnIndex : ℕ
  hallucinationType : String
  severity : ℚ
  relevanceScore : ℚ
  contextDeviation : ℚ
  deriving DecidableEq

/-- The loop of the two detectors (lines 2931-2957 and 3093-3113) from turn number `i` on;
`previous` is `turns[i - 1]` (none for `i = 0`, where the loop of the source has not yet
started) and `analyze humanInput botResponse i` the analysis made for turn `i`. -/
def hallucinationLoop (analyze : List Char → List Char → ℕ → RelevanceAnalysis) :
    ℕ → Option Turn → List Turn → List HallucinationEvent
  | _, _, [] => []
  | i, previous, turn :: rest =>
    let later := hallucinationLoop analyze (i + 1) (some turn) rest
    match previous with
    | none => later
    | some humanTurn =>
      if turn.speaker = "agent" && humanTurn.speaker = "customer" then
        let hallucinationAnalysis := analyze humanTurn.text turn.text i
        if hallucinationAnalysis.isHallucination then
          { turnIndex := i, hallucinationType := hallucinationAnalysis.type,
            severity := hallucinationAnalysis.severity,
            relevanceScore := hallucinationAnalysis.relevanceScore,
            contextDeviation := hallucinationAnalysis.contextDeviation } :: later
        else later
      else later

/-- The method `calculateHallucinationScore`. -/
def calculateHallucinationScore (hallucinations : List HallucinationEvent) (totalTurns : ℕ) :
    ℚ :=
  if hallucinations.length = 0 then 100
  else
    let totalSeverity : ℚ := hallucinations.foldl (fun sum h => sum + h.severity) 0
    let maxPossibleSeverity : ℚ := hallucinations.length * 10
    let severityRatio := totalSeverity / maxPossibleSeverity
    let frequencyPenalty : ℚ :=
      ((hallucinations.length : ℚ) / ((max totalTurns 1 : ℕ) : ℚ)) * 100
    jsRound (max 0 (100 - severityRatio * 60 - frequencyPenalty))

/-- The fields of `conversationState` that the critical-step analysis reads and writes;
`criticalStepAttempts` lists the keys of the map with their counts, in insertion order. -/
structure ConversationState where
  currentStep : ℕ
  expectedContext : String
  criticalStepAttempts : List (ℕ × ℕ)

/-- The result of `analyzeHumanInput`, as far as `detectCriticalStepHallucinations` reads
it. -/
structure HumanInputAnalysis where
  isOffTopic : Bool
  deviationSeverity : ℚ

/-- The result of `analyzeCriticalStepResponse`, as far as `detectCriticalStepHallucinations`
and `updateConversationStateFromResponse` read it. -/
structure CriticalStepResponse where
  detectedStep : ℕ
  isCriticalStepViolation : Bool
  severity : ℚ
  failedToAddress : Bool
  addressingSeverity : ℚ

/-- The methods that the detectors call for a turn and that are not embedded, as the values
they return in that call: the scores of `analyzeResponseRelevance` for the texts and the turn
index, the analysis of a customer turn and the analysis of an agent turn in a conversation
state. -/
structure TurnAnalyses where
  relevanceComponents : List Char → List Char → ℕ → RelevanceComponents
  analyzeHumanInput : List Char → ConversationState → ℕ → HumanInputAnalysis
  analyzeCriticalStepResponse :
    List Char → List Char → ConversationState → ℕ → CriticalStepResponse

/-- The two statements `attempts = map.get(step) || 0; map.set(step, attempts + 1)`. -/
def bumpAttempts : List (ℕ × ℕ) → ℕ → List (ℕ × ℕ)
  | [], step => [(step, 1)]
  | (key, attempts) :: rest, step =>
    if key = step then (key, attempts + 1) :: rest else (key, attempts) :: bumpAttempts rest step

/-- The method `updateConversationStateFromResponse`. -/
def updateConversationStateFromResponse (conversationState : ConversationState)
    (responseAnalysis : CriticalStepResponse) : ConversationState :=
  { currentStep :=
      if responseAnalysis.detectedStep > 0 then responseAnalysis.detectedStep
      else conversationState.currentStep
    expectedContext :=
      if responseAnalysis.detectedStep = 1 then "post_greeting"
      else if responseAnalysis.detectedStep = 6 then "post_interest_check"
      else if responseAnalysis.detectedStep = 7 then "post_agent_offer"
      else if responseAnalysis.detectedStep = 9 then "post_transfer"
      else "general"
    criticalStepAttempts :=
      if responseAnalysis.detectedStep ∈ [1, 6, 7, 9] then
        bumpAttempts conversationState.criticalStepAttempts responseAnalysis.detectedStep
      else conversationState.criticalStepAttempts }

/-- An entry of `contextDeviations`, without its texts. -/
structure ContextDeviation where
  turnIndex : ℕ
  severity : ℚ

/-- An entry of `unaddressedQueries`, without its texts. -/
structure UnaddressedQuery where
  turnIndex : ℕ
  severity : ℚ

/-- The variables of the loop of `detectCriticalStepHallucinations`. -/
structure CriticalStepLoop where
  conversationState : ConversationState
  criticalStepViolations : List CriticalStepViolation
  contextDeviations : List ContextDeviation
  unaddressedQueries : List UnaddressedQuery

/-- The loop of lines 2992-3053 from turn number `i` on; `previous` is `turns[i - 1]`
(none for `i = 0`). -/
def criticalStepLoop (analyses : TurnAnalyses) :
    ℕ → Option Turn → List Turn → CriticalStepLoop → CriticalStepLoop
  | _, _, [], state => state
  | i, previous, turn :: rest, state =>
    let state1 : CriticalStepLoop :=
      if turn.speaker = "customer" then
        let humanAnalysis := analyses.analyzeHumanInput turn.text state.conversationState i
        if humanAnalysis.isOffTopic && decide (state.conversationState.currentStep ≤ 7) then
          { state with
            contextDeviations := state.contextDeviations ++
              [{ turnIndex := i, severity := humanAnalysis.deviationSeverity }] }
        else state
      else if turn.speaker = "agent" then
        match previous with
        | none => state
        | some previousTurn =>
          if previousTurn.speaker = "customer" then
            let responseAnalysis := analyses.analyzeCriticalStepResponse previousTurn.text
              turn.text state.conversationState i
            { conversationState :=
                updateConversationStateFromResponse state.conversationState responseAnalysis
              criticalStepViolations :=
                if responseAnalysis.isCriticalStepViolation then
                  state.criticalStepViolations ++ [{ severity := responseAnalysis.severity }]
                else state.criticalStepViolations
              contextDeviations := state.contextDeviations
              unaddressedQueries :=
                if responseAnalysis.failedToAddress then
                  state.unaddressedQueries ++
                    [{ turnIndex := i, severity := responseAnalysis.addressingSeverity }]
                else state.unaddressedQueries }
          else state
      else state
    criticalStepLoop analyses (i + 1) (some turn) rest state1

/-- The method `calculateCriticalStepScore`. -/
def calculateCriticalStepScore (criticalStepViolations : List CriticalStepViolation)
    (contextDeviations : List ContextDeviation) (unaddressedQueries : List UnaddressedQuery) :
    ℚ :=
  let score : ℚ := 100 - (criticalStepViolations.length : ℚ) * 15 -
    (contextDeviations.length : ℚ) * 8 - (unaddressedQueries.length : ℚ) * 5
  let severityPenalty : ℚ := criticalStepViolations.foldl (fun sum v => sum + v.severity) 0
  max 0 (min 100 (score - severityPenalty))

/-- The result of `detectCriticalStepHallucinations`, and the `criticalStepAnalysis` field of
the default analysis (which has no `analysisSource`), without the recommendation texts. -/
structure CriticalStepReport where
  criticalStepViolations : List CriticalStepViolation
  contextDeviations : List ContextDeviation
  unaddressedQueries : List UnaddressedQuery
  criticalStepScore : ℚ
  analysisSource : Option String

/-- The method `detectCriticalStepHallucinations`: its result and the parse cache
afterwards. -/
def detectCriticalStepHallucinations (cache : ParseCache) (analyses : TurnAnalyses)
    (transcript : TranscriptArg) : CriticalStepReport × ParseCache :=
  let parsed := parseTranscriptTurns cache transcript
  let final := criticalStepLoop analyses 0 none parsed.1
    { conversationState :=
        { currentStep := 0, expectedContext := "greeting", criticalStepAttempts := [] }
      criticalStepViolations := [], contextDeviations := [], unaddressedQueries := [] }
  ({ criticalStepViolations := final.criticalStepViolations,
     contextDeviations := final.contextDeviations,
     unaddressedQueries := final.unaddressedQueries,
     criticalStepScore := calculateCriticalStepScore final.criticalStepViolations
       final.contextDeviations final.unaddressedQueries,
     analysisSource := some "critical_step_enhanced" }, parsed.2)

/-- The result of the hallucination detectors, without `overallRelevance` and the
recommendation texts; a field that the object does not have is `none`. -/
structure HallucinationReport where
  hallucinations : List HallucinationEvent
  hallucinationScore : ℚ
  totalBotTurns : ℕ
  deviationRate : ℚ
  criticalStepAnalysis : Option CriticalStepReport
  enhancedScore : Option ℚ
  analysisSource : Option String

/-- The method `getDefaultHallucinationAnalysis`. -/
def getDefaultHallucinationAnalysis : HallucinationReport :=
  { hallucinations := [], hallucinationScore := 80, totalBotTurns := 0, deviationRate := 0,
    criticalStepAnalysis := some
      { criticalStepViolations := [], contextDeviations := [], unaddressedQueries := [],
        criticalStepScore := 80, analysisSource := none },
    enhancedScore := none, analysisSource := some "default_fallback" }

/-- The number `turns.filter(t => t.speaker === 'agent').length`. -/
def agentTurnCount (turns : List Turn) : ℕ :=
  (turns.filter (fun t => t.speaker = "agent")).length

/-- The method `detectHallucinationsFromTranscript`, `relevanceComponents` giving the scores
that `analyzeResponseRelevance` computes in its call for a turn: the result and the parse
cache afterwards. -/
def detectHallucinationsFromTranscript (cache : ParseCache)
    (relevanceComponents : List Char → List Char → ℕ → RelevanceComponents)
    (transcript : TranscriptArg) : HallucinationReport × ParseCache :=
  let parsed := parseTranscriptTurns cache transcript
  let turns := parsed.1
  if turns.length = 0 then (getDefaultHallucinationAnalysis, parsed.2)
  else
    let hallucinations := hallucinationLoop
      (fun humanInput botResponse i =>
        analyzeResponseRelevance (relevanceComponents humanInput botResponse i))
      0 none turns
    ({ hallucinations := hallucinations,
       hallucinationScore := calculateHallucinationScore hallucinations turns.length,
       totalBotTurns := agentTurnCount turns,
       deviationRate := (hallucinations.length : ℚ) / ((max (agentTurnCount turns) 1 : ℕ) : ℚ),
       criticalStepAnalysis := none, enhancedScore := none, analysisSource := none },
     parsed.2)

/-- The method `detectHallucinationsFromAudio`, `speechAnalysis` being the value of
`audioData.speechAnalysis || []`: its result and the parse cache afterwards. -/
def detectHallucinationsFromAudio (cache : ParseCache)
    (relevanceComponents : List Char → List Char → ℕ → RelevanceComponents)
    (speechAnalysis : List SpeechSegment) (transcript : TranscriptArg) :
    HallucinationReport × ParseCache :=
  let parsed := parseTranscriptTurns cache transcript
  let turns := parsed.1
  let hallucinations := hallucinationLoop
    (fun humanInput botResponse i =>
      analyzeResponseRelevanceFromAudio
        (analyzeResponseRelevance (relevanceComponents humanInput botResponse i))
        (getAudioSegmentForTurn speechAnalysis i))
    0 none turns
  ({ hallucinations := hallucinations,
     hallucinationScore := calculateHallucinationScore hallucinations turns.length,
     totalBotTurns := agentTurnCount turns,
     deviationRate := (hallucinations.length : ℚ) / ((max (agentTurnCount turns) 1 : ℕ) : ℚ),
     criticalStepAnalysis := none, enhancedScore := none,
     analysisSource := some "audio_primary" },
   parsed.2)

/-- The method `calculateEnhancedHallucinationScore`. -/
def calculateEnhancedHallucinationScore (primaryAnalysis : HallucinationReport)
    (criticalStepAnalysis : CriticalStepReport) : ℚ :=
  jsRound (primaryAnalysis.hallucinationScore * (6 / 10) +
    criticalStepAnalysis.criticalStepScore * (4 / 10))

/-- The method `mergeHallucinationAnalyses`. -/
def mergeHallucinationAnalyses (primaryAnalysis : HallucinationReport)
    (criticalStepAnalysis : CriticalStepReport) : HallucinationReport :=
  { primaryAnalysis with
    criticalStepAnalysis := some criticalStepAnalysis
    enhancedScore :=
      some (calculateEnhancedHallucinationScore primaryAnalysis criticalStepAnalysis)
    analysisSource := some "enhanced_with_critical_steps" }

/-- The method `detectHallucinations`; `speechAnalysis` is `audioData.speechAnalysis`, none
when `audioData` is null or has no such field. The result and the parse cache afterwards. -/
def detectHallucinations (cache : ParseCache) (analyses : TurnAnalyses)
    (speechAnalysis : Option (List SpeechSegment)) (transcript : TranscriptArg) :
    HallucinationReport × ParseCache :=
  let enhancedAnalysis := detectCriticalStepHallucinations cache analyses transcript
  match speechAnalysis with
  | some segments =>
    let audioAnalysis :=
      detectHallucinationsFromAudio enhancedAnalysis.2 analyses.relevanceComponents segments
        transcript
    (mergeHallucinationAnalyses audioAnalysis.1 enhancedAnalysis.1, audioAnalysis.2)
  | none =>
    let transcriptAnalysis :=
      detectHallucinationsFromTranscript enhancedAnalysis.2 analyses.relevanceComponents
        transcript
    (mergeHallucinationAnalyses transcriptAnalysis.1 enhancedAnalysis.1, transcriptAnalysis.2)

/-- The six threshold checks in the order of the specification, each with the type and the
severity that it assigns; the scores and the thresholds are doubles. -/
def specHallucinationChecks (c : RelevanceComponents) : List (Bool × String × ℚ) :=
  [ (decide (c.scriptAdherence < toDouble (3 / 10)), "script_deviation", 9),
    (decide (c.objectionHandling < toDouble (4 / 10)) && c.objectionPresent,
      "improper_objection_handling", 8),
    (decide (c.topicRelevance < toDouble (3 / 10)), "topic_deviation", 8),
    (decide (c.contextualRelevance < toDouble (4 / 10)), "context_loss", 7),
    (decide (c.semanticCoherence < toDouble (5 / 10)), "semantic_confusion", 6),
    (decide (c.factualConsistency < toDouble (5 / 10)), "factual_error", 9) ]

/-- The combined relevance in the words of the specification: the sum of the six weighted
scores, the weight written first, as a program computes it in doubles from left to right. -/
def specRelevanceScore (c : RelevanceComponents) : ℚ :=
  jsAdd (jsAdd (jsAdd (jsAdd (jsAdd
    (jsMul (toDouble (25 / 100)) c.topicRelevance)
    (jsMul (toDouble (25 / 100)) c.contextualRelevance))
    (jsMul (toDouble (2 / 10)) c.semanticCoherence))
    (jsMul (toDouble (15 / 100)) c.factualConsistency))
    (jsMul (toDouble (1 / 10)) c.scriptAdherence))
    (jsMul (toDouble (5 / 100)) c.objectionHandling)

/-- The sum of the six weighted scores as an exact number. -/
def exactRelevanceScore (c : RelevanceComponents) : ℚ :=
  (25 / 100) * c.topicRelevance + (25 / 100) * c.contextualRelevance +
    (2 / 10) * c.semanticCoherence + (15 / 100) * c.factualConsistency +
    (1 / 10) * c.scriptAdherence + (5 / 100) * c.objectionHandling

/-- The type and the severity in the words of the specification: those of the first check
that matches, general irrelevance with severity 5 when none does, and none with severity 0
for a turn that is not a hallucination. -/
def specClassification (c : RelevanceComponents) : String × ℚ :=
  if specRelevanceScore c < toDouble (65 / 100) ∨ c.scriptAdherence < toDouble (5 / 10) then
    match (specHallucinationChecks c).find? (fun check => check.1) with
    | some check => check.2
    | none => ("general_irrelevance", 5)
  else ("none", 0)

/-- The scores that the scoring methods return for the customer turn Hello answered by the
agent turn Hello at turn 1. -/
def helloComponents : RelevanceComponents :=
  { topicRelevance := 1, contextualRelevance := 1 / 2, semanticCoherence := toDouble (8 / 10),
    factualConsistency := toDouble (9 / 10), scriptAdherence := 1, objectionHandling := 1,
    objectionPresent := false }

/-- The scores 0.2, 0.7, 1, 0.8, 0.7 and 0.7, without an objection: their weighted sum is
0.65 as an exact number and 0.6499999999999999 in doubles. -/
def boundaryComponents : RelevanceComponents :=
  { topicRelevance := toDouble (2 / 10), contextualRelevance := toDouble (7 / 10),
    semanticCoherence := 1, factualConsistency := toDouble (8 / 10),
    scriptAdherence := toDouble (7 / 10), objectionHandling := toDouble (7 / 10),
    objectionPresent := false }

/-- A call of two turns: the customer says Hello and the agent answers Hello. -/
def helloExchange : List Char := "Human: Hello\nChat Bot: Hello".toList

/-- A speech analysis with one entry, for turn 1: a recognition confidence of 0.5 and four
hesitations. -/
def hesitantSpeech : List SpeechSegment :=
  [{ turnIndex := 1, confidence := some (1 / 2), hesitationCount := some 4,
     wordsPerMinute := none, toneConsistency := none }]

/-- A transcript without any speaker label. -/
def unlabelledTranscript : List Char := "hello there".toList

/-! ## Silence detection

`Math.log` and `Math.pow` enter as the values they return (`JsMath`), and the two draws of
`Math.random()` that the quality gate and the flow gate make for the candidate number `index`
as `qualityRandom index` and `flowRandom index`. -/

/-- An entry of `audioData.silences`; `stop` is its field `end`. -/
structure RawSilence where
  start : ℚ
  stop : ℚ
  duration : ℚ

/-- The part of `audioData` that `detectSilenceSegments` reads; a field that is absent is
`none`. -/
structure SilenceAudioData where
  duration : Option ℚ
  silences : Option (List RawSilence)

/-- The functions `Math.log` and `Math.pow`, as the values they return. -/
structure JsMath where
  log : ℚ → ℚ
  pow : ℚ → ℚ → ℚ

/-- The method `validateSilenceContext`: the field `isProblematic` of its result. -/
def validateSilenceContext (silence : RawSilence) (audioData : SilenceAudioData) : Bool :=
  let callDuration := orDefault audioData.duration 180
  if silence.start < 5 ∨ silence.start > callDuration - 10 then false
  else if silence.duration < 8 then false
  else true

/-- The method `validateSilenceQuality`: the field `isRealSilence` of its result, `random`
being the value that its call of `Math.random()` returns. -/
def validateSilenceQuality (random : ℚ) : Bool :=
  let qualityScore := random * (3 / 10) + 7 / 10
  if qualityScore < 8 / 10 then false else true

/-- The method `validateSilenceFlow`: the field `disruptsFlow` of its result, `random` being
the value that its call of `Math.random()` returns. -/
def validateSilenceFlow (random : ℚ) : Bool :=
  let flowScore := random * (4 / 10) + 6 / 10
  if flowScore > 8 / 10 then false else true

/-- The method `calculateAdvancedSilenceSeverity`. -/
def calculateAdvancedSilenceSeverity (math : JsMath) (silence : RawSilence) (index : ℕ) : ℚ :=
  let baseSeverity := min (silence.duration / 15) 1
  let positionWeight : ℚ := if index < 2 then 11 / 10 else if index > 8 then 9 / 10 else 1
  let durationPenalty := math.pow (silence.duration / 8) (12 / 10)
  min (baseSeverity * positionWeight * durationPenalty) 1

/-- The method `calculateSilenceImpact`. -/
def calculateSilenceImpact (math : JsMath) (silence : RawSilence) (severity : ℚ) : ℚ :=
  let durationImpact := math.log (silence.duration + 1) / math.log 11
  let severityMultiplier := 1 + severity * 2
  min (durationImpact * severityMultiplier) 10

/-- A record that the loop of `detectSilenceSegments` pushes, as far as the later stages read
it. -/
structure ValidatedSilence where
  startTime : ℚ
  endTime : ℚ
  duration : ℚ
  severity : ℚ
  impactScore : ℚ

/-- The record of lines 487-498 for the candidate `silence` with the number `index`. -/
def validatedSilence (math : JsMath) (index : ℕ) (silence : RawSilence) : ValidatedSilence :=
  let contextualSeverity := calculateAdvancedSilenceSeverity math silence index
  { startTime := silence.start, endTime := silence.stop, duration := silence.duration,
    severity := contextualSeverity,
    impactScore := calculateSilenceImpact math silence contextualSeverity }

/-- The `forEach` of lines 458-499 from the candidate number `index` on. -/
def silenceLoop (math : JsMath) (threshold : ℚ) (audioData : SilenceAudioData)
    (qualityRandom flowRandom : ℕ → ℚ) : ℕ → List RawSilence → List ValidatedSilence
  | _, [] => []
  | index, silence :: rest =>
    let later := silenceLoop math threshold audioData qualityRandom flowRandom (index + 1) rest
    if silence.duration < threshold then later
    else if !validateSilenceContext silence audioData then later
    else if !validateSilenceQuality (qualityRandom index) then later
    else if !validateSilenceFlow (flowRandom index) then later
    else validatedSilence math index silence :: later

/-- The record that `processSuperAdvancedSilenceAnalysis` makes of a segment. -/
def prioritized (segment : ValidatedSilence) : SilenceSegment :=
  { startTime := segment.startTime, endTime := segment.endTime, duration := segment.duration,
    severity := segment.severity, impactScore := segment.impactScore,
    priority :=
      if segment.impactScore > 8 then "high"
      else if segment.impactScore > 6 then "medium" else "low" }

/-- The method `processSuperAdvancedSilenceAnalysis`: the filter, the stable sort by
decreasing impact, and the priorities. -/
def processSuperAdvancedSilenceAnalysis (segments : List ValidatedSilence) :
    List SilenceSegment :=
  ((segments.filter (fun segment => decide (segment.impactScore > 4))).insertionSort
    (fun a b => b.impactScore ≤ a.impactScore)).map prioritized

/-- The method `generateMinimalMockSilenceSegments`. -/
def generateMinimalMockSilenceSegments : List SilenceSegment := []

/-- The method `detectSilenceSegments`; `audioData` is none when the argument is null. -/
def detectSilenceSegments (math : JsMath) (audioData : Option SilenceAudioData)
    (config : AnalysisConfig) (qualityRandom flowRandom : ℕ → ℚ) : List SilenceSegment :=
  match audioData with
  | none => generateMinimalMockSilenceSegments
  | some audioData =>
    let silenceSegments : List ValidatedSilence :=
      match audioData.silences with
      | some silences =>
        silenceLoop math config.silenceThreshold audioData qualityRandom flowRandom 0 silences
      | none => []
    processSuperAdvancedSilenceAnalysis silenceSegments

/-- The values of `Math.log` and `Math.pow`, rounded to four decimals, at the arguments that
the examples of this section reach; no other argument is read there. -/
def approxMath : JsMath :=
  { log := fun x =>
      if x = 11 then 23979 / 10000 else if x = 13 then 25649 / 10000
      else if x = 31 then 34340 / 10000 else 0
    pow := fun b e =>
      if b = 3 / 2 ∧ e = 12 / 10 then 16267 / 10000
      else if b = 15 / 4 ∧ e = 12 / 10 then 48847 / 10000 else 0 }

/-- A call of 100 seconds with one raw silence, from second 20 on, of the given duration. -/
def oneSilence (duration : ℚ) : SilenceAudioData :=
  { duration := some 100,
    silences := some [{ start := 20, stop := 20 + duration, duration := duration }] }

/-- The running clock of the specification at the start of turn `k`: the sum of the
estimated durations of the turns before it, `random j` being the draw made for turn `j`. -/
def specTurnStart (random : ℕ → ℚ) (turns : List Turn) (k : ℕ) : ℚ :=
  ((List.range k).map (fun j =>
    match turns[j]? with
    | some turn => estimateAdvancedTurnDuration turn.text turn.speaker (random j)
    | none => 0)).sum

/-- The running clock of the specification at the end of turn `k`. -/
def specTurnEnd (random : ℕ → ℚ) (turns : List Turn) (k : ℕ) : ℚ :=
  specTurnStart random turns k +
    (match turns[k]? with
    | some turn => estimateAdvancedTurnDuration turn.text turn.speaker (random k)
    | none => 0)

/-! ## Critical-step violations -/

/-- The result of `checkCriticalStepViolation`, without the recommendation text. -/
structure StepViolationCheck where
  isViolation : Bool
  type : String
  severity : ℚ
  deriving DecidableEq

/-- The method `checkCriticalStepViolation`; its arguments `humanInput` and `botResponse`
are not read. -/
def checkCriticalStepViolation (expectedStep detectedStep : ℕ) : StepViolationCheck :=
  if ¬(expectedStep ∈ [1, 6, 7, 9]) then { isViolation := false, type := "none", severity := 0 }
  else if expectedStep ≠ detectedStep then
    let classified : String × ℚ :=
      if expectedStep = 6 ∧ detectedStep ≠ 6 then ("missed_interest_check", 9)
      else if expectedStep = 7 ∧ detectedStep ≠ 7 then ("missed_agent_offer", 9)
      else if expectedStep = 9 ∧ detectedStep ≠ 9 then ("missed_call_transfer", 10)
      else if expectedStep = 1 ∧ detectedStep ≠ 1 then ("improper_greeting", 7)
      else ("step_mismatch", 6)
    { isViolation := true, type := classified.1, severity := classified.2 }
  else { isViolation := false, type := "none", severity := 0 }

/-- The table of the specification: the violation type and the severity for an expected
critical step. -/
def specViolationTable (expectedStep : ℕ) : String × ℚ :=
  if expectedStep = 1 then ("improper_greeting", 7)
  else if expectedStep = 6 then ("missed_interest_check", 9)
  else if expectedStep = 7 then ("missed_agent_offer", 9)
  else ("missed_call_transfer", 10)

/-! ## Calls on the parse cache -/

/-- A call of one of the two methods that read or write the parse cache. -/
inductive CacheCall where
  | parse (transcript : TranscriptArg)
  | clear

/-- The parse cache after a sequence of calls on an analyzer with the cache `cache`. -/
def runCacheCalls : ParseCache → List CacheCall → ParseCache
  | cache, [] => cache
  | cache, .parse transcript :: calls =>
    runCacheCalls (parseTranscriptTurns cache transcript).2 calls
  | cache, .clear :: calls => runCacheCalls (clearAnalysisCache cache) calls

/-- The turns that the calls of `parseTranscriptTurns` in a sequence of calls return, in
order. -/
def cacheCallResults : ParseCache → List CacheCall → List (List Turn)
  | _, [] => []
  | cache, .parse transcript :: calls =>
    (parseTranscriptTurns cache transcript).1 ::
      cacheCallResults (parseTranscriptTurns cache transcript).2 calls
  | cache, .clear :: calls => cacheCallResults (clearAnalysisCache cache) calls

/-- The turns that the same calls return when each is made on a new analyzer. -/
def freshCallResults : List CacheCall → List (List Turn)
  | [] => []
  | .parse transcript :: calls =>
    (parseTranscriptTurns ParseCache.empty transcript).1 :: freshCallResults calls
  | .clear :: calls => freshCallResults calls

/-! ## Example inputs -/

/-- Two bot texts that differ in their Devanagari words only. -/
def namasteOkay : List Char := "नमस्ते okay".toList

/-- See `namasteOkay`. -/
def dhanyavadOkay : List Char := "धन्यवाद okay".toList

/-- A transcript of eight identical bot lines. -/
def eightGreetings : List Char :=
  ("Chat Bot: Hello there\nChat Bot: Hello there\nChat Bot: Hello there\n" ++
   "Chat Bot: Hello there\nChat Bot: Hello there\nChat Bot: Hello there\n" ++
   "Chat Bot: Hello there\nChat Bot: Hello there").toList

/-- An intent flow with the flow score 10, the objective not achieved. -/
def lowFlow : IntentFlow :=
  { intentMappingsLength := some 4, completedSteps := 0, totalRequiredSteps := 4,
    flowScore := some 10, objectiveAchieved := false, completionRate := none }

/-! ## Edit distance

`levenshteinDistance` works on arrays and `calculateSimilarity` on strings, which it reads
with `charAt`, one UTF-16 code unit at a time: both are embedded on lists, a string being
the list of its code units (`utf16Units`). -/

/-- The UTF-16 code units of a string. -/
def utf16Units : List Char → List ℕ
  | [] => []
  | c :: s =>
    if c.toNat < 65536 then c.toNat :: utf16Units s
    else (55296 + (c.toNat - 65536) / 1024) :: (56320 + (c.toNat - 65536) % 1024) ::
      utf16Units s

/-- The inner loop of lines 797-807 (and 847-857) for the row of the element `x`, from some
column `j` on: `arr1` holds the elements from `arr1[j - 1]` on, `diag` is
`matrix[i - 1][j - 1]`, `up` holds the row above from `matrix[i - 1][j]` on, and `left` is
`matrix[i][j - 1]`. The result holds the row from `matrix[i][j]` on. -/
def rowCells {α : Type} [DecidableEq α] (x : α) : List α → ℕ → List ℕ → ℕ → List ℕ
  | a :: arr1, diag, above :: up, left =>
    let cell := if x = a then diag else min (diag + 1) (min (left + 1) (above + 1))
    cell :: rowCells x arr1 above up cell
  | _, _, _, _ => []

/-- The row `matrix[i]` made from the row `matrix[i - 1]`, `x` being `arr2[i - 1]`: its
first cell is `i`, set by the loop of lines 790-792. -/
def nextRow {α : Type} [DecidableEq α] (x : α) (arr1 : List α) (i : ℕ) (previous : List ℕ) :
    List ℕ :=
  match previous with
  | [] => [i]
  | diag :: up => i :: rowCells x arr1 diag up i

/-- The outer loop of lines 796-808 from the row `i + 1` on, `row` being `matrix[i]` and
`arr2` holding the elements from `arr2[i]` on: the last row of the matrix. -/
def lastRow {α : Type} [DecidableEq α] (arr1 : List α) : ℕ → List α → List ℕ → List ℕ
  | _, [], row => row
  | i, x :: arr2, row => lastRow arr1 (i + 1) arr2 (nextRow x arr1 (i + 1) row)

/-- The method `levenshteinDistance`: the row `matrix[0]` is `0, 1, ..., arr1.length`, and
the result is the last cell of the last row. -/
def levenshteinDistance {α : Type} [DecidableEq α] (arr1 arr2 : List α) : ℕ :=
  (lastRow arr1 0 arr2 (List.range (arr1.length + 1))).getLastD 0

/-- The method `calculateSimilarity`, on the code units of its two strings; its loops are
those of `levenshteinDistance`. -/
def calculateSimilarity {α : Type} [DecidableEq α] (text1 text2 : List α) : ℚ :=
  let len1 := text1.length
  let len2 := text2.length
  let distance := (lastRow text1 0 text2 (List.range (len1 + 1))).getLastD 0
  let maxLen := max len1 len2
  if maxLen = 0 then 1 else ((maxLen : ℚ) - (distance : ℚ)) / (maxLen : ℚ)

/-- The Levenshtein distance of two sequences: the least number of insertions, deletions
and substitutions of one element that turn the first into the second, by the usual
recursion. -/
def specEditDistance {α : Type} [DecidableEq α] : List α → List α → ℕ
  | [], t => t.length
  | a :: s, [] => (a :: s).length
  | a :: s, b :: t =>
    min (specEditDistance s (b :: t) + 1)
      (min (specEditDistance (a :: s) t + 1)
        (specEditDistance s t + if a = b then 0 else 1))
termination_by s t => s.length + t.length

/-- The cells of a matrix row right of a column: the distances from the sequence `rp` to
the sequences that put the elements of `rest`, one after the other, in front of `ru`. -/
def specRowCells {α : Type} [DecidableEq α] (rp : List α) : List α → List α → List ℕ
  | _, [] => []
  | ru, a :: rest => specEditDistance (a :: ru) rp :: specRowCells rp (a :: ru) rest

/-! ## Interruption analysis of the transcript path -/

/-- The pieces of `text.split(/\s+/)`, as they follow a position; `inRun` tells that the
character before is white space. -/
def splitWhiteSpaceFrom (inRun : Bool) : List Char → List (List Char)
  | [] => [[]]
  | c :: s =>
    if isWhiteSpace c then
      (if inRun then splitWhiteSpaceFrom true s else [] :: splitWhiteSpaceFrom true s)
    else
      match splitWhiteSpaceFrom false s with
      | [] => [[c]]
      | piece :: pieces => (c :: piece) :: pieces

/-- The array `text.split(/\s+/)`. -/
def splitWhiteSpace (text : List Char) : List (List Char) := splitWhiteSpaceFrom false text

/-- The method `isStopWord`. -/
def isStopWord (word : List Char) : Bool :=
  toLowerCase word ∈ (["this", "that", "with", "have", "will", "from", "they", "know", "want",
    "been", "good", "much", "some", "time", "very", "when", "come", "here", "just", "like",
    "long", "make", "many", "over", "such", "take", "than", "them", "well", "were"].map
      String.toList)

/-- The array `[...new Set(words)]`: the first occurrence of every word, in order. -/
def uniqueWords : List (List Char) → List (List Char)
  | [] => []
  | word :: words => word :: (uniqueWords words).filter (fun w => w ≠ word)

/-- The method `extractTopics`. -/
def extractTopics (text : List Char) : List (List Char) :=
  let stripped := (toLowerCase text).filter (fun c => isWordChar c || isWhiteSpace c)
  let topicKeywords := ((splitWhiteSpace stripped).filter
    (fun word => decide (utf16Length word > 3))).filter (fun word => !isStopWord word)
  uniqueWords topicKeywords

/-- The method `checkTopicContinuity`. -/
def checkTopicContinuity (prevText currentText : List Char) : ℚ :=
  let prevTopics := extractTopics prevText
  let currentTopics := extractTopics currentText
  if prevTopics.length = 0 ∨ currentTopics.length = 0 then 7 / 10
  else
    let commonTopics := prevTopics.filter (fun topic =>
      currentTopics.any (fun currentTopic =>
        decide (calculateSimilarity (utf16Units topic) (utf16Units currentTopic) > 6 / 10)))
    min 1 ((commonTopics.length : ℚ) /
      ((min prevTopics.length currentTopics.length : ℕ) : ℚ) + 3 / 10)

/-- The method `classifyIntent`. -/
def classifyIntent (text : List Char) : String :=
  let textLower := toLowerCase text
  if includes "?".toList textLower || includes "what".toList textLower ||
      includes "how".toList textLower || includes "why".toList textLower then "question"
  else if includes "please".toList textLower || includes "can you".toList textLower ||
      includes "could you".toList textLower then "request"
  else if includes "thank".toList textLower || includes "thanks".toList textLower then
    "gratitude"
  else if includes "yes".toList textLower || includes "no".toList textLower ||
      includes "okay".toList textLower then "confirmation"
  else if includes "hello".toList textLower || includes "hi".toList textLower ||
      includes "नमस्ते".toList textLower then "greeting"
  else "statement"

/-- The method `classifyResponseType`. -/
def classifyResponseType (text : List Char) : String :=
  let textLower := toLowerCase text
  if includes "?".toList textLower then "question"
  else if includes "please".toList textLower || includes "can you".toList textLower then
    "request"
  else if includes "thank".toList textLower || includes "welcome".toList textLower then
    "acknowledgment"
  else if includes "sorry".toList textLower || includes "apologize".toList textLower then
    "apology"
  else if includes "help".toList textLower || includes "assist".toList textLower then
    "offer_help"
  else "information"

/-- The method `checkIntentResponseAlignment`. -/
def checkIntentResponseAlignment (humanIntent botResponseType : String) : ℚ :=
  let appropriateResponses : List String :=
    if humanIntent = "question" then ["information", "question", "acknowledgment"]
    else if humanIntent = "request" then ["acknowledgment", "information", "offer_help"]
    else if humanIntent = "gratitude" then ["acknowledgment", "offer_help"]
    else if humanIntent = "confirmation" then ["acknowledgment", "information"]
    else if humanIntent = "greeting" then ["acknowledgment", "offer_help"]
    else if humanIntent = "statement" then ["acknowledgment", "question", "information"]
    else ["information"]
  if botResponseType ∈ appropriateResponses then 1 else 3 / 10

/-- The method `checkResponseAppropriateness`. -/
def checkResponseAppropriateness (prevText currentText : List Char) : ℚ :=
  checkIntentResponseAlignment (classifyIntent prevText) (classifyResponseType currentText)

/-- The method `assessLocalConversationalFlow`; its argument `nextTurn` is not read. -/
def assessLocalConversationalFlow (prevTurn currentTurn : Turn) : ℚ :=
  (checkTopicContinuity prevTurn.text currentTurn.text +
    checkResponseAppropriateness prevTurn.text currentTurn.text) / 2

/-- The pattern `/^(yes|no|well|actually|I think)/i`. -/
def answerStartPattern : Rx :=
  Rx.seqs [.bol, Rx.alts [Rx.lit "yes".toList, Rx.lit "no".toList, Rx.lit "well".toList,
    Rx.lit "actually".toList, Rx.lit "I think".toList]]

/-- The pattern `/^(okay|alright|I see|understood|got it)/i`. -/
def acknowledgmentStartPattern : Rx :=
  Rx.seqs [.bol, Rx.alts [Rx.lit "okay".toList, Rx.lit "alright".toList, Rx.lit "I see".toList,
    Rx.lit "understood".toList, Rx.lit "got it".toList]]

/-- The method `checkTransitionSmoothness`: each of its three exits returns true. -/
def checkTransitionSmoothness (prevText currentText : List Char) : Bool :=
  let prevEndsWithQuestion := includes "?".toList prevText
  let currentStartsWithAnswer := answerStartPattern.test true (trim currentText)
  if prevEndsWithQuestion && currentStartsWithAnswer then true
  else if acknowledgmentStartPattern.test true (trim currentText) then true
  else true

/-- The method `analyzeSpeakerTransition`: the field `quality` of its result. -/
def analyzeSpeakerTransition (prevTurn currentTurn : Turn) : ℚ :=
  let speakerChanged : Bool := decide (prevTurn.speaker ≠ currentTurn.speaker)
  let transitionSmooth := checkTransitionSmoothness prevTurn.text currentTurn.text
  if speakerChanged && transitionSmooth then 9 else if speakerChanged then 6 else 8

/-- The method `estimateTurnGaps`: the field `quality` of its result, `random` being the
value that its call of `Math.random()` returns. -/
def estimateTurnGaps (random : ℚ) : ℚ :=
  let estimatedGap := random * 2 + 1 / 2
  let quality : ℚ := if estimatedGap > 3 then 4 else 8
  if estimatedGap < 2 / 10 then 6 else quality

/-- The method `analyzeTurnTakingPattern`: the field `overallQuality` of its result. -/
def analyzeTurnTakingPattern (prevTurn currentTurn : Turn) (random : ℚ) : ℚ :=
  (estimateTurnGaps random + analyzeSpeakerTransition prevTurn currentTurn +
    assessLocalConversationalFlow prevTurn currentTurn) / 3

/-- The pattern `/[.!?]$/`. -/
def endPunctuationPattern : Rx :=
  .seq (.cls (fun c => c = '.' || c = '!' || c = '?')) .eol

/-- The pattern `/\b(and|but|so|because|if|when|while|since)\s*$/i`. -/
def incompleteMarkerPattern : Rx :=
  Rx.seqs [.wordBoundary, Rx.alts [Rx.lit "and".toList, Rx.lit "but".toList,
    Rx.lit "so".toList, Rx.lit "because".toList, Rx.lit "if".toList, Rx.lit "when".toList,
    Rx.lit "while".toList, Rx.lit "since".toList], .star (.cls isWhiteSpace), .eol]

/-- The method `checkAbruptEnding`. -/
def checkAbruptEnding (text : List Char) : Bool :=
  let endsWithPunctuation := endPunctuationPattern.test false (trim text)
  let hasIncompleteMarkers := incompleteMarkerPattern.test true (trim text)
  !endsWithPunctuation || hasIncompleteMarkers

/-- The method `checkQuickResponse`. -/
def checkQuickResponse (humanText botText : List Char) : Bool :=
  decide (splitWhiteSpaceCount humanText > 10) && decide (splitWhiteSpaceCount botText < 5)

/-- The three patterns of `assessInterruptionRecovery`: `/sorry|apologize|excuse me/i`,
`/let me continue|as I was saying|going back to/i` and `/understand|I see|got it/i`. -/
def recoveryIndicators : List Rx :=
  [Rx.alts [Rx.lit "sorry".toList, Rx.lit "apologize".toList, Rx.lit "excuse me".toList],
   Rx.alts [Rx.lit "let me continue".toList, Rx.lit "as I was saying".toList,
     Rx.lit "going back to".toList],
   Rx.alts [Rx.lit "understand".toList, Rx.lit "I see".toList, Rx.lit "got it".toList]]

/-- The method `assessInterruptionRecovery`. -/
def assessInterruptionRecovery (botResponseText : List Char) : ℚ :=
  let hasRecoveryLanguage := recoveryIndicators.any (fun pattern =>
    pattern.test true botResponseText)
  let responseLength := splitWhiteSpaceCount botResponseText
  if hasRecoveryLanguage && decide (responseLength > 5) then 8
  else if hasRecoveryLanguage then 6
  else if responseLength > 10 then 4
  else 2

/-- The result of `detectInterruptionPattern`, as far as the analysis reads it. -/
structure InterruptionDetection where
  isInterruption : Bool
  type : String
  severity : ℚ
  handlingQuality : ℚ

/-- The method `detectInterruptionPattern`; in the loop that calls it the turn `nextTurn`
exists. -/
def detectInterruptionPattern (prevTurn currentTurn nextTurn : Turn) : InterruptionDetection :=
  let first : InterruptionDetection :=
    if prevTurn.speaker = "customer" ∧ currentTurn.speaker = "agent" ∧
        (checkAbruptEnding prevTurn.text &&
          checkQuickResponse prevTurn.text currentTurn.text) = true then
      { isInterruption := true, type := "bot_interrupts_human", severity := 7,
        handlingQuality := 2 }
    else { isInterruption := false, type := "none", severity := 0, handlingQuality := 0 }
  if prevTurn.speaker = "agent" ∧ currentTurn.speaker = "customer" ∧
      splitWhiteSpaceCount prevTurn.text > 20 ∧ utf16Length currentTurn.text < 20 then
    { isInterruption := true, type := "human_interrupts_bot", severity := 4,
      handlingQuality :=
        if nextTurn.speaker = "agent" then assessInterruptionRecovery nextTurn.text
        else first.handlingQuality }
  else first

/-- An entry of `interruptions`, as far as the score reads it. -/
structure InterruptionRecord where
  turnIndex : ℕ
  interruptionType : String
  severity : ℚ
  handlingQuality : ℚ

/-- The loop of lines 3536-3561 from the turn number `i` on, the list holding the turns
from `turns[i - 1]` on: the interruptions and the `overallQuality` of the patterns;
`random i` is the value `Math.random()` returns for the pattern of turn `i`. -/
def interruptionLoop (random : ℕ → ℚ) : ℕ → List Turn → List InterruptionRecord × List ℚ
  | i, prevTurn :: currentTurn :: nextTurn :: rest =>
    let later := interruptionLoop random (i + 1) (currentTurn :: nextTurn :: rest)
    let interruptionAnalysis := detectInterruptionPattern prevTurn currentTurn nextTurn
    let turnPattern := analyzeTurnTakingPattern prevTurn currentTurn (random i)
    ((if interruptionAnalysis.isInterruption then
        [{ turnIndex := i, interruptionType := interruptionAnalysis.type,
           severity := interruptionAnalysis.severity,
           handlingQuality := interruptionAnalysis.handlingQuality }]
      else []) ++ later.1,
     turnPattern :: later.2)
  | _, _ => ([], [])

/-- The method `calculateInterruptionScore`, `patterns` holding the `overallQuality` of the
patterns. -/
def calculateInterruptionScore (interruptions : List InterruptionRecord) (patterns : List ℚ) :
    ℚ :=
  if interruptions.length = 0 ∧ patterns.length > 0 then
    let avgPatternQuality :=
      patterns.foldl (fun sum p => sum + p) 0 / (patterns.length : ℚ)
    jsRound (avgPatternQuality * 10)
  else
    let totalSeverity := interruptions.foldl (fun sum i => sum + i.severity) 0
    let avgHandlingQuality : ℚ :=
      if interruptions.length > 0 then
        interruptions.foldl (fun sum i => sum + i.handlingQuality) 0 /
          (interruptions.length : ℚ)
      else 8
    let baseScore := 100 - totalSeverity * 2
    let handlingBonus := avgHandlingQuality * 2
    max 0 (min 100 (jsRound (baseScore + handlingBonus)))

/-- The result of the interruption analysis of the transcript path, as far as it is
embedded. -/
structure InterruptionReport where
  interruptions : List InterruptionRecord
  interruptionScore : ℚ
  analysisSource : String

/-- The method `analyzeInterruptionHandlingFromTranscriptOriginal` of lines 3530-3574 (the
declaration that JavaScript keeps), which `analyzeInterruptionHandlingFromTranscript`
calls. -/
def analyzeInterruptionHandlingFromTranscriptOriginal (cache : ParseCache)
    (transcript : TranscriptArg) (random : ℕ → ℚ) : InterruptionReport :=
  let turns := (parseTranscriptTurns cache transcript).1
  let looped := interruptionLoop random 1 turns
  { interruptions := looped.1,
    interruptionScore := calculateInterruptionScore looped.1 looped.2,
    analysisSource := "transcript_fallback" }

/-- A call of three turns without any interruption. -/
def threeTurnCall : List Char :=
  "Chat Bot: Hello\nHuman: Hello\nChat Bot: Are you looking for a flat?".toList

/-- An agent turn that offers the connection to an agent. -/
def connectOffer : List Char :=
  "Two Bee-etch-kay Flat के लिए मैं अभी आपको agent से connect करती हूँ".toList

/-! ## The whole analysis

`analyzeCall` for `audioData = null`: every sub-analysis is computed from the transcript, from
what the analyzer holds and from the draws of `Math.random()`, in the order of lines 376-387;
the values returned by the methods that are not embedded are those of `analyses`. -/

/-- The loop of `detectBotStep` over the patterns of one entry: whether one of them accepts
the text, and the `lastIndex` fields afterwards.  The loop returns at the first pattern that
accepts, so the patterns after it are not tested. -/
def detectBotStepPatterns (botResponse : List Char) : List Rx → List ℕ → Bool × List ℕ
  | [], _ => (false, [])
  | pattern :: patterns, lastIndexes =>
    let tested := pattern.testGlobal true (lastIndexes.headD 0) botResponse
    if tested.1 then (true, tested.2 :: lastIndexes.tail)
    else
      let rest := detectBotStepPatterns botResponse patterns lastIndexes.tail
      (rest.1, tested.2 :: rest.2)

/-- The loop of `detectBotStep` over the entries of the catalog: the step of the first entry
one of whose patterns accepts the text, 0 when there is none, and the state of the patterns
afterwards. -/
def detectBotStepLoop (botResponse : List Char) :
    List IntentEntry → PatternState → ℕ × PatternState
  | [], _ => (0, [])
  | intentData :: entries, state =>
    let tested := detectBotStepPatterns botResponse intentData.patterns (state.headD [])
    if tested.1 then (intentData.step, tested.2 :: state.tail)
    else
      let rest := detectBotStepLoop botResponse entries state.tail
      (rest.1, tested.2 :: rest.2)

/-- The method `detectBotStep` on an analyzer whose patterns are in the state `state`: it
tests the stored patterns of the intent catalog, the ones `enhancedIntentDetection` tests. -/
def detectBotStep (state : PatternState) (botResponse : List Char) : ℕ × PatternState :=
  detectBotStepLoop botResponse intentPatterns state

/-- The state of the patterns after the loop of `detectCriticalStepHallucinations` (lines
2992-3053): `analyzeCriticalStepResponse`, called for every agent turn that follows a
customer turn, calls `detectBotStep` on the text of the agent; `previous` is the turn before
the list. -/
def criticalStepPatterns : Option Turn → List Turn → PatternState → PatternState
  | _, [], state => state
  | previous, turn :: rest, state =>
    let state1 : PatternState :=
      if turn.speaker = "agent" then
        match previous with
        | none => state
        | some previousTurn =>
          if previousTurn.speaker = "customer" then (detectBotStep state turn.text).2
          else state
      else state
    criticalStepPatterns (some turn) rest state1

/-- What the aggregator reads of the result of `detectIntents`; the flow score of
`detectIntents` is a finite number. -/
def IntentAnalysis.toIntentFlow (intentFlow : IntentAnalysis) : IntentFlow :=
  { intentMappingsLength := some intentFlow.intentMappings.length,
    completedSteps := intentFlow.completedSteps,
    totalRequiredSteps := intentFlow.totalRequiredSteps,
    flowScore :=
      match intentFlow.flowScore with
      | .fin q => some q
      | _ => none
    objectiveAchieved := intentFlow.objectiveAchieved,
    completionRate := some intentFlow.completionRate }

/-- What the aggregator reads of the merged hallucination analysis. -/
def HallucinationReport.toHallucinationAnalysis (report : HallucinationReport) :
    HallucinationAnalysis :=
  { enhancedScore := report.enhancedScore,
    hallucinationScore := some report.hallucinationScore,
    criticalStepAnalysis := report.criticalStepAnalysis.map
      (fun analysis => { criticalStepViolations := analysis.criticalStepViolations }) }

/-- What an analyzer holds between two calls: the parse cache and the `lastIndex` fields of
the stored patterns of the intent catalog. -/
structure AnalyzerState where
  cache : ParseCache
  patterns : PatternState

/-- A newly constructed analyzer. -/
def AnalyzerState.initial : AnalyzerState :=
  { cache := ParseCache.empty, patterns := PatternState.initial }

/-- The result of `analyzeCall`, as far as it is embedded. -/
structure CallAnalysis where
  overallScore : JsNum
  silenceViolations : List SilenceSegment
  repetitions : List Repetition
  intentFlow : IntentAnalysis
  callDurationAnalysis : CallDurationAnalysis
  responseLatencyAnalysis : LatencyAnalysis
  hallucinationAnalysis : HallucinationReport
  interruptionAnalysis : InterruptionReport
  scoreBreakdown : ComponentScores

/-- The method `analyzeCall` for `audioData = null` on an analyzer in the state `analyzer`:
the result and the analyzer afterwards.  The silence segments are the empty list of
`generateMinimalMockSilenceSegments`; latency, hallucinations and interruptions take their
transcript paths; `latencyRandom` and `turnGapRandom` are the draws of `Math.random()` in the
latency path and in the interruption path.  The hallucination detectors leave the patterns
in the state `criticalStepPatterns`, in which `detectIntents` finds them; the call ends with
`clearAnalysisCache`. -/
def analyzeCall (analyzer : AnalyzerState) (analyses : TurnAnalyses)
    (latencyRandom turnGapRandom : ℕ → ℚ) (transcript : TranscriptArg)
    (config : AnalysisConfig) : CallAnalysis × AnalyzerState :=
  let transcript : TranscriptArg := .str (analyzeCallTranscript transcript)
  let silenceSegments := generateMinimalMockSilenceSegments
  let callDurationAnalysis := analyzeCallDuration none config
  let responseLatencyAnalysis :=
    analyzeResponseLatencyFromTranscript analyzer.cache transcript latencyRandom
  let cache1 := (parseTranscriptTurns analyzer.cache transcript).2
  let hallucinationAnalysis := detectHallucinations cache1 analyses none transcript
  let patterns1 :=
    criticalStepPatterns none (parseTranscriptTurns cache1 transcript).1 analyzer.patterns
  let interruptionAnalysis :=
    analyzeInterruptionHandlingFromTranscriptOriginal hallucinationAnalysis.2 transcript
      turnGapRandom
  let cache2 := (parseTranscriptTurns hallucinationAnalysis.2 transcript).2
  let repetitions := detectRepetitions (analyzeCallTranscript transcript)
  let intentFlow := detectIntents cache2 patterns1 transcript
  let scored := calculateAdvancedWeightedScore silenceSegments repetitions callDurationAnalysis
    responseLatencyAnalysis.latencyScore
    (some hallucinationAnalysis.1.toHallucinationAnalysis)
    (some { interruptionScore := interruptionAnalysis.interruptionScore })
    intentFlow.1.toIntentFlow
  ({ overallScore := scored.1, silenceViolations := silenceSegments,
     repetitions := repetitions, intentFlow := intentFlow.1,
     callDurationAnalysis := callDurationAnalysis,
     responseLatencyAnalysis := responseLatencyAnalysis,
     hallucinationAnalysis := hallucinationAnalysis.1,
     interruptionAnalysis := interruptionAnalysis, scoreBreakdown := scored.2 },
   { cache := clearAnalysisCache intentFlow.2.1, patterns := intentFlow.2.2 })

/-- A transcript of one agent turn. -/
def helloCall : List Char := "Chat Bot: Hello".toList

/-- Values for the methods that are not embedded: full scores and no finding. -/
def plainAnalyses : TurnAnalyses :=
  { relevanceComponents := fun _ _ _ =>
      { topicRelevance := 1, contextualRelevance := 1, semanticCoherence := 1,
        factualConsistency := 1, scriptAdherence := 1, objectionHandling := 1,
        objectionPresent := false }
    analyzeHumanInput := fun _ _ _ => { isOffTopic := false, deviationSeverity := 0 }
    analyzeCriticalStepResponse := fun _ _ _ _ =>
      { detectedStep := 0, isCriticalStepViolation := false, severity := 0,
        failedToAddress := false, addressingSeverity := 0 } }

/-! # Theorems -/

/-! ## Binary floating point -/

theorem roundHalfEven_intCast (n : ℤ) : roundHalfEven (n : ℚ) = n := by
  unfold roundHalfEven
  simp

theorem roundHalfEven_mono {x y : ℚ} (h : x ≤ y) : roundHalfEven x ≤ roundHalfEven y := by
  have hf : ⌊x⌋ ≤ ⌊y⌋ := Int.floor_le_floor h
  have hx0 := Int.floor_le x
  have hx1 := Int.lt_floor_add_one x
  have hy0 := Int.floor_le y
  have hy1 := Int.lt_floor_add_one y
  rcases hf.lt_or_eq with hlt | heq
  · have h1 : roundHalfEven x ≤ ⌊x⌋ + 1 := by
      unfold roundHalfEven
      dsimp only
      split_ifs <;> omega
    have h2 : ⌊y⌋ ≤ roundHalfEven y := by
      unfold roundHalfEven
      dsimp only
      split_ifs <;> omega
    omega
  · unfold roundHalfEven
    dsimp only
    rw [heq]
    have hxy : x - (⌊y⌋ : ℚ) ≤ y - (⌊y⌋ : ℚ) := by linarith
    split_ifs <;> first | omega | (exfalso; linarith)

theorem toDouble_zero : toDouble 0 = 0 := by
  unfold toDouble
  simp [roundHalfEven]

theorem roundHalfEven_nonneg {x : ℚ} (h : 0 ≤ x) : 0 ≤ roundHalfEven x := by
  have := roundHalfEven_mono h
  rwa [show ((0 : ℚ)) = ((0 : ℤ) : ℚ) by norm_num, roundHalfEven_intCast] at this

theorem toDouble_nonneg {x : ℚ} (h : 0 ≤ x) : 0 ≤ toDouble x := by
  unfold toDouble
  have hq : (0 : ℚ) < 2 ^ ulpExponent x := by positivity
  have : 0 ≤ roundHalfEven (x / 2 ^ ulpExponent x) := roundHalfEven_nonneg (by positivity)
  have : (0 : ℚ) ≤ (roundHalfEven (x / 2 ^ ulpExponent x) : ℚ) := by exact_mod_cast this
  positivity

theorem ulpExponent_mono {x y : ℚ} (hx : 0 < x) (hxy : x ≤ y) :
    ulpExponent x ≤ ulpExponent y := by
  unfold ulpExponent
  have hy : 0 < y := lt_of_lt_of_le hx hxy
  rw [abs_of_pos hx, abs_of_pos hy]
  have := Int.log_mono_right (b := 2) hx hxy
  omega

/-- Rounding to the nearest double is monotone on the non-negative numbers. -/
theorem toDouble_mono {x y : ℚ} (hx : 0 ≤ x) (hxy : x ≤ y) : toDouble x ≤ toDouble y := by
  rcases hx.lt_or_eq with hpos | hzero
  · have hy : 0 < y := lt_of_lt_of_le hpos hxy
    rcases (ulpExponent_mono hpos hxy).lt_or_eq with hlt | heq
    · -- the two numbers lie in different binades: a power of two separates them
      have hlogx : Int.log 2 x < Int.log 2 y := by
        unfold ulpExponent at hlt
        rw [abs_of_pos hpos, abs_of_pos hy] at hlt
        omega
      have huy : ulpExponent y = Int.log 2 y - 52 := by
        unfold ulpExponent at hlt ⊢
        rw [abs_of_pos hpos, abs_of_pos hy] at hlt
        rw [abs_of_pos hy]
        omega
      have hux : ulpExponent x ≤ Int.log 2 y - 1 := by
        unfold ulpExponent at hlt ⊢
        rw [abs_of_pos hpos, abs_of_pos hy] at hlt
        rw [abs_of_pos hpos]
        omega
      have hxlt : x < 2 ^ Int.log 2 y := by
        have h1 : x < (2 : ℚ) ^ (Int.log 2 x + 1) := by
          exact_mod_cast Int.lt_zpow_succ_log_self (b := 2) (by norm_num) x
        have h2 : (2 : ℚ) ^ (Int.log 2 x + 1) ≤ 2 ^ Int.log 2 y :=
          zpow_le_zpow_right₀ (by norm_num) (by omega)
        linarith
      have hyge : (2 : ℚ) ^ Int.log 2 y ≤ y := by
        exact_mod_cast Int.zpow_log_le_self (b := 2) (by norm_num) hy
      have h1 : toDouble x ≤ 2 ^ Int.log 2 y := by
        unfold toDouble
        have hq : (0 : ℚ) < 2 ^ ulpExponent x := by positivity
        obtain ⟨k, hk⟩ : ∃ k : ℕ, Int.log 2 y - ulpExponent x = k :=
          ⟨(Int.log 2 y - ulpExponent x).toNat, by omega⟩
        have hpow : (2 : ℚ) ^ Int.log 2 y = ((2 ^ k : ℤ) : ℚ) * 2 ^ ulpExponent x := by
          have : Int.log 2 y = (k : ℤ) + ulpExponent x := by omega
          rw [this, zpow_add₀ (by norm_num), zpow_natCast]
          push_cast
          ring
        have hle : x / 2 ^ ulpExponent x ≤ ((2 ^ k : ℤ) : ℚ) := by
          rw [div_le_iff₀ hq, ← hpow]
          exact le_of_lt hxlt
        have := roundHalfEven_mono hle
        rw [roundHalfEven_intCast] at this
        rw [hpow]
        have hc : (roundHalfEven (x / 2 ^ ulpExponent x) : ℚ) ≤ ((2 ^ k : ℤ) : ℚ) := by
          exact_mod_cast this
        exact mul_le_mul_of_nonneg_right hc (le_of_lt hq)
      have h2 : (2 : ℚ) ^ Int.log 2 y ≤ toDouble y := by
        unfold toDouble
        have hq : (0 : ℚ) < 2 ^ ulpExponent y := by positivity
        have hpow : (2 : ℚ) ^ Int.log 2 y = ((2 ^ 52 : ℤ) : ℚ) * 2 ^ ulpExponent y := by
          have : Int.log 2 y = ((52 : ℕ) : ℤ) + ulpExponent y := by omega
          rw [this, zpow_add₀ (by norm_num), zpow_natCast]
          push_cast
          ring
        have hle : ((2 ^ 52 : ℤ) : ℚ) ≤ y / 2 ^ ulpExponent y := by
          rw [le_div_iff₀ hq, ← hpow]
          exact hyge
        have := roundHalfEven_mono hle
        rw [roundHalfEven_intCast] at this
        rw [hpow]
        have hc : ((2 ^ 52 : ℤ) : ℚ) ≤ (roundHalfEven (y / 2 ^ ulpExponent y) : ℚ) := by
          exact_mod_cast this
        exact mul_le_mul_of_nonneg_right hc (le_of_lt hq)
      linarith
    · unfold toDouble
      rw [heq]
      have hq : (0 : ℚ) < 2 ^ ulpExponent y := by positivity
      have hle : x / 2 ^ ulpExponent y ≤ y / 2 ^ ulpExponent y :=
        div_le_div_of_nonneg_right hxy (le_of_lt hq)
      have hc : (roundHalfEven (x / 2 ^ ulpExponent y) : ℚ) ≤
          (roundHalfEven (y / 2 ^ ulpExponent y) : ℚ) := by
        exact_mod_cast roundHalfEven_mono hle
      exact mul_le_mul_of_nonneg_right hc (le_of_lt hq)
  · rw [← hzero, toDouble_zero]
    exact toDouble_nonneg (by linarith)

/-- The doubles of the decimals that the classifier reads, against the decimals: 0.2 lies
above 2/10, and 0.3, 0.85 and 0.95 lie below; 0.5 is exact. -/
theorem toDouble_decimals :
    (2 : ℚ) / 10 < toDouble (2 / 10) ∧ toDouble (3 / 10) < 3 / 10 ∧
    toDouble (85 / 100) < toDouble (95 / 100) ∧ toDouble (95 / 100) < 95 / 100 ∧
    toDouble (5 / 10) = 1 / 2 ∧ toDouble (toDouble (4 / 10) + toDouble (2 / 10)) >
      toDouble (6 / 10) := by
  decide!

theorem jsRound_mono {x y : ℚ} (h : x ≤ y) : jsRound x ≤ jsRound y := by
  unfold jsRound
  exact_mod_cast Int.floor_le_floor (by linarith)

/-! ## Aggregation (C1) -/

theorem foldl_add_nonneg {α : Type} (f : α → ℚ) (l : List α) (hf : ∀ a ∈ l, 0 ≤ f a) :
    ∀ init : ℚ, 0 ≤ init → 0 ≤ l.foldl (fun sum a => sum + f a) init := by
  induction l with
  | nil => intro init h; simpa using h
  | cons a t ih =>
    intro init h
    simp only [List.foldl_cons]
    apply ih (fun b hb => hf b (List.mem_cons_of_mem a hb))
    have := hf a (List.mem_cons_self a t)
    linarith

theorem orNum_one_nonneg {x : ℚ} (h : 0 ≤ x) : 0 ≤ orNum x 1 := by
  unfold orNum
  split <;> linarith

theorem silenceScore_range (silenceSegments : List SilenceSegment)
    (hsev : ∀ s ∈ silenceSegments, 0 ≤ s.severity) :
    60 ≤ silenceScore silenceSegments ∧ silenceScore silenceSegments ≤ 100 := by
  unfold silenceScore
  dsimp only
  split
  · split
    · rename_i _ hc
      constructor
      · exact le_max_left _ _
      · apply max_le (by norm_num)
        have hsum : 0 ≤ (silenceSegments.filter
            (fun s => s.priority = "high" || s.priority = "medium")).foldl
            (fun sum segment => sum + orNum segment.severity 1) 0 := by
          apply foldl_add_nonneg (fun s : SilenceSegment => orNum s.severity 1)
          · intro a ha
            exact orNum_one_nonneg (hsev a (List.mem_of_mem_filter ha))
          · exact le_refl 0
        have hcnt : (0 : ℚ) < ((silenceSegments.filter
            (fun s => s.priority = "high" || s.priority = "medium")).length : ℚ) := by
          exact_mod_cast hc
        have havg := div_nonneg hsum hcnt.le
        have hmult : 0 ≤ min (3 / 2 : ℚ) (1 + ((silenceSegments.filter
            (fun s => s.priority = "high" || s.priority = "medium")).foldl
            (fun sum segment => sum + orNum segment.severity 1) 0) /
            ((silenceSegments.filter
            (fun s => s.priority = "high" || s.priority = "medium")).length : ℚ) * (1 / 2)) := by
          apply le_min (by norm_num)
          linarith
        have hprod := mul_nonneg (mul_nonneg (div_nonneg hcnt.le (by norm_num : (0 : ℚ) ≤ 3))
          (by norm_num : (0 : ℚ) ≤ 40)) hmult
        linarith
    · norm_num
  · norm_num

theorem getRepetitionTypeMultiplier_pos (t : Option String) : 0 < getRepetitionTypeMultiplier t := by
  unfold getRepetitionTypeMultiplier
  split <;> norm_num

theorem repetitionScore_range (repetitions : List Repetition) :
    70 ≤ repetitionScore repetitions ∧ repetitionScore repetitions ≤ 100 := by
  unfold repetitionScore
  dsimp only
  split
  · split
    · constructor
      · exact le_max_left _ _
      · apply max_le (by norm_num)
        have hsum : 0 ≤ (repetitions.filter
            (fun rep => rep.isProblematicRepetition && decide (rep.severity > 5))).foldl
            (fun sum rep => sum + (if rep.severity = 0 then 1 else rep.severity / 10) *
              getRepetitionTypeMultiplier rep.repetitionType) 0 := by
          apply foldl_add_nonneg (fun rep : Repetition =>
            (if rep.severity = 0 then 1 else rep.severity / 10) *
              getRepetitionTypeMultiplier rep.repetitionType)
          · intro a ha
            have hm := (List.mem_filter.mp ha).2
            simp only [Bool.and_eq_true, decide_eq_true_eq] at hm
            apply mul_nonneg _ (getRepetitionTypeMultiplier_pos _).le
            split
            · norm_num
            · linarith [hm.2]
          · exact le_refl 0
        linarith
    · norm_num
  · norm_num

theorem latencyComponent_range (latencyScore : ℚ) (ia : Option InterruptionAnalysis)
    (h0 : 0 ≤ latencyScore) (h1 : latencyScore ≤ 100) :
    0 ≤ latencyComponent latencyScore ia ∧ latencyComponent latencyScore ia ≤ 100 := by
  have hor : orNum latencyScore 0 = latencyScore := by
    unfold orNum; split <;> simp_all
  unfold latencyComponent
  simp only [hor]
  cases ia with
  | none => exact ⟨h0, h1⟩
  | some a =>
    simp only
    split
    · exact ⟨h0, h1⟩
    · constructor
      · exact le_max_left _ _
      · apply max_le (by norm_num)
        have := le_max_left (0 : ℚ) ((100 - a.interruptionScore) * (3 / 10))
        linarith

theorem completionBonus_range (s : ℚ) (r : Option ℚ) (h1 : s ≤ 100) :
    s ≤ completionBonus s r ∧ completionBonus s r ≤ 100 := by
  unfold completionBonus
  cases r with
  | none => exact ⟨le_refl _, h1⟩
  | some rate =>
    simp only
    split_ifs <;> refine ⟨?_, ?_⟩ <;>
      first
        | exact le_refl _
        | exact h1
        | exact min_le_left _ _
        | (apply le_min h1; linarith)

theorem hallucinationPenalties_range (s : ℚ) (ha : Option HallucinationAnalysis)
    (h0 : 0 ≤ s) (h1 : s ≤ 100) :
    0 ≤ hallucinationPenalties s ha ∧ hallucinationPenalties s ha ≤ 100 := by
  unfold hallucinationPenalties
  cases ha with
  | none => exact ⟨h0, h1⟩
  | some a =>
    simp only
    have hafter : ∀ o : Option ℚ,
        0 ≤ (match o with
          | some hallucinationScore =>
            if hallucinationScore < 60 then
              max 50 (s - max 0 ((60 - hallucinationScore) * (2 / 10)))
            else s
          | none => s) ∧
        (match o with
          | some hallucinationScore =>
            if hallucinationScore < 60 then
              max 50 (s - max 0 ((60 - hallucinationScore) * (2 / 10)))
            else s
          | none => s) ≤ 100 := by
      intro o
      cases o with
      | none => exact ⟨h0, h1⟩
      | some v =>
        simp only
        split
        · constructor
          · exact le_trans (by norm_num) (le_max_left _ _)
          · apply max_le (by norm_num)
            have := le_max_left (0 : ℚ) ((60 - v) * (2 / 10))
            linarith
        · exact ⟨h0, h1⟩
    obtain ⟨ha0, ha1⟩ := hafter (orUndef a.enhancedScore a.hallucinationScore)
    cases a.criticalStepAnalysis with
    | none => exact ⟨ha0, ha1⟩
    | some csa =>
      simp only
      split
      · constructor
        · exact le_trans (by norm_num) (le_max_left _ _)
        · apply max_le (by norm_num)
          have : (0 : ℚ) ≤ ((csa.criticalStepViolations.filter
              (fun v => decide (v.severity ≥ 8))).length : ℚ) * 5 := by positivity
          linarith
      · exact ⟨ha0, ha1⟩

theorem intentScore_range (intentFlow : IntentFlow) (ha : Option HallucinationAnalysis)
    (hflow : ∀ f, intentFlow.flowScore = some f → 0 ≤ f ∧ f ≤ 100) :
    0 ≤ intentScore intentFlow ha ∧ intentScore intentFlow ha ≤ 100 := by
  unfold intentScore
  cases hfs : intentFlow.flowScore with
  | none => norm_num
  | some f =>
    obtain ⟨hf0, hf1⟩ := hflow f hfs
    simp only
    have hs1 : 0 ≤ (if intentFlow.objectiveAchieved then min 100 (max f 75 + 20) else f) ∧
        (if intentFlow.objectiveAchieved then min 100 (max f 75 + 20) else f) ≤ 100 := by
      split
      · constructor
        · apply le_min (by norm_num)
          have := le_max_right f 75
          linarith
        · exact min_le_left _ _
      · exact ⟨hf0, hf1⟩
    have hs2 := completionBonus_range _ intentFlow.completionRate hs1.2
    have hs3 := hallucinationPenalties_range _ ha (le_trans hs1.1 hs2.1) hs2.2
    revert hs3
    generalize hallucinationPenalties _ ha = s3
    intro hs3
    split_ifs
    · norm_num
    · exact hs3

theorem durationScore_finite (cda : CallDurationAnalysis) (intentFlow : IntentFlow)
    (hdur : cda.withinIdealRange = false → cda.status = "too_long" →
      cda.totalDurationMinutes ≠ 0) :
    ∃ d : ℚ, durationScore cda intentFlow = JsNum.fin d ∧ 0 ≤ d ∧ d ≤ 100 := by
  unfold durationScore
  by_cases hw : cda.withinIdealRange = true
  · exact ⟨100, by simp [hw, JsNum.minWith], by norm_num, by norm_num⟩
  · by_cases hs : cda.status = "too_short"
    · refine ⟨min 100 (max 0 (100 - cda.deviationFromIdeal * 15 +
        (if intentFlow.objectiveAchieved then 20 else 0))), by simp [hw, hs, JsNum.minWith], ?_, ?_⟩
      · exact le_min (by norm_num) (le_max_left _ _)
      · exact min_le_left _ _
    · by_cases hl : cda.status = "too_long"
      · have hne := hdur (by simpa using hw) hl
        obtain ⟨e, he⟩ : ∃ e : ℚ, calculateConversationEfficiency intentFlow
            cda.totalDurationMinutes = JsNum.fin e := by
          unfold calculateConversationEfficiency
          cases intentFlow.intentMappingsLength with
          | none => exact ⟨_, rfl⟩
          | some n => simp [JsNum.div, hne, JsNum.divConst, JsNum.minWith, JsNum.scale, JsNum.add]
        refine ⟨min 100 (max 15 (100 - cda.deviationFromIdeal * 11 + min 10 (e * 10))), ?_, ?_, ?_⟩
        · simp [hw, hs, hl, he, JsNum.minWith, JsNum.scale, JsNum.add, JsNum.maxWith]
        · exact le_min (by norm_num) (le_trans (by norm_num) (le_max_left _ _))
        · exact min_le_left _ _
      · exact ⟨100, by simp [hw, hs, hl, JsNum.minWith], by norm_num, by norm_num⟩

/-- Supporting result for C1: when the latency score and the flow score lie in [0,100], the
silence severities are non-negative and a too-long call has a non-zero duration, the
overall score is the finite number 0.25*silence + 0.25*repetition + 0.10*duration +
0.15*latency + 0.25*intent of the five component scores, and it lies in [0,100]. -/
theorem calculateAdvancedWeightedScore_weighted (silenceSegments : List SilenceSegment)
    (repetitions : List Repetition) (cda : CallDurationAnalysis) (latencyScore : ℚ)
    (ha : Option HallucinationAnalysis) (ia : Option InterruptionAnalysis)
    (intentFlow : IntentFlow)
    (hlat : 0 ≤ latencyScore ∧ latencyScore ≤ 100)
    (hflow : ∀ f, intentFlow.flowScore = some f → 0 ≤ f ∧ f ≤ 100)
    (hsev : ∀ s ∈ silenceSegments, 0 ≤ s.severity)
    (hdur : cda.withinIdealRange = false → cda.status = "too_long" →
      cda.totalDurationMinutes ≠ 0) :
    ∃ d : ℚ,
      (calculateAdvancedWeightedScore silenceSegments repetitions cda latencyScore ha ia
        intentFlow).2.callDurationOptimization = JsNum.fin d ∧
      (calculateAdvancedWeightedScore silenceSegments repetitions cda latencyScore ha ia
        intentFlow).1 =
        JsNum.fin ((25 / 100) * silenceScore silenceSegments +
          (25 / 100) * repetitionScore repetitions + (10 / 100) * d +
          (15 / 100) * latencyComponent latencyScore ia +
          (25 / 100) * intentScore intentFlow ha) ∧
      0 ≤ (25 / 100) * silenceScore silenceSegments +
          (25 / 100) * repetitionScore repetitions + (10 / 100) * d +
          (15 / 100) * latencyComponent latencyScore ia +
          (25 / 100) * intentScore intentFlow ha ∧
      (25 / 100) * silenceScore silenceSegments +
          (25 / 100) * repetitionScore repetitions + (10 / 100) * d +
          (15 / 100) * latencyComponent latencyScore ia +
          (25 / 100) * intentScore intentFlow ha ≤ 100 ∧
      ((25 : ℚ) / 100 + 25 / 100 + 10 / 100 + 15 / 100 + 25 / 100 = 1) := by
  obtain ⟨d, hd, hd0, hd1⟩ := durationScore_finite cda intentFlow hdur
  obtain ⟨hs0, hs1⟩ := silenceScore_range silenceSegments hsev
  obtain ⟨hr0, hr1⟩ := repetitionScore_range repetitions
  obtain ⟨hl0, hl1⟩ := latencyComponent_range latencyScore ia hlat.1 hlat.2
  obtain ⟨hi0, hi1⟩ := intentScore_range intentFlow ha hflow
  refine ⟨d, hd, ?_, by linarith, by linarith, by norm_num⟩
  simp only [calculateAdvancedWeightedScore, hd, JsNum.scale, JsNum.add]
  congr 1
  ring

/-- Claim C1, at the failing input: a too-long call of duration 0 (audio duration 0 with a
negative `idealCallDurationMax`) and no completed step makes
`calculateConversationEfficiency` divide 0 by 0, and the overall score is `NaN`, not a
number of [0,100], although every precondition of the claim holds. -/
theorem calculateAdvancedWeightedScore_zero_duration :
    (calculateAdvancedWeightedScore [] []
      { totalDurationMinutes := 0, idealRangeMin := -2, idealRangeMax := -1,
        withinIdealRange := false, deviationFromIdeal := 1, status := "too_long" }
      80
      (some { enhancedScore := some 80, hallucinationScore := some 80,
              criticalStepAnalysis := some { criticalStepViolations := [] } })
      (some { interruptionScore := 100 })
      { intentMappingsLength := some 0, completedSteps := 0, totalRequiredSteps := 4,
        flowScore := some 50, objectiveAchieved := false, completionRate := some 0 }).1
      = JsNum.nan := by
  simp [calculateAdvancedWeightedScore, durationScore, calculateConversationEfficiency,
    JsNum.div, JsNum.divConst, JsNum.minWith, JsNum.maxWith, JsNum.scale, JsNum.add, orNum]

/-! ## Characters and regular expressions -/

theorem char_eq_of_toNat_eq {c d : Char} (h : c.toNat = d.toNat) : c = d := by
  apply Char.ext
  apply UInt32.ext
  exact h

theorem canon_of_not_lower {c : Char} (h : ¬(97 ≤ c.toNat ∧ c.toNat ≤ 122)) : canon c = c := by
  unfold canon
  rw [if_neg h]

theorem isWhiteSpace_not_lower {c : Char} (h : isWhiteSpace c = true) :
    ¬(97 ≤ c.toNat ∧ c.toNat ≤ 122) := by
  simp only [isWhiteSpace, Bool.or_eq_true, Bool.and_eq_true, decide_eq_true_eq] at h
  omega

theorem canon_upper_range {c : Char} (h : 97 ≤ c.toNat ∧ c.toNat ≤ 122) :
    65 ≤ (canon c).toNat ∧ (canon c).toNat ≤ 90 := by
  unfold canon
  rw [if_pos h]
  obtain ⟨h1, h2⟩ := h
  generalize c.toNat = n at h1 h2
  interval_cases n <;> decide

theorem isWhiteSpace_canon (c : Char) : isWhiteSpace (canon c) = isWhiteSpace c := by
  by_cases h : 97 ≤ c.toNat ∧ c.toNat ≤ 122
  · have hu := canon_upper_range h
    have h1 : isWhiteSpace (canon c) = false := by
      simp only [isWhiteSpace, Bool.or_eq_false_iff, Bool.and_eq_false_iff, decide_eq_false_iff_not]
      omega
    have h2 : isWhiteSpace c = false := by
      simp only [isWhiteSpace, Bool.or_eq_false_iff, Bool.and_eq_false_iff, decide_eq_false_iff_not]
      omega
    rw [h1, h2]
  · rw [canon_of_not_lower h]

theorem canon_eq_colon {c : Char} (h : canon c = ':') : c = ':' := by
  by_cases hl : 97 ≤ c.toNat ∧ c.toNat ≤ 122
  · have hu := canon_upper_range hl
    rw [h] at hu
    have : (':' : Char).toNat = 58 := by decide
    omega
  · rwa [canon_of_not_lower hl] at h

theorem run_alts (ic : Bool) (rs : List Rx) (prev : Option Char) (s : List Char)
    (k : Option Char → List Char → Bool) :
    (Rx.alts rs).run ic prev s k = rs.any (fun r => r.run ic prev s k) := by
  induction rs with
  | nil => cases s <;> simp [Rx.alts, Rx.run]
  | cons r rs ih =>
    cases rs with
    | nil => simp [Rx.alts]
    | cons r' rs' =>
      show (Rx.alt r (Rx.alts (r' :: rs'))).run ic prev s k = _
      rw [Rx.run, ih]
      simp [List.any_cons]

theorem run_lit_iff (w : List Char) (k : Option Char → List Char → Bool)
    (hk : ∀ p q r, k p r = k q r) :
    ∀ (prev : Option Char) (s : List Char),
      (Rx.lit w).run true prev s k = true ↔
        ∃ m r, s = m ++ r ∧ m.map canon = w.map canon ∧ k none r = true := by
  induction w with
  | nil =>
    intro prev s
    simp only [Rx.lit, Rx.run, List.map_nil, List.map_eq_nil_iff]
    constructor
    · intro h
      exact ⟨[], s, rfl, rfl, by rw [hk none prev]; exact h⟩
    · rintro ⟨m, r, rfl, rfl, h⟩
      rw [hk prev none]
      simpa using h
  | cons c w ih =>
    intro prev s
    cases w with
    | nil =>
      cases s with
      | nil =>
        simp only [Rx.lit, Rx.run]
        constructor
        · intro h; cases h
        · rintro ⟨m, r, hs, hm, _⟩
          cases m with
          | nil => simp at hm
          | cons a m => simp at hs
      | cons d t =>
        simp only [Rx.lit, Rx.run, if_true, Bool.and_eq_true, decide_eq_true_eq]
        constructor
        · rintro ⟨h1, h2⟩
          exact ⟨[d], t, rfl, by simp [h1], by rw [hk none (some d)]; exact h2⟩
        · rintro ⟨m, r, hs, hm, hkr⟩
          cases m with
          | nil => simp at hm
          | cons a m =>
            simp only [List.map_cons, List.map_nil, List.cons.injEq, List.map_eq_nil_iff] at hm
            obtain ⟨ha, rfl⟩ := hm
            simp only [List.cons_append, List.nil_append, List.cons.injEq] at hs
            obtain ⟨rfl, rfl⟩ := hs
            exact ⟨ha, by rw [hk (some d) none]; exact hkr⟩
    | cons c' w' =>
      cases s with
      | nil =>
        simp only [Rx.lit, Rx.run]
        constructor
        · intro h; cases h
        · rintro ⟨m, r, hs, hm, _⟩
          cases m with
          | nil => simp at hm
          | cons a m => simp at hs
      | cons d t =>
        simp only [Rx.lit, Rx.run, if_true, Bool.and_eq_true, decide_eq_true_eq]
        rw [ih (some d) t]
        constructor
        · rintro ⟨h1, m, r, rfl, hm, hkr⟩
          exact ⟨d :: m, r, rfl, by simp [h1, hm], hkr⟩
        · rintro ⟨m, r, hs, hm, hkr⟩
          cases m with
          | nil => simp at hm
          | cons a m =>
            simp only [List.map_cons, List.cons.injEq] at hm
            simp only [List.cons_append, List.cons.injEq] at hs
            obtain ⟨rfl, rfl⟩ := hs
            exact ⟨hm.1, m, r, rfl, by simpa using hm.2, hkr⟩

theorem searchFrom_bol_some (ic : Bool) (r : Rx) :
    ∀ (s : List Char) (c : Char), Rx.searchFrom ic (.seq .bol r) (some c) s = false := by
  intro s
  induction s with
  | nil => intro c; simp [Rx.searchFrom, Rx.run]
  | cons d t ih => intro c; simp [Rx.searchFrom, Rx.run, ih]

theorem test_bol (ic : Bool) (r : Rx) (s : List Char) :
    Rx.test ic (.seq .bol r) s = r.run ic none s (fun _ _ => true) := by
  cases s with
  | nil => simp [Rx.test, Rx.searchFrom, Rx.run]
  | cons d t => simp [Rx.test, Rx.searchFrom, Rx.run, searchFrom_bol_some]

theorem prefix_map_canon_iff (w s : List Char) :
    w.map canon <+: s.map canon ↔ ∃ m r, s = m ++ r ∧ m.map canon = w.map canon := by
  constructor
  · rintro ⟨t, ht⟩
    obtain ⟨m, r, hs, hm, _⟩ := List.map_eq_append_iff.mp ht.symm
    exact ⟨m, r, hs, hm⟩
  · rintro ⟨m, r, rfl, hm⟩
    rw [List.map_append, hm]
    exact List.prefix_append _ _

/-- An anchored label pattern `/^(w1|w2|...):/i` matches the strings that start, letter case
ignored, with one of the labels followed by a colon. -/
theorem test_anchored_labels (ws : List (List Char)) (s : List Char) :
    Rx.test true (Rx.seqs [.bol, Rx.alts (ws.map Rx.lit), .chr ':']) s =
      ws.any (fun w => startsWithIgnoringCase (w ++ [':']) s) := by
  have hrun : ∀ w : List Char,
      (Rx.lit w).run true none s (fun prev' s' => (Rx.chr ':').run true prev' s' (fun _ _ => true))
        = startsWithIgnoringCase (w ++ [':']) s := by
    intro w
    rw [Bool.eq_iff_iff, run_lit_iff w _ (by intros; cases ‹List Char› <;> simp [Rx.run])]
    unfold startsWithIgnoringCase
    rw [List.isPrefixOf_iff_prefix, prefix_map_canon_iff]
    constructor
    · rintro ⟨m, r, rfl, hm, hk⟩
      cases r with
      | nil => simp [Rx.run] at hk
      | cons d t =>
        simp only [Rx.run, if_true, Bool.and_true, decide_eq_true_eq] at hk
        exact ⟨m ++ [d], t, by simp, by simp [hm, hk]⟩
    · rintro ⟨m, r, rfl, hm⟩
      rw [List.map_append] at hm
      obtain ⟨m1, m2, rfl, h1, h2⟩ := List.map_eq_append_iff.mp hm
      cases m2 with
      | nil => simp at h2
      | cons d t =>
        simp only [List.map_cons, List.map_nil, List.cons.injEq, List.map_eq_nil_iff] at h2
        obtain ⟨hd, rfl⟩ := h2
        exact ⟨m1, d :: r, by simp, h1, by simp [Rx.run, hd]⟩
  simp only [Rx.seqs, test_bol]
  rw [Rx.run, run_alts]
  induction ws with
  | nil => rfl
  | cons w ws ih => simp only [List.map_cons, List.any_cons, hrun, ih]

theorem searchFrom_alt (ic : Bool) (a b : Rx) :
    ∀ (s : List Char) (prev : Option Char),
      Rx.searchFrom ic (.alt a b) prev s =
        (Rx.searchFrom ic a prev s || Rx.searchFrom ic b prev s) := by
  intro s
  induction s with
  | nil => intro prev; simp [Rx.searchFrom, Rx.run]
  | cons d t ih =>
    intro prev
    simp only [Rx.searchFrom, Rx.run, ih]
    cases a.run ic prev (d :: t) (fun _ _ => true) <;>
      cases b.run ic prev (d :: t) (fun _ _ => true) <;>
      cases Rx.searchFrom ic a (some d) t <;> simp

theorem searchFrom_lit (w : List Char) :
    ∀ (s : List Char) (prev : Option Char),
      Rx.searchFrom true (Rx.lit w) prev s = containsIgnoringCase w s := by
  have hrun : ∀ (prev : Option Char) (s : List Char),
      (Rx.lit w).run true prev s (fun _ _ => true) = true ↔ w.map canon <+: s.map canon := by
    intro prev s
    rw [run_lit_iff w _ (by intros; rfl), prefix_map_canon_iff]
    simp
  intro s
  induction s with
  | nil =>
    intro prev
    rw [Bool.eq_iff_iff]
    simp only [Rx.searchFrom, hrun, containsIgnoringCase, decide_eq_true_eq, List.map_nil]
    simp [List.prefix_nil, List.infix_nil]
  | cons d t ih =>
    intro prev
    rw [Bool.eq_iff_iff]
    simp only [Rx.searchFrom, Bool.or_eq_true, hrun, ih, containsIgnoringCase,
      decide_eq_true_eq, List.map_cons]
    rw [List.infix_cons_iff]

/-- The pattern `/bot|agent/i` matches the strings that contain `bot` or `agent`, letter
case ignored. -/
theorem test_botKeywords (s : List Char) :
    botKeywords.test true s =
      (containsIgnoringCase "bot".toList s || containsIgnoringCase "agent".toList s) := by
  simp only [botKeywords, Rx.test, searchFrom_alt, searchFrom_lit]

/-! ## Turn parser (C6, C7, C8, C9) -/

theorem agentPattern_test (s : List Char) :
    agentPattern.test true s = specAgentLabels.any (fun w => startsWithIgnoringCase w s) :=
  test_anchored_labels ["Chat Bot".toList, "Bot".toList, "Agent".toList, "Support".toList,
    "Assistant".toList] s

theorem customerPattern_test (s : List Char) :
    customerPattern.test true s = specCustomerLabels.any (fun w => startsWithIgnoringCase w s) :=
  test_anchored_labels ["Human".toList, "User".toList, "Customer".toList, "Client".toList,
    "Caller".toList] s

theorem afterColon_eq_none_iff (s : List Char) : afterColon s = none ↔ ':' ∉ s := by
  induction s with
  | nil => simp [afterColon]
  | cons c t ih =>
    by_cases h : c = ':'
    · simp [afterColon, h]
    · simp only [afterColon, if_neg h, ih, List.mem_cons, not_or]
      constructor
      · intro h'; exact ⟨fun e => h e.symm, h'⟩
      · intro h'; exact h'.2

theorem colon_mem_of_startsWith {w s : List Char}
    (h : startsWithIgnoringCase (w ++ [':']) s = true) : ':' ∈ s := by
  unfold startsWithIgnoringCase at h
  rw [List.isPrefixOf_iff_prefix, prefix_map_canon_iff] at h
  obtain ⟨m, r, rfl, hm⟩ := h
  rw [List.map_append] at hm
  obtain ⟨m1, m2, rfl, _, h2⟩ := List.map_eq_append_iff.mp hm
  cases m2 with
  | nil => simp at h2
  | cons d t =>
    simp only [List.map_cons, List.map_nil, List.cons.injEq, List.map_eq_nil_iff] at h2
    have hd : canon d = ':' := by
      rw [h2.1]; decide
    rw [canon_eq_colon hd]
    simp

theorem colon_mem_of_label {s : List Char}
    (h : (specAgentLabels.any (fun w => startsWithIgnoringCase w s) ||
      specCustomerLabels.any (fun w => startsWithIgnoringCase w s)) = true) : ':' ∈ s := by
  simp only [specAgentLabels, specCustomerLabels, List.any_cons, List.any_nil, Bool.or_false,
    Bool.or_eq_true] at h
  rcases h with (h | h | h | h | h) | (h | h | h | h | h)
  · exact colon_mem_of_startsWith (w := "Chat Bot".toList) h
  · exact colon_mem_of_startsWith (w := "Bot".toList) h
  · exact colon_mem_of_startsWith (w := "Agent".toList) h
  · exact colon_mem_of_startsWith (w := "Support".toList) h
  · exact colon_mem_of_startsWith (w := "Assistant".toList) h
  · exact colon_mem_of_startsWith (w := "Human".toList) h
  · exact colon_mem_of_startsWith (w := "User".toList) h
  · exact colon_mem_of_startsWith (w := "Customer".toList) h
  · exact colon_mem_of_startsWith (w := "Client".toList) h
  · exact colon_mem_of_startsWith (w := "Caller".toList) h

theorem infix_dropWhile_iff {α : Type} (p : α → Bool) (m : List α) (hne : m ≠ [])
    (hm : ∀ a ∈ m, p a = false) :
    ∀ l : List α, m <:+: l.dropWhile p ↔ m <:+: l := by
  intro l
  induction l with
  | nil => simp
  | cons a l ih =>
    by_cases hpa : p a = true
    · rw [List.dropWhile_cons_of_pos hpa, ih, List.infix_cons_iff]
      constructor
      · intro h; exact Or.inr h
      · rintro (h | h)
        · cases m with
          | nil => exact absurd rfl hne
          | cons b m' =>
            rw [List.cons_prefix_cons] at h
            have := hm b (List.mem_cons_self b m')
            rw [h.1, hpa] at this
            cases this
        · exact h
    · rw [List.dropWhile_cons_of_neg hpa]

theorem infix_rdropWhile_iff {α : Type} (p : α → Bool) (m : List α) (hne : m ≠ [])
    (hm : ∀ a ∈ m, p a = false) (l : List α) :
    m <:+: l.rdropWhile p ↔ m <:+: l := by
  unfold List.rdropWhile
  rw [← List.reverse_infix, List.reverse_reverse,
    infix_dropWhile_iff p m.reverse (by simpa using hne) (by simpa using hm),
    List.reverse_infix]

theorem map_canon_dropWhile (s : List Char) :
    (s.dropWhile isWhiteSpace).map canon = (s.map canon).dropWhile isWhiteSpace := by
  rw [List.dropWhile_map]
  have : (isWhiteSpace ∘ canon) = isWhiteSpace := by
    funext c; exact isWhiteSpace_canon c
  rw [this]

theorem map_canon_trim (s : List Char) : (trim s).map canon = trim (s.map canon) := by
  unfold trim List.rdropWhile
  rw [List.map_reverse, map_canon_dropWhile, List.map_reverse, map_canon_dropWhile]

theorem containsIgnoringCase_trim (w s : List Char) (hne : w ≠ [])
    (hw : ∀ c ∈ w.map canon, isWhiteSpace c = false) :
    containsIgnoringCase w (trim s) = containsIgnoringCase w s := by
  unfold containsIgnoringCase
  rw [Bool.eq_iff_iff, decide_eq_true_eq, decide_eq_true_eq, map_canon_trim]
  unfold trim
  rw [infix_rdropWhile_iff isWhiteSpace _ (by simpa using hne) hw,
    infix_dropWhile_iff isWhiteSpace _ (by simpa using hne) hw]

/-- The line classification of the source agrees with the wording of the specification. -/
theorem lineTurn_eq_spec (rawLine : List Char) : lineTurn rawLine = specLineTurn rawLine := by
  unfold lineTurn specLineTurn specSpeaker textAfterSpeaker
  simp only [agentPattern_test, customerPattern_test, test_botKeywords]
  rw [containsIgnoringCase_trim "bot".toList _ (by decide) (by decide),
    containsIgnoringCase_trim "agent".toList _ (by decide) (by decide)]
  by_cases hline : trim rawLine = []
  · simp [hline]
  · simp only [hline, if_false]
    by_cases ha : specAgentLabels.any (fun w => startsWithIgnoringCase w (trim rawLine)) = true
    · have hc := colon_mem_of_label (s := trim rawLine) (by simp [ha])
      obtain ⟨rest, hrest⟩ := Option.ne_none_iff_exists'.mp
        (fun h => (afterColon_eq_none_iff _).mp h hc)
      simp only [ha, if_true, hrest]
      by_cases ht : trim rest = [] <;> simp [ht]
    · by_cases hcu : specCustomerLabels.any
          (fun w => startsWithIgnoringCase w (trim rawLine)) = true
      · have hc := colon_mem_of_label (s := trim rawLine) (by simp [hcu])
        obtain ⟨rest, hrest⟩ := Option.ne_none_iff_exists'.mp
          (fun h => (afterColon_eq_none_iff _).mp h hc)
        simp only [ha, hcu, if_true, hrest]
        by_cases ht : trim rest = [] <;> simp [ht]
      · simp only [ha, hcu]
        cases hrest : afterColon (trim rawLine) with
        | none =>
          have := (afterColon_eq_none_iff _).mp hrest
          simp [this]
        | some rest =>
          have hc : ':' ∈ trim rawLine := by
            by_contra hc
            rw [(afterColon_eq_none_iff _).mpr hc] at hrest
            cases hrest
          simp only [hc, if_true]
          cases (containsIgnoringCase "bot".toList (beforeColon (trim rawLine)) ||
              containsIgnoringCase "agent".toList (beforeColon (trim rawLine))) <;>
            by_cases ht : trim rest = [] <;> simp [ht]

theorem foldl_parseLineStep (ls : List (List Char)) :
    ∀ turns : List Turn, ls.foldl parseLineStep turns = turns ++ ls.filterMap lineTurn := by
  induction ls with
  | nil => intro turns; simp
  | cons l ls ih =>
    intro turns
    rw [List.foldl_cons, ih, List.filterMap_cons]
    unfold parseLineStep
    cases lineTurn l with
    | none => rfl
    | some t => simp

theorem parseLines_eq_filterMap (s : List Char) :
    parseLines s = (splitOnChar '\n' s).filterMap lineTurn := by
  unfold parseLines
  rw [foldl_parseLineStep]
  rfl

theorem parseLines_nil : parseLines [] = [] := by decide

theorem ParseCache.consistent_empty : ParseCache.empty.Consistent :=
  Or.inl ⟨rfl, rfl⟩

/-- With a consistent cache, `parseTranscriptTurns` returns the turns of the lines, cached
or not. -/
theorem parseTranscriptTurns_str (cache : ParseCache) (hc : cache.Consistent) (s : List Char) :
    (parseTranscriptTurns cache (.str s)).1 = parseLines s := by
  unfold parseTranscriptTurns
  rcases hc with ⟨h1, h2⟩ | ⟨t, ht, h1, h2⟩
  · simp only [ParseCache.sameTranscript, h1, h2]
    by_cases hs : s = []
    · subst hs; simp [parseLines_nil]
    · have : s.isEmpty = false := by cases s <;> simp_all
      simp [this]
  · simp only [ParseCache.sameTranscript, h1, h2]
    by_cases hst : t = s
    · subst hst; simp
    · have hne : (decide (some t = some s)) = false := by simp [hst]
      rw [hne]
      by_cases hs : s = []
      · subst hs; simp [parseLines_nil]
      · have : s.isEmpty = false := by cases s <;> simp_all
        simp [this]

/-- With a consistent cache, `parseTranscriptTurns` returns no turn for an argument that
is not a non-empty string. -/
theorem parseTranscriptTurns_invalid (cache : ParseCache) (hc : cache.Consistent)
    (t : TranscriptArg) (ht : t.invalid = true) : (parseTranscriptTurns cache t).1 = [] := by
  cases t with
  | str s =>
    rw [parseTranscriptTurns_str cache hc]
    have : s = [] := by cases s <;> simp_all [TranscriptArg.invalid]
    rw [this, parseLines_nil]
  | null =>
    unfold parseTranscriptTurns
    rcases hc with ⟨h1, h2⟩ | ⟨t, _, h1, h2⟩ <;> simp [ParseCache.sameTranscript, h1, h2]
  | undefined => simp [parseTranscriptTurns, ParseCache.sameTranscript]
  | other => simp [parseTranscriptTurns, ParseCache.sameTranscript]

theorem specLineTurn_some {l : List Char} {t : Turn} (h : specLineTurn l = some t) :
    t.text ≠ [] ∧ (t.speaker = "agent" ∨ t.speaker = "customer") ∧
      ∃ rest, afterColon (trim l) = some rest ∧ t.text = trim rest := by
  unfold specLineTurn at h
  simp only at h
  split at h
  · cases h
  · split at h
    · rename_i speaker rest hsp hrest
      split at h
      · cases h
      · rename_i hne
        cases h
        refine ⟨hne, ?_, rest, hrest, rfl⟩
        unfold specSpeaker at hsp
        split at hsp
        · cases hsp; exact Or.inl rfl
        · split at hsp
          · cases hsp; exact Or.inr rfl
          · split at hsp
            · split at hsp
              · cases hsp; exact Or.inl rfl
              · cases hsp; exact Or.inr rfl
            · cases hsp
    · cases h

theorem specLineTurn_of_afterColon {l rest : List Char} (h : afterColon (trim l) = some rest)
    (hne : trim rest ≠ []) : ∃ t, specLineTurn l = some t := by
  have hc : ':' ∈ trim l := by
    by_contra hc
    rw [(afterColon_eq_none_iff _).mpr hc] at h
    cases h
  have hl : trim l ≠ [] := by
    intro e; rw [e] at hc; cases hc
  have hsp : ∃ sp, specSpeaker (trim l) = some sp := by
    unfold specSpeaker
    split
    · exact ⟨_, rfl⟩
    · split
      · exact ⟨_, rfl⟩
      · split <;> exact ⟨_, rfl⟩
  obtain ⟨sp, hsp⟩ := hsp
  exact ⟨⟨sp, trim rest⟩, by simp [specLineTurn, hl, hsp, h, hne]⟩

theorem exists_sublist_filterMap {α β : Type} (f : α → Option β) (l : List α) :
    ∃ ls, ls.Sublist l ∧ List.Forall₂ (fun a b => f a = some b) ls (l.filterMap f) := by
  induction l with
  | nil => exact ⟨[], List.Sublist.refl _, List.Forall₂.nil⟩
  | cons a l ih =>
    obtain ⟨ls, hsub, hall⟩ := ih
    rw [List.filterMap_cons]
    cases hfa : f a with
    | none => exact ⟨ls, hsub.cons a, hall⟩
    | some b => exact ⟨a :: ls, hsub.cons₂ a, List.Forall₂.cons hfa hall⟩

theorem mem_of_mem_trim {c : Char} {s : List Char} (h : c ∈ trim s) : c ∈ s := by
  unfold trim at h
  exact (List.dropWhile_suffix isWhiteSpace).subset
    ((List.rdropWhile_prefix isWhiteSpace _).subset h)

/-- Claim C6: for every transcript string (and every cache the analyzer can hold),
`parseTranscriptTurns` returns no turn with an empty text, every speaker is `agent` or
`customer`, and the turns are, in order, the turns of a subsequence of the transcript's
lines. -/
theorem parseTranscriptTurns_wellformed (cache : ParseCache) (hc : cache.Consistent)
    (s : List Char) :
    (∀ t ∈ (parseTranscriptTurns cache (.str s)).1,
        t.text ≠ [] ∧ (t.speaker = "agent" ∨ t.speaker = "customer")) ∧
    ∃ ls, ls.Sublist (splitOnChar '\n' s) ∧
      List.Forall₂ (fun l t => lineTurn l = some t) ls (parseTranscriptTurns cache (.str s)).1 := by
  rw [parseTranscriptTurns_str cache hc, parseLines_eq_filterMap]
  refine ⟨?_, exists_sublist_filterMap lineTurn _⟩
  intro t ht
  obtain ⟨l, _, hl⟩ := List.mem_filterMap.mp ht
  rw [lineTurn_eq_spec] at hl
  exact ⟨(specLineTurn_some hl).1, (specLineTurn_some hl).2.1⟩

/-- Witness of C6 with an empty cache: a transcript of five lines, two of which are dropped. -/
theorem parseTranscriptTurns_wellformed_witness :
    ParseCache.empty.Consistent ∧
    (parseTranscriptTurns ParseCache.empty
      (.str "Chat Bot: Hello\n\nno speaker here\nHuman: Hi\nBot:".toList)).1 =
      [⟨"agent", "Hello".toList⟩, ⟨"customer", "Hi".toList⟩] ∧
    ((∀ t ∈ (parseTranscriptTurns ParseCache.empty
        (.str "Chat Bot: Hello\n\nno speaker here\nHuman: Hi\nBot:".toList)).1,
        t.text ≠ [] ∧ (t.speaker = "agent" ∨ t.speaker = "customer")) ∧
    ∃ ls, ls.Sublist (splitOnChar '\n' "Chat Bot: Hello\n\nno speaker here\nHuman: Hi\nBot:".toList) ∧
      List.Forall₂ (fun l t => lineTurn l = some t) ls (parseTranscriptTurns ParseCache.empty
        (.str "Chat Bot: Hello\n\nno speaker here\nHuman: Hi\nBot:".toList)).1) :=
  ⟨ParseCache.consistent_empty, by decide,
    parseTranscriptTurns_wellformed ParseCache.empty ParseCache.consistent_empty _⟩

/-- Claim C7: for every transcript, the turns returned by `parseTranscriptTurns` are those
of the line-by-line description of the specification (`specParseTurns`). -/
theorem parseTranscriptTurns_eq_spec (cache : ParseCache) (hc : cache.Consistent)
    (s : List Char) : (parseTranscriptTurns cache (.str s)).1 = specParseTurns s := by
  rw [parseTranscriptTurns_str cache hc, parseLines_eq_filterMap]
  unfold specParseTurns
  congr 1
  funext l
  exact lineTurn_eq_spec l

/-- Witness of C7 with an empty cache: labelled, generic and dropped lines. -/
theorem parseTranscriptTurns_eq_spec_witness :
    ParseCache.empty.Consistent ∧
    (parseTranscriptTurns ParseCache.empty
      (.str "AGENT: One\nRobot 7 : Two\nJohn: Three\nno colon\ncaller:  ".toList)).1 =
      specParseTurns "AGENT: One\nRobot 7 : Two\nJohn: Three\nno colon\ncaller:  ".toList ∧
    specParseTurns "AGENT: One\nRobot 7 : Two\nJohn: Three\nno colon\ncaller:  ".toList =
      [⟨"agent", "One".toList⟩, ⟨"agent", "Two".toList⟩, ⟨"customer", "Three".toList⟩] :=
  ⟨ParseCache.consistent_empty,
    parseTranscriptTurns_eq_spec ParseCache.empty ParseCache.consistent_empty _, by decide⟩

/-- Claim C8 as stated, refuted: no line of the transcript `John: hello` starts with one of
the ten recognized labels, yet the generic `speaker:text` branch makes it a customer turn. -/
theorem parseTranscriptTurns_unlabelled_counterexample :
    (∀ line ∈ splitOnChar '\n' "John: hello".toList, hasRecognizedLabel line = false) ∧
    (parseTranscriptTurns ParseCache.empty (.str "John: hello".toList)).1 =
      [⟨"customer", "hello".toList⟩] := by
  decide

/-- Claim C8 as amended: `parseTranscriptTurns` returns the empty list exactly when no line of
the transcript has a non-blank text after its first colon; in particular it returns the
empty list for every transcript in which no line contains a colon. -/
theorem parseTranscriptTurns_eq_nil_iff (cache : ParseCache) (hc : cache.Consistent)
    (s : List Char) :
    ((parseTranscriptTurns cache (.str s)).1 = [] ↔
      ∀ line ∈ splitOnChar '\n' s, ∀ rest, afterColon (trim line) = some rest → trim rest = []) ∧
    ((∀ line ∈ splitOnChar '\n' s, ':' ∉ line) → (parseTranscriptTurns cache (.str s)).1 = []) := by
  have hiff : (parseTranscriptTurns cache (.str s)).1 = [] ↔
      ∀ line ∈ splitOnChar '\n' s, ∀ rest, afterColon (trim line) = some rest →
        trim rest = [] := by
    rw [parseTranscriptTurns_str cache hc, parseLines_eq_filterMap, List.filterMap_eq_nil_iff]
    constructor
    · intro h line hline rest hrest
      by_contra hne
      obtain ⟨t, ht⟩ := specLineTurn_of_afterColon hrest hne
      rw [← lineTurn_eq_spec, h line hline] at ht
      cases ht
    · intro h line hline
      cases hl : lineTurn line with
      | none => rfl
      | some t =>
        rw [lineTurn_eq_spec] at hl
        obtain ⟨hne, _, rest, hrest, htext⟩ := specLineTurn_some hl
        rw [htext] at hne
        exact absurd (h line hline rest hrest) hne
  refine ⟨hiff, fun h => hiff.mpr ?_⟩
  intro line hline rest hrest
  have hc' : ':' ∈ trim line := by
    by_contra hcn
    rw [(afterColon_eq_none_iff _).mpr hcn] at hrest
    cases hrest
  exact absurd (mem_of_mem_trim hc') (h line hline)

/-- Witness of the amended C8: a transcript of two lines without any colon. -/
theorem parseTranscriptTurns_eq_nil_witness :
    ParseCache.empty.Consistent ∧
    (∀ line ∈ splitOnChar '\n' "hello there\nno speaker label".toList, ':' ∉ line) ∧
    (parseTranscriptTurns ParseCache.empty (.str "hello there\nno speaker label".toList)).1 = [] :=
  ⟨ParseCache.consistent_empty, by decide,
    (parseTranscriptTurns_eq_nil_iff ParseCache.empty ParseCache.consistent_empty
      "hello there\nno speaker label".toList).2 (by decide)⟩

/-- Claim C9: for a transcript argument that is null, undefined, the empty string or not a
string, `analyzeCall` analyses the fixed default transcript, which parses to exactly two
turns, one of the agent and one of the customer, and `parseTranscriptTurns` itself returns
the empty list on such an argument. -/
theorem analyzeCall_invalid_transcript (cache : ParseCache) (hc : cache.Consistent)
    (transcript : TranscriptArg) (hinv : transcript.invalid = true) :
    analyzeCallTranscript transcript =
      "Chat Bot: Hello, this is a default transcript for analysis.\nHuman: Thank you.".toList ∧
    (parseTranscriptTurns cache (.str (analyzeCallTranscript transcript))).1 =
      [⟨"agent", "Hello, this is a default transcript for analysis.".toList⟩,
       ⟨"customer", "Thank you.".toList⟩] ∧
    (parseTranscriptTurns cache transcript).1 = [] := by
  have hdef : analyzeCallTranscript transcript = defaultTranscript := by
    cases transcript with
    | str s =>
      have : s.isEmpty = true := by simpa [TranscriptArg.invalid] using hinv
      simp [analyzeCallTranscript, this]
    | null => rfl
    | undefined => rfl
    | other => rfl
  refine ⟨hdef, ?_, parseTranscriptTurns_invalid cache hc transcript hinv⟩
  rw [hdef, parseTranscriptTurns_str cache hc]
  decide

/-- Witness of C9: the argument `null` with an empty cache. -/
theorem analyzeCall_invalid_transcript_witness :
    ParseCache.empty.Consistent ∧ TranscriptArg.null.invalid = true ∧
    (parseTranscriptTurns ParseCache.empty (.str (analyzeCallTranscript .null))).1 =
      [⟨"agent", "Hello, this is a default transcript for analysis.".toList⟩,
       ⟨"customer", "Thank you.".toList⟩] ∧
    (parseTranscriptTurns ParseCache.empty .null).1 = [] :=
  ⟨ParseCache.consistent_empty, rfl,
    (analyzeCall_invalid_transcript ParseCache.empty ParseCache.consistent_empty .null rfl).2⟩

/-! ## Call objective and conversation context (C3, C4, C5) -/

theorem mem_completedSteps (intentMappings : List IntentMapping) (s : ℕ) :
    s ∈ completedSteps intentMappings ↔
      0 < s ∧ ∃ m ∈ intentMappings, m.stepNumber = s ∧ m.confidence > 4 / 10 := by
  unfold completedSteps
  simp only [List.mem_filter, List.mem_map, decide_eq_true_eq]
  constructor
  · rintro ⟨⟨m, ⟨hm, hc⟩, rfl⟩, hpos⟩
    exact ⟨hpos, m, hm, rfl, hc⟩
  · rintro ⟨hpos, m, hm, rfl, hc⟩
    exact ⟨⟨m, ⟨hm, hc⟩, rfl⟩, hpos⟩

theorem contains_completedSteps (intentMappings : List IntentMapping) (s : ℕ) (hs : 0 < s) :
    (completedSteps intentMappings).contains s =
      decide (∃ m ∈ intentMappings, m.stepNumber = s ∧ m.confidence > 4 / 10) := by
  rw [Bool.eq_iff_iff, decide_eq_true_eq, List.contains_iff_exists_mem_beq]
  constructor
  · rintro ⟨a, ha, hb⟩
    have : s = a := by simpa using hb
    subst this
    exact ((mem_completedSteps _ _).mp ha).2
  · intro h
    exact ⟨s, (mem_completedSteps _ _).mpr ⟨hs, h⟩, by simp⟩

/-- Claim C3: when each of the steps 1, 6, 7 and 9 is the step number of some mapping with
confidence above 0.4, `analyzeCallObjectiveCompletion` returns `objectiveAchieved = true` and
no missing critical step; whenever `objectiveAchieved` is false, `missingCriticalSteps` is the
list of the members of 1, 6, 7, 9 that no mapping completes; and the result is the same
for every conversation context passed. -/
theorem analyzeCallObjectiveCompletion_critical_steps (intentMappings : List IntentMapping)
    (context : ConversationContext) :
    ((∀ s ∈ [1, 6, 7, 9], ∃ m ∈ intentMappings, m.stepNumber = s ∧ m.confidence > 4 / 10) →
      (analyzeCallObjectiveCompletion intentMappings context).objectiveAchieved = true ∧
      (analyzeCallObjectiveCompletion intentMappings context).missingCriticalSteps = []) ∧
    ((analyzeCallObjectiveCompletion intentMappings context).objectiveAchieved = false →
      (analyzeCallObjectiveCompletion intentMappings context).missingCriticalSteps =
        [1, 6, 7, 9].filter (fun s =>
          decide (¬∃ m ∈ intentMappings, m.stepNumber = s ∧ m.confidence > 4 / 10))) ∧
    (∀ other : ConversationContext,
      analyzeCallObjectiveCompletion intentMappings other =
        analyzeCallObjectiveCompletion intentMappings context) := by
  refine ⟨?_, ?_, fun _ => rfl⟩
  · intro h
    have h1 : 1 ∈ completedSteps intentMappings :=
      (mem_completedSteps _ _).mpr ⟨by norm_num, h 1 (by simp)⟩
    have h6 : 6 ∈ completedSteps intentMappings :=
      (mem_completedSteps _ _).mpr ⟨by norm_num, h 6 (by simp)⟩
    have h7 : 7 ∈ completedSteps intentMappings :=
      (mem_completedSteps _ _).mpr ⟨by norm_num, h 7 (by simp)⟩
    have h9 : 9 ∈ completedSteps intentMappings :=
      (mem_completedSteps _ _).mpr ⟨by norm_num, h 9 (by simp)⟩
    simp [analyzeCallObjectiveCompletion, List.filter_cons, h1, h6, h7, h9]
  · intro h
    unfold analyzeCallObjectiveCompletion at h ⊢
    dsimp only at h ⊢
    rw [h]
    simp only [Bool.false_eq_true, if_false]
    apply List.filter_congr
    intro s hs
    have hpos : 0 < s := by
      simp only [List.mem_cons, List.mem_singleton, List.mem_nil_iff, or_false] at hs
      omega
    rw [contains_completedSteps intentMappings s hpos]
    by_cases hex : ∃ m ∈ intentMappings, m.stepNumber = s ∧ m.confidence > 4 / 10
    · rw [decide_eq_true hex, decide_eq_false (not_not_intro hex)]; rfl
    · rw [decide_eq_false hex, decide_eq_true hex]; rfl

/-- Witness of C3: mappings that complete the steps 1, 6, 7 and 9, with the context
`failed_inquiry` passed. -/
theorem analyzeCallObjectiveCompletion_critical_steps_witness :
    (∀ s ∈ [1, 6, 7, 9],
      ∃ m ∈ allCriticalMappings, m.stepNumber = s ∧ m.confidence > 4 / 10) ∧
    (analyzeCallObjectiveCompletion allCriticalMappings failed_inquiry).objectiveAchieved = true ∧
    (analyzeCallObjectiveCompletion allCriticalMappings failed_inquiry).missingCriticalSteps = [] := by
  have h : ∀ s ∈ [1, 6, 7, 9],
      ∃ m ∈ allCriticalMappings, m.stepNumber = s ∧ m.confidence > 4 / 10 := by
    intro s hs
    simp only [List.mem_cons, List.mem_singleton, List.mem_nil_iff, or_false] at hs
    rcases hs with rfl | rfl | rfl | rfl
    · exact ⟨_, List.mem_cons_self _ _, rfl, by norm_num⟩
    · exact ⟨_, List.mem_cons_of_mem _ (List.mem_cons_self _ _), rfl, by norm_num⟩
    · exact ⟨_, List.mem_cons_of_mem _ (List.mem_cons_of_mem _ (List.mem_cons_self _ _)), rfl,
        by norm_num⟩
    · exact ⟨_, List.mem_cons_of_mem _ (List.mem_cons_of_mem _ (List.mem_cons_of_mem _
        (List.mem_cons_self _ _))), rfl, by norm_num⟩
  exact ⟨h, (analyzeCallObjectiveCompletion_critical_steps allCriticalMappings failed_inquiry).1 h⟩

theorem completedSteps_transferAccepted :
    completedSteps transferAcceptedMappings = [1, 1, 7, 9] := by
  norm_num [completedSteps, transferAcceptedMappings, List.filter]

/-- Supporting result for C4: the parser labels the speakers `agent` and `customer`, and for
such mappings the affirmative-response check, which looks for the label `human`, fails. -/
theorem checkAffirmativeResponseToTransfer_agent_customer (intentMappings : List IntentMapping)
    (h : ∀ m ∈ intentMappings, m.speaker = "agent" ∨ m.speaker = "customer") :
    checkAffirmativeResponseToTransfer intentMappings = false := by
  unfold checkAffirmativeResponseToTransfer
  cases lastTransferIndex 0 intentMappings with
  | none => rfl
  | some i =>
    simp only
    rw [List.any_eq_false]
    intro m hm
    have hsp := h m (List.mem_of_mem_drop hm)
    have hno : includes "human".toList (toLowerCase m.speaker.toList) = false := by
      rcases hsp with e | e <;> rw [e] <;> decide
    rw [hno]
    simp

/-- Claim C4, at the failing input: the mappings complete step 9 and exactly three of the
steps 1, 6, 7, 9, all speakers are `agent` or `customer`, and the customer mapping after
the last call-transfer mapping is `yes okay`, which the first affirmative pattern matches;
the code looks for the speaker label `human`, finds none, and returns
`objectiveAchieved = false`. -/
theorem analyzeCallObjectiveCompletion_affirmative_customer :
    (∀ m ∈ transferAcceptedMappings, m.speaker = "agent" ∨ m.speaker = "customer") ∧
    9 ∈ completedSteps transferAcceptedMappings ∧
    ([1, 6, 7, 9].filter (fun s => decide (s ∈ completedSteps transferAcceptedMappings))).length = 3 ∧
    lastTransferIndex 0 transferAcceptedMappings = some 4 ∧
    (transferAcceptedMappings.drop 5).map (fun m => (m.speaker, m.text)) =
      [("customer", "yes okay".toList)] ∧
    affirmativePattern1.test true "yes okay".toList = true ∧
    checkAffirmativeResponseToTransfer transferAcceptedMappings = false ∧
    (analyzeCallObjectiveCompletion transferAcceptedMappings
      successful_property_inquiry).objectiveAchieved = false := by
  have hsp : ∀ m ∈ transferAcceptedMappings, m.speaker = "agent" ∨ m.speaker = "customer" := by
    decide
  have hno := checkAffirmativeResponseToTransfer_agent_customer transferAcceptedMappings hsp
  refine ⟨hsp, ?_, ?_, by decide, by decide, by decide, hno, ?_⟩
  · rw [completedSteps_transferAccepted]; decide
  · rw [completedSteps_transferAccepted]; decide
  · simp only [analyzeCallObjectiveCompletion, completedSteps_transferAccepted, hno]
    decide

theorem contains_map_conversationStep (intentMappings : List IntentMapping) (k : String) :
    (intentMappings.map (fun m => m.conversationStep)).contains k =
      decide (k ∈ intentMappings.map (fun m => m.conversationStep)) := by
  rw [Bool.eq_iff_iff, decide_eq_true_eq, List.contains_iff_exists_mem_beq]
  constructor
  · rintro ⟨a, ha, hb⟩
    have : k = a := by simpa using hb
    rw [this]; exact ha
  · intro h; exact ⟨k, h, by simp⟩

/-- Claim C5: `determineConversationContext` is the first-match decision tree of the
specification over the conversation steps that occur in the mappings; a call whose steps
are only greeting, wrong-number handling and goodbye, the wrong-number step among them,
resolves to `wrong_number`, which is not `failed_inquiry`. -/
theorem determineConversationContext_eq_spec (intentMappings : List IntentMapping) :
    determineConversationContext intentMappings =
      specResolveContext (intentMappings.map (fun m => m.conversationStep)) ∧
    ((∀ m ∈ intentMappings, m.conversationStep = "initial_greeting" ∨
        m.conversationStep = "wrong_number_handling" ∨ m.conversationStep = "goodbye") →
      (∃ m ∈ intentMappings, m.conversationStep = "wrong_number_handling") →
      determineConversationContext intentMappings = wrong_number) ∧
    wrong_number ≠ failed_inquiry := by
  have hspec : determineConversationContext intentMappings =
      specResolveContext (intentMappings.map (fun m => m.conversationStep)) := by
    unfold determineConversationContext specResolveContext
    simp only [contains_map_conversationStep]
    generalize intentMappings.map (fun m => m.conversationStep) = steps
    by_cases h1 : "wrong_number_handling" ∈ steps <;>
    by_cases h2 : "voicemail_response" ∈ steps <;>
    by_cases h3 : "busy_response" ∈ steps <;>
    by_cases h4 : "callback_scheduling" ∈ steps <;>
    by_cases h5 : "interest_check" ∈ steps <;>
    by_cases h6 : "agent_connection_offer" ∈ steps <;>
    by_cases h7 : "call_transfer" ∈ steps <;>
    by_cases h8 : "third_party_interaction" ∈ steps <;>
    by_cases h9 : "agent_decline_handling" ∈ steps <;>
    simp [h1, h2, h3, h4, h5, h6, h7, h8, h9]
  refine ⟨hspec, ?_, by decide⟩
  rintro _ ⟨m, hm, hstep⟩
  rw [hspec]
  unfold specResolveContext
  rw [if_pos]
  exact List.mem_map.mpr ⟨m, hm, hstep⟩

/-- Witness of C5: a call with greeting, wrong-number handling and goodbye. -/
theorem determineConversationContext_eq_spec_witness :
    (∀ m ∈ wrongNumberMappings, m.conversationStep = "initial_greeting" ∨
        m.conversationStep = "wrong_number_handling" ∨ m.conversationStep = "goodbye") ∧
    (∃ m ∈ wrongNumberMappings, m.conversationStep = "wrong_number_handling") ∧
    determineConversationContext wrongNumberMappings = wrong_number :=
  ⟨by decide, by decide,
    (determineConversationContext_eq_spec wrongNumberMappings).2.1 (by decide) (by decide)⟩

/-! ## Repetition detector (C10) -/

theorem splitOnChar_of_not_mem (sep : Char) :
    ∀ s : List Char, sep ∉ s → splitOnChar sep s = [s] := by
  intro s
  induction s with
  | nil => intro _; rfl
  | cons c t ih =>
    intro h
    have hc : c ≠ sep := fun e => h (by simp [e])
    have ht : sep ∉ t := fun e => h (List.mem_cons_of_mem _ e)
    simp [splitOnChar, hc, ih ht]

theorem splitOnChar_append (sep : Char) (b : List Char) :
    ∀ a : List Char, sep ∉ a → splitOnChar sep (a ++ sep :: b) = a :: splitOnChar sep b := by
  intro a
  induction a with
  | nil => intro _; simp [splitOnChar]
  | cons c t ih =>
    intro h
    have hc : c ≠ sep := fun e => h (by simp [e])
    have ht : sep ∉ t := fun e => h (List.mem_cons_of_mem _ e)
    simp [splitOnChar, hc, ih ht]

theorem dropWhile_eq_self_of_trim {s : List Char} (h : trim s = s) :
    s.dropWhile isWhiteSpace = s ∧ s.rdropWhile isWhiteSpace = s := by
  have hsuf : s.dropWhile isWhiteSpace <:+ s := List.dropWhile_suffix isWhiteSpace
  have hpre : trim s <+: s.dropWhile isWhiteSpace := List.rdropWhile_prefix isWhiteSpace _
  have hlen : s.length ≤ (s.dropWhile isWhiteSpace).length := by
    have := hpre.length_le
    rw [h] at this
    exact this
  have hd : s.dropWhile isWhiteSpace = s := hsuf.eq_of_length (le_antisymm hsuf.length_le hlen)
  refine ⟨hd, ?_⟩
  have := h
  unfold trim at this
  rwa [hd] at this

theorem dropWhile_append_of_all {α : Type} (p : α → Bool) (b : List α) :
    ∀ a : List α, (∀ x ∈ a, p x = true) → (a ++ b).dropWhile p = b.dropWhile p := by
  intro a
  induction a with
  | nil => intro _; rfl
  | cons x t ih =>
    intro h
    rw [List.cons_append, List.dropWhile_cons_of_pos (h x (List.mem_cons_self x t))]
    exact ih (fun y hy => h y (List.mem_cons_of_mem x hy))

theorem rdropWhile_append_of_ne_nil {α : Type} (p : α → Bool) (a b : List α)
    (hb : b.rdropWhile p ≠ []) : (a ++ b).rdropWhile p = a ++ b.rdropWhile p := by
  unfold List.rdropWhile at hb ⊢
  have hb' : (b.reverse.dropWhile p).isEmpty = false := by
    cases h : b.reverse.dropWhile p with
    | nil => simp [h] at hb
    | cons _ _ => rfl
  rw [List.reverse_append, List.dropWhile_append, hb']
  simp

theorem trim_pad_text {pad text : List Char} (hpad : ∀ c ∈ pad, isWhiteSpace c = true)
    (htrim : trim text = text) : trim (pad ++ text) = text := by
  unfold trim
  rw [dropWhile_append_of_all isWhiteSpace text pad hpad]
  exact htrim

theorem trim_cons_append_text {x : Char} {a text : List Char} (hx : isWhiteSpace x = false)
    (htrim : trim text = text) (hne : text ≠ []) :
    trim (x :: a ++ text) = x :: a ++ text := by
  obtain ⟨_, hr⟩ := dropWhile_eq_self_of_trim htrim
  unfold trim
  rw [List.cons_append, List.dropWhile_cons_of_neg (by simp [hx]), ← List.cons_append,
    rdropWhile_append_of_ne_nil isWhiteSpace (x :: a) text (by rw [hr]; exact hne), hr]

theorem mem_dropWhile_of_not {α : Type} (p : α → Bool) {c : α} (hc : p c = false) :
    ∀ l : List α, c ∈ l → c ∈ l.dropWhile p := by
  intro l
  induction l with
  | nil => intro h; cases h
  | cons a l ih =>
    intro h
    by_cases hpa : p a = true
    · rw [List.dropWhile_cons_of_pos hpa]
      rcases List.mem_cons.mp h with rfl | h'
      · rw [hc] at hpa; cases hpa
      · exact ih h'
    · rw [List.dropWhile_cons_of_neg hpa]; exact h

theorem mem_trim_of_not_whiteSpace {c : Char} (hc : isWhiteSpace c = false) {s : List Char}
    (h : c ∈ s) : c ∈ trim s := by
  unfold trim List.rdropWhile
  rw [List.mem_reverse]
  apply mem_dropWhile_of_not isWhiteSpace hc
  rw [List.mem_reverse]
  exact mem_dropWhile_of_not isWhiteSpace hc _ h

theorem isWordChar_not_whiteSpace {c : Char} (h : isWordChar c = true) :
    isWhiteSpace c = false := by
  simp only [isWordChar, Bool.or_eq_true, Bool.and_eq_true, decide_eq_true_eq] at h
  simp only [isWhiteSpace, Bool.or_eq_false_iff, Bool.and_eq_false_iff, decide_eq_false_iff_not]
  omega

theorem mem_collapseSpaces {c : Char} (hc : isWhiteSpace c = false) :
    ∀ (s : List Char) (inRun : Bool), c ∈ s → c ∈ collapseSpaces inRun s := by
  intro s
  induction s with
  | nil => intro _ h; cases h
  | cons a s ih =>
    intro inRun h
    unfold collapseSpaces
    rcases List.mem_cons.mp h with rfl | h'
    · simp [hc]
    · by_cases ha : isWhiteSpace a = true
      · rw [if_pos ha]
        cases inRun
        · simp only [Bool.false_eq_true, if_false]
          exact List.mem_cons_of_mem _ (ih true h')
        · simp only [if_true]
          exact ih true h'
      · rw [if_neg ha]
        exact List.mem_cons_of_mem _ (ih false h')

theorem exists_word_toLowerCase :
    ∀ s : List Char, (∃ c ∈ s, isWordChar c = true) →
      ∃ c ∈ toLowerCase s, isWordChar c = true := by
  intro s
  induction s with
  | nil => rintro ⟨c, hc, _⟩; cases hc
  | cons a s ih =>
    rintro ⟨c, hc, hw⟩
    unfold toLowerCase
    rcases List.mem_cons.mp hc with rfl | h'
    · unfold lowerChar
      by_cases hup : 65 ≤ c.toNat ∧ c.toNat ≤ 90
      · rw [if_pos hup]
        refine ⟨Char.ofNat (c.toNat + 32), by simp, ?_⟩
        obtain ⟨h1, h2⟩ := hup
        generalize c.toNat = n at h1 h2
        interval_cases n <;> decide
      · rw [if_neg hup]
        have hw' := hw
        simp only [isWordChar, Bool.or_eq_true, Bool.and_eq_true, decide_eq_true_eq] at hw'
        rw [if_neg (by omega), if_neg (by omega)]
        exact ⟨c, by simp, hw⟩
    · obtain ⟨c', hc', hw'⟩ := ih ⟨c, h', hw⟩
      exact ⟨c', List.mem_append_right _ hc', hw'⟩

theorem normalize_ne_nil {text : List Char} (h : ∃ c ∈ text, isWordChar c = true) :
    normalize text ≠ [] := by
  obtain ⟨c, hc, hw⟩ := exists_word_toLowerCase text h
  have hws := isWordChar_not_whiteSpace hw
  have h1 : c ∈ blankPunctuation (toLowerCase text) := by
    unfold blankPunctuation
    exact List.mem_map.mpr ⟨c, hc, by simp [hw]⟩
  have h2 := mem_collapseSpaces hws _ false h1
  have h3 := mem_trim_of_not_whiteSpace hws h2
  intro e
  unfold normalize at e
  rw [e] at h3
  cases h3

theorem utf16Length_pos {s : List Char} (h : s ≠ []) : utf16Length s > 0 := by
  cases s with
  | nil => exact absurd rfl h
  | cons c t =>
    unfold utf16Length
    split <;> omega

theorem areIdenticalBotResponses_self {text : List Char}
    (h : ∃ c ∈ text, isWordChar c = true) : areIdenticalBotResponses text text = true := by
  have hne : text ≠ [] := by
    rintro rfl
    obtain ⟨c, hc, _⟩ := h
    cases hc
  have hemp : text.isEmpty = false := by cases text <;> simp_all
  unfold areIdenticalBotResponses
  simp [hemp, utf16Length_pos (normalize_ne_nil h)]

theorem startsWith_append (w r : List Char) : startsWith w (w ++ r) = true := by
  induction w with
  | nil => cases r <;> rfl
  | cons a w ih => simp [startsWith, ih]

theorem startsWithIgnoringCase_append (w r : List Char) :
    startsWithIgnoringCase w (w ++ r) = true := by
  unfold startsWithIgnoringCase
  rw [List.isPrefixOf_iff_prefix, List.map_append]
  exact List.prefix_append _ _

theorem afterColon_append (r : List Char) :
    ∀ w : List Char, ':' ∉ w → afterColon (w ++ ':' :: r) = some r := by
  intro w
  induction w with
  | nil => intro _; simp [afterColon]
  | cons a w ih =>
    intro h
    have ha : a ≠ ':' := fun e => h (by simp [e])
    have hw : ':' ∉ w := fun e => h (List.mem_cons_of_mem _ e)
    simp [afterColon, ha, ih hw]

/-- The facts about a line `Chat Bot: text` or `Bot: text` that the detector reads. -/
theorem labelledLine_facts {label pad text : List Char}
    (hlabel : label = "Chat Bot".toList ∨ label = "Bot".toList)
    (hpad : ∀ c ∈ pad, isWhiteSpace c = true) (htrim : trim text = text) (hne : text ≠ []) :
    trim (labelledLine label pad text) = labelledLine label pad text ∧
    (startsWith "Chat Bot:".toList (labelledLine label pad text) ||
      startsWith "Bot:".toList (labelledLine label pad text)) = true ∧
    isBotLine (labelledLine label pad text) = true ∧
    extractTextFromLine (labelledLine label pad text) = text := by
  have hcolon : ':' ∉ label := by rcases hlabel with rfl | rfl <;> decide
  have htr : trim (labelledLine label pad text) = labelledLine label pad text := by
    rcases hlabel with rfl | rfl
    · exact trim_cons_append_text (x := 'C') (a := "hat Bot:".toList ++ pad) (by decide) htrim hne
        |>.symm ▸ (by simp [labelledLine] : _)
    · exact trim_cons_append_text (x := 'B') (a := "ot:".toList ++ pad) (by decide) htrim hne
        |>.symm ▸ (by simp [labelledLine] : _)
  refine ⟨htr, ?_, ?_, ?_⟩
  · rcases hlabel with rfl | rfl
    · have : labelledLine "Chat Bot".toList pad text = "Chat Bot:".toList ++ (pad ++ text) := by
        simp [labelledLine]
      rw [this, startsWith_append]; rfl
    · have : labelledLine "Bot".toList pad text = "Bot:".toList ++ (pad ++ text) := by
        simp [labelledLine]
      rw [this, startsWith_append "Bot:".toList]; simp
  · unfold isBotLine
    rw [htr, agentPattern_test, List.any_eq_true]
    rcases hlabel with rfl | rfl
    · refine ⟨"Chat Bot:".toList, by decide, ?_⟩
      have : labelledLine "Chat Bot".toList pad text = "Chat Bot:".toList ++ (pad ++ text) := by
        simp [labelledLine]
      rw [this]; exact startsWithIgnoringCase_append _ _
    · refine ⟨"Bot:".toList, by decide, ?_⟩
      have : labelledLine "Bot".toList pad text = "Bot:".toList ++ (pad ++ text) := by
        simp [labelledLine]
      rw [this]; exact startsWithIgnoringCase_append _ _
  · unfold extractTextFromLine labelledLine
    rw [afterColon_append _ _ hcolon]
    exact trim_pad_text hpad htrim

/-- Claim C10 as stated, refuted: two lines `Chat Bot: Hi` carry a recognized agent label and
the same non-empty text, but a text shorter than five code units is not collected as a bot
response, and no repetition is reported. -/
theorem detectRepetitions_short_text_counterexample :
    isBotLine "Chat Bot: Hi".toList = true ∧
    extractTextFromLine "Chat Bot: Hi".toList = "Hi".toList ∧
    detectRepetitions "Chat Bot: Hi\nChat Bot: Hi".toList = [] := by
  decide

/-- Two lines `Agent: Hello there` are recognized by `isBotLine`, but `extractBotTurns` only
knows the labels `Chat Bot:` and `Bot:` and `detectRepetitions` returns early. -/
theorem detectRepetitions_agent_label :
    isBotLine "Agent: Hello there".toList = true ∧
    extractBotTurns "Agent: Hello there\nAgent: Hello there".toList = [] ∧
    detectRepetitions "Agent: Hello there\nAgent: Hello there".toList = [] ∧
    (detectConsecutiveIdenticalRepetitions
      "Agent: Hello there\nAgent: Hello there".toList).length = 1 := by
  decide

/-- Claim C10 as amended: for a transcript of exactly two lines that both start with
`Chat Bot:` or `Bot:` (in this spelling) followed by the same text, the text having at
least five UTF-16 code units, no surrounding white space and at least one ASCII letter,
digit or underscore, `detectRepetitions` returns exactly one repetition, with severity 10,
similarity score 1 and `isProblematicRepetition = true`. -/
theorem detectRepetitions_two_identical_lines (label1 label2 pad1 pad2 text : List Char)
    (hlabel1 : label1 = "Chat Bot".toList ∨ label1 = "Bot".toList)
    (hlabel2 : label2 = "Chat Bot".toList ∨ label2 = "Bot".toList)
    (hpad1 : ∀ c ∈ pad1, isWhiteSpace c = true ∧ c ≠ '\n')
    (hpad2 : ∀ c ∈ pad2, isWhiteSpace c = true ∧ c ≠ '\n')
    (hline : '\n' ∉ text) (htrim : trim text = text) (hlen : utf16Length text ≥ 5)
    (hword : ∃ c ∈ text, isWordChar c = true) :
    detectRepetitions
        (labelledLine label1 pad1 text ++ '\n' :: labelledLine label2 pad2 text) =
      [{ type := "single_line_repetition", text1 := text, text2 := text,
         similarityScore := 1, severity := 10, isProblematicRepetition := true,
         repetitionType := none }] := by
  have hne : text ≠ [] := by
    rintro rfl
    obtain ⟨c, hc, _⟩ := hword
    cases hc
  obtain ⟨ht1, hs1, hb1, he1⟩ :=
    labelledLine_facts hlabel1 (fun c hc => (hpad1 c hc).1) htrim hne
  obtain ⟨ht2, _, hb2, he2⟩ :=
    labelledLine_facts hlabel2 (fun c hc => (hpad2 c hc).1) htrim hne
  have hnl : ∀ {label pad : List Char}, (label = "Chat Bot".toList ∨ label = "Bot".toList) →
      (∀ c ∈ pad, isWhiteSpace c = true ∧ c ≠ '\n') → '\n' ∉ labelledLine label pad text := by
    intro label pad hl hp hmem
    unfold labelledLine at hmem
    rcases List.mem_append.mp hmem with h | h
    · rcases hl with rfl | rfl <;> revert h <;> decide
    · rcases List.mem_cons.mp h with h | h
      · revert h; decide
      · rcases List.mem_append.mp h with h | h
        · exact (hp _ h).2 rfl
        · exact hline h
  have hsplit : splitOnChar '\n'
      (labelledLine label1 pad1 text ++ '\n' :: labelledLine label2 pad2 text) =
      [labelledLine label1 pad1 text, labelledLine label2 pad2 text] := by
    rw [splitOnChar_append _ _ _ (hnl hlabel1 hpad1),
      splitOnChar_of_not_mem _ _ (hnl hlabel2 hpad2)]
  have hl1 : (labelledLine label1 pad1 text).isEmpty = false := by
    unfold labelledLine; simp
  have hl2 : (labelledLine label2 pad2 text).isEmpty = false := by
    unfold labelledLine; simp
  have hbot : (extractBotTurns
      (labelledLine label1 pad1 text ++ '\n' :: labelledLine label2 pad2 text)).length ≠ 0 := by
    unfold extractBotTurns
    rw [hsplit]
    simp only [List.filterMap_cons, ht1, hs1, if_true]
    simp
  have hident := areIdenticalBotResponses_self hword
  unfold detectRepetitions
  rw [if_neg hbot]
  unfold detectConsecutiveIdenticalRepetitions
  simp only [hsplit]
  have hfilter : List.filter (fun line => !(trim line).isEmpty)
      [labelledLine label1 pad1 text, labelledLine label2 pad2 text] =
      [labelledLine label1 pad1 text, labelledLine label2 pad2 text] := by
    simp [List.filter, ht1, ht2, hl1, hl2]
  rw [hfilter]
  have hcollect : collectBotResponses 0 0
      [labelledLine label1 pad1 text, labelledLine label2 pad2 text] =
      [{ lineIndex := 0, text := text, originalLine := labelledLine label1 pad1 text, index := 0 },
       { lineIndex := 1, text := text, originalLine := labelledLine label2 pad2 text,
         index := 1 }] := by
    simp [collectBotResponses, ht1, ht2, hb1, hb2, he1, he2, hlen]
  rw [hcollect]
  simp [singleLineRepetitions, hident, areConsecutiveBotResponses, noHumanLineBetween,
    singleLineRepetition, detectBlockPatternRepetitions, scanBlocks]

/-- Witness of the amended C10: the transcript `Chat Bot: Hello` twice. -/
theorem detectRepetitions_two_identical_lines_witness :
    detectRepetitions "Chat Bot: Hello\nChat Bot: Hello".toList =
      [{ type := "single_line_repetition", text1 := "Hello".toList, text2 := "Hello".toList,
         similarityScore := 1, severity := 10, isProblematicRepetition := true,
         repetitionType := none }] :=
  detectRepetitions_two_identical_lines "Chat Bot".toList "Chat Bot".toList [' '] [' ']
    "Hello".toList (Or.inl rfl) (Or.inl rfl) (by decide) (by decide) (by decide) (by decide)
    (by decide) (by decide)

/-! ## Transcript latency and the random draws -/

theorem jsRound_intCast (n : ℤ) : jsRound (n : ℚ) = n := by
  unfold jsRound
  congr 1
  rw [Int.floor_eq_iff]
  constructor <;> linarith

theorem parseLines_randomSensitive :
    parseLines randomSensitiveTranscript =
      [⟨"agent", "Hello".toList⟩, ⟨"customer", longCustomerText⟩, ⟨"agent", "Sure".toList⟩] := by
  decide

theorem baseTurnDuration_longCustomerText :
    baseTurnDuration longCustomerText "customer" = 48 / 5 := by
  have h1 : splitWhiteSpaceCount longCustomerText = 20 := by decide
  have h2 : utf16Length longCustomerText = 110 := by decide
  have h3 : countSentenceMarks longCustomerText = 0 := by decide
  unfold baseTurnDuration
  rw [h1, h2, h3, if_neg (by decide)]
  norm_num

theorem latencyScore_randomSensitive (r : ℚ) :
    (analyzeResponseLatencyFromTranscript ParseCache.empty (.str randomSensitiveTranscript)
      (fun _ => r)).latencyScore =
      calculateSimpleLatencyScore
        (if 48 / 5 + r > 5 then
          [{ turnIndex := 2, responseTimeSeconds := 48 / 5 + r,
             violationSeverity := if 48 / 5 + r > 10 then "severe" else "moderate" }]
         else []) 3 := by
  unfold analyzeResponseLatencyFromTranscript
  rw [parseTranscriptTurns_str _ ParseCache.consistent_empty, parseLines_randomSensitive]
  simp only [List.length_cons, List.length_nil, latencyLoop, estimateAdvancedTurnDuration,
    baseTurnDuration_longCustomerText]
  norm_num
  rw [if_neg (by decide)]

theorem latencyComponent_strict (ia : Option InterruptionAnalysis)
    (hia : ∀ a, ia = some a → 0 ≤ a.interruptionScore ∧ a.interruptionScore ≤ 100) :
    latencyComponent 85 ia < latencyComponent 100 ia := by
  have e85 : orNum 85 0 = 85 := by norm_num [orNum]
  have e100 : orNum 100 0 = 100 := by norm_num [orNum]
  unfold latencyComponent
  rw [e85, e100]
  cases ia with
  | none => norm_num
  | some a =>
    obtain ⟨h0, h1⟩ := hia a rfl
    simp only
    split
    · norm_num
    · have hp0 : 0 ≤ max 0 ((100 - a.interruptionScore) * (3 / 10)) := le_max_left _ _
      have hp1 : max 0 ((100 - a.interruptionScore) * (3 / 10)) ≤ 30 :=
        max_le (by norm_num) (by linarith)
      generalize max 0 ((100 - a.interruptionScore) * (3 / 10)) = P at hp0 hp1 ⊢
      rw [max_eq_right (by linarith : (0 : ℚ) ≤ 85 - P),
        max_eq_right (by linarith : (0 : ℚ) ≤ 100 - P)]
      linarith

theorem calculateSimpleLatencyScore_congr (v w : List LatencyViolation) (maxAllowed : ℕ)
    (h : v.map (fun x => x.violationSeverity) = w.map (fun x => x.violationSeverity)) :
    calculateSimpleLatencyScore v maxAllowed = calculateSimpleLatencyScore w maxAllowed := by
  have hlen : v.length = w.length := by
    have := congrArg List.length h
    simpa using this
  have hsev : (v.filter (fun x => x.violationSeverity = "severe")).length =
      (w.filter (fun x => x.violationSeverity = "severe")).length := by
    have hv : ∀ l : List LatencyViolation,
        (l.filter (fun x => x.violationSeverity = "severe")).length =
          ((l.map (fun x => x.violationSeverity)).filter (fun s => s = "severe")).length := by
      intro l
      induction l with
      | nil => rfl
      | cons a l ih =>
        by_cases ha : a.violationSeverity = "severe" <;> simp [List.filter, ha, ih]
    rw [hv v, hv w, h]
  unfold calculateSimpleLatencyScore
  simp only [hlen, hsev]

/-- The loop of the latency path reports violations of the same severities for two
sequences of draws, when no answered customer turn lies within one second below a
threshold. -/
theorem latencyLoop_severities (random1 random2 : ℕ → ℚ)
    (h1 : ∀ i, 0 ≤ random1 i ∧ random1 i < 1) (h2 : ∀ i, 0 ≤ random2 i ∧ random2 i < 1) :
    ∀ (turns : List Turn) (i : ℕ) (previous : Option Turn) (state1 state2 : LatencyLoop),
      state1.latencyViolations.map (fun x => x.violationSeverity) =
        state2.latencyViolations.map (fun x => x.violationSeverity) →
      (∀ p, previous = some p → p.speaker = "customer" →
        ∃ r1 r2 : ℚ, (0 ≤ r1 ∧ r1 < 1) ∧ (0 ≤ r2 ∧ r2 < 1) ∧
          state1.currentTime - state1.lastHumanTurnTime =
            baseTurnDuration p.text p.speaker + r1 ∧
          state2.currentTime - state2.lastHumanTurnTime =
            baseTurnDuration p.text p.speaker + r2) →
      thresholdsClear turns previous →
      (latencyLoop random1 i previous turns state1).latencyViolations.map
          (fun x => x.violationSeverity) =
        (latencyLoop random2 i previous turns state2).latencyViolations.map
          (fun x => x.violationSeverity) := by
  intro turns
  induction turns with
  | nil => intro i previous state1 state2 hsev _ _; simpa [latencyLoop] using hsev
  | cons turn rest ih =>
    intro i previous state1 state2 hsev hinv hclear
    obtain ⟨hhead, hrest⟩ := hclear
    simp only [latencyLoop]
    by_cases hcust : turn.speaker = "customer"
    · simp only [hcust, if_true]
      refine ih _ _ _ _ ?_ ?_ hrest
      · exact hsev
      · intro p hp _
        cases hp
        refine ⟨random1 i, random2 i, h1 i, h2 i, ?_, ?_⟩ <;>
          simp [estimateAdvancedTurnDuration, hcust]
    · have hnext : ∀ (s1 s2 : LatencyLoop) (p : Turn), some turn = some p →
          p.speaker = "customer" →
          ∃ r1 r2 : ℚ, (0 ≤ r1 ∧ r1 < 1) ∧ (0 ≤ r2 ∧ r2 < 1) ∧
            s1.currentTime - s1.lastHumanTurnTime = baseTurnDuration p.text p.speaker + r1 ∧
            s2.currentTime - s2.lastHumanTurnTime = baseTurnDuration p.text p.speaker + r2 := by
        intro s1 s2 p hp hpc
        cases hp
        exact absurd hpc hcust
      simp only [hcust, if_false]
      by_cases hagent : turn.speaker = "agent"
      · cases previous with
        | none =>
          simp only [hagent, decide_True, Bool.true_and, Bool.false_eq_true, if_false]
          exact ih _ _ _ _ hsev (hnext _ _) hrest
        | some p =>
          by_cases hpc : p.speaker = "customer"
          · obtain ⟨r1, r2, hr1, hr2, e1, e2⟩ := hinv p rfl hpc
            have hcl := hhead hagent p rfl hpc
            simp only [hagent, hpc, decide_True, Bool.true_and, if_true]
            refine ih _ _ _ _ ?_ (hnext _ _) hrest
            simp only [e1, e2]
            generalize baseTurnDuration p.text p.speaker = b at hcl ⊢
            rcases hcl with hb | ⟨hb1, hb2⟩ | hb
            · have c1 : ¬(b + r1 > 5) := not_lt.mpr (by linarith [hr1.2])
              have c2 : ¬(b + r2 > 5) := not_lt.mpr (by linarith [hr2.2])
              rw [if_neg c1, if_neg c2]
              exact hsev
            · have c1 : b + r1 > 5 := by linarith [hr1.1]
              have c2 : b + r2 > 5 := by linarith [hr2.1]
              have c3 : ¬(b + r1 > 10) := not_lt.mpr (by linarith [hr1.2])
              have c4 : ¬(b + r2 > 10) := not_lt.mpr (by linarith [hr2.2])
              rw [if_pos c1, if_pos c2, if_neg c3, if_neg c4]
              simp [hsev]
            · have c1 : b + r1 > 5 := by linarith [hr1.1]
              have c2 : b + r2 > 5 := by linarith [hr2.1]
              have c3 : b + r1 > 10 := by linarith [hr1.1]
              have c4 : b + r2 > 10 := by linarith [hr2.1]
              rw [if_pos c1, if_pos c2, if_pos c3, if_pos c4]
              simp [hsev]
          · simp only [hagent, hpc, decide_True, decide_False, Bool.true_and,
              Bool.false_eq_true, if_false]
            exact ih _ _ _ _ hsev (hnext _ _) hrest
      · simp only [hagent, decide_False, Bool.false_and, Bool.false_eq_true, if_false]
        exact ih _ _ _ _ hsev (hnext _ _) hrest

theorem thresholdsClear_shortCall : thresholdsClear (parseLines shortCallTranscript) none := by
  have hp : parseLines shortCallTranscript =
      [⟨"agent", "Hello".toList⟩, ⟨"customer", "Hi".toList⟩, ⟨"agent", "Sure".toList⟩] := by
    decide
  have hb : baseTurnDuration "Hi".toList "customer" = 2 / 5 := by
    have h1 : splitWhiteSpaceCount "Hi".toList = 1 := by decide
    have h2 : utf16Length "Hi".toList = 2 := by decide
    have h3 : countSentenceMarks "Hi".toList = 0 := by decide
    unfold baseTurnDuration
    rw [h1, h2, h3, if_neg (by decide)]
    norm_num
  rw [hp]
  refine ⟨?_, ?_, ?_, trivial⟩
  · intro _ p hp'; cases hp'
  · intro h; exact absurd h (by decide)
  · intro _ p hp' _
    cases hp'
    left
    rw [hb]
    norm_num

/-! ## Intent classifier (C12, C13, C14, C15, C16) -/

theorem intentLoop_fst (text : List Char) (speaker : String) (turnIndex : ℕ)
    (allTurns : List Turn) (entries : List IntentEntry) (state : PatternState)
    (bestMatch : BestMatch) :
    (intentLoop text speaker turnIndex allTurns entries state bestMatch).1 =
      (matchTable text entries state).foldl (pickBest speaker turnIndex allTurns text)
        bestMatch := by
  induction entries generalizing state bestMatch with
  | nil => rfl
  | cons intentData entries ih =>
    simp only [intentLoop, matchTable, List.foldl_cons]
    rw [ih]
    rfl

theorem intentLoop_snd (text : List Char) (speaker : String) (turnIndex : ℕ)
    (allTurns : List Turn) (entries : List IntentEntry) (state : PatternState)
    (bestMatch : BestMatch) :
    (intentLoop text speaker turnIndex allTurns entries state bestMatch).2 =
      nextPatternState text entries state := by
  induction entries generalizing state bestMatch with
  | nil => rfl
  | cons intentData entries ih =>
    simp only [intentLoop, nextPatternState]
    rw [ih]

theorem enhancedIntentDetection_eq (state : PatternState) (text : List Char) (speaker : String)
    (turnIndex : ℕ) (allTurns : List Turn) :
    enhancedIntentDetection state text speaker turnIndex allTurns =
      (superEnhancedSpeakerAdjustments
        ((matchTable text intentPatterns state).foldl (pickBest speaker turnIndex allTurns text)
          defaultMatch) speaker,
       nextPatternState text intentPatterns state) := by
  unfold enhancedIntentDetection
  simp only [intentLoop_fst, intentLoop_snd]

theorem foldl_pickBest_cases (speaker : String) (turnIndex : ℕ) (allTurns : List Turn)
    (text : List Char) (table : List EntryMatch) (bestMatch : BestMatch) :
    table.foldl (pickBest speaker turnIndex allTurns text) bestMatch = bestMatch ∨
    ∃ m ∈ table, m.confidence speaker turnIndex allTurns text > bestMatch.confidence ∧
      table.foldl (pickBest speaker turnIndex allTurns text) bestMatch =
        m.toBestMatch (m.confidence speaker turnIndex allTurns text) := by
  induction table generalizing bestMatch with
  | nil => exact Or.inl rfl
  | cons m table ih =>
    simp only [List.foldl_cons]
    by_cases hm : m.confidence speaker turnIndex allTurns text > bestMatch.confidence
    · have hp : pickBest speaker turnIndex allTurns text bestMatch m =
          m.toBestMatch (m.confidence speaker turnIndex allTurns text) := by
        unfold pickBest; rw [if_pos hm]
      rw [hp]
      rcases ih (m.toBestMatch (m.confidence speaker turnIndex allTurns text)) with h | h
      · exact Or.inr ⟨m, List.mem_cons_self _ _, hm, h⟩
      · obtain ⟨m', hm', hgt, heq⟩ := h
        refine Or.inr ⟨m', List.mem_cons_of_mem _ hm', ?_, heq⟩
        have : (m.toBestMatch (m.confidence speaker turnIndex allTurns text)).confidence =
            m.confidence speaker turnIndex allTurns text := rfl
        rw [this] at hgt
        exact lt_trans hm hgt
    · have hp : pickBest speaker turnIndex allTurns text bestMatch m = bestMatch := by
        unfold pickBest; rw [if_neg hm]
      rw [hp]
      rcases ih bestMatch with h | h
      · exact Or.inl h
      · obtain ⟨m', hm', hgt, heq⟩ := h
        exact Or.inr ⟨m', List.mem_cons_of_mem _ hm', hgt, heq⟩

theorem mem_matchTable {text : List Char} {entries : List IntentEntry} {state : PatternState}
    {m : EntryMatch} (hm : m ∈ matchTable text entries state) :
    ∃ intentData ∈ entries, m.key = intentData.key ∧ m.step = intentData.step ∧
      m.totalPatterns = intentData.patterns.length := by
  induction entries generalizing state with
  | nil => simp [matchTable] at hm
  | cons intentData entries ih =>
    simp only [matchTable, List.mem_cons] at hm
    rcases hm with rfl | hm
    · exact ⟨intentData, List.mem_cons_self _ _, rfl, rfl, rfl⟩
    · obtain ⟨e, he, h⟩ := ih hm
      exact ⟨e, List.mem_cons_of_mem _ he, h⟩

theorem intentLoop_allTurns (text : List Char) (speaker : String) (turnIndex : ℕ)
    (allTurns : List Turn) (entries : List IntentEntry) (state : PatternState)
    (bestMatch : BestMatch) :
    intentLoop text speaker turnIndex allTurns entries state bestMatch =
      intentLoop text speaker turnIndex [] entries state bestMatch := by
  induction entries generalizing state bestMatch with
  | nil => rfl
  | cons intentData entries ih =>
    simp only [intentLoop]
    rw [ih]
    rfl

/-- The argument `allTurns` of `enhancedIntentDetection` is not read. -/
theorem enhancedIntentDetection_allTurns (state : PatternState) (text : List Char)
    (speaker : String) (turnIndex : ℕ) (allTurns : List Turn) :
    enhancedIntentDetection state text speaker turnIndex allTurns =
      enhancedIntentDetection state text speaker turnIndex [] := by
  unfold enhancedIntentDetection
  rw [intentLoop_allTurns]

theorem bump_le (p : Prop) [Decidable p] (c d : ℚ) (h : c ≤ toDouble (95 / 100)) :
    (if p then min (toDouble (95 / 100)) (jsAdd c d) else c) ≤ toDouble (95 / 100) := by
  split
  · exact min_le_left _ _
  · exact h

theorem baseConfidence_le (intentType : String) (patternMatches totalPatterns : ℕ) :
    baseConfidence intentType patternMatches totalPatterns ≤ toDouble (95 / 100) := by
  unfold baseConfidence
  dsimp only
  split_ifs with h1 h2 h3
  · exact min_le_left _ _
  · exact min_le_left _ _
  · exact le_trans (min_le_left _ _) (le_of_lt toDouble_decimals.2.2.1)
  · have : patternMatches = 0 := by omega
    subst this
    have h0 : jsDiv ((0 : ℕ) : ℚ) (totalPatterns : ℚ) = 0 := by
      unfold jsDiv
      rw [Nat.cast_zero, zero_div, toDouble_zero]
    rw [h0]
    exact toDouble_nonneg (by norm_num)

theorem superEnhancedConfidenceAdjustment_le (confidence : ℚ) (intentType speaker : String)
    (turnIndex : ℕ) (allTurns : List Turn) (text : List Char)
    (h : confidence ≤ toDouble (95 / 100)) :
    superEnhancedConfidenceAdjustment confidence intentType speaker turnIndex allTurns text ≤
      toDouble (95 / 100) := by
  unfold superEnhancedConfidenceAdjustment
  exact bump_le _ _ _ (bump_le _ _ _ (bump_le _ _ _ (bump_le _ _ _ (bump_le _ _ _
    (bump_le _ _ _ h)))))

theorem confidence_le (m : EntryMatch) (speaker : String) (turnIndex : ℕ)
    (allTurns : List Turn) (text : List Char) :
    m.confidence speaker turnIndex allTurns text ≤ toDouble (95 / 100) := by
  unfold EntryMatch.confidence adjustedConfidence
  exact superEnhancedConfidenceAdjustment_le _ _ _ _ _ _ (baseConfidence_le _ _ _)

/-- The value of `bestMatch` after the loop: the default record, or the record of an entry
of the catalog whose adjusted confidence exceeds the double 0.2. -/
theorem intentLoop_cases (state : PatternState) (text : List Char) (speaker : String)
    (turnIndex : ℕ) (allTurns : List Turn) :
    (intentLoop text speaker turnIndex allTurns intentPatterns state defaultMatch).1 =
        defaultMatch ∨
    ∃ m ∈ matchTable text intentPatterns state,
      toDouble (2 / 10) < m.confidence speaker turnIndex allTurns text ∧
      m.confidence speaker turnIndex allTurns text ≤ toDouble (95 / 100) ∧
      (intentLoop text speaker turnIndex allTurns intentPatterns state defaultMatch).1 =
        m.toBestMatch (m.confidence speaker turnIndex allTurns text) := by
  rw [intentLoop_fst]
  rcases foldl_pickBest_cases speaker turnIndex allTurns text
      (matchTable text intentPatterns state) defaultMatch with h | ⟨m, hm, hgt, heq⟩
  · exact Or.inl h
  · exact Or.inr ⟨m, hm, hgt, confidence_le _ _ _ _ _, heq⟩

theorem key_ne_unknown {intentData : IntentEntry} (h : intentData ∈ intentPatterns) :
    intentData.key ≠ "unknown" := by
  simp only [intentPatterns, List.mem_cons, List.mem_singleton, List.not_mem_nil, or_false] at h
  rcases h with rfl | rfl | rfl | rfl | rfl | rfl | rfl | rfl | rfl | rfl | rfl | rfl | rfl |
    rfl | rfl <;> decide

theorem step_le_thirteen {intentData : IntentEntry} (h : intentData ∈ intentPatterns) :
    intentData.step ≤ 13 := by
  simp only [intentPatterns, List.mem_cons, List.mem_singleton, List.not_mem_nil, or_false] at h
  rcases h with rfl | rfl | rfl | rfl | rfl | rfl | rfl | rfl | rfl | rfl | rfl | rfl | rfl |
    rfl | rfl <;> decide

theorem superEnhancedSpeakerAdjustments_fields (bestMatch : BestMatch) (speaker : String) :
    (superEnhancedSpeakerAdjustments bestMatch speaker).step = bestMatch.step ∧
    (superEnhancedSpeakerAdjustments bestMatch speaker).stepNumber = bestMatch.stepNumber ∧
    (superEnhancedSpeakerAdjustments bestMatch speaker).intent = bestMatch.intent :=
  ⟨rfl, rfl, rfl⟩

theorem superEnhancedSpeakerAdjustments_default (speaker : String) :
    superEnhancedSpeakerAdjustments defaultMatch speaker = defaultMatch := by
  unfold superEnhancedSpeakerAdjustments defaultMatch
  have h : ¬ (isAgentSpeaker speaker = true ∧
      "unknown" ∈ ["interest_check", "agent_connection_offer", "call_transfer"]) :=
    fun h => absurd h.2 (by decide)
  have h' : ¬ (toDouble (2 / 10) > toDouble (3 / 10) ∧ "unknown" ≠ "unknown") :=
    fun h => h.2 rfl
  simp only [if_neg h, if_neg h']

/-- The sum of a confidence of at least the double 0.2 and the double 0.15 is above 0.3. -/
theorem jsAdd_fifteen_gt {c : ℚ} (hlo : toDouble (2 / 10) ≤ c) :
    toDouble (3 / 10) < jsAdd c (toDouble (15 / 100)) := by
  have h0 : (0 : ℚ) ≤ toDouble (2 / 10) + toDouble (15 / 100) :=
    add_nonneg (toDouble_nonneg (by norm_num)) (toDouble_nonneg (by norm_num))
  have hm : toDouble (toDouble (2 / 10) + toDouble (15 / 100)) ≤
      toDouble (c + toDouble (15 / 100)) := toDouble_mono h0 (by linarith)
  have hv : toDouble (3 / 10) < toDouble (toDouble (2 / 10) + toDouble (15 / 100)) := by
    decide!
  unfold jsAdd
  exact lt_of_lt_of_le hv hm

theorem superEnhancedSpeakerAdjustments_range (bestMatch : BestMatch) (speaker : String)
    (hlo : toDouble (2 / 10) ≤ bestMatch.confidence)
    (hhi : bestMatch.confidence ≤ toDouble (95 / 100)) :
    toDouble (2 / 10) ≤ (superEnhancedSpeakerAdjustments bestMatch speaker).confidence ∧
    (superEnhancedSpeakerAdjustments bestMatch speaker).confidence ≤ toDouble (95 / 100) := by
  have h23 : toDouble (2 / 10) < toDouble (3 / 10) := by decide!
  have h295 : toDouble (2 / 10) < toDouble (95 / 100) := by decide!
  have h595 : toDouble (5 / 10) < toDouble (95 / 100) := by decide!
  have h25 : toDouble (2 / 10) < toDouble (5 / 10) := by decide!
  unfold superEnhancedSpeakerAdjustments
  dsimp only
  have h1 : toDouble (2 / 10) ≤ (if isAgentSpeaker speaker = true ∧
        bestMatch.step ∈ ["interest_check", "agent_connection_offer", "call_transfer"] then
      min (toDouble (95 / 100)) (jsAdd bestMatch.confidence (toDouble (15 / 100)))
      else bestMatch.confidence) := by
    split
    · exact le_min (le_of_lt h295) (le_of_lt (lt_trans h23 (jsAdd_fifteen_gt hlo)))
    · exact hlo
  have h2 := bump_le (isAgentSpeaker speaker = true ∧
        bestMatch.step ∈ ["interest_check", "agent_connection_offer", "call_transfer"])
      bestMatch.confidence (toDouble (15 / 100)) hhi
  revert h1 h2
  generalize (if isAgentSpeaker speaker = true ∧
        bestMatch.step ∈ ["interest_check", "agent_connection_offer", "call_transfer"] then
      min (toDouble (95 / 100)) (jsAdd bestMatch.confidence (toDouble (15 / 100)))
      else bestMatch.confidence) = c1
  intro h1 h2
  split
  · exact ⟨le_trans (le_of_lt h25) (le_max_left _ _), max_le (le_of_lt h595) h2⟩
  · exact ⟨h1, h2⟩

theorem foldl_pickBest_none (speaker : String) (turnIndex : ℕ) (allTurns : List Turn)
    (text : List Char) (table : List EntryMatch) (bestMatch : BestMatch)
    (h : ∀ m ∈ table, m.confidence speaker turnIndex allTurns text ≤ bestMatch.confidence) :
    table.foldl (pickBest speaker turnIndex allTurns text) bestMatch = bestMatch := by
  rcases foldl_pickBest_cases speaker turnIndex allTurns text table bestMatch with
    h' | ⟨m, hm, hgt, _⟩
  · exact h'
  · exact absurd (h m hm) (not_le.mpr hgt)

theorem foldl_pickBest_single (speaker : String) (turnIndex : ℕ) (allTurns : List Turn)
    (text : List Char) (before after : List EntryMatch) (m : EntryMatch)
    (bestMatch : BestMatch)
    (hbefore : ∀ x ∈ before,
      x.confidence speaker turnIndex allTurns text ≤ bestMatch.confidence)
    (hm : m.confidence speaker turnIndex allTurns text > bestMatch.confidence)
    (hafter : ∀ x ∈ after, x.confidence speaker turnIndex allTurns text ≤
      m.confidence speaker turnIndex allTurns text) :
    (before ++ m :: after).foldl (pickBest speaker turnIndex allTurns text) bestMatch =
      m.toBestMatch (m.confidence speaker turnIndex allTurns text) := by
  rw [List.foldl_append, foldl_pickBest_none _ _ _ _ _ _ hbefore, List.foldl_cons]
  have hp : pickBest speaker turnIndex allTurns text bestMatch m =
      m.toBestMatch (m.confidence speaker turnIndex allTurns text) := by
    unfold pickBest; rw [if_pos hm]
  rw [hp]
  exact foldl_pickBest_none _ _ _ _ _ _ hafter

theorem noMatchTable_patternMatches {m : EntryMatch} (h : m ∈ noMatchTable) :
    m.patternMatches = 0 := by
  unfold noMatchTable at h
  obtain ⟨e, _, rfl⟩ := List.mem_map.mp h
  rfl

theorem confidence_of_no_match (m : EntryMatch) (speaker : String) (allTurns : List Turn)
    (text : List Char) (hm : m.patternMatches = 0) (hs : isAgentSpeaker speaker = false)
    (ht : hasBoostPhrase text = false) : m.confidence speaker 0 allTurns text = 0 := by
  simp only [hasBoostPhrase, Bool.or_eq_false_iff] at ht
  obtain ⟨⟨⟨⟨⟨h1, h2⟩, h3⟩, h4⟩, h5⟩, h6⟩ := ht
  have h0 : jsDiv ((0 : ℕ) : ℚ) (m.totalPatterns : ℚ) = 0 := by
    unfold jsDiv
    rw [Nat.cast_zero, zero_div, toDouble_zero]
  unfold EntryMatch.confidence adjustedConfidence baseConfidence
    superEnhancedConfidenceAdjustment
  simp only [hm, hs, h1, h2, h3, h4, h5, h6, h0]
  simp

theorem confidence_noMatchTable {m : EntryMatch} (h : m ∈ noMatchTable) (speaker : String)
    (allTurns : List Turn) (text : List Char) (hs : isAgentSpeaker speaker = false)
    (ht : hasBoostPhrase text = false) : m.confidence speaker 0 allTurns text = 0 :=
  confidence_of_no_match m speaker allTurns text (noMatchTable_patternMatches h) hs ht

/-- A turn text that matches no pattern of the catalog and holds no boosted phrase, said by
a speaker who is not the agent as the first turn, gets the default record. -/
theorem foldl_pickBest_noMatchTable (speaker : String) (allTurns : List Turn)
    (text : List Char) (hs : isAgentSpeaker speaker = false)
    (ht : hasBoostPhrase text = false) :
    noMatchTable.foldl (pickBest speaker 0 allTurns text) defaultMatch = defaultMatch := by
  apply foldl_pickBest_none
  intro m hm
  rw [confidence_noMatchTable hm speaker allTurns text hs ht]
  exact toDouble_nonneg (by norm_num)

theorem enhancedIntentDetection_range (state : PatternState) (text : List Char)
    (speaker : String) (turnIndex : ℕ) (allTurns : List Turn) :
    toDouble (2 / 10) ≤
      (enhancedIntentDetection state text speaker turnIndex allTurns).1.confidence ∧
    (enhancedIntentDetection state text speaker turnIndex allTurns).1.confidence ≤
      toDouble (95 / 100) := by
  unfold enhancedIntentDetection
  dsimp only
  apply superEnhancedSpeakerAdjustments_range
  · rcases intentLoop_cases state text speaker turnIndex allTurns with h | ⟨m, _, hlo, _, h⟩
    · rw [h]; exact le_refl _
    · rw [h]; exact le_of_lt hlo
  · rcases intentLoop_cases state text speaker turnIndex allTurns with h | ⟨m, _, _, hhi, h⟩
    · rw [h]; unfold defaultMatch; exact le_of_lt (by decide!)
    · rw [h]; exact hhi

/-- The rounding to two decimals keeps a confidence between the doubles 0.2 and 0.95 between
the decimals 0.2 and 0.95. -/
theorem jsRound_percent_range {c : ℚ} (hlo : toDouble (2 / 10) ≤ c)
    (hhi : c ≤ toDouble (95 / 100)) :
    2 / 10 ≤ jsRound (jsMul c 100) / 100 ∧ jsRound (jsMul c 100) / 100 ≤ 95 / 100 := by
  have h0 : (0 : ℚ) ≤ toDouble (2 / 10) := toDouble_nonneg (by norm_num)
  have e20 : jsRound (toDouble (toDouble (2 / 10) * 100)) = 20 := by decide!
  have e95 : jsRound (toDouble (toDouble (95 / 100) * 100)) = 95 := by decide!
  have h1 : jsRound (toDouble (toDouble (2 / 10) * 100)) ≤ jsRound (jsMul c 100) :=
    jsRound_mono (toDouble_mono (by linarith) (by linarith))
  have h2 : jsRound (jsMul c 100) ≤ jsRound (toDouble (toDouble (95 / 100) * 100)) :=
    jsRound_mono (toDouble_mono (by linarith) (by linarith))
  rw [e20] at h1
  rw [e95] at h2
  constructor
  · linarith
  · linarith

/-- Every mapping that the loop of `detectIntents` builds carries the step, the step number
and the rounded confidence of one call of `enhancedIntentDetection`. -/
theorem mem_detectIntentsLoop {allTurns : List Turn} {turns : List Turn} {i : ℕ}
    {state : PatternState} {m : IntentMapping}
    (hm : m ∈ (detectIntentsLoop allTurns i turns state).1) :
    ∃ (state' : PatternState) (turn : Turn) (j : ℕ), turn ∈ turns ∧
      m.conversationStep = (enhancedIntentDetection state' turn.text turn.speaker j allTurns).1.step ∧
      m.stepNumber =
        (enhancedIntentDetection state' turn.text turn.speaker j allTurns).1.stepNumber ∧
      m.confidence =
        jsRound (jsMul
          (enhancedIntentDetection state' turn.text turn.speaker j allTurns).1.confidence 100)
          / 100 := by
  induction turns generalizing i state with
  | nil => simp [detectIntentsLoop] at hm
  | cons turn rest ih =>
    simp only [detectIntentsLoop, List.mem_cons] at hm
    rcases hm with hm | hm
    · refine ⟨state, turn, i, List.mem_cons_self _ _, ?_, ?_, ?_⟩ <;> rw [hm]
    · obtain ⟨state', t, j, ht, h⟩ := ih hm
      exact ⟨state', t, j, List.mem_cons_of_mem _ ht, h⟩

theorem detectIntents_intentMappings (cache : ParseCache) (state : PatternState)
    (transcript : TranscriptArg) :
    (detectIntents cache state transcript).1.intentMappings = [] ∨
    (detectIntents cache state transcript).1.intentMappings =
      (detectIntentsLoop (parseTranscriptTurns cache transcript).1 0
        (parseTranscriptTurns cache transcript).1 state).1 := by
  unfold detectIntents
  dsimp only
  split
  · exact Or.inl rfl
  · exact Or.inr rfl

/-- Claim C15: the confidence returned by `enhancedIntentDetection` lies between 0.2 and
0.95, whatever the text, the speaker, the turn index and the state of the patterns, and so
does its rounding to two decimals; hence the confidence of every intent mapping built by
`detectIntents` lies between 0.2 and 0.95, within the range from 0 to 1.  The confidence is
computed in doubles: it lies between the doubles 0.2 and 0.95, which lie between the
decimals. -/
theorem detectIntents_confidence_range (state : PatternState) (text : List Char)
    (speaker : String) (turnIndex : ℕ) (allTurns : List Turn) (cache : ParseCache)
    (state' : PatternState) (transcript : TranscriptArg) :
    (2 / 10 ≤ (enhancedIntentDetection state text speaker turnIndex allTurns).1.confidence ∧
      (enhancedIntentDetection state text speaker turnIndex allTurns).1.confidence ≤ 95 / 100 ∧
      2 / 10 ≤ jsRound (jsMul
        (enhancedIntentDetection state text speaker turnIndex allTurns).1.confidence 100)
          / 100 ∧
      jsRound (jsMul
        (enhancedIntentDetection state text speaker turnIndex allTurns).1.confidence 100)
          / 100 ≤ 95 / 100) ∧
    ∀ m ∈ (detectIntents cache state' transcript).1.intentMappings,
      2 / 10 ≤ m.confidence ∧ m.confidence ≤ 95 / 100 ∧ 0 ≤ m.confidence ∧ m.confidence ≤ 1 := by
  obtain ⟨d20, _, _, d95, _, _⟩ := toDouble_decimals
  constructor
  · obtain ⟨hlo, hhi⟩ := enhancedIntentDetection_range state text speaker turnIndex allTurns
    exact ⟨by linarith, by linarith, jsRound_percent_range hlo hhi⟩
  · intro m hm
    rcases detectIntents_intentMappings cache state' transcript with h | h
    · rw [h] at hm; cases hm
    · rw [h] at hm
      obtain ⟨st, turn, j, _, _, _, hc⟩ := mem_detectIntentsLoop hm
      obtain ⟨hlo, hhi⟩ := enhancedIntentDetection_range st turn.text turn.speaker j
        (parseTranscriptTurns cache transcript).1
      obtain ⟨h1, h2⟩ := jsRound_percent_range hlo hhi
      rw [hc]
      exact ⟨h1, h2, by linarith, by linarith⟩

theorem find?_congr_mem {α : Type} {p q : α → Bool} {l : List α}
    (h : ∀ x ∈ l, p x = q x) : l.find? p = l.find? q := by
  induction l with
  | nil => rfl
  | cons a l ih =>
    rw [List.find?_cons, List.find?_cons, h a (List.mem_cons_self _ _),
      ih (fun x hx => h x (List.mem_cons_of_mem _ hx))]

theorem exists_max_confidence (l : List (EntryMatch × ℚ)) (h : l ≠ []) :
    ∃ x ∈ l, ∀ q ∈ l, q.2 ≤ x.2 := by
  induction l with
  | nil => exact absurd rfl h
  | cons a l ih =>
    by_cases hl : l = []
    · subst hl
      exact ⟨a, List.mem_cons_self _ _, fun q hq => by
        rw [List.mem_singleton.mp hq]⟩
    · obtain ⟨x, hx, hmax⟩ := ih hl
      by_cases hax : x.2 ≤ a.2
      · refine ⟨a, List.mem_cons_self _ _, fun q hq => ?_⟩
        rcases List.mem_cons.mp hq with rfl | hq
        · exact le_refl _
        · exact le_trans (hmax q hq) hax
      · refine ⟨x, List.mem_cons_of_mem _ hx, fun q hq => ?_⟩
        rcases List.mem_cons.mp hq with rfl | hq
        · exact le_of_lt (not_le.mp hax)
        · exact hmax q hq

/-- The loop of comparisons `confidence > bestMatch.confidence` keeps the earliest entry
whose confidence exceeds the starting value and is the highest of all. -/
theorem foldl_select (scored : List (EntryMatch × ℚ)) (bestMatch : BestMatch) :
    scored.foldl (fun b p => if p.2 > b.confidence then p.1.toBestMatch p.2 else b) bestMatch =
      match scored.find? (fun p => decide (p.2 > bestMatch.confidence) &&
          scored.all (fun q => decide (q.2 ≤ p.2))) with
      | some p => p.1.toBestMatch p.2
      | none => bestMatch := by
  induction scored generalizing bestMatch with
  | nil => rfl
  | cons a l ih =>
    rw [List.foldl_cons, List.find?_cons]
    by_cases ha : a.2 > bestMatch.confidence
    · rw [if_pos ha, ih]
      have hconf : (a.1.toBestMatch a.2).confidence = a.2 := rfl
      rw [hconf]
      by_cases hall : l.all (fun q => decide (q.2 ≤ a.2)) = true
      · have hPa : (decide (a.2 > bestMatch.confidence) &&
            (a :: l).all (fun q => decide (q.2 ≤ a.2))) = true := by
          simp only [List.all_cons, hall, Bool.and_true, decide_eq_true_eq, Bool.and_eq_true]
          exact ⟨ha, le_refl _⟩
        rw [hPa]
        have hnone : l.find? (fun p => decide (p.2 > a.2) &&
            l.all (fun q => decide (q.2 ≤ p.2))) = none := by
          rw [List.find?_eq_none]
          intro x hx
          have := (List.all_eq_true.mp hall) x hx
          simp only [decide_eq_true_eq] at this
          simp only [Bool.and_eq_true, decide_eq_true_eq, not_and]
          intro hgt
          exact absurd this (not_le.mpr hgt)
        rw [hnone]
      · have hPa : (decide (a.2 > bestMatch.confidence) &&
            (a :: l).all (fun q => decide (q.2 ≤ a.2))) = false := by
          simp only [Bool.not_eq_true] at hall
          simp only [List.all_cons, hall, Bool.and_false]
        rw [hPa]
        have hex : ∃ r ∈ l, a.2 < r.2 := by
          by_contra hno
          apply hall
          rw [List.all_eq_true]
          intro x hx
          simp only [decide_eq_true_eq]
          by_contra hlt
          exact hno ⟨x, hx, not_le.mp hlt⟩
        obtain ⟨r, hr, hlt⟩ := hex
        have hcongr : ∀ x ∈ l,
            (decide (x.2 > a.2) && l.all (fun q => decide (q.2 ≤ x.2))) =
            (decide (x.2 > bestMatch.confidence) &&
              (a :: l).all (fun q => decide (q.2 ≤ x.2))) := by
          intro x _
          by_cases hx : l.all (fun q => decide (q.2 ≤ x.2)) = true
          · have hrx : r.2 ≤ x.2 := by
              have := (List.all_eq_true.mp hx) r hr
              simpa using this
            have h1 : x.2 > a.2 := lt_of_lt_of_le hlt hrx
            have h2 : x.2 > bestMatch.confidence := lt_trans ha h1
            simp only [List.all_cons, hx, Bool.and_true, decide_eq_true h1,
              decide_eq_true h2, decide_eq_true (le_of_lt h1)]
          · simp only [Bool.not_eq_true] at hx
            simp only [List.all_cons, hx, Bool.and_false]
        rw [find?_congr_mem hcongr]
        obtain ⟨x, hx, hmax⟩ := exists_max_confidence l (List.ne_nil_of_mem hr)
        have hsome : (l.find? (fun p => decide (p.2 > bestMatch.confidence) &&
            (a :: l).all (fun q => decide (q.2 ≤ p.2)))).isSome = true := by
          rw [List.find?_isSome]
          refine ⟨x, hx, ?_⟩
          have h1 : x.2 > a.2 := lt_of_lt_of_le hlt (hmax r hr)
          simp only [Bool.and_eq_true, decide_eq_true_eq, List.all_cons, List.all_eq_true]
          exact ⟨lt_trans ha h1, le_of_lt h1, hmax⟩
        revert hsome
        cases l.find? (fun p => decide (p.2 > bestMatch.confidence) &&
            (a :: l).all (fun q => decide (q.2 ≤ p.2))) with
        | none => intro h; cases h
        | some p => intro _; rfl
    · rw [if_neg ha, ih]
      have hPa : (decide (a.2 > bestMatch.confidence) &&
          (a :: l).all (fun q => decide (q.2 ≤ a.2))) = false := by
        rw [decide_eq_false ha, Bool.false_and]
      rw [hPa]
      have hcongr : ∀ x ∈ l,
          (decide (x.2 > bestMatch.confidence) && l.all (fun q => decide (q.2 ≤ x.2))) =
          (decide (x.2 > bestMatch.confidence) &&
            (a :: l).all (fun q => decide (q.2 ≤ x.2))) := by
        intro x _
        by_cases hx : x.2 > bestMatch.confidence
        · have : a.2 ≤ x.2 := le_trans (not_lt.mp ha) (le_of_lt hx)
          simp only [List.all_cons, decide_eq_true this, Bool.true_and]
        · simp only [decide_eq_false hx, Bool.false_and]
      rw [find?_congr_mem hcongr]

/-- Claim C13: `enhancedIntentDetection` returns, up to the final speaker adjustment of the
confidence, the record of the catalog entry that the specification selects: the earliest
entry among those whose adjusted confidence exceeds 0.2 and is the highest of all; the step,
the step number and the description returned are those of that entry.  When no adjusted
confidence exceeds 0.2, it returns the default record `General conversation`, `unknown`,
0.2, 0 unchanged.  The adjusted confidences are the doubles that the code computes and 0.2
is the double 0.2: two entries whose confidences agree as decimals need not share the
highest value (see `enhancedIntentDetection_connect`). -/
theorem enhancedIntentDetection_eq_specSelect (state : PatternState) (text : List Char)
    (speaker : String) (turnIndex : ℕ) (allTurns : List Turn) :
    (enhancedIntentDetection state text speaker turnIndex allTurns).1 =
      superEnhancedSpeakerAdjustments
        (specSelect ((matchTable text intentPatterns state).map
          (fun m => (m, m.confidence speaker turnIndex allTurns text)))) speaker ∧
    ((enhancedIntentDetection state text speaker turnIndex allTurns).1.step =
        (specSelect ((matchTable text intentPatterns state).map
          (fun m => (m, m.confidence speaker turnIndex allTurns text)))).step ∧
      (enhancedIntentDetection state text speaker turnIndex allTurns).1.stepNumber =
        (specSelect ((matchTable text intentPatterns state).map
          (fun m => (m, m.confidence speaker turnIndex allTurns text)))).stepNumber ∧
      (enhancedIntentDetection state text speaker turnIndex allTurns).1.intent =
        (specSelect ((matchTable text intentPatterns state).map
          (fun m => (m, m.confidence speaker turnIndex allTurns text)))).intent) ∧
    ((∀ m ∈ matchTable text intentPatterns state,
        m.confidence speaker turnIndex allTurns text ≤ toDouble (2 / 10)) →
      (enhancedIntentDetection state text speaker turnIndex allTurns).1 =
        { intent := "General conversation", step := "unknown", confidence := toDouble (2 / 10),
          stepNumber := 0 }) := by
  have hfold : (matchTable text intentPatterns state).foldl
      (pickBest speaker turnIndex allTurns text) defaultMatch =
      ((matchTable text intentPatterns state).map
        (fun m => (m, m.confidence speaker turnIndex allTurns text))).foldl
        (fun b p => if p.2 > b.confidence then p.1.toBestMatch p.2 else b) defaultMatch := by
    rw [List.foldl_map]
    rfl
  have hsel : (enhancedIntentDetection state text speaker turnIndex allTurns).1 =
      superEnhancedSpeakerAdjustments
        (specSelect ((matchTable text intentPatterns state).map
          (fun m => (m, m.confidence speaker turnIndex allTurns text)))) speaker := by
    rw [enhancedIntentDetection_eq]
    dsimp only
    rw [hfold, foldl_select]
    rfl
  refine ⟨hsel, ?_, ?_⟩
  · rw [hsel]
    exact superEnhancedSpeakerAdjustments_fields _ _
  · intro h
    rw [enhancedIntentDetection_eq]
    dsimp only
    rw [foldl_pickBest_none _ _ _ _ _ _ h, superEnhancedSpeakerAdjustments_default]
    rfl

/-- The agent turn 9 `Two Bee-etch-kay Flat के लिए मैं अभी आपको agent से connect करती हूँ`
on a newly constructed analyzer: two patterns of the ten of `interest_check` match and none
of `call_transfer`.  The adjusted confidence of `interest_check` is 0.2 + 0.3 + 0.1, the
double 0.6; that of `call_transfer` is 0.3 + 0.1 + 0.2, which is 0.6000000000000001 in
doubles and exceeds it.  The step returned is `call_transfer`, with the confidence
0.6000000000000001 + 0.15 = 0.7500000000000001. -/
theorem enhancedIntentDetection_connect :
    (matchTable connectOffer intentPatterns []).map
        (fun m => (m.key, m.patternMatches, m.confidence "agent" 9 [] connectOffer)) =
      [("initial_greeting", 0, toDouble (1 / 10)), ("third_party_interaction", 0, 0),
       ("busy_response", 0, 0), ("connection_failure", 0, 0), ("callback_scheduling", 0, 0),
       ("interest_check", 2, toDouble (6 / 10)), ("agent_connection_offer", 0, 1 / 4),
       ("agent_decline_handling", 0, 0),
       ("call_transfer", 0, 1351079888211149 / 2251799813685248), ("call_ending", 0, 0),
       ("voicemail_response", 0, 0), ("wrong_number_handling", 0, 0), ("goodbye", 0, 0),
       ("objection_handling", 0, 0), ("fetch_data_trigger", 0, 0)] ∧
    toDouble (6 / 10) < (1351079888211149 : ℚ) / 2251799813685248 ∧
    (enhancedIntentDetection [] connectOffer "agent" 9 []).1 =
      { intent := "General conversation", step := "call_transfer",
        confidence := 6755399441055745 / 9007199254740992, stepNumber := 9 } := by
  decide!

theorem enhancedIntentDetection_hello (allTurns : List Turn) :
    (enhancedIntentDetection [] "Hello".toList "customer" 0 allTurns).1 =
      { intent := "Initial greeting and agent introduction", step := "initial_greeting",
        confidence := 1 / 2, stepNumber := 1 } := by
  rw [enhancedIntentDetection_allTurns]
  decide!

/-- Claim C14, refuted on the code: on a newly constructed analyzer the customer turn `Hello`
at turn index 0 is classified as `initial_greeting` (step 1, confidence 0.5); the same call
repeated on the same analyzer returns `unknown` (step 0, confidence 0.2), because the first
call left `lastIndex = 5` in the greeting pattern, which has the `g` flag. -/
theorem enhancedIntentDetection_repeated_call :
    (enhancedIntentDetection [] "Hello".toList "customer" 0 []).1 =
      { intent := "Initial greeting and agent introduction", step := "initial_greeting",
        confidence := 1 / 2, stepNumber := 1 } ∧
    ((enhancedIntentDetection [] "Hello".toList "customer" 0 []).2.headD []).headD 0 = 5 ∧
    (enhancedIntentDetection (enhancedIntentDetection [] "Hello".toList "customer" 0 []).2
      "Hello".toList "customer" 0 []).1 =
      { intent := "General conversation", step := "unknown", confidence := toDouble (2 / 10),
        stepNumber := 0 } := by
  decide!

/-- Claim C12 as stated, refuted: on a newly constructed analyzer the customer turn
`at the specified time` at turn index 0 matches one of the seven patterns of
`callback_scheduling`; the step returned is `callback_scheduling`, not `unknown`, and its
confidence is 1/7 + 0.15, in doubles 0.2928571428571428, below 0.5: the floor is applied
only above 0.3. -/
theorem enhancedIntentDetection_floor_counterexample :
    (enhancedIntentDetection [] "at the specified time".toList "customer" 0 []).1.step =
      "callback_scheduling" ∧
    (enhancedIntentDetection [] "at the specified time".toList "customer" 0 []).1.step ≠
      "unknown" ∧
    (enhancedIntentDetection [] "at the specified time".toList "customer" 0 []).1.confidence =
      2637822638888433 / 9007199254740992 ∧
    (enhancedIntentDetection [] "at the specified time".toList "customer" 0 []).1.confidence <
      1 / 2 := by
  decide!

/-- Claim C12 as amended: when `enhancedIntentDetection` returns a step other than `unknown`,
the returned confidence is at least 0.5, or else it is above 0.2 and at most 0.3: the floor
of 0.5 is applied exactly to the confidences above 0.3. -/
theorem enhancedIntentDetection_floor (state : PatternState) (text : List Char)
    (speaker : String) (turnIndex : ℕ) (allTurns : List Turn)
    (hstep : (enhancedIntentDetection state text speaker turnIndex allTurns).1.step ≠
      "unknown") :
    1 / 2 ≤ (enhancedIntentDetection state text speaker turnIndex allTurns).1.confidence ∨
    (2 / 10 < (enhancedIntentDetection state text speaker turnIndex allTurns).1.confidence ∧
      (enhancedIntentDetection state text speaker turnIndex allTurns).1.confidence ≤ 3 / 10) := by
  obtain ⟨d20, d30, _, _, d50, _⟩ := toDouble_decimals
  have h295 : toDouble (2 / 10) < toDouble (95 / 100) := by decide!
  have h23 : toDouble (2 / 10) < toDouble (3 / 10) := by decide!
  unfold enhancedIntentDetection at hstep ⊢
  dsimp only at hstep ⊢
  rcases intentLoop_cases state text speaker turnIndex allTurns with h | ⟨m, _, hlo, _, h⟩
  · rw [h] at hstep
    exact absurd rfl hstep
  · rw [h] at hstep ⊢
    have hs : (m.toBestMatch (m.confidence speaker turnIndex allTurns text)).step ≠
        "unknown" := hstep
    unfold superEnhancedSpeakerAdjustments
    dsimp only
    have h1 : toDouble (2 / 10) < (if isAgentSpeaker speaker = true ∧
        (m.toBestMatch (m.confidence speaker turnIndex allTurns text)).step ∈
          ["interest_check", "agent_connection_offer", "call_transfer"] then
        min (toDouble (95 / 100))
          (jsAdd (m.toBestMatch (m.confidence speaker turnIndex allTurns text)).confidence
            (toDouble (15 / 100)))
        else (m.toBestMatch (m.confidence speaker turnIndex allTurns text)).confidence) := by
      have hc : (m.toBestMatch (m.confidence speaker turnIndex allTurns text)).confidence =
          m.confidence speaker turnIndex allTurns text := rfl
      rw [hc]
      split
      · exact lt_min h295 (lt_trans h23 (jsAdd_fifteen_gt (le_of_lt hlo)))
      · exact hlo
    revert h1
    generalize (if isAgentSpeaker speaker = true ∧
        (m.toBestMatch (m.confidence speaker turnIndex allTurns text)).step ∈
          ["interest_check", "agent_connection_offer", "call_transfer"] then
        min (toDouble (95 / 100))
          (jsAdd (m.toBestMatch (m.confidence speaker turnIndex allTurns text)).confidence
            (toDouble (15 / 100)))
        else (m.toBestMatch (m.confidence speaker turnIndex allTurns text)).confidence) = c1
    intro h1
    by_cases hc1 : c1 > toDouble (3 / 10)
    · rw [if_pos ⟨hc1, hs⟩, d50]
      exact Or.inl (le_max_left _ _)
    · rw [if_neg (fun hh => hc1 hh.1)]
      exact Or.inr ⟨lt_trans d20 h1, le_trans (not_lt.mp hc1) (le_of_lt d30)⟩

/-- Witness of the amended C12: the customer turn `Hello` is classified as `initial_greeting`
and its confidence 1/6 + 0.3, in doubles 0.4666666666666667, is raised to 0.5. -/
theorem enhancedIntentDetection_floor_witness :
    (enhancedIntentDetection [] "Hello".toList "customer" 0 []).1.step ≠ "unknown" ∧
    (1 / 2 ≤ (enhancedIntentDetection [] "Hello".toList "customer" 0 []).1.confidence ∨
      (2 / 10 < (enhancedIntentDetection [] "Hello".toList "customer" 0 []).1.confidence ∧
        (enhancedIntentDetection [] "Hello".toList "customer" 0 []).1.confidence ≤ 3 / 10)) :=
  ⟨by rw [enhancedIntentDetection_hello]; decide,
    enhancedIntentDetection_floor [] "Hello".toList "customer" 0 []
      (by rw [enhancedIntentDetection_hello]; decide)⟩

theorem enhancedIntentDetection_step_cases (state : PatternState) (text : List Char)
    (speaker : String) (turnIndex : ℕ) (allTurns : List Turn) :
    ((enhancedIntentDetection state text speaker turnIndex allTurns).1.step = "unknown" ∧
      (enhancedIntentDetection state text speaker turnIndex allTurns).1.stepNumber = 0) ∨
    ∃ intentData ∈ intentPatterns,
      (enhancedIntentDetection state text speaker turnIndex allTurns).1.step = intentData.key ∧
      (enhancedIntentDetection state text speaker turnIndex allTurns).1.stepNumber =
        intentData.step := by
  unfold enhancedIntentDetection
  dsimp only
  obtain ⟨hstep, hnum, _⟩ := superEnhancedSpeakerAdjustments_fields
    (intentLoop text speaker turnIndex allTurns intentPatterns state defaultMatch).1 speaker
  rw [hstep, hnum]
  rcases intentLoop_cases state text speaker turnIndex allTurns with h | ⟨m, hm, _, _, h⟩
  · rw [h]
    exact Or.inl ⟨rfl, rfl⟩
  · rw [h]
    obtain ⟨intentData, he, hkey, hst, _⟩ := mem_matchTable hm
    exact Or.inr ⟨intentData, he, hkey, hst⟩

/-- The mappings of a transcript that parses to a single turn. -/
theorem detectIntents_single (cache : ParseCache) (state : PatternState) (s : List Char)
    (turn : Turn) (hp : (parseTranscriptTurns cache (.str s)).1 = [turn]) :
    (detectIntents cache state (.str s)).1.intentMappings =
      [{ turnNumber := 1, speaker := turn.speaker, text := displayText turn.text,
         detectedIntent :=
           (enhancedIntentDetection state turn.text turn.speaker 0 [turn]).1.intent,
         confidence := jsRound (jsMul
           (enhancedIntentDetection state turn.text turn.speaker 0 [turn]).1.confidence 100)
             / 100,
         conversationStep :=
           (enhancedIntentDetection state turn.text turn.speaker 0 [turn]).1.step,
         stepNumber :=
           (enhancedIntentDetection state turn.text turn.speaker 0 [turn]).1.stepNumber }] := by
  unfold detectIntents
  dsimp only
  rw [hp]
  rfl

/-- Claim C16 as stated, refuted: the transcript `Human: fine` yields one mapping, whose
`conversationStep` is `unknown` with step number 0, and `unknown` is not a key of the
intent catalog. -/
theorem detectIntents_unknown_step_counterexample :
    (detectIntents ParseCache.empty [] (.str "Human: fine".toList)).1.intentMappings.map
      (fun m => (m.conversationStep, m.stepNumber)) = [("unknown", 0)] ∧
    "unknown" ∉ intentPatterns.map (fun intentData => intentData.key) := by
  decide!

/-- Claim C16 as amended: for every intent mapping built by `detectIntents`, either
`conversationStep` is `unknown` and the step number is 0, or `conversationStep` is a key of
the intent catalog and `stepNumber` is the step number of that entry, which is at most 13. -/
theorem detectIntents_step_in_catalog (cache : ParseCache) (state : PatternState)
    (transcript : TranscriptArg) (m : IntentMapping)
    (hm : m ∈ (detectIntents cache state transcript).1.intentMappings) :
    (m.conversationStep = "unknown" ∧ m.stepNumber = 0) ∨
    ∃ intentData ∈ intentPatterns, m.conversationStep = intentData.key ∧
      m.stepNumber = intentData.step ∧ intentData.step ≤ 13 := by
  rcases detectIntents_intentMappings cache state transcript with h | h
  · rw [h] at hm; cases hm
  · rw [h] at hm
    obtain ⟨st, turn, j, _, hstep, hnum, _⟩ := mem_detectIntentsLoop hm
    rw [hstep, hnum]
    rcases enhancedIntentDetection_step_cases st turn.text turn.speaker j
        (parseTranscriptTurns cache transcript).1 with h' | ⟨intentData, he, hk, hs⟩
    · exact Or.inl h'
    · exact Or.inr ⟨intentData, he, hk, hs, step_le_thirteen he⟩

/-- Witness of the amended C16: the mapping of the transcript `Human: Hello`, whose step is
the catalog key `initial_greeting`. -/
theorem detectIntents_step_in_catalog_witness :
    ∃ m, m ∈ (detectIntents ParseCache.empty [] (.str "Human: Hello".toList)).1.intentMappings ∧
      m.conversationStep = "initial_greeting" ∧
      ((m.conversationStep = "unknown" ∧ m.stepNumber = 0) ∨
        ∃ intentData ∈ intentPatterns, m.conversationStep = intentData.key ∧
          m.stepNumber = intentData.step ∧ intentData.step ≤ 13) := by
  have hl := detectIntents_single ParseCache.empty [] "Human: Hello".toList
    { speaker := "customer", text := "Hello".toList } (by decide)
  have hmem : ∀ m, m ∈ (detectIntents ParseCache.empty []
      (.str "Human: Hello".toList)).1.intentMappings → m.conversationStep = "initial_greeting" := by
    intro m hm
    rw [hl, List.mem_singleton] at hm
    rw [hm]
    dsimp only
    rw [enhancedIntentDetection_hello]
  obtain ⟨m, hm⟩ : ∃ m, m ∈ (detectIntents ParseCache.empty []
      (.str "Human: Hello".toList)).1.intentMappings :=
    ⟨_, by rw [hl]; exact List.mem_singleton_self _⟩
  exact ⟨m, hm, hmem m hm,
    detectIntents_step_in_catalog ParseCache.empty [] (.str "Human: Hello".toList) m hm⟩

/-! ## Contextual flow score (C17, C18) -/

theorem conditionalCounts_le (completedSteps : List ℕ) (conversationContent : List Char)
    (intentMappings : List IntentMapping) (categories : List (String × List ℕ)) :
    (conditionalCounts completedSteps conversationContent intentMappings categories).2 ≤
      (conditionalCounts completedSteps conversationContent intentMappings categories).1 := by
  induction categories with
  | nil => exact le_refl _
  | cons category categories ih =>
    obtain ⟨condition, steps⟩ := category
    unfold conditionalCounts
    dsimp only
    split
    · exact Nat.add_le_add (List.length_filter_le _ _) ih
    · exact ih

theorem conditionalCounts_of_none (completedSteps : List ℕ) (conversationContent : List Char)
    (intentMappings : List IntentMapping) (categories : List (String × List ℕ))
    (h : ∀ category ∈ categories,
      isConditionMet category.1 conversationContent intentMappings = false) :
    conditionalCounts completedSteps conversationContent intentMappings categories = (0, 0) := by
  induction categories with
  | nil => rfl
  | cons category categories ih =>
    obtain ⟨condition, steps⟩ := category
    unfold conditionalCounts
    dsimp only
    have hc := h (condition, steps) (List.mem_cons_self _ _)
    dsimp only at hc
    rw [hc]
    exact ih (fun c hcm => h c (List.mem_cons_of_mem _ hcm))

theorem nonDecreasingPairs_le (stepProgression : List StepProgress) :
    nonDecreasingPairs stepProgression ≤ stepProgression.length - 1 := by
  induction stepProgression with
  | nil => exact le_refl _
  | cons a rest ih =>
    cases rest with
    | nil => exact le_refl _
    | cons b rest =>
      unfold nonDecreasingPairs
      have h1 : (if b.step ≥ a.step then 1 else 0) ≤ 1 := by split <;> omega
      simp only [List.length_cons] at ih ⊢
      omega

theorem required_steps_length_pos {conversationContext : ConversationContext}
    (h : conversationContext ∈ conversationContexts) :
    0 < conversationContext.required_steps.length := by
  simp only [conversationContexts, List.mem_cons, List.mem_singleton, List.not_mem_nil,
    or_false] at h
  rcases h with rfl | rfl | rfl | rfl | rfl | rfl <;> decide

theorem ratio_range {a b : ℕ} (hab : a ≤ b) (c : ℚ) (hc : 0 ≤ c) :
    0 ≤ ((a : ℚ) / (b : ℚ)) * c ∧ ((a : ℚ) / (b : ℚ)) * c ≤ c := by
  have h0 : (0 : ℚ) ≤ (a : ℚ) / (b : ℚ) := div_nonneg (Nat.cast_nonneg _) (Nat.cast_nonneg _)
  have h1 : (a : ℚ) / (b : ℚ) ≤ 1 := by
    apply div_le_one_of_le₀
    · exact_mod_cast hab
    · exact Nat.cast_nonneg _
  constructor
  · exact mul_nonneg h0 hc
  · calc (a : ℚ) / (b : ℚ) * c ≤ 1 * c := mul_le_mul_of_nonneg_right h1 hc
      _ = c := one_mul c

theorem conditionalScore_range (conversationContext : ConversationContext)
    (stepProgression : List StepProgress) (intentMappings : List IntentMapping) :
    0 ≤ (calculateContextualFlowScore conversationContext stepProgression
      intentMappings).conditionalScore ∧
    (calculateContextualFlowScore conversationContext stepProgression
      intentMappings).conditionalScore ≤ 20 := by
  unfold calculateContextualFlowScore
  dsimp only
  split
  · exact ratio_range (conditionalCounts_le _ _ _ _) 20 (by norm_num)
  · norm_num

theorem conditionalScore_of_none (conversationContext : ConversationContext)
    (stepProgression : List StepProgress) (intentMappings : List IntentMapping)
    (h : ∀ category ∈ conversationContext.conditional_steps,
      isConditionMet category.1 (joinSpace (intentMappings.map (fun m => toLowerCase m.text)))
        intentMappings = false) :
    (calculateContextualFlowScore conversationContext stepProgression
      intentMappings).conditionalScore = 20 := by
  unfold calculateContextualFlowScore
  dsimp only
  rw [conditionalCounts_of_none _ _ _ _ h]
  simp

theorem confidenceBonus_range (conversationContext : ConversationContext)
    (stepProgression : List StepProgress) (intentMappings : List IntentMapping) :
    0 ≤ (calculateContextualFlowScore conversationContext stepProgression
      intentMappings).confidenceBonus ∧
    (calculateContextualFlowScore conversationContext stepProgression
      intentMappings).confidenceBonus ≤ 10 := by
  unfold calculateContextualFlowScore
  dsimp only
  split
  · exact ratio_range (List.length_filter_le _ _) 10 (by norm_num)
  · norm_num

theorem sequentialBonus_range (conversationContext : ConversationContext)
    (stepProgression : List StepProgress) (intentMappings : List IntentMapping) :
    0 ≤ (calculateContextualFlowScore conversationContext stepProgression
      intentMappings).sequentialBonus ∧
    (calculateContextualFlowScore conversationContext stepProgression
      intentMappings).sequentialBonus ≤ 10 := by
  unfold calculateContextualFlowScore
  dsimp only
  have hle := nonDecreasingPairs_le stepProgression
  split
  · rename_i hlen
    have hcast : ((stepProgression.length : ℚ) - 1) = ((stepProgression.length - 1 : ℕ) : ℚ) := by
      rw [Nat.cast_sub (by omega)]
      simp
    rw [hcast]
    exact ratio_range hle 10 (by norm_num)
  · rename_i hlen
    have h0 : nonDecreasingPairs stepProgression = 0 := by omega
    rw [h0]
    norm_num

theorem requiredStepsScore_eq (conversationContext : ConversationContext)
    (stepProgression : List StepProgress) (intentMappings : List IntentMapping)
    (hctx : conversationContext ∈ conversationContexts) :
    (calculateContextualFlowScore conversationContext stepProgression
      intentMappings).requiredStepsScore =
      JsNum.fin ((((conversationContext.required_steps.filter (fun step =>
        (stepProgression.map (fun p => p.step)).contains step)).length : ℚ) /
        (conversationContext.required_steps.length : ℚ)) * 40) := by
  have hne : ((conversationContext.required_steps.length : ℕ) : ℚ) ≠ 0 := by
    have := required_steps_length_pos hctx
    exact_mod_cast (Nat.pos_iff_ne_zero.mp this)
  unfold calculateContextualFlowScore
  dsimp only
  unfold JsNum.div
  rw [if_neg hne]
  rfl

/-- Claim C17: for each of the six contexts of the catalog, every step progression and all
intent mappings, the flow score returned by `calculateContextualFlowScore` is the sum of the
base 20, the required-steps score in [0,40], the conditional score in [0,20] (20 when no
condition of the context is met), the confidence bonus in [0,10] and the sequential bonus
in [0,10]; the sum lies in [20,100], so the final clamp leaves it unchanged. -/
theorem calculateContextualFlowScore_composition (conversationContext : ConversationContext)
    (stepProgression : List StepProgress) (intentMappings : List IntentMapping)
    (hctx : conversationContext ∈ conversationContexts) :
    ∃ requiredStepsScore : ℚ,
      (calculateContextualFlowScore conversationContext stepProgression
        intentMappings).requiredStepsScore = JsNum.fin requiredStepsScore ∧
      0 ≤ requiredStepsScore ∧ requiredStepsScore ≤ 40 ∧
      0 ≤ (calculateContextualFlowScore conversationContext stepProgression
        intentMappings).conditionalScore ∧
      (calculateContextualFlowScore conversationContext stepProgression
        intentMappings).conditionalScore ≤ 20 ∧
      ((∀ category ∈ conversationContext.conditional_steps,
          isConditionMet category.1
            (joinSpace (intentMappings.map (fun m => toLowerCase m.text))) intentMappings =
            false) →
        (calculateContextualFlowScore conversationContext stepProgression
          intentMappings).conditionalScore = 20) ∧
      0 ≤ (calculateContextualFlowScore conversationContext stepProgression
        intentMappings).confidenceBonus ∧
      (calculateContextualFlowScore conversationContext stepProgression
        intentMappings).confidenceBonus ≤ 10 ∧
      0 ≤ (calculateContextualFlowScore conversationContext stepProgression
        intentMappings).sequentialBonus ∧
      (calculateContextualFlowScore conversationContext stepProgression
        intentMappings).sequentialBonus ≤ 10 ∧
      (calculateContextualFlowScore conversationContext stepProgression
        intentMappings).flowScore =
        JsNum.fin (20 + requiredStepsScore +
          (calculateContextualFlowScore conversationContext stepProgression
            intentMappings).conditionalScore +
          (calculateContextualFlowScore conversationContext stepProgression
            intentMappings).confidenceBonus +
          (calculateContextualFlowScore conversationContext stepProgression
            intentMappings).sequentialBonus) ∧
      20 ≤ 20 + requiredStepsScore +
          (calculateContextualFlowScore conversationContext stepProgression
            intentMappings).conditionalScore +
          (calculateContextualFlowScore conversationContext stepProgression
            intentMappings).confidenceBonus +
          (calculateContextualFlowScore conversationContext stepProgression
            intentMappings).sequentialBonus ∧
      20 + requiredStepsScore +
          (calculateContextualFlowScore conversationContext stepProgression
            intentMappings).conditionalScore +
          (calculateContextualFlowScore conversationContext stepProgression
            intentMappings).confidenceBonus +
          (calculateContextualFlowScore conversationContext stepProgression
            intentMappings).sequentialBonus ≤ 100 := by
  obtain ⟨hr0, hr1⟩ := ratio_range (List.length_filter_le (fun step =>
    (stepProgression.map (fun p => p.step)).contains step)
    conversationContext.required_steps) 40 (by norm_num)
  obtain ⟨hc0, hc1⟩ := conditionalScore_range conversationContext stepProgression intentMappings
  obtain ⟨hb0, hb1⟩ := confidenceBonus_range conversationContext stepProgression intentMappings
  obtain ⟨hs0, hs1⟩ := sequentialBonus_range conversationContext stepProgression intentMappings
  have hreq := requiredStepsScore_eq conversationContext stepProgression intentMappings hctx
  refine ⟨_, hreq, hr0, hr1, hc0, hc1,
    conditionalScore_of_none conversationContext stepProgression intentMappings,
    hb0, hb1, hs0, hs1, ?_, by linarith, by linarith⟩
  have hflow : (calculateContextualFlowScore conversationContext stepProgression
      intentMappings).flowScore =
      JsNum.minWith 100 (JsNum.maxWith 0
        (((((JsNum.fin (0 + 20)).add
          (calculateContextualFlowScore conversationContext stepProgression
            intentMappings).requiredStepsScore).add
          (JsNum.fin (calculateContextualFlowScore conversationContext stepProgression
            intentMappings).conditionalScore)).add
          (JsNum.fin (calculateContextualFlowScore conversationContext stepProgression
            intentMappings).confidenceBonus)).add
          (JsNum.fin (calculateContextualFlowScore conversationContext stepProgression
            intentMappings).sequentialBonus))) := rfl
  rw [hflow, hreq]
  simp only [JsNum.add, JsNum.maxWith, JsNum.minWith]
  congr 1
  rw [max_eq_right (by linarith), min_eq_right (by linarith)]
  ring

/-- The flow score of a call with greeting and interest check in the context
`failed_inquiry`: 20 + 2/4 * 40 + 20 + 0 + 10 = 70. -/
theorem calculateContextualFlowScore_example :
    (calculateContextualFlowScore failed_inquiry greetingAndInterest
      greetingAndInterestMappings).flowScore = JsNum.fin 70 := by
  have hcond : conditionalCounts (greetingAndInterest.map (fun p => p.step))
      (joinSpace (greetingAndInterestMappings.map (fun m => toLowerCase m.text)))
      greetingAndInterestMappings failed_inquiry.conditional_steps = (0, 0) := by decide
  have hreq : (failed_inquiry.required_steps.filter (fun step =>
      (greetingAndInterest.map (fun p => p.step)).contains step)).length = 2 := by decide
  have hnd : nonDecreasingPairs greetingAndInterest = 1 := by decide
  unfold calculateContextualFlowScore
  simp only [hcond, hreq, hnd]
  norm_num [JsNum.div, JsNum.scale, JsNum.add, JsNum.maxWith, JsNum.minWith, failed_inquiry,
    greetingAndInterest]

/-- Witness of C17: the context `failed_inquiry` with one greeting step. -/
theorem calculateContextualFlowScore_composition_witness :
    failed_inquiry ∈ conversationContexts ∧
    ∃ requiredStepsScore : ℚ,
      (calculateContextualFlowScore failed_inquiry
        [{ step := 1, intent := "initial_greeting", confidence := 1 / 2, turnNumber := 1 }]
        []).flowScore =
        JsNum.fin (20 + requiredStepsScore +
          (calculateContextualFlowScore failed_inquiry
            [{ step := 1, intent := "initial_greeting", confidence := 1 / 2, turnNumber := 1 }]
            []).conditionalScore +
          (calculateContextualFlowScore failed_inquiry
            [{ step := 1, intent := "initial_greeting", confidence := 1 / 2, turnNumber := 1 }]
            []).confidenceBonus +
          (calculateContextualFlowScore failed_inquiry
            [{ step := 1, intent := "initial_greeting", confidence := 1 / 2, turnNumber := 1 }]
            []).sequentialBonus) := by
  have hctx : failed_inquiry ∈ conversationContexts := by
    simp [conversationContexts]
  obtain ⟨r, _, _, _, _, _, _, _, _, _, _, hflow, _, _⟩ :=
    calculateContextualFlowScore_composition failed_inquiry
      [{ step := 1, intent := "initial_greeting", confidence := 1 / 2, turnNumber := 1 }] [] hctx
  exact ⟨hctx, r, hflow⟩

theorem critical_iff_flagged (stepNum : ℕ) :
    (match conversationSteps stepNum with
      | some stepInfo => stepInfo.critical
      | none => false) = decide (stepNum ∈ specCriticalFlagged) := by
  by_cases h : stepNum ≤ 13
  · interval_cases stepNum <;> decide
  · have h14 : ∃ k, stepNum = k + 14 := ⟨stepNum - 14, by omega⟩
    obtain ⟨k, rfl⟩ := h14
    have hnot : k + 14 ∉ specCriticalFlagged := by
      simp only [specCriticalFlagged, List.mem_cons, List.mem_singleton, List.not_mem_nil,
        or_false]
      omega
    rw [decide_eq_false hnot]
    rfl

theorem intent_of_flagged {s : ℕ} (hs : s ∈ specCriticalFlagged) :
    (conversationSteps s).map (fun stepInfo => stepInfo.intent) = some (stepIntentName s) := by
  simp only [specCriticalFlagged, List.mem_cons, List.mem_singleton, List.not_mem_nil,
    or_false] at hs
  rcases hs with rfl | rfl | rfl | rfl | rfl | rfl <;> rfl

theorem filterMap_intent_of_flagged (steps : List ℕ) (h : ∀ s ∈ steps, s ∈ specCriticalFlagged) :
    steps.filterMap (fun step => (conversationSteps step).map (fun stepInfo => stepInfo.intent))
      = steps.map stepIntentName := by
  induction steps with
  | nil => rfl
  | cons s steps ih =>
    rw [List.filterMap_cons, intent_of_flagged (h s (List.mem_cons_self _ _)), List.map_cons,
      ih (fun x hx => h x (List.mem_cons_of_mem _ hx))]

/-- C18, the failing input: for the context `failed_inquiry`, whose `critical_steps` are 1
and 6 (`At least greeting and interest check attempted`), with the steps 1 and 6 completed,
no critical step of the context is missing; yet the list `missingCriticalSteps` that
`calculateContextualFlowScore` returns holds `goodbye`: the code filters the required steps
1, 6, 8 and 13 by the flag of the step table and does not read `critical_steps`. -/
theorem calculateContextualFlowScore_missing_failed_inquiry :
    determineConversationContext greetingAndInterestMappings = failed_inquiry ∧
    failed_inquiry.critical_steps = [1, 6] ∧
    (failed_inquiry.critical_steps.filter (fun step =>
      !(greetingAndInterest.map (fun p => p.step)).contains step)) = [] ∧
    (calculateContextualFlowScore failed_inquiry greetingAndInterest
      greetingAndInterestMappings).missingCriticalSteps = ["goodbye"] := by
  refine ⟨by decide, rfl, by decide, ?_⟩
  decide

/-- What the code computes as `missingCriticalSteps`, for every context and every step
progression: the intent names of those required steps of the context that the step table
flags as critical (1, 6, 7, 9, 10 and 13) and that do not occur among the completed steps.
Only for `successful_property_inquiry`, whose required steps are its critical steps, is this
the list of the missing critical steps of the context. -/
theorem calculateContextualFlowScore_missing (conversationContext : ConversationContext)
    (stepProgression : List StepProgress) (intentMappings : List IntentMapping) :
    (calculateContextualFlowScore conversationContext stepProgression
      intentMappings).missingCriticalSteps =
      (conversationContext.required_steps.filter (fun step =>
        decide (step ∈ specCriticalFlagged) &&
          !(stepProgression.map (fun p => p.step)).contains step)).map stepIntentName ∧
    (calculateContextualFlowScore successful_property_inquiry stepProgression
      intentMappings).missingCriticalSteps =
      (successful_property_inquiry.critical_steps.filter (fun step =>
        !(stepProgression.map (fun p => p.step)).contains step)).map stepIntentName := by
  have hgen : ∀ ctx : ConversationContext,
      (calculateContextualFlowScore ctx stepProgression intentMappings).missingCriticalSteps =
      (ctx.required_steps.filter (fun step =>
        decide (step ∈ specCriticalFlagged) &&
          !(stepProgression.map (fun p => p.step)).contains step)).map stepIntentName := by
    intro ctx
    unfold calculateContextualFlowScore
    dsimp only
    rw [List.filter_filter]
    have hfun : (fun a => (!(List.map (fun p => p.step) stepProgression).contains a &&
        match conversationSteps a with
        | some stepInfo => stepInfo.critical
        | none => false)) = (fun step => decide (step ∈ specCriticalFlagged) &&
          !(stepProgression.map (fun p => p.step)).contains step) := by
      funext a
      rw [critical_iff_flagged, Bool.and_comm]
    rw [hfun]
    apply filterMap_intent_of_flagged
    intro s hs
    have := (List.mem_filter.mp hs).2
    simp only [Bool.and_eq_true, decide_eq_true_eq] at this
    exact this.1
  refine ⟨hgen conversationContext, ?_⟩
  rw [hgen]
  rfl

/-! ## Completion rate and context resolution (C19, C20) -/

theorem filter_completed_length (steps : List ℕ) (hpos : ∀ s ∈ steps, 0 < s)
    (intentMappings : List IntentMapping) :
    (steps.filter (fun step => (completedSteps intentMappings).contains step)).length =
      specCompletedCount steps intentMappings := by
  unfold specCompletedCount
  congr 1
  apply List.filter_congr
  intro s hs
  exact contains_completedSteps intentMappings s (hpos s hs)

theorem completionRate_eq (intentMappings : List IntentMapping)
    (conversationContext : ConversationContext) :
    (analyzeCallObjectiveCompletion intentMappings conversationContext).completionRate =
      if (analyzeCallObjectiveCompletion intentMappings conversationContext).objectiveAchieved
      then 1
      else max
        ((([1, 6, 7, 9].filter (fun step =>
          (completedSteps intentMappings).contains step)).length : ℚ) / 4)
        ((([1, 2, 6, 7, 9].filter (fun step =>
          (completedSteps intentMappings).contains step)).length : ℚ) / 5) := by
  unfold analyzeCallObjectiveCompletion
  dsimp only
  norm_num

theorem not_achieved_lengths (intentMappings : List IntentMapping)
    (conversationContext : ConversationContext)
    (h : (analyzeCallObjectiveCompletion intentMappings
      conversationContext).objectiveAchieved = false) :
    ([1, 6, 7, 9].filter (fun step =>
        (completedSteps intentMappings).contains step)).length ≤ 3 ∧
    ([1, 2, 6, 7, 9].filter (fun step =>
        (completedSteps intentMappings).contains step)).length ≤ 4 := by
  unfold analyzeCallObjectiveCompletion at h
  dsimp only at h
  simp only [Bool.or_eq_false_iff, decide_eq_false_iff_not] at h
  obtain ⟨⟨h1, h2⟩, _⟩ := h
  have l1 := List.length_filter_le (fun step => (completedSteps intentMappings).contains step)
    [1, 6, 7, 9]
  have l2 := List.length_filter_le (fun step => (completedSteps intentMappings).contains step)
    [1, 2, 6, 7, 9]
  simp only [List.length_cons, List.length_nil] at h1 h2 l1 l2
  omega

/-- Claim C19: `analyzeCallObjectiveCompletion` returns the completion rate 1 when the
objective is achieved and otherwise the larger of p/4 and a/5, where p and a count the
members of {1,6,7,9} and of {1,2,6,7,9} that are the step number of a mapping with
confidence above 0.4; the rate lies between 0 and 1 and is 1 exactly when the objective
is achieved. -/
theorem analyzeCallObjectiveCompletion_completionRate (intentMappings : List IntentMapping)
    (conversationContext : ConversationContext) :
    (analyzeCallObjectiveCompletion intentMappings conversationContext).completionRate =
      (if (analyzeCallObjectiveCompletion intentMappings conversationContext).objectiveAchieved
       then 1
       else max ((specCompletedCount [1, 6, 7, 9] intentMappings : ℚ) / 4)
        ((specCompletedCount [1, 2, 6, 7, 9] intentMappings : ℚ) / 5)) ∧
    0 ≤ (analyzeCallObjectiveCompletion intentMappings conversationContext).completionRate ∧
    (analyzeCallObjectiveCompletion intentMappings conversationContext).completionRate ≤ 1 ∧
    ((analyzeCallObjectiveCompletion intentMappings conversationContext).completionRate = 1 ↔
      (analyzeCallObjectiveCompletion intentMappings conversationContext).objectiveAchieved =
        true) := by
  have hp := filter_completed_length [1, 6, 7, 9] (by decide) intentMappings
  have ha := filter_completed_length [1, 2, 6, 7, 9] (by decide) intentMappings
  have hrate := completionRate_eq intentMappings conversationContext
  rw [hp, ha] at hrate
  refine ⟨hrate, ?_⟩
  rw [hrate]
  cases hobj : (analyzeCallObjectiveCompletion intentMappings
      conversationContext).objectiveAchieved with
  | true => simp
  | false =>
    obtain ⟨h1, h2⟩ := not_achieved_lengths intentMappings conversationContext hobj
    rw [hp] at h1
    rw [ha] at h2
    have c1 : (specCompletedCount [1, 6, 7, 9] intentMappings : ℚ) ≤ 3 := by exact_mod_cast h1
    have c2 : (specCompletedCount [1, 2, 6, 7, 9] intentMappings : ℚ) ≤ 4 := by
      exact_mod_cast h2
    have n1 : (0 : ℚ) ≤ (specCompletedCount [1, 6, 7, 9] intentMappings : ℚ) :=
      Nat.cast_nonneg _
    have hmax : max ((specCompletedCount [1, 6, 7, 9] intentMappings : ℚ) / 4)
        ((specCompletedCount [1, 2, 6, 7, 9] intentMappings : ℚ) / 5) ≤ 4 / 5 :=
      max_le (by linarith) (by linarith)
    have hmin : 0 ≤ max ((specCompletedCount [1, 6, 7, 9] intentMappings : ℚ) / 4)
        ((specCompletedCount [1, 2, 6, 7, 9] intentMappings : ℚ) / 5) :=
      le_trans (by linarith) (le_max_left _ _)
    simp only [Bool.false_eq_true, if_false]
    refine ⟨hmin, by linarith, ?_⟩
    constructor
    · intro h; linarith
    · intro h; cases h

/-- Claim C20: `determineConversationContext` depends only on the set of `conversationStep`
values: two lists of intent mappings in which the same steps occur resolve to the same
context. -/
theorem determineConversationContext_set (mappings1 mappings2 : List IntentMapping)
    (h : ∀ step : String, step ∈ mappings1.map (fun m => m.conversationStep) ↔
      step ∈ mappings2.map (fun m => m.conversationStep)) :
    determineConversationContext mappings1 = determineConversationContext mappings2 := by
  have hc : ∀ step : String,
      (mappings1.map (fun m => m.conversationStep)).contains step =
        (mappings2.map (fun m => m.conversationStep)).contains step := by
    intro step
    rw [Bool.eq_iff_iff, List.contains_iff_exists_mem_beq, List.contains_iff_exists_mem_beq]
    constructor
    · rintro ⟨a, ha, hb⟩
      exact ⟨a, (h a).mp ha, hb⟩
    · rintro ⟨a, ha, hb⟩
      exact ⟨a, (h a).mpr ha, hb⟩
  unfold determineConversationContext
  simp only [hc]

/-- Witness of C20: the mappings of a wrong-number call and the same mappings in reverse
order with the greeting doubled resolve to the same context. -/
theorem determineConversationContext_set_witness :
    determineConversationContext wrongNumberMappings =
      determineConversationContext (wrongNumberMappings.reverse ++ wrongNumberMappings.take 1) :=
  determineConversationContext_set wrongNumberMappings
    (wrongNumberMappings.reverse ++ wrongNumberMappings.take 1) (by
      intro step
      simp only [wrongNumberMappings, List.map_cons, List.map_nil, List.reverse_cons,
        List.reverse_nil, List.nil_append, List.cons_append, List.take, List.map_append,
        List.mem_cons, List.mem_append, List.mem_singleton, List.not_mem_nil, or_false]
      tauto)

/-! ## Repetitions without a human line between (C11) -/

theorem trim_trim (s : List Char) : trim (trim s) = trim s := by
  unfold trim
  generalize ht : List.dropWhile isWhiteSpace s = t
  have hhead := List.head?_dropWhile_not isWhiteSpace s
  rw [ht] at hhead
  obtain ⟨r, hr⟩ := List.rdropWhile_prefix isWhiteSpace t
  cases hu : List.rdropWhile isWhiteSpace t with
  | nil => rfl
  | cons x u =>
    rw [hu] at hr
    rw [← hr] at hhead
    simp only [List.cons_append, List.head?_cons] at hhead
    have hd : List.dropWhile isWhiteSpace (x :: u) = x :: u := by
      simp [List.dropWhile, hhead]
    rw [hd, ← hu, List.rdropWhile_idempotent]

theorem isHumanLine_trim (line : List Char) : isHumanLine (trim line) = isHumanLine line := by
  unfold isHumanLine
  rw [trim_trim]

theorem noHumanLineBetween_spec {startLine endLine : ℕ} {lines : List (List Char)}
    (h : noHumanLineBetween startLine endLine lines = true) (i : ℕ) (h1 : startLine < i)
    (h2 : i < endLine) (line : List Char) (hline : lines[i]? = some line) :
    isHumanLine line = false := by
  unfold noHumanLineBetween at h
  rw [List.all_eq_true] at h
  have hmem : line ∈ (lines.take endLine).drop (startLine + 1) := by
    rw [List.mem_iff_getElem?]
    refine ⟨i - (startLine + 1), ?_⟩
    rw [List.getElem?_drop, List.getElem?_take]
    have : startLine + 1 + (i - (startLine + 1)) = i := by omega
    rw [this, if_pos h2, hline]
  have := h line hmem
  rw [isHumanLine_trim] at this
  cases hh : isHumanLine line with
  | false => rfl
  | true =>
    rw [hh] at this
    simp only [Bool.and_true, Bool.not_not] at this
    have hempty : trim line = [] := by simpa using this
    have : isHumanLine line = false := by
      rw [← isHumanLine_trim, hempty]
      decide
    rw [hh] at this
    cases this

theorem mem_singleLineRepetitions {lines : List (List Char)} {botResponses : List BotResponse}
    {r : Repetition} (hr : r ∈ singleLineRepetitions lines botResponses) :
    ∃ current next, [current, next] <:+: botResponses ∧
      r = singleLineRepetition current next ∧
      areIdenticalBotResponses current.text next.text = true ∧
      noHumanLineBetween current.lineIndex next.lineIndex lines = true := by
  induction botResponses with
  | nil => simp [singleLineRepetitions] at hr
  | cons current rest ih =>
    cases rest with
    | nil => simp [singleLineRepetitions] at hr
    | cons next rest =>
      unfold singleLineRepetitions at hr
      rcases List.mem_append.mp hr with h | h
      · split at h
        · rename_i hc
          simp only [Bool.and_eq_true] at hc
          rw [List.mem_singleton] at h
          exact ⟨current, next, ⟨[], rest, rfl⟩, h, hc.1, hc.2⟩
        · cases h
      · obtain ⟨c, n, ⟨pre, suf, hinf⟩, hrest⟩ := ih h
        exact ⟨c, n, ⟨current :: pre, suf, by rw [← hinf]; rfl⟩, hrest⟩

theorem doBlocksMatch_length {block1 block2 : List BotResponse}
    (h : doBlocksMatch block1 block2 = true) : block1.length = block2.length := by
  induction block1 generalizing block2 with
  | nil =>
    cases block2 with
    | nil => rfl
    | cons b block2 => simp [doBlocksMatch] at h
  | cons a block1 ih =>
    cases block2 with
    | nil => simp [doBlocksMatch] at h
    | cons b block2 =>
      simp only [doBlocksMatch, Bool.and_eq_true] at h
      simp only [List.length_cons, ih h.2]

theorem scanBlocks_some {botResponses : List BotResponse} {lines : List (List Char)}
    {blockSize rounds i : ℕ} {r : Repetition}
    (h : scanBlocks botResponses lines blockSize rounds i = some r) :
    ∃ j, ((botResponses.drop (j + blockSize)).take blockSize).length = blockSize ∧
      doBlocksMatch ((botResponses.drop j).take blockSize)
        ((botResponses.drop (j + blockSize)).take blockSize) = true ∧
      areBlocksConsecutive ((botResponses.drop j).take blockSize)
        ((botResponses.drop (j + blockSize)).take blockSize) lines = true ∧
      r = blockRepetition ((botResponses.drop j).take blockSize)
        ((botResponses.drop (j + blockSize)).take blockSize) := by
  induction rounds generalizing i with
  | zero => simp [scanBlocks] at h
  | succ rounds ih =>
    unfold scanBlocks at h
    dsimp only at h
    split at h
    · exact ih h
    · rename_i hlen
      split at h
      · rename_i hc
        simp only [Bool.and_eq_true] at hc
        refine ⟨i, ?_, hc.1, hc.2, ?_⟩
        · have := List.length_take_le blockSize (botResponses.drop (i + blockSize))
          omega
        · exact (Option.some.inj h).symm
      · exact ih h

theorem mem_detectBlockPatternRepetitions {botResponses : List BotResponse}
    {lines : List (List Char)} {r : Repetition}
    (hr : r ∈ detectBlockPatternRepetitions botResponses lines) :
    ∃ blockSize j, blockSize ∈ [2, 3, 4] ∧
      ((botResponses.drop (j + blockSize)).take blockSize).length = blockSize ∧
      doBlocksMatch ((botResponses.drop j).take blockSize)
        ((botResponses.drop (j + blockSize)).take blockSize) = true ∧
      areBlocksConsecutive ((botResponses.drop j).take blockSize)
        ((botResponses.drop (j + blockSize)).take blockSize) lines = true ∧
      r = blockRepetition ((botResponses.drop j).take blockSize)
        ((botResponses.drop (j + blockSize)).take blockSize) := by
  unfold detectBlockPatternRepetitions at hr
  rw [List.mem_filterMap] at hr
  obtain ⟨blockSize, hb, hscan⟩ := hr
  obtain ⟨j, h⟩ := scanBlocks_some hscan
  exact ⟨blockSize, j, hb, h⟩

/-- Claim C11 as stated, refuted: the transcript holds the bot lines 0, 2, 3 and 4 and the
customer line 1; `detectRepetitions` reports the block of lines 0 and 2 as repeated by the
block of lines 3 and 4, although the customer line stands between the first line of the
first block and the last line of the second block. -/
theorem detectRepetitions_block_counterexample :
    detectRepetitions interruptedBlockTranscript =
      [{ type := "block_pattern_repetition", text1 := "Hello there | How are you".toList,
         text2 := "Hello there | How are you".toList, similarityScore := 1, severity := 10,
         isProblematicRepetition := true, repetitionType := none }] ∧
    (collectBotResponses 0 0 (nonBlankLines interruptedBlockTranscript)).map
      (fun response => response.lineIndex) = [0, 2, 3, 4] ∧
    (nonBlankLines interruptedBlockTranscript)[1]? = some "Human: what".toList ∧
    isHumanLine "Human: what".toList = true := by
  refine ⟨?_, by decide, by decide, by decide⟩
  decide

/-- Claim C11 as amended: every repetition returned by `detectRepetitions` is either a
single-line repetition of two neighbouring bot responses with no customer line between
their two lines, or a block repetition of two adjacent blocks of 2, 3 or 4 bot responses
with no customer line between the last line of the first block and the first line of the
second block.  Customer lines inside a block are not excluded. -/
theorem detectRepetitions_no_human_between (transcript : List Char) (r : Repetition)
    (hr : r ∈ detectRepetitions transcript) :
    (∃ current next,
      [current, next] <:+: collectBotResponses 0 0 (nonBlankLines transcript) ∧
      r = singleLineRepetition current next ∧
      ∀ i line, current.lineIndex < i → i < next.lineIndex →
        (nonBlankLines transcript)[i]? = some line → isHumanLine line = false) ∨
    (∃ blockSize j last first, blockSize ∈ [2, 3, 4] ∧
      r = blockRepetition
        (((collectBotResponses 0 0 (nonBlankLines transcript)).drop j).take blockSize)
        (((collectBotResponses 0 0 (nonBlankLines transcript)).drop
          (j + blockSize)).take blockSize) ∧
      (((collectBotResponses 0 0 (nonBlankLines transcript)).drop j).take
        blockSize).getLast? = some last ∧
      (((collectBotResponses 0 0 (nonBlankLines transcript)).drop (j + blockSize)).take
        blockSize).head? = some first ∧
      ∀ i line, last.lineIndex < i → i < first.lineIndex →
        (nonBlankLines transcript)[i]? = some line → isHumanLine line = false) := by
  unfold detectRepetitions at hr
  split at hr
  · cases hr
  · have hr' : r ∈ singleLineRepetitions (nonBlankLines transcript)
          (collectBotResponses 0 0 (nonBlankLines transcript)) ++
        detectBlockPatternRepetitions (collectBotResponses 0 0 (nonBlankLines transcript))
          (nonBlankLines transcript) := hr
    rcases List.mem_append.mp hr' with h | h
    · obtain ⟨current, next, hinf, hrep, _, hno⟩ := mem_singleLineRepetitions h
      exact Or.inl ⟨current, next, hinf, hrep,
        fun i line h1 h2 hl => noHumanLineBetween_spec hno i h1 h2 line hl⟩
    · obtain ⟨blockSize, j, hb, hlen, hmatch, hcons, hrep⟩ :=
        mem_detectBlockPatternRepetitions h
      have hpos : 0 < blockSize := by
        simp only [List.mem_cons, List.mem_singleton, List.not_mem_nil, or_false] at hb
        omega
      have hlen1 := doBlocksMatch_length hmatch
      rw [hlen] at hlen1
      generalize hfb : ((collectBotResponses 0 0 (nonBlankLines transcript)).drop j).take
        blockSize = firstBlock at hlen1 hcons hrep hmatch
      generalize hsb : ((collectBotResponses 0 0 (nonBlankLines transcript)).drop
        (j + blockSize)).take blockSize = secondBlock at hlen hcons hrep hmatch
      have hf : ∃ last, firstBlock.getLast? = some last := by
        cases hg : firstBlock.getLast? with
        | none =>
          rw [List.getLast?_eq_none_iff] at hg
          rw [hg] at hlen1
          simp only [List.length_nil] at hlen1
          omega
        | some last => exact ⟨last, rfl⟩
      have hs : ∃ first, secondBlock.head? = some first := by
        cases secondBlock with
        | nil =>
          simp only [List.length_nil] at hlen
          omega
        | cons first rest => exact ⟨first, rfl⟩
      obtain ⟨last, hlast⟩ := hf
      obtain ⟨first, hfirst⟩ := hs
      unfold areBlocksConsecutive at hcons
      rw [hlast, hfirst] at hcons
      subst hfb hsb
      exact Or.inr ⟨blockSize, j, last, first, hb, hrep, hlast, hfirst,
        fun i line h1 h2 hl => noHumanLineBetween_spec hcons i h1 h2 line hl⟩

/-- Witness of the amended C11: the repetition reported for two identical bot lines. -/
theorem detectRepetitions_no_human_between_witness :
    helloRepetition ∈ detectRepetitions helloTwice ∧
    ((∃ current next,
      [current, next] <:+: collectBotResponses 0 0 (nonBlankLines helloTwice) ∧
      helloRepetition = singleLineRepetition current next ∧
      ∀ i line, current.lineIndex < i → i < next.lineIndex →
        (nonBlankLines helloTwice)[i]? = some line → isHumanLine line = false) ∨
    (∃ blockSize j last first, blockSize ∈ [2, 3, 4] ∧
      helloRepetition = blockRepetition
        (((collectBotResponses 0 0 (nonBlankLines helloTwice)).drop j).take blockSize)
        (((collectBotResponses 0 0 (nonBlankLines helloTwice)).drop
          (j + blockSize)).take blockSize) ∧
      (((collectBotResponses 0 0 (nonBlankLines helloTwice)).drop j).take
        blockSize).getLast? = some last ∧
      (((collectBotResponses 0 0 (nonBlankLines helloTwice)).drop (j + blockSize)).take
        blockSize).head? = some first ∧
      ∀ i line, last.lineIndex < i → i < first.lineIndex →
        (nonBlankLines helloTwice)[i]? = some line → isHumanLine line = false)) :=
  have h : helloRepetition ∈ detectRepetitions helloTwice := by decide
  ⟨h, detectRepetitions_no_human_between helloTwice helloRepetition h⟩

/-! ## The simple latency score -/

/-- C23: with the allowance 3, `calculateSimpleLatencyScore` returns
`max(0, 100 - 25 * max(0, v - 3) - 15 * s)` for `v` violations of which `s` are marked
severe: the two clamps of the code and the final rounding give the value of the single
clamp, and the score lies between 0 and 100. -/
theorem calculateSimpleLatencyScore_single_clamp (violations : List LatencyViolation) :
    calculateSimpleLatencyScore violations 3 =
      max 0 (100 - 25 * max 0 ((violations.length : ℚ) - 3) -
        15 * ((violations.filter (fun v => v.violationSeverity = "severe")).length : ℚ)) ∧
    0 ≤ calculateSimpleLatencyScore violations 3 ∧
    calculateSimpleLatencyScore violations 3 ≤ 100 := by
  have key : calculateSimpleLatencyScore violations 3 =
      max 0 (100 - 25 * max 0 ((violations.length : ℚ) - 3) -
        15 * ((violations.filter (fun v => v.violationSeverity = "severe")).length : ℚ)) := by
    unfold calculateSimpleLatencyScore
    dsimp only
    generalize (violations.filter (fun v => v.violationSeverity = "severe")).length = s
    generalize violations.length = v
    have hint : ∀ a b : ℕ, jsRound (max 0 (100 - 25 * (a : ℚ) - 15 * (b : ℚ))) =
        max 0 (100 - 25 * (a : ℚ) - 15 * (b : ℚ)) := by
      intro a b
      have h : (max 0 (100 - 25 * (a : ℚ) - 15 * (b : ℚ))) =
          ((max 0 (100 - 25 * (a : ℤ) - 15 * (b : ℤ)) : ℤ) : ℚ) := by
        push_cast
        rfl
      rw [h, jsRound_intCast]
    have hs : (0 : ℚ) ≤ (s : ℚ) := Nat.cast_nonneg s
    by_cases hv : v > 3
    · have hv3 : max 0 ((v : ℚ) - 3) = ((v - 3 : ℕ) : ℚ) := by
        rw [Nat.cast_sub (le_of_lt hv)]
        apply max_eq_right
        have : (3 : ℚ) < (v : ℚ) := by exact_mod_cast hv
        linarith
      rw [if_pos hv, hv3]
      generalize (v - 3 : ℕ) = a
      have ha : (0 : ℚ) ≤ (a : ℚ) := Nat.cast_nonneg a
      by_cases hs0 : s > 0
      · rw [if_pos hs0]
        have hpos : (0 : ℚ) < (s : ℚ) := by exact_mod_cast hs0
        have e : max 0 (max 0 (100 - (a : ℚ) * 25) - (s : ℚ) * 15) =
            max 0 (100 - 25 * (a : ℚ) - 15 * (s : ℚ)) := by
          rcases le_total (100 - (a : ℚ) * 25) 0 with h | h
          · rw [max_eq_left h, max_eq_left (by linarith), max_eq_left (by linarith)]
          · rw [max_eq_right h]
            congr 1
            ring
        rw [e, hint]
      · have hs0 : s = 0 := by omega
        subst hs0
        rw [if_neg (by decide)]
        have := hint a 0
        simp only [Nat.cast_zero, mul_zero, sub_zero] at this ⊢
        rw [mul_comm, this]
    · have hv3 : max 0 ((v : ℚ) - 3) = 0 := by
        apply max_eq_left
        have : (v : ℚ) ≤ 3 := by exact_mod_cast (not_lt.mp hv)
        linarith
      rw [if_neg hv, hv3]
      by_cases hs0 : s > 0
      · rw [if_pos hs0]
        have := hint 0 s
        simp only [Nat.cast_zero, mul_zero, sub_zero] at this ⊢
        rw [mul_comm, this]
      · have hs0 : s = 0 := by omega
        subst hs0
        rw [if_neg (by decide)]
        have h100 : jsRound (100 : ℚ) = 100 := by
          have := jsRound_intCast 100
          simpa using this
        rw [h100]
        norm_num
  refine ⟨key, ?_, ?_⟩
  · rw [key]
    exact le_max_left _ _
  · rw [key]
    apply max_le (by norm_num)
    have h1 : (0 : ℚ) ≤ max 0 ((violations.length : ℚ) - 3) := le_max_left _ _
    have h2 : (0 : ℚ) ≤
        ((violations.filter (fun v => v.violationSeverity = "severe")).length : ℚ) :=
      Nat.cast_nonneg _
    linarith

/-! ## The floor of the intent-flow component -/

/-- C26: when `intentFlow.flowScore` is defined and lies in [0, 100] and the objective was
achieved, the intent-flow component of `calculateAdvancedWeightedScore` is at least 80 and
at most 100, whatever the other arguments are. -/
theorem calculateAdvancedWeightedScore_intent_floor (silenceSegments : List SilenceSegment)
    (repetitions : List Repetition) (callDurationAnalysis : CallDurationAnalysis)
    (latencyScore : ℚ) (hallucinationAnalysis : Option HallucinationAnalysis)
    (interruptionAnalysis : Option InterruptionAnalysis) (intentFlow : IntentFlow)
    (flowScore : ℚ) (hdef : intentFlow.flowScore = some flowScore)
    (hlo : 0 ≤ flowScore) (hhi : flowScore ≤ 100)
    (hobj : intentFlow.objectiveAchieved = true) :
    80 ≤ (calculateAdvancedWeightedScore silenceSegments repetitions callDurationAnalysis
        latencyScore hallucinationAnalysis interruptionAnalysis intentFlow).2.intentFlowAccuracy ∧
    (calculateAdvancedWeightedScore silenceSegments repetitions callDurationAnalysis
        latencyScore hallucinationAnalysis interruptionAnalysis intentFlow).2.intentFlowAccuracy
      ≤ 100 := by
  have hrange := intentScore_range intentFlow hallucinationAnalysis (by
    intro f hf
    rw [hdef] at hf
    cases hf
    exact ⟨hlo, hhi⟩)
  refine ⟨?_, hrange.2⟩
  show 80 ≤ intentScore intentFlow hallucinationAnalysis
  unfold intentScore
  rw [hdef]
  dsimp only
  rw [hobj]
  generalize hallucinationPenalties _ _ = s3
  by_cases h : s3 < 80
  · simp [h]
  · simp only [Bool.true_and, decide_eq_true_eq, if_neg h]
    exact not_lt.mp h

/-- Witness of C26: a flow score of 30, the objective achieved, a hallucination score of 10
and three severe critical-step violations. -/
theorem calculateAdvancedWeightedScore_intent_floor_witness :
    80 ≤ (calculateAdvancedWeightedScore [] []
        { totalDurationMinutes := 3, idealRangeMin := 1, idealRangeMax := 7 / 2,
          withinIdealRange := true, deviationFromIdeal := 0, status := "optimal" }
        80 (some { enhancedScore := some 10, hallucinationScore := some 10,
                   criticalStepAnalysis := some { criticalStepViolations :=
                     [{ severity := 9 }, { severity := 10 }, { severity := 9 }] } })
        none
        { intentMappingsLength := some 4, completedSteps := 2, totalRequiredSteps := 4,
          flowScore := some 30, objectiveAchieved := true,
          completionRate := some (1 / 2) }).2.intentFlowAccuracy ∧
    (calculateAdvancedWeightedScore [] []
        { totalDurationMinutes := 3, idealRangeMin := 1, idealRangeMax := 7 / 2,
          withinIdealRange := true, deviationFromIdeal := 0, status := "optimal" }
        80 (some { enhancedScore := some 10, hallucinationScore := some 10,
                   criticalStepAnalysis := some { criticalStepViolations :=
                     [{ severity := 9 }, { severity := 10 }, { severity := 9 }] } })
        none
        { intentMappingsLength := some 4, completedSteps := 2, totalRequiredSteps := 4,
          flowScore := some 30, objectiveAchieved := true,
          completionRate := some (1 / 2) }).2.intentFlowAccuracy ≤ 100 :=
  calculateAdvancedWeightedScore_intent_floor _ _ _ _ _ _ _ 30 rfl (by norm_num) (by norm_num)
    rfl
/-! ## The status of the call duration -/

/-- C27: the duration and the two limits being numbers, `analyzeCallDuration` returns the
status optimal exactly when `withinIdealRange` is true, that is exactly when the duration in
minutes lies between the two limits, both included; with the limits 1.0 and 3.5 a call of
210 seconds is optimal, and every longer call is too long with a deviation equal to its
excess over 3.5 minutes. -/
theorem analyzeCallDuration_optimal_iff (audioDuration : Option ℚ) (config : AnalysisConfig) :
    (((analyzeCallDuration audioDuration config).status = "optimal" ↔
        (analyzeCallDuration audioDuration config).withinIdealRange = true) ∧
      ((analyzeCallDuration audioDuration config).withinIdealRange = true ↔
        config.idealCallDurationMin ≤
            (analyzeCallDuration audioDuration config).totalDurationMinutes ∧
          (analyzeCallDuration audioDuration config).totalDurationMinutes ≤
            config.idealCallDurationMax) ∧
      (analyzeCallDuration audioDuration config).totalDurationMinutes =
        (match audioDuration with
          | some duration => duration / 60
          | none => 3)) ∧
    (∀ silenceThreshold repetitionSimilarityThreshold : ℚ,
      ((analyzeCallDuration (some 210)
          { silenceThreshold := silenceThreshold, idealCallDurationMin := 1,
            idealCallDurationMax := 7 / 2,
            repetitionSimilarityThreshold := repetitionSimilarityThreshold }).status =
          "optimal" ∧
        (analyzeCallDuration (some 210)
          { silenceThreshold := silenceThreshold, idealCallDurationMin := 1,
            idealCallDurationMax := 7 / 2,
            repetitionSimilarityThreshold := repetitionSimilarityThreshold }).withinIdealRange =
          true) ∧
      ∀ duration : ℚ, 210 < duration →
        (analyzeCallDuration (some duration)
          { silenceThreshold := silenceThreshold, idealCallDurationMin := 1,
            idealCallDurationMax := 7 / 2,
            repetitionSimilarityThreshold := repetitionSimilarityThreshold }).status =
          "too_long" ∧
        (analyzeCallDuration (some duration)
          { silenceThreshold := silenceThreshold, idealCallDurationMin := 1,
            idealCallDurationMax := 7 / 2,
            repetitionSimilarityThreshold :=
              repetitionSimilarityThreshold }).deviationFromIdeal =
          duration / 60 - 7 / 2) := by
  refine ⟨?_, ?_⟩
  · unfold analyzeCallDuration
    dsimp only
    generalize (match audioDuration with
      | some duration => duration / 60
      | none => (3 : ℚ)) = t
    by_cases h1 : t < config.idealCallDurationMin
    · rw [if_pos h1]
      have hne : ¬("too_short" = "optimal") := by decide
      simp only [hne, Bool.and_eq_true, decide_eq_true_eq, ge_iff_le, false_iff, not_and,
        not_le, iff_self, and_true, true_and]
      intro h
      exact absurd h (not_le.mpr h1)
    · rw [if_neg h1]
      by_cases h2 : t > config.idealCallDurationMax
      · rw [if_pos h2]
        have hne : ¬("too_long" = "optimal") := by decide
        simp only [hne, Bool.and_eq_true, decide_eq_true_eq, ge_iff_le, false_iff, not_and,
          not_le, iff_self, and_true, true_and]
        intro _
        exact h2
      · rw [if_neg h2]
        simp only [Bool.and_eq_true, decide_eq_true_eq, ge_iff_le, true_iff, iff_self,
          and_true]
        exact ⟨not_lt.mp h1, not_lt.mp h2⟩
  · intro silenceThreshold repetitionSimilarityThreshold
    refine ⟨?_, ?_⟩
    · unfold analyzeCallDuration
      dsimp only
      have e : (210 : ℚ) / 60 = 7 / 2 := by norm_num
      rw [e, if_neg (by norm_num), if_neg (by norm_num)]
      refine ⟨rfl, ?_⟩
      simp only [Bool.and_eq_true, decide_eq_true_eq]
      constructor <;> norm_num
    · intro duration hd
      unfold analyzeCallDuration
      dsimp only
      have h1 : ¬(duration / 60 < 1) := by
        rw [not_lt, le_div_iff₀ (by norm_num)]
        linarith
      have h2 : duration / 60 > 7 / 2 := by
        rw [gt_iff_lt, lt_div_iff₀ (by norm_num)]
        linarith
      rw [if_neg h1, if_pos h2]
      exact ⟨rfl, rfl⟩

/-! ## The confidence before the adjustments -/

/-- C30: for an entry with `n` patterns of which `k` match, the confidence that the loop of
`enhancedIntentDetection` hands to the adjustments is the one of the specification: `k / n`
when nothing matched, `min(0.95, k / n + 0.3)` for the four key intents, otherwise
`min(0.95, k / n + 0.2)` when all patterns matched and `min(0.85, k / n + 0.15)` when only
some did; this is the confidence computed for every entry of the catalog. -/
theorem baseConfidence_eq_spec (intentType : String) (k n : ℕ) :
    baseConfidence intentType k n = specBaseConfidence intentType k n ∧
    ∀ (speaker : String) (turnIndex : ℕ) (allTurns : List Turn) (text : List Char),
      adjustedConfidence intentType k n speaker turnIndex allTurns text =
        superEnhancedConfidenceAdjustment (specBaseConfidence intentType k n) intentType
          speaker turnIndex allTurns text := by
  have key : baseConfidence intentType k n = specBaseConfidence intentType k n := by
    unfold baseConfidence specBaseConfidence
    dsimp only
    by_cases hk : k = 0
    · subst hk
      simp
    · have hpos : k > 0 := Nat.pos_of_ne_zero hk
      rw [if_pos hpos, if_neg hk]
      simp only [List.mem_cons, List.mem_singleton, List.not_mem_nil, or_false]
  refine ⟨key, ?_⟩
  intro speaker turnIndex allTurns text
  unfold adjustedConfidence
  rw [key]

/-! ## Hallucination detection -/

theorem analyzeResponseRelevance_relevanceScore (c : RelevanceComponents) :
    (analyzeResponseRelevance c).relevanceScore = specRelevanceScore c := by
  unfold analyzeResponseRelevance specRelevanceScore jsMul
  dsimp only
  simp only [mul_comm]

theorem analyzeResponseRelevance_isHallucination (c : RelevanceComponents) :
    (analyzeResponseRelevance c).isHallucination =
      (decide (specRelevanceScore c < toDouble (65 / 100)) ||
        decide (c.scriptAdherence < toDouble (5 / 10))) := by
  have h := analyzeResponseRelevance_relevanceScore c
  unfold analyzeResponseRelevance at h ⊢
  dsimp only at h ⊢
  rw [h]

theorem analyzeResponseRelevance_classified (c : RelevanceComponents) :
    ((analyzeResponseRelevance c).type, (analyzeResponseRelevance c).severity) =
      if (analyzeResponseRelevance c).isHallucination then
        if c.scriptAdherence < toDouble (3 / 10) then ("script_deviation", 9)
        else if decide (c.objectionHandling < toDouble (4 / 10)) && c.objectionPresent then
          ("improper_objection_handling", 8)
        else if c.topicRelevance < toDouble (3 / 10) then ("topic_deviation", 8)
        else if c.contextualRelevance < toDouble (4 / 10) then ("context_loss", 7)
        else if c.semanticCoherence < toDouble (5 / 10) then ("semantic_confusion", 6)
        else if c.factualConsistency < toDouble (5 / 10) then ("factual_error", 9)
        else ("general_irrelevance", 5)
      else ("none", 0) := by
  unfold analyzeResponseRelevance
  rfl

/-- C21: `analyzeResponseRelevance` computes the relevance as the weighted sum
`0.25 topic + 0.25 contextual + 0.2 semantic + 0.15 factual + 0.1 script + 0.05 objection`,
flags a hallucination exactly when the relevance is below 0.65 or the script adherence
below 0.5, and gives a flagged turn the type and the severity of the first matching check
of the list script, objection, topic, context, semantic, factual (general irrelevance with
severity 5 when none matches), and an unflagged turn the type none and the severity 0.  The
sum, the relevance that is compared with 0.65 and the thresholds are those of the arithmetic
of doubles, in which the code computes them: the sum can differ from the exact sum in its
last bit (see `analyzeResponseRelevance_boundary`). -/
theorem analyzeResponseRelevance_eq_spec (c : RelevanceComponents) :
    (analyzeResponseRelevance c).relevanceScore = specRelevanceScore c ∧
    ((analyzeResponseRelevance c).isHallucination = true ↔
      (specRelevanceScore c < toDouble (65 / 100) ∨ c.scriptAdherence < toDouble (5 / 10))) ∧
    ((analyzeResponseRelevance c).type, (analyzeResponseRelevance c).severity) =
      specClassification c := by
  refine ⟨analyzeResponseRelevance_relevanceScore c, ?_, ?_⟩
  · rw [analyzeResponseRelevance_isHallucination]
    simp only [Bool.or_eq_true, decide_eq_true_eq]
  · rw [analyzeResponseRelevance_classified, analyzeResponseRelevance_isHallucination]
    unfold specClassification specHallucinationChecks
    by_cases hh : specRelevanceScore c < toDouble (65 / 100) ∨
        c.scriptAdherence < toDouble (5 / 10)
    · have hb : (decide (specRelevanceScore c < toDouble (65 / 100)) ||
          decide (c.scriptAdherence < toDouble (5 / 10))) = true := by
        simp only [Bool.or_eq_true, decide_eq_true_eq]
        exact hh
      rw [hb, if_pos hh, if_pos rfl]
      by_cases h1 : c.scriptAdherence < toDouble (3 / 10)
      · simp [List.find?, h1]
      · by_cases h2 : (decide (c.objectionHandling < toDouble (4 / 10)) &&
            c.objectionPresent) = true
        · simp [List.find?, h1, h2]
        · by_cases h3 : c.topicRelevance < toDouble (3 / 10)
          · simp [List.find?, h1, h2, h3]
          · by_cases h4 : c.contextualRelevance < toDouble (4 / 10)
            · simp [List.find?, h1, h2, h3, h4]
            · by_cases h5 : c.semanticCoherence < toDouble (5 / 10)
              · simp [List.find?, h1, h2, h3, h4, h5]
              · by_cases h6 : c.factualConsistency < toDouble (5 / 10)
                · simp [List.find?, h1, h2, h3, h4, h5, h6]
                · simp [List.find?, h1, h2, h3, h4, h5, h6]
    · have hb : (decide (specRelevanceScore c < toDouble (65 / 100)) ||
          decide (c.scriptAdherence < toDouble (5 / 10))) = false := by
        rw [Bool.eq_false_iff]
        intro h
        simp only [Bool.or_eq_true, decide_eq_true_eq] at h
        exact hh h
      rw [hb, if_neg hh]
      rfl

/-- The scores 0.2, 0.7, 1, 0.8, 0.7 and 0.7 lie between 0 and 1 and their exact weighted sum
is 0.65, not below the threshold; the sum that `analyzeResponseRelevance` computes in
doubles is 0.6499999999999999, below the double 0.65: the turn is flagged, with the type
`topic_deviation` and the severity 8. -/
theorem analyzeResponseRelevance_boundary :
    exactRelevanceScore
      { topicRelevance := 2 / 10, contextualRelevance := 7 / 10, semanticCoherence := 1,
        factualConsistency := 8 / 10, scriptAdherence := 7 / 10, objectionHandling := 7 / 10,
        objectionPresent := false } = 65 / 100 ∧
    (analyzeResponseRelevance boundaryComponents).relevanceScore =
      1463669878895411 / 2251799813685248 ∧
    (analyzeResponseRelevance boundaryComponents).relevanceScore < toDouble (65 / 100) ∧
    (analyzeResponseRelevance boundaryComponents).isHallucination = true ∧
    (analyzeResponseRelevance boundaryComponents).type = "topic_deviation" ∧
    (analyzeResponseRelevance boundaryComponents).severity = 8 := by
  decide!

/-- A turn that `analyzeResponseRelevance` flags gets a type other than none and a severity
between 5 and 9. -/
theorem analyzeResponseRelevance_flagged (c : RelevanceComponents)
    (h : (analyzeResponseRelevance c).isHallucination = true) :
    (analyzeResponseRelevance c).type ≠ "none" ∧ 5 ≤ (analyzeResponseRelevance c).severity ∧
      (analyzeResponseRelevance c).severity ≤ 9 := by
  have hc := analyzeResponseRelevance_classified c
  rw [h, if_pos rfl] at hc
  have ht : (analyzeResponseRelevance c).type =
      ((analyzeResponseRelevance c).type, (analyzeResponseRelevance c).severity).1 := rfl
  have hs : (analyzeResponseRelevance c).severity =
      ((analyzeResponseRelevance c).type, (analyzeResponseRelevance c).severity).2 := rfl
  rw [ht, hs, hc]
  split_ifs <;> refine ⟨by decide, by norm_num, by norm_num⟩

theorem mem_hallucinationLoop (analyze : List Char → List Char → ℕ → RelevanceAnalysis)
    (turns : List Turn) (i : ℕ) (previous : Option Turn) (e : HallucinationEvent)
    (he : e ∈ hallucinationLoop analyze i previous turns) :
    ∃ humanInput botResponse j, (analyze humanInput botResponse j).isHallucination = true ∧
      e.hallucinationType = (analyze humanInput botResponse j).type ∧
      e.severity = (analyze humanInput botResponse j).severity := by
  induction turns generalizing i previous with
  | nil => simp [hallucinationLoop] at he
  | cons turn rest ih =>
    unfold hallucinationLoop at he
    dsimp only at he
    cases previous with
    | none => exact ih _ _ he
    | some humanTurn =>
      dsimp only at he
      split_ifs at he with h1 h2
      · rcases List.mem_cons.mp he with hm | hm
        · exact ⟨humanTurn.text, turn.text, i, h2, by rw [hm], by rw [hm]⟩
        · exact ih _ _ hm
      · exact ih _ _ he
      · exact ih _ _ he

/-- On the transcript path every reported event has a type other than none and a severity
between 5 and 9. -/
theorem detectHallucinationsFromTranscript_events (cache : ParseCache)
    (relevanceComponents : List Char → List Char → ℕ → RelevanceComponents)
    (transcript : TranscriptArg) (e : HallucinationEvent)
    (he : e ∈ (detectHallucinationsFromTranscript cache relevanceComponents
      transcript).1.hallucinations) :
    e.hallucinationType ≠ "none" ∧ 5 ≤ e.severity ∧ e.severity ≤ 9 := by
  unfold detectHallucinationsFromTranscript at he
  dsimp only at he
  split_ifs at he with h
  · simp [getDefaultHallucinationAnalysis] at he
  · obtain ⟨humanInput, botResponse, j, hflag, ht, hs⟩ := mem_hallucinationLoop _ _ _ _ _ he
    rw [ht, hs]
    exact analyzeResponseRelevance_flagged _ hflag

theorem parseTranscriptTurns_helloExchange :
    (parseTranscriptTurns ParseCache.empty (.str helloExchange)).1 =
      [{ speaker := "customer", text := "Hello".toList },
       { speaker := "agent", text := "Hello".toList }] := by
  decide

theorem analyzeResponseRelevance_helloComponents :
    analyzeResponseRelevance helloComponents =
      { isHallucination := false, type := "none", severity := 0,
        relevanceScore := 3692951694443807 / 4503599627370496,
        contextDeviation := 1 / 2, scriptAdherence := 1, objectionHandling := 1 } := by
  decide!

/-- C22, the audio path: on the call of two turns Hello and Hello, whose relevance 0.82 (in
doubles 0.8200000000000001) is not flagged on the transcript path, a speech entry with
confidence 0.5 and four hesitations lowers the relevance to 0.4592 (in doubles
0.45920000000000005); `detectHallucinationsFromAudio` then reports the turn as an event,
with the type none and the severity 0 that the transcript analysis gave it. -/
theorem detectHallucinationsFromAudio_none_event :
    (detectHallucinationsFromAudio ParseCache.empty (fun _ _ _ => helloComponents)
        hesitantSpeech (.str helloExchange)).1.hallucinations =
      [{ turnIndex := 1, hallucinationType := "none", severity := 0,
         relevanceScore := 517013237222133 / 1125899906842624, contextDeviation := 1 / 2 }] ∧
    (detectHallucinationsFromTranscript ParseCache.empty (fun _ _ _ => helloComponents)
        (.str helloExchange)).1.hallucinations = [] := by
  decide!

/-- A second call of `parseTranscriptTurns` on the same argument returns the turns of the
first call. -/
theorem parseTranscriptTurns_again (cache : ParseCache) (transcript : TranscriptArg) :
    (parseTranscriptTurns (parseTranscriptTurns cache transcript).2 transcript).1 =
      (parseTranscriptTurns cache transcript).1 := by
  cases hs : cache.sameTranscript transcript with
  | true =>
    cases ht : cache.cachedTurns with
    | some turns =>
      have e : parseTranscriptTurns cache transcript = (turns, cache) := by
        unfold parseTranscriptTurns
        rw [hs, ht]
      rw [e]
      dsimp only
      rw [e]
    | none =>
      cases transcript with
      | str s =>
        by_cases hempty : s.isEmpty = true
        · have e : parseTranscriptTurns cache (.str s) = ([], cache) := by
            unfold parseTranscriptTurns
            rw [hs, ht]
            simp [hempty]
          rw [e]
          dsimp only
          rw [e]
        · have e : parseTranscriptTurns cache (.str s) =
              (parseLines s,
                { cachedTranscript := some s, cachedTurns := some (parseLines s) }) := by
            unfold parseTranscriptTurns
            rw [hs, ht]
            simp [hempty]
          rw [e]
          simp [parseTranscriptTurns, ParseCache.sameTranscript]
      | null =>
        have e : parseTranscriptTurns cache .null = ([], cache) := by
          unfold parseTranscriptTurns
          rw [hs, ht]
        rw [e]
        dsimp only
        rw [e]
      | undefined =>
        have e : parseTranscriptTurns cache .undefined = ([], cache) := by
          unfold parseTranscriptTurns
          rw [hs, ht]
        rw [e]
        dsimp only
        rw [e]
      | other =>
        have e : parseTranscriptTurns cache .other = ([], cache) := by
          unfold parseTranscriptTurns
          rw [hs, ht]
        rw [e]
        dsimp only
        rw [e]
  | false =>
    cases transcript with
    | str s =>
      by_cases hempty : s.isEmpty = true
      · have e : parseTranscriptTurns cache (.str s) = ([], cache) := by
          unfold parseTranscriptTurns
          rw [hs]
          simp [hempty]
        rw [e]
        dsimp only
        rw [e]
      · have e : parseTranscriptTurns cache (.str s) =
            (parseLines s,
              { cachedTranscript := some s, cachedTurns := some (parseLines s) }) := by
          unfold parseTranscriptTurns
          rw [hs]
          simp [hempty]
        rw [e]
        simp [parseTranscriptTurns, ParseCache.sameTranscript]
    | null =>
      have e : parseTranscriptTurns cache .null = ([], cache) := by
        unfold parseTranscriptTurns
        rw [hs]
      rw [e]
      dsimp only
      rw [e]
    | undefined =>
      have e : parseTranscriptTurns cache .undefined = ([], cache) := by
        unfold parseTranscriptTurns
        rw [hs]
      rw [e]
      dsimp only
      rw [e]
    | other =>
      have e : parseTranscriptTurns cache .other = ([], cache) := by
        unfold parseTranscriptTurns
        rw [hs]
      rw [e]
      dsimp only
      rw [e]

theorem detectCriticalStepHallucinations_zero_turns (cache : ParseCache)
    (analyses : TurnAnalyses) (transcript : TranscriptArg)
    (hzero : (parseTranscriptTurns cache transcript).1 = []) :
    (detectCriticalStepHallucinations cache analyses transcript).1 =
      { criticalStepViolations := [], contextDeviations := [], unaddressedQueries := [],
        criticalStepScore := 100, analysisSource := some "critical_step_enhanced" } := by
  unfold detectCriticalStepHallucinations
  dsimp only
  rw [hzero]
  simp only [criticalStepLoop, calculateCriticalStepScore]
  norm_num

theorem jsRound_eighty_eight : jsRound ((80 : ℚ) * (6 / 10) + 100 * (4 / 10)) = 88 := by
  have h : ((80 : ℚ) * (6 / 10) + 100 * (4 / 10)) = ((88 : ℤ) : ℚ) := by norm_num
  rw [h, jsRound_intCast]
  norm_num

/-- C28, amended: for a transcript that parses to zero turns, `detectHallucinations` without
audio returns the default analysis merged with the critical-step analysis of no turns: no
hallucination and the hallucination score 80 of the default, but a critical-step analysis
with the score 100, the enhanced score 88 and the source that the merge writes. -/
theorem detectHallucinations_zero_turns (cache : ParseCache) (analyses : TurnAnalyses)
    (transcript : TranscriptArg) (hzero : (parseTranscriptTurns cache transcript).1 = []) :
    (detectHallucinations cache analyses none transcript).1 =
      { hallucinations := [], hallucinationScore := 80, totalBotTurns := 0, deviationRate := 0,
        criticalStepAnalysis := some
          { criticalStepViolations := [], contextDeviations := [], unaddressedQueries := [],
            criticalStepScore := 100, analysisSource := some "critical_step_enhanced" },
        enhancedScore := some 88,
        analysisSource := some "enhanced_with_critical_steps" } := by
  have hcrit := detectCriticalStepHallucinations_zero_turns cache analyses transcript hzero
  have hcache : (detectCriticalStepHallucinations cache analyses transcript).2 =
      (parseTranscriptTurns cache transcript).2 := rfl
  have hprimary : (detectHallucinationsFromTranscript
      (detectCriticalStepHallucinations cache analyses transcript).2
      analyses.relevanceComponents transcript).1 = getDefaultHallucinationAnalysis := by
    unfold detectHallucinationsFromTranscript
    dsimp only
    rw [hcache, parseTranscriptTurns_again, hzero]
    rfl
  unfold detectHallucinations
  dsimp only
  rw [hprimary, hcrit]
  unfold mergeHallucinationAnalyses calculateEnhancedHallucinationScore
    getDefaultHallucinationAnalysis
  dsimp only
  rw [jsRound_eighty_eight]

/-- Witness of the amended C28: the transcript `hello there`, on a new analyzer. -/
theorem detectHallucinations_zero_turns_witness :
    (parseTranscriptTurns ParseCache.empty (.str unlabelledTranscript)).1 = [] ∧
    ∀ analyses : TurnAnalyses,
      (detectHallucinations ParseCache.empty analyses none (.str unlabelledTranscript)).1 =
        { hallucinations := [], hallucinationScore := 80, totalBotTurns := 0,
          deviationRate := 0,
          criticalStepAnalysis := some
            { criticalStepViolations := [], contextDeviations := [], unaddressedQueries := [],
              criticalStepScore := 100, analysisSource := some "critical_step_enhanced" },
          enhancedScore := some 88,
          analysisSource := some "enhanced_with_critical_steps" } :=
  ⟨by decide, fun analyses =>
    detectHallucinations_zero_turns ParseCache.empty analyses (.str unlabelledTranscript)
      (by decide)⟩

/-- The result of `detectHallucinations` without audio for the transcript `hello there`: the
default analysis, merged. -/
theorem detectHallucinations_unlabelled (analyses : TurnAnalyses) :
    (detectHallucinations ParseCache.empty analyses none (.str unlabelledTranscript)).1 =
      mergeHallucinationAnalyses getDefaultHallucinationAnalysis
        { criticalStepViolations := [], contextDeviations := [], unaddressedQueries := [],
          criticalStepScore := 100, analysisSource := some "critical_step_enhanced" } := by
  have hzero : (parseTranscriptTurns ParseCache.empty (.str unlabelledTranscript)).1 = [] := by
    decide
  have hcrit := detectCriticalStepHallucinations_zero_turns ParseCache.empty analyses
    (.str unlabelledTranscript) hzero
  have hcache : (detectCriticalStepHallucinations ParseCache.empty analyses
      (.str unlabelledTranscript)).2 =
      (parseTranscriptTurns ParseCache.empty (.str unlabelledTranscript)).2 := rfl
  have hprimary : (detectHallucinationsFromTranscript
      (detectCriticalStepHallucinations ParseCache.empty analyses
        (.str unlabelledTranscript)).2
      analyses.relevanceComponents (.str unlabelledTranscript)).1 =
        getDefaultHallucinationAnalysis := by
    unfold detectHallucinationsFromTranscript
    dsimp only
    rw [hcache, parseTranscriptTurns_again, hzero]
    rfl
  unfold detectHallucinations
  dsimp only
  rw [hprimary, hcrit]

/-- Claim C28 as stated, refuted: the transcript `hello there` has no speaker label and
parses to zero turns, and `detectHallucinations` without audio returns for it an analysis
whose source is the one of the merge, not the one of the default, and whose critical-step
score is 100, not 80. -/
theorem detectHallucinations_zero_turns_counterexample :
    (parseTranscriptTurns ParseCache.empty (.str unlabelledTranscript)).1 = [] ∧
    ∀ analyses : TurnAnalyses,
      (detectHallucinations ParseCache.empty analyses none
          (.str unlabelledTranscript)).1.analysisSource =
        some "enhanced_with_critical_steps" ∧
      (detectHallucinations ParseCache.empty analyses none
          (.str unlabelledTranscript)).1.analysisSource ≠
        getDefaultHallucinationAnalysis.analysisSource ∧
      ((detectHallucinations ParseCache.empty analyses none
          (.str unlabelledTranscript)).1.criticalStepAnalysis.map
            (fun a => a.criticalStepScore)) = some 100 ∧
      (getDefaultHallucinationAnalysis.criticalStepAnalysis.map
            (fun a => a.criticalStepScore)) = some 80 := by
  refine ⟨by decide, fun analyses => ?_⟩
  rw [detectHallucinations_unlabelled]
  refine ⟨rfl, ?_, rfl, rfl⟩
  simp only [mergeHallucinationAnalyses, getDefaultHallucinationAnalysis]
  decide

/-! ## Silence detection -/

/-- The records that the loop pushes are those of the candidates that pass the four
layers. -/
theorem mem_silenceLoop (math : JsMath) (threshold : ℚ) (audioData : SilenceAudioData)
    (qualityRandom flowRandom : ℕ → ℚ) (silences : List RawSilence) (index : ℕ)
    (v : ValidatedSilence) :
    v ∈ silenceLoop math threshold audioData qualityRandom flowRandom index silences ↔
      ∃ k silence, silences[k]? = some silence ∧ ¬(silence.duration < threshold) ∧
        validateSilenceContext silence audioData = true ∧
        validateSilenceQuality (qualityRandom (index + k)) = true ∧
        validateSilenceFlow (flowRandom (index + k)) = true ∧
        v = validatedSilence math (index + k) silence := by
  induction silences generalizing index with
  | nil => simp [silenceLoop]
  | cons silence rest ih =>
    have shift : (∃ k s, rest[k]? = some s ∧ ¬(s.duration < threshold) ∧
          validateSilenceContext s audioData = true ∧
          validateSilenceQuality (qualityRandom (index + 1 + k)) = true ∧
          validateSilenceFlow (flowRandom (index + 1 + k)) = true ∧
          v = validatedSilence math (index + 1 + k) s) ↔
        ∃ k s, (silence :: rest)[k + 1]? = some s ∧ ¬(s.duration < threshold) ∧
          validateSilenceContext s audioData = true ∧
          validateSilenceQuality (qualityRandom (index + (k + 1))) = true ∧
          validateSilenceFlow (flowRandom (index + (k + 1))) = true ∧
          v = validatedSilence math (index + (k + 1)) s := by
      have e : ∀ k, index + 1 + k = index + (k + 1) := fun k => by omega
      simp only [e, List.getElem?_cons_succ]
    have split : (∃ k s, (silence :: rest)[k]? = some s ∧ ¬(s.duration < threshold) ∧
          validateSilenceContext s audioData = true ∧
          validateSilenceQuality (qualityRandom (index + k)) = true ∧
          validateSilenceFlow (flowRandom (index + k)) = true ∧
          v = validatedSilence math (index + k) s) ↔
        ((¬(silence.duration < threshold) ∧
          validateSilenceContext silence audioData = true ∧
          validateSilenceQuality (qualityRandom index) = true ∧
          validateSilenceFlow (flowRandom index) = true ∧
          v = validatedSilence math index silence) ∨
        ∃ k s, (silence :: rest)[k + 1]? = some s ∧ ¬(s.duration < threshold) ∧
          validateSilenceContext s audioData = true ∧
          validateSilenceQuality (qualityRandom (index + (k + 1))) = true ∧
          validateSilenceFlow (flowRandom (index + (k + 1))) = true ∧
          v = validatedSilence math (index + (k + 1)) s) := by
      constructor
      · rintro ⟨k, s, hk, h⟩
        cases k with
        | zero =>
          simp only [List.getElem?_cons_zero, Option.some.injEq] at hk
          subst hk
          exact Or.inl h
        | succ k => exact Or.inr ⟨k, s, hk, h⟩
      · rintro (h | ⟨k, s, hk, h⟩)
        · exact ⟨0, silence, List.getElem?_cons_zero, h⟩
        · exact ⟨k + 1, s, hk, h⟩
    have hunfold : silenceLoop math threshold audioData qualityRandom flowRandom index
          (silence :: rest) =
        if silence.duration < threshold then
          silenceLoop math threshold audioData qualityRandom flowRandom (index + 1) rest
        else if !validateSilenceContext silence audioData then
          silenceLoop math threshold audioData qualityRandom flowRandom (index + 1) rest
        else if !validateSilenceQuality (qualityRandom index) then
          silenceLoop math threshold audioData qualityRandom flowRandom (index + 1) rest
        else if !validateSilenceFlow (flowRandom index) then
          silenceLoop math threshold audioData qualityRandom flowRandom (index + 1) rest
        else validatedSilence math index silence ::
          silenceLoop math threshold audioData qualityRandom flowRandom (index + 1) rest := rfl
    rw [hunfold, split, ← shift, ← ih (index + 1)]
    generalize silenceLoop math threshold audioData qualityRandom flowRandom (index + 1) rest
      = later
    by_cases h1 : silence.duration < threshold
    · simp [h1]
    · by_cases h2 : validateSilenceContext silence audioData = true
      · by_cases h3 : validateSilenceQuality (qualityRandom index) = true
        · by_cases h4 : validateSilenceFlow (flowRandom index) = true
          · simp [h1, h2, h3, h4]
          · simp [h1, h2, h3, h4]
        · simp [h1, h2, h3]
      · simp [h1, h2]

/-- The segments that `processSuperAdvancedSilenceAnalysis` returns are those of the
records with an impact above 4. -/
theorem mem_processSuperAdvancedSilenceAnalysis (segments : List ValidatedSilence)
    (segment : SilenceSegment) :
    segment ∈ processSuperAdvancedSilenceAnalysis segments ↔
      ∃ v ∈ segments, 4 < v.impactScore ∧ segment = prioritized v := by
  unfold processSuperAdvancedSilenceAnalysis
  rw [List.mem_map]
  constructor
  · rintro ⟨v, hv, rfl⟩
    rw [(List.perm_insertionSort _ _).mem_iff, List.mem_filter] at hv
    exact ⟨v, hv.1, by simpa using hv.2, rfl⟩
  · rintro ⟨v, hv, himp, rfl⟩
    refine ⟨v, ?_, rfl⟩
    rw [(List.perm_insertionSort _ _).mem_iff, List.mem_filter]
    exact ⟨hv, by simpa using himp⟩

/-- The segments that `detectSilenceSegments` returns for an audio with the raw silences
`silences`. -/
theorem mem_detectSilenceSegments (math : JsMath) (audioData : SilenceAudioData)
    (config : AnalysisConfig) (qualityRandom flowRandom : ℕ → ℚ) (silences : List RawSilence)
    (hs : audioData.silences = some silences) (segment : SilenceSegment) :
    segment ∈ detectSilenceSegments math (some audioData) config qualityRandom flowRandom ↔
      ∃ index silence, silences[index]? = some silence ∧
        ¬(silence.duration < config.silenceThreshold) ∧
        validateSilenceContext silence audioData = true ∧
        validateSilenceQuality (qualityRandom index) = true ∧
        validateSilenceFlow (flowRandom index) = true ∧
        4 < (validatedSilence math index silence).impactScore ∧
        segment = prioritized (validatedSilence math index silence) := by
  unfold detectSilenceSegments
  dsimp only
  rw [hs]
  dsimp only
  rw [mem_processSuperAdvancedSilenceAnalysis]
  constructor
  · rintro ⟨v, hv, himp, rfl⟩
    rw [mem_silenceLoop] at hv
    obtain ⟨k, silence, hk, h1, h2, h3, h4, rfl⟩ := hv
    rw [Nat.zero_add] at h3 h4 himp ⊢
    exact ⟨k, silence, hk, h1, h2, h3, h4, himp, rfl⟩
  · rintro ⟨k, silence, hk, h1, h2, h3, h4, himp, rfl⟩
    refine ⟨validatedSilence math k silence, ?_, himp, rfl⟩
    rw [mem_silenceLoop]
    refine ⟨k, silence, hk, h1, h2, ?_, ?_, ?_⟩
    · rw [Nat.zero_add]; exact h3
    · rw [Nat.zero_add]; exact h4
    · rw [Nat.zero_add]

theorem detectSilenceSegments_no_silences (math : JsMath) (audioData : SilenceAudioData)
    (config : AnalysisConfig) (qualityRandom flowRandom : ℕ → ℚ)
    (hs : audioData.silences = none) :
    detectSilenceSegments math (some audioData) config qualityRandom flowRandom = [] := by
  unfold detectSilenceSegments
  dsimp only
  rw [hs]
  rfl
/-- C24: no segment that `detectSilenceSegments` returns has a duration below
`config.silenceThreshold`, whatever the draws of the two random gates and the values of the
`Math` functions are (with the threshold 5 no segment has the duration 4.9), and without
audio data the result is the empty list. -/
theorem detectSilenceSegments_duration_ge (math : JsMath) (audioData : Option SilenceAudioData)
    (config : AnalysisConfig) (qualityRandom flowRandom : ℕ → ℚ) :
    detectSilenceSegments math none config qualityRandom flowRandom = [] ∧
    (∀ segment ∈ detectSilenceSegments math audioData config qualityRandom flowRandom,
      config.silenceThreshold ≤ segment.duration) ∧
    (config.silenceThreshold = 5 →
      ∀ segment ∈ detectSilenceSegments math audioData config qualityRandom flowRandom,
        segment.duration ≠ 49 / 10) := by
  have hge : ∀ segment ∈ detectSilenceSegments math audioData config qualityRandom flowRandom,
      config.silenceThreshold ≤ segment.duration := by
    intro segment hmem
    cases audioData with
    | none => simp [detectSilenceSegments, generateMinimalMockSilenceSegments] at hmem
    | some audioData =>
      cases hs : audioData.silences with
      | none =>
        rw [detectSilenceSegments_no_silences math audioData config _ _ hs] at hmem
        simp at hmem
      | some silences =>
        rw [mem_detectSilenceSegments math audioData config _ _ silences hs] at hmem
        obtain ⟨index, silence, _, hthr, _, _, _, _, rfl⟩ := hmem
        exact not_lt.mp hthr
  refine ⟨rfl, hge, ?_⟩
  intro h5 segment hmem heq
  have := hge segment hmem
  rw [h5, heq] at this
  norm_num at this

/-- A silence of 12 seconds has an impact of at most 4, whatever its severity is, for every
logarithm with `0 < log 11`, `0 ≤ log 13` and `3 log 13 < 4 log 11`. -/
theorem calculateSilenceImpact_twelve (math : JsMath) (hlog11 : 0 < math.log 11)
    (hlog13 : 0 ≤ math.log 13) (hlt : 3 * math.log 13 < 4 * math.log 11)
    (silence : RawSilence) (hd : silence.duration = 12) (index : ℕ) :
    (validatedSilence math index silence).impactScore ≤ 4 := by
  unfold validatedSilence calculateSilenceImpact
  dsimp only
  have hsev : calculateAdvancedSilenceSeverity math silence index ≤ 1 := by
    unfold calculateAdvancedSilenceSeverity
    exact min_le_right _ _
  generalize calculateAdvancedSilenceSeverity math silence index = severity at hsev
  have h13 : silence.duration + 1 = 13 := by rw [hd]; norm_num
  rw [h13]
  apply le_trans (min_le_left _ _)
  have hratio0 : 0 ≤ math.log 13 / math.log 11 := div_nonneg hlog13 (le_of_lt hlog11)
  have hratio : math.log 13 / math.log 11 * 3 < 4 := by
    rw [div_mul_eq_mul_div, div_lt_iff₀ hlog11]
    linarith
  have hmul : math.log 13 / math.log 11 * (1 + severity * 2) ≤
      math.log 13 / math.log 11 * 3 :=
    mul_le_mul_of_nonneg_left (by linarith) hratio0
  linarith

/-- The logarithm of the real numbers has the three properties. -/
theorem real_log_thirteen :
    0 < Real.log 11 ∧ 0 ≤ Real.log 13 ∧ 3 * Real.log 13 < 4 * Real.log 11 := by
  refine ⟨Real.log_pos (by norm_num), le_of_lt (Real.log_pos (by norm_num)), ?_⟩
  have h3 : (3 : ℝ) * Real.log 13 = Real.log (13 ^ 3) := by
    rw [Real.log_pow]
    norm_num
  have h4 : (4 : ℝ) * Real.log 11 = Real.log (11 ^ 4) := by
    rw [Real.log_pow]
    norm_num
  rw [h3, h4]
  exact Real.log_lt_log (by norm_num) (by norm_num)

/-- A raw silence of 12 seconds alone in a call is never returned. -/
theorem detectSilenceSegments_twelve_seconds (math : JsMath) (hlog11 : 0 < math.log 11)
    (hlog13 : 0 ≤ math.log 13) (hlt : 3 * math.log 13 < 4 * math.log 11)
    (config : AnalysisConfig) (qualityRandom flowRandom : ℕ → ℚ) :
    detectSilenceSegments math (some (oneSilence 12)) config qualityRandom flowRandom = [] := by
  rw [List.eq_nil_iff_forall_not_mem]
  intro segment hmem
  rw [mem_detectSilenceSegments math (oneSilence 12) config _ _ _ rfl] at hmem
  obtain ⟨index, silence, hget, _, _, _, _, himp, _⟩ := hmem
  have hd : silence.duration = 12 := by
    cases index with
    | zero =>
      simp only [List.getElem?_cons_zero, Option.some.injEq] at hget
      rw [← hget]
    | succ k => simp at hget
  exact absurd (calculateSilenceImpact_twelve math hlog11 hlog13 hlt silence hd index)
    (not_le.mpr himp)

/-- Claim C25 as stated, refuted: in a call of 100 seconds a raw silence of 12 seconds from
second 20 on passes the position check, and the quality gate and the flow gate with the
draws 0.5 and 0.25; yet `detectSilenceSegments` returns no segment, for every logarithm with
`0 < log 11`, `0 ≤ log 13` and `3 log 13 < 4 log 11` and every power function: the impact
of 12 seconds never exceeds `3 log 13 / log 11`, which is below the cut-off 4. -/
theorem detectSilenceSegments_twelve_seconds_counterexample :
    defaultConfig.silenceThreshold = 5 ∧
    validateSilenceContext { start := 20, stop := 32, duration := 12 } (oneSilence 12) = true ∧
    validateSilenceQuality (1 / 2) = true ∧ validateSilenceFlow (1 / 4) = true ∧
    (∀ math : JsMath, 0 < math.log 11 → 0 ≤ math.log 13 →
      3 * math.log 13 < 4 * math.log 11 →
      detectSilenceSegments math (some (oneSilence 12)) defaultConfig
        (fun _ => 1 / 2) (fun _ => 1 / 4) = []) ∧
    detectSilenceSegments approxMath (some (oneSilence 12)) defaultConfig
      (fun _ => 1 / 2) (fun _ => 1 / 4) = [] := by
  refine ⟨rfl, ?_, ?_, ?_, ?_, ?_⟩
  · norm_num [validateSilenceContext, oneSilence, orDefault]
  · norm_num [validateSilenceQuality]
  · norm_num [validateSilenceFlow]
  · intro math h1 h2 h3
    exact detectSilenceSegments_twelve_seconds math h1 h2 h3 _ _ _
  · exact detectSilenceSegments_twelve_seconds approxMath (by norm_num [approxMath])
      (by norm_num [approxMath]) (by norm_num [approxMath]) _ _ _

/-- C25, amended: with the threshold 5, a raw silence of at least 8 seconds that starts at
least 5 seconds after the start of the call and at least 10 seconds before its end, and that
passes the quality gate and the flow gate, appears in the list that `detectSilenceSegments`
returns exactly when its impact score exceeds 4. -/
theorem detectSilenceSegments_appears_iff (math : JsMath) (audioData : SilenceAudioData)
    (config : AnalysisConfig) (qualityRandom flowRandom : ℕ → ℚ) (silences : List RawSilence)
    (hs : audioData.silences = some silences) (index : ℕ) (silence : RawSilence)
    (hget : silences[index]? = some silence) (hthr : config.silenceThreshold = 5)
    (hdur : 8 ≤ silence.duration) (hstart : 5 ≤ silence.start)
    (hend : silence.start ≤ orDefault audioData.duration 180 - 10)
    (hquality : validateSilenceQuality (qualityRandom index) = true)
    (hflow : validateSilenceFlow (flowRandom index) = true) :
    prioritized (validatedSilence math index silence) ∈
        detectSilenceSegments math (some audioData) config qualityRandom flowRandom ↔
      4 < calculateSilenceImpact math silence
        (calculateAdvancedSilenceSeverity math silence index) := by
  rw [mem_detectSilenceSegments math audioData config _ _ silences hs]
  constructor
  · rintro ⟨index', silence', _, _, _, _, _, himp, heq⟩
    have e : (validatedSilence math index silence).impactScore =
        (validatedSilence math index' silence').impactScore := by
      have := congrArg SilenceSegment.impactScore heq
      exact this
    have e' : (validatedSilence math index silence).impactScore =
        calculateSilenceImpact math silence
          (calculateAdvancedSilenceSeverity math silence index) := rfl
    rw [← e', e]
    exact himp
  · intro himp
    refine ⟨index, silence, hget, ?_, ?_, hquality, hflow, himp, rfl⟩
    · rw [hthr, not_lt]
      linarith
    · unfold validateSilenceContext
      dsimp only
      rw [if_neg, if_neg]
      · exact not_lt.mpr hdur
      · rintro (h | h)
        · exact absurd h (not_lt.mpr hstart)
        · exact absurd h (not_lt.mpr hend)

/-- Witness of the amended C25: a raw silence of 30 seconds in a call of 100 seconds, with
the draws 0.5 and 0.25; its impact is about 4.3 and it is returned. -/
theorem detectSilenceSegments_appears_iff_witness :
    (oneSilence 30).silences = some [{ start := 20, stop := 20 + 30, duration := 30 }] ∧
    defaultConfig.silenceThreshold = 5 ∧
    4 < calculateSilenceImpact approxMath { start := 20, stop := 20 + 30, duration := 30 }
      (calculateAdvancedSilenceSeverity approxMath
        { start := 20, stop := 20 + 30, duration := 30 } 0) ∧
    (prioritized (validatedSilence approxMath 0
          { start := 20, stop := 20 + 30, duration := 30 }) ∈
        detectSilenceSegments approxMath (some (oneSilence 30)) defaultConfig
          (fun _ => 1 / 2) (fun _ => 1 / 4) ↔
      4 < calculateSilenceImpact approxMath { start := 20, stop := 20 + 30, duration := 30 }
        (calculateAdvancedSilenceSeverity approxMath
          { start := 20, stop := 20 + 30, duration := 30 } 0)) :=
  ⟨rfl, rfl, by norm_num [calculateSilenceImpact, calculateAdvancedSilenceSeverity, approxMath],
    detectSilenceSegments_appears_iff approxMath (oneSilence 30) defaultConfig
      (fun _ => 1 / 2) (fun _ => 1 / 4) _ rfl 0 _ rfl rfl (by norm_num) (by norm_num)
      (by norm_num [oneSilence, orDefault]) (by norm_num [validateSilenceQuality])
      (by norm_num [validateSilenceFlow])⟩

/-- Witness of C24: the raw silence of 30 seconds is returned, and its duration is not below
the threshold 5. -/
theorem detectSilenceSegments_duration_ge_witness :
    prioritized (validatedSilence approxMath 0
        { start := 20, stop := 20 + 30, duration := 30 }) ∈
      detectSilenceSegments approxMath (some (oneSilence 30)) defaultConfig
        (fun _ => 1 / 2) (fun _ => 1 / 4) ∧
    defaultConfig.silenceThreshold ≤
      (prioritized (validatedSilence approxMath 0
        { start := 20, stop := 20 + 30, duration := 30 })).duration := by
  have hmem : prioritized (validatedSilence approxMath 0
        { start := 20, stop := 20 + 30, duration := 30 }) ∈
      detectSilenceSegments approxMath (some (oneSilence 30)) defaultConfig
        (fun _ => 1 / 2) (fun _ => 1 / 4) := by
    rw [mem_detectSilenceSegments approxMath (oneSilence 30) defaultConfig _ _ _ rfl]
    refine ⟨0, _, rfl, ?_, ?_, ?_, ?_, ?_, rfl⟩
    · norm_num [defaultConfig]
    · norm_num [validateSilenceContext, oneSilence, orDefault]
    · norm_num [validateSilenceQuality]
    · norm_num [validateSilenceFlow]
    · norm_num [validatedSilence, calculateSilenceImpact, calculateAdvancedSilenceSeverity,
        approxMath]
  exact ⟨hmem, (detectSilenceSegments_duration_ge approxMath (some (oneSilence 30))
    defaultConfig (fun _ => 1 / 2) (fun _ => 1 / 4)).2.1 _ hmem⟩

/-! ## The response time of the transcript path -/

/-- A customer turn followed by an agent turn, from any state of the loop: the response time
recorded for the agent turn is the estimated duration of the customer turn. -/
theorem latencyLoop_customer_agent (random : ℕ → ℚ) (i : ℕ) (previous : Option Turn)
    (customerTurn agentTurn : Turn) (rest : List Turn) (state : LatencyLoop)
    (hc : customerTurn.speaker = "customer") (ha : agentTurn.speaker = "agent") :
    latencyLoop random i previous (customerTurn :: agentTurn :: rest) state =
      latencyLoop random (i + 1 + 1) (some agentTurn) rest
        { currentTime := state.currentTime +
            estimateAdvancedTurnDuration customerTurn.text customerTurn.speaker (random i) +
            estimateAdvancedTurnDuration agentTurn.text agentTurn.speaker (random (i + 1))
          lastHumanTurnTime := state.currentTime
          responseTimes := state.responseTimes ++
            [{ turnIndex := i + 1,
               responseTimeSeconds :=
                 estimateAdvancedTurnDuration customerTurn.text customerTurn.speaker
                   (random i) }]
          latencyViolations :=
            if estimateAdvancedTurnDuration customerTurn.text customerTurn.speaker
                (random i) > 5 then
              state.latencyViolations ++
                [{ turnIndex := i + 1,
                   responseTimeSeconds :=
                     estimateAdvancedTurnDuration customerTurn.text customerTurn.speaker
                       (random i),
                   violationSeverity :=
                     if estimateAdvancedTurnDuration customerTurn.text customerTurn.speaker
                         (random i) > 10 then "severe" else "moderate" }]
            else state.latencyViolations } := by
  have hne : ¬("agent" = "customer") := by decide
  simp only [latencyLoop, hc, ha, hne, if_true, if_false, decide_True, Bool.and_self,
    add_sub_cancel_left]

theorem baseTurnDuration_hello : baseTurnDuration "Hello".toList "customer" = 2 / 5 := by
  have h1 : splitWhiteSpaceCount "Hello".toList = 1 := by decide
  have h2 : utf16Length "Hello".toList = 5 := by decide
  have h3 : countSentenceMarks "Hello".toList = 0 := by decide
  unfold baseTurnDuration
  rw [h1, h2, h3, if_neg (by decide), if_neg (by decide)]
  norm_num

/-- C29, the failing input: for the call of two turns Hello and Hello the transcript path
records for the agent turn a response time of `0.4 + random 0` seconds, the estimated
duration of the customer turn, whereas on the running clock the customer turn ends at the
very time at which the agent turn starts, a gap of 0. -/
theorem analyzeResponseLatencyFromTranscript_customer_duration (random : ℕ → ℚ) :
    (analyzeResponseLatencyFromTranscript ParseCache.empty (.str helloExchange)
        random).responseTimes =
      [{ turnIndex := 1, responseTimeSeconds := 2 / 5 + random 0 }] ∧
    specTurnEnd random (parseTranscriptTurns ParseCache.empty (.str helloExchange)).1 0 =
      2 / 5 + random 0 ∧
    specTurnStart random (parseTranscriptTurns ParseCache.empty (.str helloExchange)).1 1 -
      specTurnEnd random (parseTranscriptTurns ParseCache.empty (.str helloExchange)).1 0 =
        0 := by
  have hd : estimateAdvancedTurnDuration "Hello".toList "customer" (random 0) =
      2 / 5 + random 0 := by
    unfold estimateAdvancedTurnDuration
    rw [baseTurnDuration_hello]
    ring
  refine ⟨?_, ?_, ?_⟩
  · unfold analyzeResponseLatencyFromTranscript
    dsimp only
    rw [parseTranscriptTurns_helloExchange]
    rw [if_neg (by decide), latencyLoop_customer_agent random 0 none _ _ [] _ rfl rfl]
    simp only [latencyLoop, List.nil_append, hd]
  · rw [parseTranscriptTurns_helloExchange]
    simp only [specTurnEnd, specTurnStart, List.range_zero, List.map_nil, List.sum_nil,
      List.getElem?_cons_zero, hd]
    ring
  · rw [parseTranscriptTurns_helloExchange]
    simp only [specTurnEnd, specTurnStart, List.range_zero, List.map_nil, List.sum_nil,
      List.getElem?_cons_zero, hd, List.range_succ, List.nil_append, List.map_cons,
      List.sum_cons]
    ring

/-! ## Critical-step violations -/

/-- C32: `checkCriticalStepViolation` reports a violation exactly when the expected step is
one of 1, 6, 7, 9 and differs from the detected step; the type and the severity are then
those of the table for the expected step (improper greeting 7, missed interest check 9,
missed agent offer 9, missed call transfer 10), never the general step mismatch with
severity 6, and otherwise the type is none and the severity 0. -/
theorem checkCriticalStepViolation_eq_spec (expectedStep detectedStep : ℕ) :
    ((checkCriticalStepViolation expectedStep detectedStep).isViolation = true ↔
      (expectedStep ∈ [1, 6, 7, 9] ∧ expectedStep ≠ detectedStep)) ∧
    ((checkCriticalStepViolation expectedStep detectedStep).isViolation = true →
      ((checkCriticalStepViolation expectedStep detectedStep).type,
        (checkCriticalStepViolation expectedStep detectedStep).severity) =
        specViolationTable expectedStep) ∧
    ((checkCriticalStepViolation expectedStep detectedStep).isViolation = false →
      (checkCriticalStepViolation expectedStep detectedStep).type = "none" ∧
      (checkCriticalStepViolation expectedStep detectedStep).severity = 0) ∧
    (checkCriticalStepViolation expectedStep detectedStep).type ≠ "step_mismatch" := by
  unfold checkCriticalStepViolation specViolationTable
  by_cases hc : expectedStep ∈ [1, 6, 7, 9]
  · by_cases hne : expectedStep ≠ detectedStep
    · simp only [List.mem_cons, List.mem_singleton, List.not_mem_nil, or_false] at hc
      rcases hc with h | h | h | h
      · subst h
        have hd : detectedStep ≠ 1 := fun e => hne e.symm
        simp [hd, hne]
      · subst h
        have hd : detectedStep ≠ 6 := fun e => hne e.symm
        simp [hd, hne]
      · subst h
        have hd : detectedStep ≠ 7 := fun e => hne e.symm
        simp [hd, hne]
      · subst h
        have hd : detectedStep ≠ 9 := fun e => hne e.symm
        simp [hd, hne]
    · have he : expectedStep = detectedStep := not_not.mp hne
      simp [hc, he]
  · simp [hc]

/-! ## The repetition component -/

theorem foldl_add_one {α : Type} (f : α → ℚ) (l : List α) (h : ∀ a ∈ l, f a = 1) (init : ℚ) :
    l.foldl (fun sum a => sum + f a) init = init + (l.length : ℚ) := by
  induction l generalizing init with
  | nil => simp
  | cons a l ih =>
    rw [List.foldl_cons, ih (fun b hb => h b (List.mem_cons_of_mem _ hb)),
      h a (List.mem_cons_self _ _)]
    simp only [List.length_cons]
    push_cast
    ring

/-- The records of `detectRepetitions` have the severity 10, are marked problematic and
have no `repetitionType`. -/
theorem detectRepetitions_record (transcript : List Char) (r : Repetition)
    (hr : r ∈ detectRepetitions transcript) :
    r.severity = 10 ∧ r.isProblematicRepetition = true ∧ r.repetitionType = none := by
  unfold detectRepetitions at hr
  split at hr
  · simp at hr
  · unfold detectConsecutiveIdenticalRepetitions at hr
    dsimp only at hr
    rcases List.mem_append.mp hr with h | h
    · obtain ⟨current, next, _, rfl, _, _⟩ := mem_singleLineRepetitions h
      exact ⟨rfl, rfl, rfl⟩
    · obtain ⟨blockSize, j, _, _, _, _, rfl⟩ := mem_detectBlockPatternRepetitions h
      exact ⟨rfl, rfl, rfl⟩

/-- The repetition component for records of severity 10 that are marked problematic and
have no type. -/
theorem repetitionScore_of_records (repetitions : List Repetition)
    (h : ∀ r ∈ repetitions,
      r.severity = 10 ∧ r.isProblematicRepetition = true ∧ r.repetitionType = none) :
    repetitionScore repetitions =
      if repetitions.length = 0 then 100
      else max 70 (100 - 15 * (repetitions.length : ℚ)) := by
  unfold repetitionScore
  dsimp only
  by_cases hn : repetitions.length = 0
  · rw [if_pos hn, if_neg (by omega)]
  · have hfilter : repetitions.filter
        (fun rep => rep.isProblematicRepetition && decide (rep.severity > 5)) =
        repetitions := by
      rw [List.filter_eq_self]
      intro r hr
      obtain ⟨h1, h2, _⟩ := h r hr
      rw [h1, h2]
      norm_num
    rw [if_neg hn, if_pos (by omega), hfilter, if_pos (by omega)]
    rw [foldl_add_one (fun rep : Repetition =>
      (if rep.severity = 0 then 1 else rep.severity / 10) *
        getRepetitionTypeMultiplier rep.repetitionType) repetitions]
    · congr 1
      ring
    · intro r hr
      obtain ⟨h1, _, h3⟩ := h r hr
      rw [h1, h3]
      norm_num [getRepetitionTypeMultiplier]

/-- C33: for the repetitions that `detectRepetitions` produces, the repetition component of
`calculateAdvancedWeightedScore` is 100 when there are none and `max(70, 100 - 15 n)` for
`n ≥ 1` of them: 85 for one repetition and 70 for two or more. -/
theorem calculateAdvancedWeightedScore_repetition (transcript : List Char)
    (silenceSegments : List SilenceSegment) (callDurationAnalysis : CallDurationAnalysis)
    (latencyScore : ℚ) (hallucinationAnalysis : Option HallucinationAnalysis)
    (interruptionAnalysis : Option InterruptionAnalysis) (intentFlow : IntentFlow) :
    ((calculateAdvancedWeightedScore silenceSegments (detectRepetitions transcript)
        callDurationAnalysis latencyScore hallucinationAnalysis interruptionAnalysis
        intentFlow).2.repetitionAvoidance =
      if (detectRepetitions transcript).length = 0 then 100
      else max 70 (100 - 15 * ((detectRepetitions transcript).length : ℚ))) ∧
    ((detectRepetitions transcript).length = 1 →
      (calculateAdvancedWeightedScore silenceSegments (detectRepetitions transcript)
        callDurationAnalysis latencyScore hallucinationAnalysis interruptionAnalysis
        intentFlow).2.repetitionAvoidance = 85) ∧
    (2 ≤ (detectRepetitions transcript).length →
      (calculateAdvancedWeightedScore silenceSegments (detectRepetitions transcript)
        callDurationAnalysis latencyScore hallucinationAnalysis interruptionAnalysis
        intentFlow).2.repetitionAvoidance = 70) := by
  have key : (calculateAdvancedWeightedScore silenceSegments (detectRepetitions transcript)
        callDurationAnalysis latencyScore hallucinationAnalysis interruptionAnalysis
        intentFlow).2.repetitionAvoidance =
      if (detectRepetitions transcript).length = 0 then 100
      else max 70 (100 - 15 * ((detectRepetitions transcript).length : ℚ)) :=
    repetitionScore_of_records _ (detectRepetitions_record transcript)
  refine ⟨key, ?_, ?_⟩
  · intro h1
    rw [key, h1]
    norm_num
  · intro h2
    rw [key, if_neg (by omega)]
    apply max_eq_left
    have : (2 : ℚ) ≤ ((detectRepetitions transcript).length : ℚ) := by exact_mod_cast h2
    linarith

/-! ## The penalties of the intent-flow component -/

/-- C34, the failing input: with the flow score 10, the objective not achieved and no
completion rate, a hallucination score of 30 gives the intent-flow component 50 and a
single severe critical-step violation gives 40, whereas a hallucination score of 100
without any violation gives 10: the two penalties raise the component. -/
theorem calculateAdvancedWeightedScore_penalty_raises :
    (calculateAdvancedWeightedScore [] []
        { totalDurationMinutes := 3, idealRangeMin := 1, idealRangeMax := 7 / 2,
          withinIdealRange := true, deviationFromIdeal := 0, status := "optimal" }
        80 (some { enhancedScore := some 30, hallucinationScore := some 30,
                   criticalStepAnalysis := some { criticalStepViolations := [] } })
        none lowFlow).2.intentFlowAccuracy = 50 ∧
    (calculateAdvancedWeightedScore [] []
        { totalDurationMinutes := 3, idealRangeMin := 1, idealRangeMax := 7 / 2,
          withinIdealRange := true, deviationFromIdeal := 0, status := "optimal" }
        80 (some { enhancedScore := some 100, hallucinationScore := some 100,
                   criticalStepAnalysis := some
                     { criticalStepViolations := [{ severity := 9 }] } })
        none lowFlow).2.intentFlowAccuracy = 40 ∧
    (calculateAdvancedWeightedScore [] []
        { totalDurationMinutes := 3, idealRangeMin := 1, idealRangeMax := 7 / 2,
          withinIdealRange := true, deviationFromIdeal := 0, status := "optimal" }
        80 (some { enhancedScore := some 100, hallucinationScore := some 100,
                   criticalStepAnalysis := some { criticalStepViolations := [] } })
        none lowFlow).2.intentFlowAccuracy = 10 := by
  refine ⟨?_, ?_, ?_⟩ <;>
    norm_num [calculateAdvancedWeightedScore, intentScore, lowFlow, completionBonus,
      hallucinationPenalties, orUndef]

/-- The two penalties do not raise a score of at least 50. -/
theorem hallucinationPenalties_le (s : ℚ) (ha : Option HallucinationAnalysis) (hs : 50 ≤ s) :
    hallucinationPenalties s ha ≤ s := by
  unfold hallucinationPenalties
  cases ha with
  | none => exact le_refl _
  | some a =>
    dsimp only
    have hafter : (match orUndef a.enhancedScore a.hallucinationScore with
        | some hallucinationScore =>
          if hallucinationScore < 60 then
            max 50 (s - max 0 ((60 - hallucinationScore) * (2 / 10)))
          else s
        | none => s) ≤ s := by
      split
      · rename_i hallucinationScore _
        split_ifs
        · apply max_le hs
          have := le_max_left (0 : ℚ) ((60 - hallucinationScore) * (2 / 10))
          linarith
        · exact le_refl _
      · exact le_refl _
    cases a.criticalStepAnalysis with
    | none => exact hafter
    | some csa =>
      dsimp only
      split_ifs with hv
      · apply max_le (by linarith)
        have : (0 : ℚ) ≤ ((csa.criticalStepViolations.filter
            (fun v => decide (v.severity ≥ 8))).length : ℚ) * 5 := by positivity
        linarith
      · exact hafter

/-! ## The parse cache -/

theorem parseTranscriptTurns_consistent (cache : ParseCache) (hc : cache.Consistent)
    (transcript : TranscriptArg) : (parseTranscriptTurns cache transcript).2.Consistent := by
  have hstr : ∀ s : List Char, s.isEmpty = false →
      ParseCache.Consistent
        { cachedTranscript := some s, cachedTurns := some (parseLines s) } := by
    intro s hs
    refine Or.inr ⟨s, ?_, rfl, rfl⟩
    intro h
    rw [h] at hs
    cases hs
  unfold parseTranscriptTurns
  cases hs : cache.sameTranscript transcript <;> cases ht : cache.cachedTurns <;>
    cases transcript <;> dsimp only <;> (try exact hc) <;>
    (split_ifs with hempty
     · exact hc
     · exact hstr _ (by simpa using hempty))

theorem parseTranscriptTurns_eq_fresh (cache : ParseCache) (hc : cache.Consistent)
    (transcript : TranscriptArg) :
    (parseTranscriptTurns cache transcript).1 =
      (parseTranscriptTurns ParseCache.empty transcript).1 := by
  cases transcript with
  | str s =>
    rw [parseTranscriptTurns_str cache hc, parseTranscriptTurns_str _ ParseCache.consistent_empty]
  | null =>
    rw [parseTranscriptTurns_invalid cache hc .null rfl,
      parseTranscriptTurns_invalid _ ParseCache.consistent_empty .null rfl]
  | undefined =>
    rw [parseTranscriptTurns_invalid cache hc .undefined rfl,
      parseTranscriptTurns_invalid _ ParseCache.consistent_empty .undefined rfl]
  | other =>
    rw [parseTranscriptTurns_invalid cache hc .other rfl,
      parseTranscriptTurns_invalid _ ParseCache.consistent_empty .other rfl]

theorem cacheCalls_consistent (calls : List CacheCall) (cache : ParseCache)
    (hc : cache.Consistent) :
    (runCacheCalls cache calls).Consistent ∧
      cacheCallResults cache calls = freshCallResults calls := by
  induction calls generalizing cache with
  | nil => exact ⟨hc, rfl⟩
  | cons call calls ih =>
    cases call with
    | parse transcript =>
      have h := ih _ (parseTranscriptTurns_consistent cache hc transcript)
      refine ⟨h.1, ?_⟩
      simp only [cacheCallResults, freshCallResults]
      rw [h.2, parseTranscriptTurns_eq_fresh cache hc]
    | clear =>
      have h := ih _ ParseCache.consistent_empty
      exact ⟨h.1, h.2⟩

/-- C35: on an analyzer as the constructor leaves it, every call of `parseTranscriptTurns`
in a sequence of calls of `parseTranscriptTurns` and `clearAnalysisCache` returns the turns
that the same call returns on a new analyzer; the cache holds at every time nothing or a
non-empty transcript with its own turns, and a further call returns again the turns of a
new analyzer. -/
theorem parseTranscriptTurns_cache_unobservable (calls : List CacheCall)
    (transcript : TranscriptArg) :
    cacheCallResults ParseCache.empty calls = freshCallResults calls ∧
    (runCacheCalls ParseCache.empty calls).Consistent ∧
    (parseTranscriptTurns (runCacheCalls ParseCache.empty calls) transcript).1 =
      (parseTranscriptTurns ParseCache.empty transcript).1 := by
  have h := cacheCalls_consistent calls ParseCache.empty ParseCache.consistent_empty
  exact ⟨h.2, h.1, parseTranscriptTurns_eq_fresh _ h.1 transcript⟩

/-! ## Classification without a matching pattern -/

theorem matchTable_fine : matchTable "fine".toList intentPatterns [] = noMatchTable := by
  decide

/-- C36, the failing input: no pattern of any entry of the catalog matches the text `fine`,
yet for this text said by the agent as turn 3 `enhancedIntentDetection` returns the step
`interest_check` with step number 6 and confidence 0.5: the bonus for the speaker and the
bonus for the position give the entry the confidence 0.25 without any match, above the 0.2
of the default record. -/
theorem enhancedIntentDetection_no_match_classified (allTurns : List Turn) :
    matchTable "fine".toList intentPatterns [] = noMatchTable ∧
    (∀ m ∈ matchTable "fine".toList intentPatterns [], m.patternMatches = 0) ∧
    (enhancedIntentDetection [] "fine".toList "agent" 3 allTurns).1.step =
      "interest_check" ∧
    (enhancedIntentDetection [] "fine".toList "agent" 3 allTurns).1.stepNumber = 6 ∧
    (enhancedIntentDetection [] "fine".toList "agent" 3 allTurns).1.confidence = 1 / 2 := by
  rw [enhancedIntentDetection_allTurns]
  decide!

/-! ## The lower part of the score range -/

theorem silenceScore_ge (silenceSegments : List SilenceSegment) :
    60 ≤ silenceScore silenceSegments := by
  unfold silenceScore
  dsimp only
  split_ifs
  · exact le_max_left _ _
  · norm_num
  · norm_num

theorem latencyComponent_nonneg (latencyScore : ℚ) (ia : Option InterruptionAnalysis)
    (h0 : 0 ≤ latencyScore) : 0 ≤ latencyComponent latencyScore ia := by
  have hor : orNum latencyScore 0 = latencyScore := by
    unfold orNum; split <;> simp_all
  unfold latencyComponent
  simp only [hor]
  cases ia with
  | none => exact h0
  | some a =>
    dsimp only
    split_ifs
    · exact h0
    · exact le_max_left _ _

theorem intentScore_nonneg (intentFlow : IntentFlow) (ha : Option HallucinationAnalysis)
    (hflow : ∀ f, intentFlow.flowScore = some f → 0 ≤ f) :
    0 ≤ intentScore intentFlow ha := by
  unfold intentScore
  cases hfs : intentFlow.flowScore with
  | none => norm_num
  | some f =>
    have hf0 := hflow f hfs
    dsimp only
    have hs1 : 0 ≤ (if intentFlow.objectiveAchieved then min 100 (max f 75 + 20) else f) := by
      split
      · apply le_min (by norm_num)
        have := le_max_right f 75
        linarith
      · exact hf0
    revert hs1
    generalize (if intentFlow.objectiveAchieved then min 100 (max f 75 + 20) else f) = s1
    intro hs1
    have hs2 : 0 ≤ completionBonus s1 intentFlow.completionRate := by
      unfold completionBonus
      cases intentFlow.completionRate with
      | none => exact hs1
      | some rate =>
        dsimp only
        split_ifs <;> first | exact hs1 | exact le_min (by norm_num) (by linarith)
    revert hs2
    generalize completionBonus s1 intentFlow.completionRate = s2
    intro hs2
    have hs3 : 0 ≤ hallucinationPenalties s2 ha := by
      unfold hallucinationPenalties
      cases ha with
      | none => exact hs2
      | some a =>
        dsimp only
        have hafter : 0 ≤ (match orUndef a.enhancedScore a.hallucinationScore with
            | some hallucinationScore =>
              if hallucinationScore < 60 then
                max 50 (s2 - max 0 ((60 - hallucinationScore) * (2 / 10)))
              else s2
            | none => s2) := by
          split
          · split_ifs
            · exact le_trans (by norm_num) (le_max_left _ _)
            · exact hs2
          · exact hs2
        cases a.criticalStepAnalysis with
        | none => exact hafter
        | some csa =>
          dsimp only
          split_ifs
          · exact le_trans (by norm_num) (le_max_left _ _)
          · exact hafter
    revert hs3
    generalize hallucinationPenalties s2 ha = s3
    intro hs3
    split_ifs
    · norm_num
    · exact hs3

theorem tooLong_nan_or_nonneg (a : ℚ) (x : JsNum) :
    JsNum.minWith 100 (JsNum.maxWith 15 ((JsNum.fin a).add (JsNum.minWith 10 x))) =
        JsNum.nan ∨
      ∃ d : ℚ, JsNum.minWith 100 (JsNum.maxWith 15 ((JsNum.fin a).add (JsNum.minWith 10 x))) =
        JsNum.fin d ∧ 0 ≤ d := by
  cases x with
  | fin q =>
    refine Or.inr ⟨min 100 (max 15 (a + min 10 q)), rfl, ?_⟩
    exact le_min (by norm_num) (le_trans (by norm_num) (le_max_left _ _))
  | posInf =>
    refine Or.inr ⟨min 100 (max 15 (a + 10)), rfl, ?_⟩
    exact le_min (by norm_num) (le_trans (by norm_num) (le_max_left _ _))
  | negInf => exact Or.inr ⟨min 100 15, rfl, by norm_num⟩
  | nan => exact Or.inl rfl

/-- The call-duration component is `NaN` or a non-negative number. -/
theorem durationScore_nan_or_nonneg (cda : CallDurationAnalysis) (intentFlow : IntentFlow) :
    durationScore cda intentFlow = JsNum.nan ∨
      ∃ d : ℚ, durationScore cda intentFlow = JsNum.fin d ∧ 0 ≤ d := by
  unfold durationScore
  by_cases hw : cda.withinIdealRange = true
  · exact Or.inr ⟨100, by simp [hw, JsNum.minWith], by norm_num⟩
  · by_cases hs : cda.status = "too_short"
    · refine Or.inr ⟨min 100 (max 0 (100 - cda.deviationFromIdeal * 15 +
        (if intentFlow.objectiveAchieved then 20 else 0))), by simp [hw, hs, JsNum.minWith], ?_⟩
      exact le_min (by norm_num) (le_max_left _ _)
    · by_cases hl : cda.status = "too_long"
      · simp only [hw, hs, hl, if_true, if_false, Bool.false_eq_true]
        exact tooLong_nan_or_nonneg _ _
      · exact Or.inr ⟨100, by simp [hw, hs, hl, JsNum.minWith], by norm_num⟩

/-- C37: when the latency score and the flow score are not negative, the silence component
of `calculateAdvancedWeightedScore` is at least 60 and the repetition component at least
70, and the overall score is a number of at least 32.5 (or `NaN`, the call-duration
component being `NaN` or a non-negative number): no score below 32.5 is returned. -/
theorem calculateAdvancedWeightedScore_lower_bound (silenceSegments : List SilenceSegment)
    (repetitions : List Repetition) (callDurationAnalysis : CallDurationAnalysis)
    (latencyScore : ℚ) (hallucinationAnalysis : Option HallucinationAnalysis)
    (interruptionAnalysis : Option InterruptionAnalysis) (intentFlow : IntentFlow)
    (hlat : 0 ≤ latencyScore) (hflow : ∀ f, intentFlow.flowScore = some f → 0 ≤ f) :
    60 ≤ (calculateAdvancedWeightedScore silenceSegments repetitions callDurationAnalysis
        latencyScore hallucinationAnalysis interruptionAnalysis intentFlow).2.silenceCompliance ∧
    70 ≤ (calculateAdvancedWeightedScore silenceSegments repetitions callDurationAnalysis
        latencyScore hallucinationAnalysis interruptionAnalysis
        intentFlow).2.repetitionAvoidance ∧
    ((calculateAdvancedWeightedScore silenceSegments repetitions callDurationAnalysis
        latencyScore hallucinationAnalysis interruptionAnalysis intentFlow).1 = JsNum.nan ∨
      ∃ q : ℚ, (calculateAdvancedWeightedScore silenceSegments repetitions
        callDurationAnalysis latencyScore hallucinationAnalysis interruptionAnalysis
        intentFlow).1 = JsNum.fin q ∧ 65 / 2 ≤ q) := by
  have hsil := silenceScore_ge silenceSegments
  have hrep := (repetitionScore_range repetitions).1
  have hl := latencyComponent_nonneg latencyScore interruptionAnalysis hlat
  have hi := intentScore_nonneg intentFlow hallucinationAnalysis hflow
  refine ⟨hsil, hrep, ?_⟩
  unfold calculateAdvancedWeightedScore
  dsimp only
  rcases durationScore_nan_or_nonneg callDurationAnalysis intentFlow with hd | ⟨d, hd, hd0⟩
  · left
    rw [hd]
    rfl
  · right
    rw [hd]
    refine ⟨_, rfl, ?_⟩
    linarith

/-- Witness of C37: a call with two problematic silences of severity 3, two repetitions, a
too long call, and the latency score and the flow score 0; its overall score is a number of
at least 32.5. -/
theorem calculateAdvancedWeightedScore_lower_bound_witness :
    60 ≤ (calculateAdvancedWeightedScore
        [{ startTime := 20, endTime := 50, duration := 30, severity := 3, impactScore := 9,
           priority := "high" },
         { startTime := 60, endTime := 90, duration := 30, severity := 3, impactScore := 9,
           priority := "high" }]
        (detectRepetitions eightGreetings)
        { totalDurationMinutes := 10, idealRangeMin := 1, idealRangeMax := 7 / 2,
          withinIdealRange := false, deviationFromIdeal := 13 / 2, status := "too_long" }
        0 none none
        { intentMappingsLength := some 8, completedSteps := 0, totalRequiredSteps := 4,
          flowScore := some 0, objectiveAchieved := false,
          completionRate := none }).2.silenceCompliance ∧
    70 ≤ (calculateAdvancedWeightedScore
        [{ startTime := 20, endTime := 50, duration := 30, severity := 3, impactScore := 9,
           priority := "high" },
         { startTime := 60, endTime := 90, duration := 30, severity := 3, impactScore := 9,
           priority := "high" }]
        (detectRepetitions eightGreetings)
        { totalDurationMinutes := 10, idealRangeMin := 1, idealRangeMax := 7 / 2,
          withinIdealRange := false, deviationFromIdeal := 13 / 2, status := "too_long" }
        0 none none
        { intentMappingsLength := some 8, completedSteps := 0, totalRequiredSteps := 4,
          flowScore := some 0, objectiveAchieved := false,
          completionRate := none }).2.repetitionAvoidance ∧
    ((calculateAdvancedWeightedScore
        [{ startTime := 20, endTime := 50, duration := 30, severity := 3, impactScore := 9,
           priority := "high" },
         { startTime := 60, endTime := 90, duration := 30, severity := 3, impactScore := 9,
           priority := "high" }]
        (detectRepetitions eightGreetings)
        { totalDurationMinutes := 10, idealRangeMin := 1, idealRangeMax := 7 / 2,
          withinIdealRange := false, deviationFromIdeal := 13 / 2, status := "too_long" }
        0 none none
        { intentMappingsLength := some 8, completedSteps := 0, totalRequiredSteps := 4,
          flowScore := some 0, objectiveAchieved := false,
          completionRate := none }).1 = JsNum.nan ∨
      ∃ q : ℚ, (calculateAdvancedWeightedScore
        [{ startTime := 20, endTime := 50, duration := 30, severity := 3, impactScore := 9,
           priority := "high" },
         { startTime := 60, endTime := 90, duration := 30, severity := 3, impactScore := 9,
           priority := "high" }]
        (detectRepetitions eightGreetings)
        { totalDurationMinutes := 10, idealRangeMin := 1, idealRangeMax := 7 / 2,
          withinIdealRange := false, deviationFromIdeal := 13 / 2, status := "too_long" }
        0 none none
        { intentMappingsLength := some 8, completedSteps := 0, totalRequiredSteps := 4,
          flowScore := some 0, objectiveAchieved := false,
          completionRate := none }).1 = JsNum.fin q ∧ 65 / 2 ≤ q) :=
  calculateAdvancedWeightedScore_lower_bound _ _ _ 0 none none _ (le_refl 0)
    (fun f hf => by cases hf; exact le_refl 0)

/-! ## Block repetitions -/

/-- C39: `detectBlockPatternRepetitions` returns, in this order, the first repetition that
the scan for the block size 2 reports, if any, then the first of the block size 3 and the
first of the block size 4, hence at most three repetitions. -/
theorem detectBlockPatternRepetitions_at_most_three (botResponses : List BotResponse)
    (lines : List (List Char)) :
    detectBlockPatternRepetitions botResponses lines =
      (scanBlocks botResponses lines 2 (botResponses.length + 1 - 2 * 2) 0).toList ++
      ((scanBlocks botResponses lines 3 (botResponses.length + 1 - 2 * 3) 0).toList ++
       (scanBlocks botResponses lines 4 (botResponses.length + 1 - 2 * 4) 0).toList) ∧
    (detectBlockPatternRepetitions botResponses lines).length ≤ 3 := by
  have key : detectBlockPatternRepetitions botResponses lines =
      (scanBlocks botResponses lines 2 (botResponses.length + 1 - 2 * 2) 0).toList ++
      ((scanBlocks botResponses lines 3 (botResponses.length + 1 - 2 * 3) 0).toList ++
       (scanBlocks botResponses lines 4 (botResponses.length + 1 - 2 * 4) 0).toList) := by
    unfold detectBlockPatternRepetitions
    simp only [List.filterMap_cons, List.filterMap_nil]
    cases scanBlocks botResponses lines 2 (botResponses.length + 1 - 2 * 2) 0 <;>
      cases scanBlocks botResponses lines 3 (botResponses.length + 1 - 2 * 3) 0 <;>
      cases scanBlocks botResponses lines 4 (botResponses.length + 1 - 2 * 4) 0 <;> rfl
  refine ⟨key, ?_⟩
  rw [key]
  simp only [List.length_append]
  have h : ∀ o : Option Repetition, o.toList.length ≤ 1 := by
    intro o
    cases o <;> simp
  have h2 := h (scanBlocks botResponses lines 2 (botResponses.length + 1 - 2 * 2) 0)
  have h3 := h (scanBlocks botResponses lines 3 (botResponses.length + 1 - 2 * 3) 0)
  have h4 := h (scanBlocks botResponses lines 4 (botResponses.length + 1 - 2 * 4) 0)
  omega

/-- Eight identical bot lines: a block of two lines is repeated at each of the positions 0
to 4, and three block repetitions are returned, one for each block size. -/
theorem detectBlockPatternRepetitions_eightGreetings :
    (collectBotResponses 0 0 (splitOnChar '\n' eightGreetings)).length = 8 ∧
    (List.range 5).all (fun i =>
      doBlocksMatch
        (((collectBotResponses 0 0 (splitOnChar '\n' eightGreetings)).drop i).take 2)
        (((collectBotResponses 0 0 (splitOnChar '\n' eightGreetings)).drop (i + 2)).take 2)) =
      true ∧
    (detectBlockPatternRepetitions (collectBotResponses 0 0 (splitOnChar '\n' eightGreetings))
      (splitOnChar '\n' eightGreetings)).length = 3 := by
  decide

/-! ## Identical bot responses -/

/-- The test of `areIdenticalBotResponses`, spelled out. -/
theorem areIdenticalBotResponses_iff (text1 text2 : List Char) :
    areIdenticalBotResponses text1 text2 = true ↔
      text1 ≠ [] ∧ text2 ≠ [] ∧ normalize text1 = normalize text2 ∧ normalize text1 ≠ [] := by
  unfold areIdenticalBotResponses
  cases text1 with
  | nil => simp
  | cons a s =>
    cases text2 with
    | nil => simp
    | cons b t =>
      simp only [List.isEmpty_cons, Bool.or_self, Bool.false_eq_true, if_false,
        Bool.and_eq_true, decide_eq_true_eq, ne_eq, reduceCtorEq, not_false_eq_true, true_and]
      constructor
      · rintro ⟨h1, h2⟩
        refine ⟨h1, ?_⟩
        intro h
        rw [h] at h2
        simp [utf16Length] at h2
      · rintro ⟨h1, h2⟩
        exact ⟨h1, utf16Length_pos h2⟩

theorem areIdenticalBotResponses_symm (text1 text2 : List Char) :
    areIdenticalBotResponses text1 text2 = areIdenticalBotResponses text2 text1 := by
  rw [Bool.eq_iff_iff, areIdenticalBotResponses_iff, areIdenticalBotResponses_iff]
  constructor
  · rintro ⟨h1, h2, h3, h4⟩
    exact ⟨h2, h1, h3.symm, h3 ▸ h4⟩
  · rintro ⟨h1, h2, h3, h4⟩
    exact ⟨h2, h1, h3.symm, h3 ▸ h4⟩

/-- C31, the failing input: the two texts differ in their first word, which is written in
Devanagari, and `areIdenticalBotResponses` reports them identical, both being reduced to
`okay`; and a text written in Devanagari only is not reported identical to itself, being
reduced to the empty string. -/
theorem areIdenticalBotResponses_devanagari :
    namasteOkay ≠ dhanyavadOkay ∧
    normalize namasteOkay = "okay".toList ∧ normalize dhanyavadOkay = "okay".toList ∧
    areIdenticalBotResponses namasteOkay dhanyavadOkay = true ∧
    normalize "नमस्ते जी".toList = [] ∧
    areIdenticalBotResponses "नमस्ते जी".toList "नमस्ते जी".toList = false := by
  decide

/-! ## Edit distance -/

theorem specEditDistance_nil_left {α : Type} [DecidableEq α] (t : List α) :
    specEditDistance [] t = t.length := by
  unfold specEditDistance
  rfl

theorem specEditDistance_nil_right {α : Type} [DecidableEq α] (s : List α) :
    specEditDistance s [] = s.length := by
  cases s with
  | nil => simp [specEditDistance]
  | cons a s => simp [specEditDistance]

theorem specEditDistance_cons_cons {α : Type} [DecidableEq α] (a b : α) (s t : List α) :
    specEditDistance (a :: s) (b :: t) =
      min (specEditDistance s (b :: t) + 1)
        (min (specEditDistance (a :: s) t + 1)
          (specEditDistance s t + if a = b then 0 else 1)) := by
  rw [specEditDistance]

theorem substitution_cost_le {α : Type} [DecidableEq α] (a b : α) :
    (if a = b then 0 else 1) ≤ 1 := by
  split <;> omega

/-- The distance of this development is the one that Mathlib defines with unit costs. -/
theorem specEditDistance_eq_levenshtein {α : Type} [DecidableEq α] (s t : List α) :
    specEditDistance s t = levenshtein Levenshtein.defaultCost s t := by
  induction s generalizing t with
  | nil =>
    rw [specEditDistance_nil_left]
    induction t with
    | nil => simp
    | cons b t ih =>
      rw [levenshtein_nil_cons, ← ih]
      simp [Nat.add_comm]
  | cons a s ihs =>
    induction t with
    | nil =>
      rw [specEditDistance_nil_right, levenshtein_cons_nil, ← ihs, specEditDistance_nil_right]
      simp [Nat.add_comm]
    | cons b t iht =>
      rw [specEditDistance_cons_cons, levenshtein_cons_cons, ← ihs, ← ihs, ← iht]
      simp [Nat.add_comm]

theorem specEditDistance_symm {α : Type} [DecidableEq α] (s t : List α) :
    specEditDistance s t = specEditDistance t s := by
  induction s generalizing t with
  | nil => rw [specEditDistance_nil_left, specEditDistance_nil_right]
  | cons a s ihs =>
    induction t with
    | nil => rw [specEditDistance_nil_left, specEditDistance_nil_right]
    | cons b t iht =>
      rw [specEditDistance_cons_cons, specEditDistance_cons_cons, ihs (b :: t), iht, ihs t]
      have hc : (if a = b then 0 else 1) = (if b = a then 0 else 1) := by
        by_cases h : a = b
        · rw [if_pos h, if_pos h.symm]
        · rw [if_neg h, if_neg (fun e => h e.symm)]
      rw [hc]
      omega

theorem specEditDistance_le_max {α : Type} [DecidableEq α] (s t : List α) :
    specEditDistance s t ≤ max s.length t.length := by
  induction s generalizing t with
  | nil => rw [specEditDistance_nil_left]; exact le_max_right _ _
  | cons a s ihs =>
    cases t with
    | nil => rw [specEditDistance_nil_right]; exact le_max_left _ _
    | cons b t =>
      rw [specEditDistance_cons_cons]
      have h := ihs t
      have hc := substitution_cost_le a b
      simp only [List.length_cons]
      omega

theorem specEditDistance_eq_zero_iff {α : Type} [DecidableEq α] (s t : List α) :
    specEditDistance s t = 0 ↔ s = t := by
  induction s generalizing t with
  | nil =>
    rw [specEditDistance_nil_left]
    constructor
    · intro h
      exact (List.length_eq_zero.mp h).symm
    · intro h
      rw [← h]
      rfl
  | cons a s ihs =>
    cases t with
    | nil =>
      rw [specEditDistance_nil_right]
      simp
    | cons b t =>
      rw [specEditDistance_cons_cons]
      constructor
      · intro h
        have h3 : specEditDistance s t + (if a = b then 0 else 1) = 0 := by omega
        by_cases hab : a = b
        · rw [if_pos hab] at h3
          rw [hab, (ihs t).mp (by omega)]
        · rw [if_neg hab] at h3
          omega
      · intro h
        have hab : a = b := (List.cons.inj h).1
        have hst : s = t := (List.cons.inj h).2
        have h0 := (ihs t).mpr hst
        rw [if_pos hab, h0]
        omega

/-- Deleting the first element of the first sequence costs at most one. -/
theorem specEditDistance_cons_le {α : Type} [DecidableEq α] (a : α) (s t : List α) :
    specEditDistance (a :: s) t ≤ specEditDistance s t + 1 := by
  cases t with
  | nil => simp [specEditDistance_nil_right]
  | cons b t =>
    rw [specEditDistance_cons_cons]
    omega

/-- A longer second sequence is at most one step further away. -/
theorem specEditDistance_le_cons_right {α : Type} [DecidableEq α] (b : α) (s t : List α) :
    specEditDistance s t ≤ specEditDistance s (b :: t) + 1 := by
  induction s generalizing t b with
  | nil =>
    rw [specEditDistance_nil_left, specEditDistance_nil_left]
    simp only [List.length_cons]
    omega
  | cons a s ih =>
    rw [specEditDistance_cons_cons]
    have h1 := specEditDistance_cons_le a s t
    have h2 := ih b t
    omega

theorem specEditDistance_le_cons_left {α : Type} [DecidableEq α] (a : α) (s t : List α) :
    specEditDistance s t ≤ specEditDistance (a :: s) t + 1 := by
  rw [specEditDistance_symm s t, specEditDistance_symm (a :: s) t]
  exact specEditDistance_le_cons_right a t s

/-- Equal first elements can be dropped. -/
theorem specEditDistance_cons_same {α : Type} [DecidableEq α] (a : α) (s t : List α) :
    specEditDistance (a :: s) (a :: t) = specEditDistance s t := by
  rw [specEditDistance_cons_cons, if_pos rfl]
  have h1 := specEditDistance_le_cons_right a s t
  have h2 := specEditDistance_le_cons_left a s t
  omega

/-- The recursion at the ends of the two sequences. -/
theorem specEditDistance_append_singleton {α : Type} [DecidableEq α] (a b : α)
    (s t : List α) :
    specEditDistance (s ++ [a]) (t ++ [b]) =
      min (specEditDistance s (t ++ [b]) + 1)
        (min (specEditDistance (s ++ [a]) t + 1)
          (specEditDistance s t + if a = b then 0 else 1)) := by
  induction s generalizing t with
  | nil =>
    induction t with
    | nil =>
      simp only [List.nil_append]
      rw [specEditDistance_cons_cons]
    | cons y t iht =>
      simp only [List.nil_append, List.cons_append] at iht ⊢
      rw [specEditDistance_cons_cons, iht, specEditDistance_cons_cons a y [] t]
      simp only [specEditDistance_nil_left, List.length_cons, List.length_append,
        List.length_nil]
      have hc1 := substitution_cost_le a b
      have hc2 := substitution_cost_le a y
      omega
  | cons x s ihs =>
    induction t with
    | nil =>
      have h := ihs []
      simp only [List.nil_append, List.cons_append] at h ⊢
      rw [specEditDistance_cons_cons, h, specEditDistance_cons_cons x b s []]
      simp only [specEditDistance_nil_right, List.length_cons, List.length_append,
        List.length_nil]
      have hc1 := substitution_cost_le a b
      have hc2 := substitution_cost_le x b
      omega
    | cons y t iht =>
      have h1 := ihs (y :: t)
      have h2 := ihs t
      simp only [List.cons_append] at h1 h2 iht ⊢
      rw [specEditDistance_cons_cons, h1, iht, h2,
        specEditDistance_cons_cons x y s (t ++ [b]),
        specEditDistance_cons_cons x y (s ++ [a]) t,
        specEditDistance_cons_cons x y s t]
      simp only [← min_add_add_right]
      ac_rfl

/-- The distance does not change when both sequences are reversed. -/
theorem specEditDistance_reverse {α : Type} [DecidableEq α] (s t : List α) :
    specEditDistance s.reverse t.reverse = specEditDistance s t := by
  induction s generalizing t with
  | nil => simp [specEditDistance_nil_left]
  | cons a s ihs =>
    induction t with
    | nil => simp [specEditDistance_nil_right]
    | cons b t iht =>
      have h1 := ihs (b :: t)
      have h2 := ihs t
      simp only [List.reverse_cons] at h1 iht ⊢
      rw [specEditDistance_append_singleton, h1, iht, h2, specEditDistance_cons_cons]

/-- The inner loop fills a row with the distances to the sequence that has one more
element. -/
theorem rowCells_eq_spec {α : Type} [DecidableEq α] (x : α) (rest ru rp : List α) :
    rowCells x rest (specEditDistance ru rp) (specRowCells rp ru rest)
        (specEditDistance ru (x :: rp)) =
      specRowCells (x :: rp) ru rest := by
  induction rest generalizing ru with
  | nil => simp [rowCells, specRowCells]
  | cons a rest ih =>
    have hcell : (if x = a then specEditDistance ru rp
        else min (specEditDistance ru rp + 1)
          (min (specEditDistance ru (x :: rp) + 1) (specEditDistance (a :: ru) rp + 1))) =
        specEditDistance (a :: ru) (x :: rp) := by
      by_cases hxa : x = a
      · rw [if_pos hxa, hxa, specEditDistance_cons_same]
      · rw [if_neg hxa, specEditDistance_cons_cons, if_neg (fun e => hxa e.symm)]
        omega
    simp only [rowCells, specRowCells]
    rw [hcell, ih (a :: ru)]

theorem specRowCells_nil {α : Type} [DecidableEq α] (ru rest : List α) :
    specRowCells [] ru rest = List.range' (ru.length + 1) rest.length := by
  induction rest generalizing ru with
  | nil => simp [specRowCells]
  | cons a rest ih =>
    simp only [specRowCells, specEditDistance_nil_right, List.length_cons, List.range'_succ]
    rw [ih (a :: ru)]
    simp

theorem range_eq_specRow {α : Type} [DecidableEq α] (arr1 : List α) :
    List.range (arr1.length + 1) =
      specEditDistance ([] : List α) [] :: specRowCells [] [] arr1 := by
  rw [specRowCells_nil, specEditDistance_nil_left, List.range_eq_range', List.range'_succ]
  simp

theorem lastRow_eq_spec {α : Type} [DecidableEq α] (arr1 arr2 rp : List α) :
    lastRow arr1 rp.length arr2 (specEditDistance [] rp :: specRowCells rp [] arr1) =
      specEditDistance [] (arr2.reverse ++ rp) ::
        specRowCells (arr2.reverse ++ rp) [] arr1 := by
  induction arr2 generalizing rp with
  | nil => simp [lastRow]
  | cons x arr2 ih =>
    have hnext : nextRow x arr1 (rp.length + 1)
        (specEditDistance [] rp :: specRowCells rp [] arr1) =
        specEditDistance [] (x :: rp) :: specRowCells (x :: rp) [] arr1 := by
      have hleft : specEditDistance [] (x :: rp) = rp.length + 1 := by
        rw [specEditDistance_nil_left]
        rfl
      unfold nextRow
      dsimp only
      rw [← hleft, rowCells_eq_spec]
    have h := ih (x :: rp)
    simp only [List.length_cons] at h
    simp only [lastRow, hnext, List.reverse_cons, List.append_assoc, List.singleton_append]
    exact h

theorem getLastD_specRow {α : Type} [DecidableEq α] (rp ru rest : List α) :
    (specEditDistance ru rp :: specRowCells rp ru rest).getLastD 0 =
      specEditDistance (rest.reverse ++ ru) rp := by
  induction rest generalizing ru with
  | nil => simp [specRowCells]
  | cons a rest ih =>
    have h := ih (a :: ru)
    simp only [specRowCells, List.reverse_cons, List.append_assoc, List.singleton_append]
    rw [← h]
    simp [List.getLastD]

/-- The matrix of the code holds the Levenshtein distance in its last cell. -/
theorem lastRow_getLastD {α : Type} [DecidableEq α] (arr1 arr2 : List α) :
    (lastRow arr1 0 arr2 (List.range (arr1.length + 1))).getLastD 0 =
      specEditDistance arr1 arr2 := by
  have h := lastRow_eq_spec arr1 arr2 []
  simp only [List.length_nil, List.append_nil] at h
  rw [range_eq_specRow, h, getLastD_specRow, List.append_nil, specEditDistance_reverse]

theorem calculateSimilarity_eq {α : Type} [DecidableEq α] (s t : List α) :
    calculateSimilarity s t =
      if max s.length t.length = 0 then 1
      else 1 - (specEditDistance s t : ℚ) / ((max s.length t.length : ℕ) : ℚ) := by
  unfold calculateSimilarity
  dsimp only
  rw [lastRow_getLastD]
  by_cases h : max s.length t.length = 0
  · rw [if_pos h, if_pos h]
  · rw [if_neg h, if_neg h]
    have hne : ((max s.length t.length : ℕ) : ℚ) ≠ 0 := by exact_mod_cast h
    rw [sub_div, div_self hne]

theorem calculateSimilarity_eq_one_iff {α : Type} [DecidableEq α] (s t : List α) :
    calculateSimilarity s t = 1 ↔ s = t := by
  rw [calculateSimilarity_eq]
  split_ifs with h
  · have hs : s.length = 0 := by omega
    have ht : t.length = 0 := by omega
    rw [List.length_eq_zero.mp hs, List.length_eq_zero.mp ht]
    simp
  · have hpos : (0 : ℚ) < ((max s.length t.length : ℕ) : ℚ) := by
      exact_mod_cast Nat.pos_of_ne_zero h
    rw [← specEditDistance_eq_zero_iff]
    constructor
    · intro h1
      have h2 : (specEditDistance s t : ℚ) / ((max s.length t.length : ℕ) : ℚ) = 0 := by
        linarith
      rcases div_eq_zero_iff.mp h2 with h3 | h3
      · exact_mod_cast h3
      · exact absurd h3 (ne_of_gt hpos)
    · intro h1
      rw [h1]
      simp

/-- C40: `levenshteinDistance` returns the Levenshtein distance `d` of its two arrays (the
one that Mathlib defines with unit costs), and `calculateSimilarity(s, t)` is 1 when both
strings are empty and `1 - d(s, t) / max(|s|, |t|)` otherwise; it is symmetric, lies between
0 and 1, and is 1 exactly when the two strings are equal. -/
theorem calculateSimilarity_eq_spec {α : Type} [DecidableEq α] (s t : List α) :
    levenshteinDistance s t = specEditDistance s t ∧
    levenshteinDistance s t = levenshtein Levenshtein.defaultCost s t ∧
    calculateSimilarity s t =
      (if max s.length t.length = 0 then 1
       else 1 - (specEditDistance s t : ℚ) / ((max s.length t.length : ℕ) : ℚ)) ∧
    calculateSimilarity s t = calculateSimilarity t s ∧
    0 ≤ calculateSimilarity s t ∧ calculateSimilarity s t ≤ 1 ∧
    (calculateSimilarity s t = 1 ↔ s = t) := by
  have hd : levenshteinDistance s t = specEditDistance s t := lastRow_getLastD s t
  have hle : (specEditDistance s t : ℚ) ≤ ((max s.length t.length : ℕ) : ℚ) := by
    exact_mod_cast specEditDistance_le_max s t
  have h0 : (0 : ℚ) ≤ (specEditDistance s t : ℚ) := Nat.cast_nonneg _
  refine ⟨hd, ?_, calculateSimilarity_eq s t, ?_, ?_, ?_, ?_⟩
  · rw [hd, specEditDistance_eq_levenshtein]
  · rw [calculateSimilarity_eq, calculateSimilarity_eq, specEditDistance_symm s t,
      max_comm s.length t.length]
  · rw [calculateSimilarity_eq]
    split_ifs with h
    · norm_num
    · have hpos : (0 : ℚ) < ((max s.length t.length : ℕ) : ℚ) := by
        exact_mod_cast Nat.pos_of_ne_zero h
      rw [sub_nonneg, div_le_one hpos]
      exact hle
  · rw [calculateSimilarity_eq]
    split_ifs with h
    · norm_num
    · have hpos : (0 : ℚ) < ((max s.length t.length : ℕ) : ℚ) := by
        exact_mod_cast Nat.pos_of_ne_zero h
      have := div_nonneg h0 (le_of_lt hpos)
      linarith
  · exact calculateSimilarity_eq_one_iff s t

theorem char_toNat_valid (c : Char) :
    c.toNat < 55296 ∨ (57343 < c.toNat ∧ c.toNat < 1114112) := by
  have h := c.valid
  unfold UInt32.isValidChar Nat.isValidChar at h
  exact h

/-- A string is determined by its code units. -/
theorem utf16Units_injective (s t : List Char) (h : utf16Units s = utf16Units t) : s = t := by
  induction s generalizing t with
  | nil =>
    cases t with
    | nil => rfl
    | cons d t =>
      unfold utf16Units at h
      split_ifs at h
  | cons c s ih =>
    cases t with
    | nil =>
      unfold utf16Units at h
      split_ifs at h
    | cons d t =>
      have hc := char_toNat_valid c
      have hd := char_toNat_valid d
      rw [utf16Units, utf16Units] at h
      by_cases h1 : c.toNat < 65536
      · by_cases h2 : d.toNat < 65536
        · rw [if_pos h1, if_pos h2] at h
          obtain ⟨hcd, hst⟩ := List.cons.inj h
          rw [char_eq_of_toNat_eq hcd, ih t hst]
        · rw [if_pos h1, if_neg h2] at h
          have hcd := (List.cons.inj h).1
          omega
      · by_cases h2 : d.toNat < 65536
        · rw [if_neg h1, if_pos h2] at h
          have hcd := (List.cons.inj h).1
          omega
        · rw [if_neg h1, if_neg h2] at h
          obtain ⟨hhi, hrest⟩ := List.cons.inj h
          obtain ⟨hlo, hst⟩ := List.cons.inj hrest
          have hcd : c.toNat = d.toNat := by omega
          rw [char_eq_of_toNat_eq hcd, ih t hst]

/-- The similarity of two strings is 1 exactly when they are the same string. -/
theorem calculateSimilarity_utf16Units (s t : List Char) :
    calculateSimilarity (utf16Units s) (utf16Units t) = 1 ↔ s = t := by
  rw [calculateSimilarity_eq_one_iff]
  constructor
  · exact utf16Units_injective s t
  · intro h
    rw [h]

/-! ## The interruption score of the transcript path -/

theorem estimateTurnGaps_range (random : ℚ) :
    4 ≤ estimateTurnGaps random ∧ estimateTurnGaps random ≤ 8 := by
  unfold estimateTurnGaps
  dsimp only
  split_ifs <;> norm_num

theorem analyzeSpeakerTransition_range (prevTurn currentTurn : Turn) :
    6 ≤ analyzeSpeakerTransition prevTurn currentTurn ∧
      analyzeSpeakerTransition prevTurn currentTurn ≤ 9 := by
  unfold analyzeSpeakerTransition
  dsimp only
  split_ifs <;> norm_num

theorem checkTopicContinuity_range (prevText currentText : List Char) :
    3 / 10 ≤ checkTopicContinuity prevText currentText ∧
      checkTopicContinuity prevText currentText ≤ 1 := by
  unfold checkTopicContinuity
  dsimp only
  split_ifs
  · norm_num
  · constructor
    · apply le_min (by norm_num)
      have : (0 : ℚ) ≤ (((extractTopics prevText).filter (fun topic =>
          (extractTopics currentText).any (fun currentTopic =>
            decide (calculateSimilarity (utf16Units topic) (utf16Units currentTopic) >
              6 / 10)))).length : ℚ) /
          ((min (extractTopics prevText).length (extractTopics currentText).length : ℕ) : ℚ) :=
        div_nonneg (Nat.cast_nonneg _) (Nat.cast_nonneg _)
      linarith
    · exact min_le_left _ _

theorem checkIntentResponseAlignment_range (humanIntent botResponseType : String) :
    3 / 10 ≤ checkIntentResponseAlignment humanIntent botResponseType ∧
      checkIntentResponseAlignment humanIntent botResponseType ≤ 1 := by
  unfold checkIntentResponseAlignment
  dsimp only
  split_ifs <;> norm_num

/-- The overall quality of a turn-taking pattern is at most `(8 + 9 + 1) / 3 = 6`. -/
theorem analyzeTurnTakingPattern_range (prevTurn currentTurn : Turn) (random : ℚ) :
    103 / 30 ≤ analyzeTurnTakingPattern prevTurn currentTurn random ∧
      analyzeTurnTakingPattern prevTurn currentTurn random ≤ 6 := by
  have h1 := estimateTurnGaps_range random
  have h2 := analyzeSpeakerTransition_range prevTurn currentTurn
  have h3 := checkTopicContinuity_range prevTurn.text currentTurn.text
  have h4 := checkIntentResponseAlignment_range (classifyIntent prevTurn.text)
    (classifyResponseType currentTurn.text)
  unfold analyzeTurnTakingPattern assessLocalConversationalFlow checkResponseAppropriateness
  constructor
  · rw [le_div_iff₀ (by norm_num)]
    linarith
  · rw [div_le_iff₀ (by norm_num)]
    linarith

theorem interruptionLoop_patterns (random : ℕ → ℚ) (turns : List Turn) (i : ℕ) :
    (interruptionLoop random i turns).2.length = turns.length - 2 ∧
    ∀ q ∈ (interruptionLoop random i turns).2, 103 / 30 ≤ q ∧ q ≤ 6 := by
  induction turns generalizing i with
  | nil => simp [interruptionLoop]
  | cons prevTurn rest ih =>
    cases rest with
    | nil => simp [interruptionLoop]
    | cons currentTurn rest =>
      cases rest with
      | nil => simp [interruptionLoop]
      | cons nextTurn rest =>
        have h := ih (i + 1)
        simp only [interruptionLoop, List.length_cons, List.mem_cons]
        constructor
        · rw [h.1]
          simp only [List.length_cons]
          omega
        · rintro q (hq | hq)
          · rw [hq]
            exact analyzeTurnTakingPattern_range prevTurn currentTurn (random i)
          · exact h.2 q hq

theorem foldl_add_bounds (l : List ℚ) (lo hi init : ℚ) (h : ∀ q ∈ l, lo ≤ q ∧ q ≤ hi) :
    init + lo * (l.length : ℚ) ≤ l.foldl (fun sum p => sum + p) init ∧
      l.foldl (fun sum p => sum + p) init ≤ init + hi * (l.length : ℚ) := by
  induction l generalizing init with
  | nil => simp
  | cons q l ih =>
    have hq := h q (List.mem_cons_self _ _)
    have hl := ih (init + q) (fun p hp => h p (List.mem_cons_of_mem _ hp))
    simp only [List.foldl_cons, List.length_cons]
    push_cast
    constructor
    · nlinarith [hl.1]
    · nlinarith [hl.2]

/-- Without interruptions and with at least one pattern the score lies between 34 and
60. -/
theorem calculateInterruptionScore_no_interruption (patterns : List ℚ)
    (hpos : patterns.length > 0) (h : ∀ q ∈ patterns, 103 / 30 ≤ q ∧ q ≤ 6) :
    34 ≤ calculateInterruptionScore [] patterns ∧
      calculateInterruptionScore [] patterns ≤ 60 := by
  unfold calculateInterruptionScore
  rw [if_pos ⟨rfl, hpos⟩]
  dsimp only
  have hb := foldl_add_bounds patterns (103 / 30) 6 0 h
  have hlen : (0 : ℚ) < (patterns.length : ℚ) := by exact_mod_cast hpos
  have havg_lo : 103 / 30 ≤ patterns.foldl (fun sum p => sum + p) 0 / (patterns.length : ℚ) := by
    rw [le_div_iff₀ hlen]
    linarith [hb.1]
  have havg_hi : patterns.foldl (fun sum p => sum + p) 0 / (patterns.length : ℚ) ≤ 6 := by
    rw [div_le_iff₀ hlen]
    linarith [hb.2]
  generalize patterns.foldl (fun sum p => sum + p) 0 / (patterns.length : ℚ) = avg at *
  unfold jsRound
  have h1 : (34 : ℤ) ≤ ⌊avg * 10 + 1 / 2⌋ := Int.le_floor.mpr (by push_cast; linarith)
  have h2 : ⌊avg * 10 + 1 / 2⌋ ≤ (60 : ℤ) := by
    have : ⌊avg * 10 + 1 / 2⌋ < (61 : ℤ) := Int.floor_lt.mpr (by push_cast; linarith)
    omega
  constructor
  · exact_mod_cast h1
  · exact_mod_cast h2

/-- C38: in the interruption analysis of the transcript path, a conversation of at least
three turns in which no interruption is detected gets an `interruptionScore` of at most 60
(and at least 34), whatever `Math.random()` returns; `calculateAdvancedWeightedScore` then
subtracts at least 12 points from a latency score between 0 and 100, and the latency
component is at most 88. -/
theorem analyzeInterruptionHandlingFromTranscript_score (cache : ParseCache)
    (transcript : TranscriptArg) (random : ℕ → ℚ)
    (hturns : 3 ≤ (parseTranscriptTurns cache transcript).1.length)
    (hnone : (analyzeInterruptionHandlingFromTranscriptOriginal cache transcript
      random).interruptions = []) :
    (analyzeInterruptionHandlingFromTranscriptOriginal cache transcript
      random).interruptionScore ≤ 60 ∧
    34 ≤ (analyzeInterruptionHandlingFromTranscriptOriginal cache transcript
      random).interruptionScore ∧
    ∀ latencyScore : ℚ, 0 ≤ latencyScore → latencyScore ≤ 100 →
      latencyComponent latencyScore (some
        { interruptionScore := (analyzeInterruptionHandlingFromTranscriptOriginal cache
            transcript random).interruptionScore }) ≤ max 0 (latencyScore - 12) ∧
      latencyComponent latencyScore (some
        { interruptionScore := (analyzeInterruptionHandlingFromTranscriptOriginal cache
            transcript random).interruptionScore }) ≤ 88 := by
  have hp := interruptionLoop_patterns random (parseTranscriptTurns cache transcript).1 1
  have hscore : 34 ≤ (analyzeInterruptionHandlingFromTranscriptOriginal cache transcript
        random).interruptionScore ∧
      (analyzeInterruptionHandlingFromTranscriptOriginal cache transcript
        random).interruptionScore ≤ 60 := by
    unfold analyzeInterruptionHandlingFromTranscriptOriginal at hnone ⊢
    dsimp only at hnone ⊢
    rw [hnone]
    exact calculateInterruptionScore_no_interruption _ (by rw [hp.1]; omega) hp.2
  refine ⟨hscore.2, hscore.1, ?_⟩
  intro latencyScore h0 h100
  generalize (analyzeInterruptionHandlingFromTranscriptOriginal cache transcript
    random).interruptionScore = score at hscore
  have hor : orNum latencyScore 0 = latencyScore := by
    unfold orNum; split <;> simp_all
  have hne : score ≠ 0 := by
    intro h
    rw [h] at hscore
    norm_num at hscore
  unfold latencyComponent
  simp only [hor, if_neg hne]
  have hpen : 12 ≤ max 0 ((100 - score) * (3 / 10)) :=
    le_trans (by linarith [hscore.2]) (le_max_right _ _)
  constructor
  · apply max_le (le_max_left _ _)
    exact le_trans (by linarith) (le_max_right _ _)
  · apply max_le (by norm_num)
    linarith

theorem parseTranscriptTurns_threeTurnCall :
    (parseTranscriptTurns ParseCache.empty (.str threeTurnCall)).1 =
      [{ speaker := "agent", text := "Hello".toList },
       { speaker := "customer", text := "Hello".toList },
       { speaker := "agent", text := "Are you looking for a flat?".toList }] := by
  decide

/-- Witness of C38: a call of three turns, with `Math.random()` returning 0.5. -/
theorem analyzeInterruptionHandlingFromTranscript_score_witness :
    3 ≤ (parseTranscriptTurns ParseCache.empty (.str threeTurnCall)).1.length ∧
    (analyzeInterruptionHandlingFromTranscriptOriginal ParseCache.empty (.str threeTurnCall)
      (fun _ => 1 / 2)).interruptions = [] ∧
    (analyzeInterruptionHandlingFromTranscriptOriginal ParseCache.empty (.str threeTurnCall)
      (fun _ => 1 / 2)).interruptionScore ≤ 60 ∧
    latencyComponent 100 (some
      { interruptionScore := (analyzeInterruptionHandlingFromTranscriptOriginal
          ParseCache.empty (.str threeTurnCall) (fun _ => 1 / 2)).interruptionScore }) ≤ 88 := by
  have hlen : 3 ≤ (parseTranscriptTurns ParseCache.empty (.str threeTurnCall)).1.length := by
    rw [parseTranscriptTurns_threeTurnCall]
    decide
  have hnone : (analyzeInterruptionHandlingFromTranscriptOriginal ParseCache.empty
      (.str threeTurnCall) (fun _ => 1 / 2)).interruptions = [] := by
    unfold analyzeInterruptionHandlingFromTranscriptOriginal
    dsimp only
    rw [parseTranscriptTurns_threeTurnCall]
    have hd : (detectInterruptionPattern { speaker := "agent", text := "Hello".toList }
        { speaker := "customer", text := "Hello".toList }
        { speaker := "agent", text := "Are you looking for a flat?".toList }).isInterruption =
        false := by
      have h1 : ¬("agent" = "customer") := by decide
      have h2 : ¬(splitWhiteSpaceCount "Hello".toList > 20) := by decide
      simp only [detectInterruptionPattern, h1, h2, false_and, and_false, if_false]
    simp only [interruptionLoop, hd, List.append_nil]
    rfl
  have h := analyzeInterruptionHandlingFromTranscript_score ParseCache.empty
    (.str threeTurnCall) (fun _ => 1 / 2) hlen hnone
  exact ⟨hlen, hnone, h.1, (h.2.2 100 (by norm_num) (le_refl _)).2⟩

/-! ## The whole analysis (C2) -/

theorem estimateTurnGaps_unit {random : ℚ} (h0 : 0 ≤ random) (h1 : random < 1) :
    estimateTurnGaps random = 8 := by
  unfold estimateTurnGaps
  dsimp only
  rw [if_neg (by linarith), if_neg (by linarith)]

/-- The interruption analysis of the transcript path does not depend on the draws of
`Math.random()`, which lie in [0, 1): the estimated gap lies between 0.5 and 2.5 seconds. -/
theorem interruptionLoop_draws (random1 random2 : ℕ → ℚ)
    (h1 : ∀ i, 0 ≤ random1 i ∧ random1 i < 1) (h2 : ∀ i, 0 ≤ random2 i ∧ random2 i < 1)
    (turns : List Turn) (i : ℕ) :
    interruptionLoop random1 i turns = interruptionLoop random2 i turns := by
  induction turns generalizing i with
  | nil => rfl
  | cons prevTurn rest ih =>
    cases rest with
    | nil => rfl
    | cons currentTurn rest =>
      cases rest with
      | nil => rfl
      | cons nextTurn rest =>
        simp only [interruptionLoop]
        rw [ih (i + 1)]
        unfold analyzeTurnTakingPattern
        rw [estimateTurnGaps_unit (h1 i).1 (h1 i).2, estimateTurnGaps_unit (h2 i).1 (h2 i).2]

theorem calculateInterruptionScore_range (interruptions : List InterruptionRecord)
    (patterns : List ℚ) (h : ∀ q ∈ patterns, 103 / 30 ≤ q ∧ q ≤ 6) :
    0 ≤ calculateInterruptionScore interruptions patterns ∧
      calculateInterruptionScore interruptions patterns ≤ 100 := by
  by_cases hc : interruptions.length = 0 ∧ patterns.length > 0
  · have he : interruptions = [] := List.length_eq_zero.mp hc.1
    subst he
    obtain ⟨hlo, hhi⟩ := calculateInterruptionScore_no_interruption patterns hc.2 h
    exact ⟨by linarith, by linarith⟩
  · unfold calculateInterruptionScore
    rw [if_neg hc]
    exact ⟨le_max_left _ _, max_le (by norm_num) (min_le_left _ _)⟩

theorem analyzeResponseLatencyFromTranscript_fresh (cache : ParseCache)
    (hc : cache.Consistent) (transcript : TranscriptArg) (random : ℕ → ℚ) :
    analyzeResponseLatencyFromTranscript cache transcript random =
      analyzeResponseLatencyFromTranscript ParseCache.empty transcript random := by
  unfold analyzeResponseLatencyFromTranscript
  rw [parseTranscriptTurns_eq_fresh cache hc]

theorem analyzeInterruptionHandlingFromTranscriptOriginal_fresh (cache : ParseCache)
    (hc : cache.Consistent) (transcript : TranscriptArg) (random : ℕ → ℚ) :
    analyzeInterruptionHandlingFromTranscriptOriginal cache transcript random =
      analyzeInterruptionHandlingFromTranscriptOriginal ParseCache.empty transcript random := by
  unfold analyzeInterruptionHandlingFromTranscriptOriginal
  rw [parseTranscriptTurns_eq_fresh cache hc]

theorem detectHallucinations_fresh (cache : ParseCache) (hc : cache.Consistent)
    (analyses : TurnAnalyses) (transcript : TranscriptArg) :
    (detectHallucinations cache analyses none transcript).1 =
        (detectHallucinations ParseCache.empty analyses none transcript).1 ∧
      (detectHallucinations cache analyses none transcript).2.Consistent := by
  have hc1 := parseTranscriptTurns_consistent cache hc transcript
  have hc0 := parseTranscriptTurns_consistent ParseCache.empty ParseCache.consistent_empty
    transcript
  have e0 := parseTranscriptTurns_eq_fresh cache hc transcript
  have e1 := parseTranscriptTurns_eq_fresh _ hc1 transcript
  have e2 := parseTranscriptTurns_eq_fresh _ hc0 transcript
  constructor
  · unfold detectHallucinations detectCriticalStepHallucinations
      detectHallucinationsFromTranscript
    dsimp only
    rw [e0, e1, e2]
    split <;> rfl
  · unfold detectHallucinations detectCriticalStepHallucinations
      detectHallucinationsFromTranscript
    dsimp only
    split
    · exact parseTranscriptTurns_consistent _ hc1 transcript
    · exact parseTranscriptTurns_consistent _ hc1 transcript

theorem detectIntents_fresh (cache : ParseCache) (hc : cache.Consistent)
    (state : PatternState) (transcript : TranscriptArg) :
    (detectIntents cache state transcript).1 =
        (detectIntents ParseCache.empty state transcript).1 ∧
      (detectIntents cache state transcript).2.2 =
        (detectIntents ParseCache.empty state transcript).2.2 := by
  have e0 := parseTranscriptTurns_eq_fresh cache hc transcript
  unfold detectIntents
  dsimp only
  rw [e0]
  constructor <;> (split <;> rfl)

/-- The intent analysis and the overall score of `analyzeCall`, and the analyzer after the
call, read neither the cache that the call finds nor each other's draws: they are those of
the sub-analyses on an empty cache, the patterns being tested first by the hallucination
detectors and then by `detectIntents`. -/
theorem analyzeCall_eq (analyzer : AnalyzerState) (hc : analyzer.cache.Consistent)
    (analyses : TurnAnalyses) (latencyRandom turnGapRandom : ℕ → ℚ)
    (transcript : TranscriptArg) (config : AnalysisConfig) :
    (analyzeCall analyzer analyses latencyRandom turnGapRandom transcript config).1.intentFlow =
      (detectIntents ParseCache.empty
        (criticalStepPatterns none (parseLines (analyzeCallTranscript transcript))
          analyzer.patterns) (.str (analyzeCallTranscript transcript))).1 ∧
    (analyzeCall analyzer analyses latencyRandom turnGapRandom transcript config).2 =
      { cache := ParseCache.empty,
        patterns := (detectIntents ParseCache.empty
          (criticalStepPatterns none (parseLines (analyzeCallTranscript transcript))
            analyzer.patterns) (.str (analyzeCallTranscript transcript))).2.2 } ∧
    (analyzeCall analyzer analyses latencyRandom turnGapRandom transcript
        config).1.responseLatencyAnalysis =
      analyzeResponseLatencyFromTranscript ParseCache.empty
        (.str (analyzeCallTranscript transcript)) latencyRandom ∧
    (analyzeCall analyzer analyses latencyRandom turnGapRandom transcript config).1.overallScore =
      (calculateAdvancedWeightedScore [] (detectRepetitions (analyzeCallTranscript transcript))
        (analyzeCallDuration none config)
        (analyzeResponseLatencyFromTranscript ParseCache.empty
          (.str (analyzeCallTranscript transcript)) latencyRandom).latencyScore
        (some (detectHallucinations ParseCache.empty analyses none
          (.str (analyzeCallTranscript transcript))).1.toHallucinationAnalysis)
        (some { interruptionScore := (analyzeInterruptionHandlingFromTranscriptOriginal
          ParseCache.empty (.str (analyzeCallTranscript transcript))
          turnGapRandom).interruptionScore })
        (detectIntents ParseCache.empty
          (criticalStepPatterns none (parseLines (analyzeCallTranscript transcript))
            analyzer.patterns)
          (.str (analyzeCallTranscript transcript))).1.toIntentFlow).1 := by
  have hvalid : analyzeCallTranscript (.str (analyzeCallTranscript transcript)) =
      analyzeCallTranscript transcript := by
    cases transcript with
    | str s =>
      by_cases hs : s.isEmpty = true <;> simp [analyzeCallTranscript, hs]
    | null => decide
    | undefined => decide
    | other => decide
  have hc1 := parseTranscriptTurns_consistent analyzer.cache hc
    (.str (analyzeCallTranscript transcript))
  obtain ⟨eh, hch⟩ := detectHallucinations_fresh _ hc1 analyses
    (.str (analyzeCallTranscript transcript))
  have hc2 := parseTranscriptTurns_consistent _ hch (.str (analyzeCallTranscript transcript))
  have ep : (parseTranscriptTurns (parseTranscriptTurns analyzer.cache
      (.str (analyzeCallTranscript transcript))).2
      (.str (analyzeCallTranscript transcript))).1 =
      parseLines (analyzeCallTranscript transcript) := parseTranscriptTurns_str _ hc1 _
  obtain ⟨ei1, ei2⟩ := detectIntents_fresh _ hc2
    (criticalStepPatterns none (parseLines (analyzeCallTranscript transcript))
      analyzer.patterns) (.str (analyzeCallTranscript transcript))
  have el := analyzeResponseLatencyFromTranscript_fresh analyzer.cache hc
    (.str (analyzeCallTranscript transcript)) latencyRandom
  have et := analyzeInterruptionHandlingFromTranscriptOriginal_fresh _ hch
    (.str (analyzeCallTranscript transcript)) turnGapRandom
  unfold analyzeCall
  dsimp only
  rw [hvalid, ep, ei1, ei2, el, et, eh]
  exact ⟨rfl, rfl, rfl, rfl⟩

theorem analyzeInterruptionHandlingFromTranscriptOriginal_range (cache : ParseCache)
    (transcript : TranscriptArg) (random : ℕ → ℚ) :
    0 ≤ (analyzeInterruptionHandlingFromTranscriptOriginal cache transcript
        random).interruptionScore ∧
      (analyzeInterruptionHandlingFromTranscriptOriginal cache transcript
        random).interruptionScore ≤ 100 := by
  unfold analyzeInterruptionHandlingFromTranscriptOriginal
  dsimp only
  exact calculateInterruptionScore_range _ _ (interruptionLoop_patterns _ _ _).2

/-- Claim C2 as stated, refuted.  First the state of the analyzer: on a newly constructed
analyzer the call with the transcript `Chat Bot: Hello` classifies the turn as
`initial_greeting` and returns the flow score 50; the same call repeated on the same
analyzer classifies it as `unknown` and returns the flow score 40, whatever the draws, the
config and the methods that are not embedded return (the first call left `lastIndex = 5` in
the greeting pattern); with the default config the overall score is 87.5, then 85.  Second
the draws: on a newly constructed analyzer and the same transcript and config, the latency
score is 100 when `Math.random()` returns 0 in the latency path and 85 when it returns 0.5
(the customer turn of estimated base duration 9.6 s is then answered after more than 10 s),
and the two overall scores differ. -/
theorem analyzeCall_repeated_counterexample :
    (∀ (analyses : TurnAnalyses) (latencyRandom turnGapRandom : ℕ → ℚ)
        (config : AnalysisConfig),
      (analyzeCall AnalyzerState.initial analyses latencyRandom turnGapRandom (.str helloCall)
        config).1.intentFlow.flowScore = JsNum.fin 50 ∧
      (analyzeCall AnalyzerState.initial analyses latencyRandom turnGapRandom (.str helloCall)
        config).1.intentFlow.intentMappings.map (fun m => m.conversationStep) =
          ["initial_greeting"] ∧
      (analyzeCall
        (analyzeCall AnalyzerState.initial analyses latencyRandom turnGapRandom
          (.str helloCall) config).2
        analyses latencyRandom turnGapRandom (.str helloCall)
        config).1.intentFlow.flowScore = JsNum.fin 40 ∧
      (analyzeCall
        (analyzeCall AnalyzerState.initial analyses latencyRandom turnGapRandom
          (.str helloCall) config).2
        analyses latencyRandom turnGapRandom (.str helloCall)
        config).1.intentFlow.intentMappings.map (fun m => m.conversationStep) =
          ["unknown"]) ∧
    ((analyzeCall AnalyzerState.initial plainAnalyses (fun _ => 0) (fun _ => 0)
        (.str helloCall) defaultConfig).1.overallScore = JsNum.fin (175 / 2) ∧
      (analyzeCall
        (analyzeCall AnalyzerState.initial plainAnalyses (fun _ => 0) (fun _ => 0)
          (.str helloCall) defaultConfig).2
        plainAnalyses (fun _ => 0) (fun _ => 0) (.str helloCall)
        defaultConfig).1.overallScore = JsNum.fin 85) ∧
    (∀ (analyses : TurnAnalyses) (turnGapRandom : ℕ → ℚ) (config : AnalysisConfig),
      (analyzeCall AnalyzerState.initial analyses (fun _ => 0) turnGapRandom
        (.str randomSensitiveTranscript) config).1.responseLatencyAnalysis.latencyScore = 100 ∧
      (analyzeCall AnalyzerState.initial analyses (fun _ => 1 / 2) turnGapRandom
        (.str randomSensitiveTranscript) config).1.responseLatencyAnalysis.latencyScore = 85 ∧
      (analyzeCall AnalyzerState.initial analyses (fun _ => 0) turnGapRandom
        (.str randomSensitiveTranscript) config).1.overallScore ≠
      (analyzeCall AnalyzerState.initial analyses (fun _ => 1 / 2) turnGapRandom
        (.str randomSensitiveTranscript) config).1.overallScore) := by
  refine ⟨?_, ?_, ?_⟩
  · intro analyses latencyRandom turnGapRandom config
    obtain ⟨e1, e2, _, _⟩ := analyzeCall_eq AnalyzerState.initial ParseCache.consistent_empty
      analyses latencyRandom turnGapRandom (.str helloCall) config
    rw [e2]
    obtain ⟨e3, _, _, _⟩ := analyzeCall_eq
      { cache := ParseCache.empty,
        patterns := (detectIntents ParseCache.empty
          (criticalStepPatterns none (parseLines (analyzeCallTranscript (.str helloCall)))
            AnalyzerState.initial.patterns)
          (.str (analyzeCallTranscript (.str helloCall)))).2.2 }
      ParseCache.consistent_empty analyses latencyRandom turnGapRandom (.str helloCall) config
    rw [e1, e3]
    refine ⟨?_, ?_, ?_, ?_⟩ <;> decide!
  · decide!
  · intro analyses turnGapRandom config
    have hvalid : analyzeCallTranscript (.str randomSensitiveTranscript) =
        randomSensitiveTranscript := by decide
    have h100 : (analyzeResponseLatencyFromTranscript ParseCache.empty
        (.str randomSensitiveTranscript) (fun _ => 0)).latencyScore = 100 := by
      rw [latencyScore_randomSensitive]
      norm_num [calculateSimpleLatencyScore, List.filter]
      rw [if_neg (by decide)]
      have := jsRound_intCast 100
      simpa using this
    have h85 : (analyzeResponseLatencyFromTranscript ParseCache.empty
        (.str randomSensitiveTranscript) (fun _ => 1 / 2)).latencyScore = 85 := by
      rw [latencyScore_randomSensitive]
      norm_num [calculateSimpleLatencyScore, List.filter]
      have := jsRound_intCast 85
      simpa using this
    obtain ⟨_, _, l0, o0⟩ := analyzeCall_eq AnalyzerState.initial ParseCache.consistent_empty
      analyses (fun _ => 0) turnGapRandom (.str randomSensitiveTranscript) config
    obtain ⟨_, _, l1, o1⟩ := analyzeCall_eq AnalyzerState.initial ParseCache.consistent_empty
      analyses (fun _ => 1 / 2) turnGapRandom (.str randomSensitiveTranscript) config
    rw [l0, l1, o0, o1, hvalid, h100, h85]
    refine ⟨rfl, rfl, ?_⟩
    have hrange : 0 ≤ (analyzeInterruptionHandlingFromTranscriptOriginal ParseCache.empty
          (.str randomSensitiveTranscript) turnGapRandom).interruptionScore ∧
        (analyzeInterruptionHandlingFromTranscriptOriginal ParseCache.empty
          (.str randomSensitiveTranscript) turnGapRandom).interruptionScore ≤ 100 := by
      exact analyzeInterruptionHandlingFromTranscriptOriginal_range _ _ _
    generalize (analyzeInterruptionHandlingFromTranscriptOriginal ParseCache.empty
      (.str randomSensitiveTranscript) turnGapRandom).interruptionScore = score at hrange ⊢
    have hia : ∀ a : InterruptionAnalysis,
        some ({ interruptionScore := score } : InterruptionAnalysis) = some a →
        0 ≤ a.interruptionScore ∧ a.interruptionScore ≤ 100 := by
      intro a ha
      cases ha
      exact hrange
    generalize (detectIntents ParseCache.empty
      (criticalStepPatterns none (parseLines randomSensitiveTranscript)
        AnalyzerState.initial.patterns) (.str randomSensitiveTranscript)).1.toIntentFlow = flow
    generalize (some (detectHallucinations ParseCache.empty analyses none
      (.str randomSensitiveTranscript)).1.toHallucinationAnalysis) = ha
    obtain ⟨d, hd, _, _⟩ := durationScore_finite (analyzeCallDuration none config) flow (by
      intro _ _
      unfold analyzeCallDuration
      simp only
      split
      · norm_num
      · split <;> norm_num)
    simp only [calculateAdvancedWeightedScore, hd, JsNum.scale, JsNum.add]
    intro heq
    have hlt := latencyComponent_strict _ hia
    injection heq with heq
    linarith

/-- Claim C2 as amended: with `audioData = null`, two calls of `analyzeCall` with the same
transcript and config, made on analyzers whose stored patterns are in the same state (two
newly constructed analyzers, say), return the same intent analysis, hence the same flow
score, and leave the analyzers in the same state, whatever the parse caches hold and
whatever `Math.random()` returns.  They return the same overall score when `Math.random()`
returns the same values in the latency path of both calls, and also, whatever values in
[0,1) it returns, when no customer turn that the agent answers has an estimated speaking
time within one second below the threshold of 5 s or of 10 s.  The methods that are not
embedded return the same values in both calls. -/
theorem analyzeCall_same_scores (analyzer1 analyzer2 : AnalyzerState)
    (hc1 : analyzer1.cache.Consistent) (hc2 : analyzer2.cache.Consistent)
    (hp : analyzer1.patterns = analyzer2.patterns) (analyses : TurnAnalyses)
    (transcript : TranscriptArg) (config : AnalysisConfig)
    (latencyRandom1 latencyRandom2 turnGapRandom1 turnGapRandom2 : ℕ → ℚ) :
    (analyzeCall analyzer1 analyses latencyRandom1 turnGapRandom1 transcript config).1.intentFlow =
      (analyzeCall analyzer2 analyses latencyRandom2 turnGapRandom2 transcript
        config).1.intentFlow ∧
    (analyzeCall analyzer1 analyses latencyRandom1 turnGapRandom1 transcript
        config).1.intentFlow.flowScore =
      (analyzeCall analyzer2 analyses latencyRandom2 turnGapRandom2 transcript
        config).1.intentFlow.flowScore ∧
    (analyzeCall analyzer1 analyses latencyRandom1 turnGapRandom1 transcript config).2 =
      (analyzeCall analyzer2 analyses latencyRandom2 turnGapRandom2 transcript config).2 ∧
    ((∀ i, 0 ≤ latencyRandom1 i ∧ latencyRandom1 i < 1) →
      (∀ i, 0 ≤ latencyRandom2 i ∧ latencyRandom2 i < 1) →
      (∀ i, 0 ≤ turnGapRandom1 i ∧ turnGapRandom1 i < 1) →
      (∀ i, 0 ≤ turnGapRandom2 i ∧ turnGapRandom2 i < 1) →
      ((∀ i, latencyRandom1 i = latencyRandom2 i) ∨
        thresholdsClear (parseLines (analyzeCallTranscript transcript)) none) →
      (analyzeCall analyzer1 analyses latencyRandom1 turnGapRandom1 transcript
          config).1.overallScore =
        (analyzeCall analyzer2 analyses latencyRandom2 turnGapRandom2 transcript
          config).1.overallScore) := by
  obtain ⟨i1, s1, _, o1⟩ := analyzeCall_eq analyzer1 hc1 analyses latencyRandom1 turnGapRandom1
    transcript config
  obtain ⟨i2, s2, _, o2⟩ := analyzeCall_eq analyzer2 hc2 analyses latencyRandom2 turnGapRandom2
    transcript config
  have hflow : (analyzeCall analyzer1 analyses latencyRandom1 turnGapRandom1 transcript
      config).1.intentFlow =
      (analyzeCall analyzer2 analyses latencyRandom2 turnGapRandom2 transcript
        config).1.intentFlow := by
    rw [i1, i2, hp]
  refine ⟨hflow, by rw [hflow], by rw [s1, s2, hp], ?_⟩
  intro h1 h2 g1 g2 h
  have hscore : (analyzeResponseLatencyFromTranscript ParseCache.empty
      (.str (analyzeCallTranscript transcript)) latencyRandom1).latencyScore =
      (analyzeResponseLatencyFromTranscript ParseCache.empty
      (.str (analyzeCallTranscript transcript)) latencyRandom2).latencyScore := by
    rcases h with h | h
    · have : latencyRandom1 = latencyRandom2 := funext h
      rw [this]
    · unfold analyzeResponseLatencyFromTranscript
      rw [parseTranscriptTurns_str _ ParseCache.consistent_empty]
      dsimp only
      split
      · rfl
      · dsimp only
        apply calculateSimpleLatencyScore_congr
        apply latencyLoop_severities latencyRandom1 latencyRandom2 h1 h2 _ _ _ _ _ rfl _ h
        intro p hp'
        cases hp'
  have hgap : analyzeInterruptionHandlingFromTranscriptOriginal ParseCache.empty
      (.str (analyzeCallTranscript transcript)) turnGapRandom1 =
      analyzeInterruptionHandlingFromTranscriptOriginal ParseCache.empty
      (.str (analyzeCallTranscript transcript)) turnGapRandom2 := by
    simp only [analyzeInterruptionHandlingFromTranscriptOriginal,
      interruptionLoop_draws turnGapRandom1 turnGapRandom2 g1 g2]
  rw [o1, o2, hp, hscore, hgap]

/-- Witness of the amended C2: a short call, analyzed on a newly constructed analyzer and on
an analyzer whose parse cache holds the turns of the transcript, with `Math.random()`
returning 0 in one call and 0.5 in the other. -/
theorem analyzeCall_same_scores_witness :
    AnalyzerState.initial.cache.Consistent ∧
    (parseTranscriptTurns ParseCache.empty (.str shortCallTranscript)).2.Consistent ∧
    thresholdsClear (parseLines (analyzeCallTranscript (.str shortCallTranscript))) none ∧
    (analyzeCall AnalyzerState.initial plainAnalyses (fun _ => 0) (fun _ => 0)
        (.str shortCallTranscript) defaultConfig).1.intentFlow.flowScore =
      (analyzeCall
        { cache := (parseTranscriptTurns ParseCache.empty (.str shortCallTranscript)).2,
          patterns := PatternState.initial }
        plainAnalyses (fun _ => 1 / 2) (fun _ => 1 / 2)
        (.str shortCallTranscript) defaultConfig).1.intentFlow.flowScore ∧
    (analyzeCall AnalyzerState.initial plainAnalyses (fun _ => 0) (fun _ => 0)
        (.str shortCallTranscript) defaultConfig).1.overallScore =
      (analyzeCall
        { cache := (parseTranscriptTurns ParseCache.empty (.str shortCallTranscript)).2,
          patterns := PatternState.initial }
        plainAnalyses (fun _ => 1 / 2) (fun _ => 1 / 2)
        (.str shortCallTranscript) defaultConfig).1.overallScore :=
  have hc := parseTranscriptTurns_consistent ParseCache.empty ParseCache.consistent_empty
    (.str shortCallTranscript)
  have h := analyzeCall_same_scores AnalyzerState.initial
    { cache := (parseTranscriptTurns ParseCache.empty (.str shortCallTranscript)).2,
      patterns := PatternState.initial }
    ParseCache.consistent_empty hc rfl plainAnalyses (.str shortCallTranscript) defaultConfig
    (fun _ => 0) (fun _ => 1 / 2) (fun _ => 0) (fun _ => 1 / 2)
  ⟨ParseCache.consistent_empty, hc, thresholdsClear_shortCall, h.2.1,
    h.2.2.2 (fun _ => by norm_num) (fun _ => by norm_num) (fun _ => by norm_num)
      (fun _ => by norm_num) (Or.inr thresholdsClear_shortCall)⟩

end CallQA
